import Mathlib

/-!
# Exit-intent service: suppression store, device classifier, throttle, detectors

A shallow embedding of `frontend/src/services/ExitIntentService.js`.

* Times are milliseconds since the epoch, as returned by `Date.getTime()`; they are
  integers far below 2^53, so the additions made by the service are exact and times
  are carried as `Nat`.
* `localStorage` is represented by the content held under the one key the service
  uses (`EXIT_INTENT_SHOWN_KEY`).  A stored text is represented by what the platform's
  `JSON.parse` makes of it.
-/

namespace ExitIntent

/-! ## Values read back from storage -/

/-- A JavaScript number, as far as a comparison with the integer clock can tell.
A finite value that is not an integer is carried as its floor: for an integer `t`,
`t > x` holds exactly when `t > ⌊x⌋`. -/
inductive JsNum where
  | nan
  | negInf
  | fin (x : Int)
  | posInf
  deriving DecidableEq, Repr

/-- The value of a property of a parsed object (or a parsed value that is not an object).
Strings, arrays and nested objects are coerced to a number by the platform through their
text form; that reading is carried along with them (`NaN` when the text is not numeric). -/
inductive JsVal where
  | null
  | bool (b : Bool)
  | num (n : JsNum)
  | text (s : String) (asNumber : JsNum)
  | compound (asNumber : JsNum)
  deriving DecidableEq, Repr

/-- The result of `JSON.parse` on a stored text: an object with its own properties in
order, or a value that is not an object (`null`, boolean, number, string, array). -/
inductive Item where
  | value (v : JsVal)
  | obj (fields : List (String × JsVal))
  deriving DecidableEq, Repr

/-- A text held under the storage key. -/
inductive Stored where
  /-- The empty string (falsy in JavaScript). -/
  | empty
  /-- A non-empty text on which `JSON.parse` throws. -/
  | malformed
  /-- A text that `JSON.parse` reads as `item`. -/
  | json (item : Item)
  deriving DecidableEq, Repr

/-- Content of `localStorage` under `EXIT_INTENT_SHOWN_KEY`; `none` when `getItem`
returns `null`. -/
abbrev Storage := Option Stored

/-- `ToNumber` on the result of a property read; `none` is `undefined`. -/
def toNumber : Option JsVal → JsNum
  | none => .nan
  | some .null => .fin 0
  | some (.bool true) => .fin 1
  | some (.bool false) => .fin 0
  | some (.num n) => n
  | some (.text _ n) => n
  | some (.compound n) => n

/-- The comparison `t > x` of JavaScript for an integer time `t`: false when `x` is `NaN`. -/
def jsGt (t : Nat) : JsNum → Bool
  | .nan => false
  | .negInf => true
  | .fin x => decide (x < (t : Int))
  | .posInf => false

/-- The read `item.expiry`: `none` when it throws a `TypeError` (the item is `null`),
otherwise the property's value, `undefined` (inner `none`) when there is none. -/
def readExpiry : Item → Option (Option JsVal)
  | .value .null => none
  | .value _ => some none
  | .obj fields => some (fields.lookup "expiry")

/-! ## Session/Storage helpers -/

/-- `SESSION_DURATION`: 30 minutes in milliseconds. -/
def SESSION_DURATION : Nat := 30 * 60 * 1000

/-- `hasSeenExitIntentRecently()` evaluated at clock `now`: the returned boolean and the
storage content afterwards. -/
def hasSeenExitIntentRecently (now : Nat) (store : Storage) : Bool × Storage :=
  match store with
  | none => (false, none)
  | some .empty => (false, some .empty)
  | some .malformed => (false, none)
  | some (.json item) =>
    match readExpiry item with
    | none => (false, none)
    | some expiry =>
      if jsGt now (toNumber expiry) then (false, none) else (true, some (.json item))

/-- The record `{ value: true, expiry }` after a trip through `JSON.stringify` and
`JSON.parse`. -/
def shownRecord (expiry : Nat) : Stored :=
  .json (.obj [("value", .bool true), ("expiry", .num (.fin (expiry : Int)))])

/-- `markExitIntentShown()` evaluated at clock `now`: the storage content afterwards. -/
def markExitIntentShown (now : Nat) (_store : Storage) : Storage :=
  some (shownRecord (now + SESSION_DURATION))

/-! ## Device classifier -/

/-- Canonical form of a character in a regular expression with the `i` flag: the
upper-case form.  The tokens of the classifier are ASCII, and the platform never maps a
character outside ASCII onto an ASCII one, so only ASCII letters are folded. -/
def canonicalize (c : Char) : Char := c.toUpper

/-- The alternatives of the regular expression in `isMobileDevice`. -/
def mobileTokens : List String :=
  ["Android", "webOS", "iPhone", "iPad", "iPod", "BlackBerry", "IEMobile", "Opera Mini"]

/-- Whether the literal `token` matches at the start of `input`, letter case ignored. -/
def matchesAt : List Char → List Char → Bool
  | [], _ => true
  | _ :: _, [] => false
  | t :: ts, c :: cs => canonicalize t == canonicalize c && matchesAt ts cs

/-- The call `/Android|webOS|…|Opera Mini/i.test(input)`: some alternative matches at some
position of `input`. -/
def regexTest : List Char → Bool
  | [] => mobileTokens.any (fun tok => matchesAt tok.data [])
  | c :: cs => mobileTokens.any (fun tok => matchesAt tok.data (c :: cs)) || regexTest cs

/-- The text the regular expression is tested against: `test` converts its argument to a
string, so a missing agent (`undefined`) is tested as the text "undefined". -/
def agentText : Option String → String
  | some ua => ua
  | none => "undefined"

/-- `isMobileDevice()` for `navigator.userAgent = userAgent` (`none` when undefined) and
`window.innerWidth = innerWidth`. -/
def isMobileDevice (userAgent : Option String) (innerWidth : Nat) : Bool :=
  regexTest (agentText userAgent).data || decide (innerWidth ≤ 768)

/-- The wording of the specification: `ua` contains `token` as a substring once letter
case is ignored (both lower-cased). -/
def ContainsIgnoringCase (ua token : String) : Prop :=
  ∃ pre post : List Char,
    ua.data.map Char.toLower = pre ++ token.data.map Char.toLower ++ post

/-! ## Throttle -/

/-- One function object returned by `throttle(func, limit)` together with the clock and the
timers it has scheduled.  `ran` records the calls of `func` (time and argument). -/
structure Throttle (α : Type) where
  limit : Nat
  now : Nat
  inThrottle : Bool
  resets : List Nat
  ran : List (Nat × α)

/-- What can happen to a throttled function: it is called, the clock moves, or the reset
timer due at `due` expires. -/
inductive ThrottleEvent (α : Type) where
  | call (args : α)
  | advance (d : Nat)
  | timeout (due : Nat)

/-- A fresh `throttle(func, limit)` at time `now`; `inThrottle` starts undefined (falsy). -/
def Throttle.create {α : Type} (limit now : Nat) : Throttle α :=
  { limit := limit, now := now, inThrottle := false, resets := [], ran := [] }

/-- The body of the returned function. -/
def Throttle.call {α : Type} (s : Throttle α) (args : α) : Throttle α :=
  if s.inThrottle then s
  else { s with ran := s.ran ++ [(s.now, args)], inThrottle := true,
                resets := s.resets ++ [s.now + s.limit] }

/-- One event.  A timer never runs before it is due; a `timeout` that names no due timer
changes nothing. -/
def Throttle.step {α : Type} (s : Throttle α) : ThrottleEvent α → Throttle α
  | .call args => s.call args
  | .advance d => { s with now := s.now + d }
  | .timeout due =>
    if due ∈ s.resets ∧ due ≤ s.now then
      { s with inThrottle := false, resets := s.resets.erase due }
    else s

/-- Timers are punctual at this event: the clock does not move past a pending timer. -/
def Throttle.punctual {α : Type} (s : Throttle α) : ThrottleEvent α → Bool
  | .advance d => s.resets.all (fun due => decide (s.now + d ≤ due))
  | _ => true

/-- The state after a list of events. -/
def Throttle.run {α : Type} (s : Throttle α) : List (ThrottleEvent α) → Throttle α
  | [] => s
  | e :: es => (s.step e).run es

/-- Timers are punctual along the whole list of events. -/
def Throttle.punctualRun {α : Type} (s : Throttle α) : List (ThrottleEvent α) → Bool
  | [] => true
  | e :: es => s.punctual e && (s.step e).punctualRun es

/-- The default `throttleLimit` of `setupDesktopExitDetection`. -/
def desktopThrottleLimit : Nat := 200

/-! ## The service as a state machine

Closures are told apart by an identifier drawn from one counter, which also hands out the
timer identifiers of `setTimeout` (positive, never reused).  A supplied callback is a label;
its invocations are recorded in `invoked`.  In `step` and `run` every invoked callback
returns; `stepWith` and `runWith` further down are the machine in which callbacks can
throw. -/

/-- `INITIAL_DELAY`: 10 seconds before detection is enabled. -/
def INITIAL_DELAY : Nat := 10 * 1000

/-- The default `inactivityTime` of `setupMobileExitDetection`: 30 seconds. -/
def mobileInactivityTime : Nat := 30 * 1000

/-- The function a pending timer will run. -/
inductive TimerKind where
  /-- The arrow function scheduled by `initializeExitIntent`, holding the callback. -/
  | initDelay (callback : Nat)
  /-- The arrow function `() => inThrottle = false` of a desktop detector. -/
  | throttleReset (detector : Nat)
  /-- The function `triggerCallback` of a mobile detector. -/
  | inactivity (detector : Nat)
  deriving DecidableEq, Repr

/-- A pending timer. -/
structure Timer where
  id : Nat
  due : Nat
  kind : TimerKind
  deriving DecidableEq, Repr

/-- The closures made by one call of `setupDesktopExitDetection`: the callback, the private
flag of the throttled handler, and whether that handler is registered for `mouseleave`. -/
structure DesktopDetector where
  id : Nat
  callback : Nat
  throttleLimit : Nat
  inThrottle : Bool
  listening : Bool
  deriving DecidableEq, Repr

/-- The closures made by one call of `setupMobileExitDetection`: the callback, the variable
`timer`, and whether `resetTimer` is registered for the five activity events. -/
structure MobileDetector where
  id : Nat
  callback : Nat
  inactivityTime : Nat
  timer : Option Nat
  listening : Bool
  deriving DecidableEq, Repr

/-- One invocation of a supplied callback. -/
structure Invocation where
  time : Nat
  callback : Nat
  detector : Nat
  deriving DecidableEq, Repr

/-- The five events a mobile detector listens to. -/
inductive ActivityKind where
  | touchstart | touchmove | scroll | click | keypress
  deriving DecidableEq, Repr

/-- The clock, the storage, the browser environment, the module-level handles, the closures
and the pending timers. -/
structure State where
  now : Nat
  store : Storage
  userAgent : Option String
  innerWidth : Nat
  desktopCleanup : Option Nat
  mobileCleanup : Option Nat
  initialDelayTimer : Option Nat
  desktop : List DesktopDetector
  mobile : List MobileDetector
  timers : List Timer
  nextId : Nat
  invoked : List Invocation
  deriving DecidableEq, Repr

/-- A freshly loaded page: no handle, no listener, no timer. -/
def State.initial (now : Nat) (store : Storage) (userAgent : Option String)
    (innerWidth : Nat) : State :=
  { now := now, store := store, userAgent := userAgent, innerWidth := innerWidth,
    desktopCleanup := none, mobileCleanup := none, initialDelayTimer := none,
    desktop := [], mobile := [], timers := [], nextId := 1, invoked := [] }

/-- `setTimeout(f, delay)`: the state with the new timer pending, and its identifier. -/
def setTimeout (s : State) (delay : Nat) (kind : TimerKind) : State × Nat :=
  ({ s with timers := s.timers ++ [{ id := s.nextId, due := s.now + delay, kind := kind }],
            nextId := s.nextId + 1 }, s.nextId)

/-- `clearTimeout(id)`; nothing happens for `null` or for a timer no longer pending. -/
def clearTimeout (s : State) : Option Nat → State
  | none => s
  | some id => { s with timers := s.timers.filter (fun t => t.id != id) }

/-- The cleanup function returned by `setupDesktopExitDetection` for detector `d`:
`removeEventListener` of its throttled handler. -/
def desktopCleanupFn (s : State) (d : Nat) : State :=
  { s with
    desktop := s.desktop.map
      (fun det => if det.id = d then { det with listening := false } else det) }

/-- The cleanup function returned by `setupMobileExitDetection` for detector `d`:
`clearTimeout(timer)` and `removeEventListener` of `resetTimer` for the five events. -/
def mobileCleanupFn (s : State) (d : Nat) : State :=
  match s.mobile.find? (fun det => det.id == d) with
  | none => s
  | some det =>
    let s1 := clearTimeout s det.timer
    { s1 with
      mobile := s1.mobile.map
        (fun m => if m.id = d then { m with listening := false } else m) }

/-- The statement `if (desktopCleanup) desktopCleanup();`. -/
def callDesktopCleanup (s : State) : State :=
  match s.desktopCleanup with
  | none => s
  | some d => desktopCleanupFn s d

/-- The statement `if (mobileCleanup) mobileCleanup();`. -/
def callMobileCleanup (s : State) : State :=
  match s.mobileCleanup with
  | none => s
  | some d => mobileCleanupFn s d

/-- The statement `if (initialDelayTimer) clearTimeout(initialDelayTimer);`. -/
def clearInitialDelay (s : State) : State :=
  clearTimeout s s.initialDelayTimer

/-- The function `handleMouseLeave` of desktop detector `det` for an event with `clientY`,
the call `callback()` returning; `handleMouseLeaveWith` has the case in which it throws. -/
def handleMouseLeave (s : State) (det : DesktopDetector) (clientY : Int) : State :=
  let seen := hasSeenExitIntentRecently s.now s.store
  let s1 := { s with store := seen.2 }
  if seen.1 then s1
  else if clientY ≤ 5 then
    let s2 := { s1 with store := markExitIntentShown s1.now s1.store }
    let s3 := { s2 with
      invoked := s2.invoked ++
        [{ time := s2.now, callback := det.callback, detector := det.id }] }
    callDesktopCleanup s3
  else s1

/-- The handler registered by desktop detector `d`: `throttle(handleMouseLeave, limit)`, the
call `func.apply(context, args)` returning; `throttledHandlerWith` has the case in which it
throws. -/
def throttledHandler (s : State) (d : Nat) (clientY : Int) : State :=
  match s.desktop.find? (fun det => det.id == d) with
  | none => s
  | some det =>
    if det.inThrottle then s
    else
      let s1 := handleMouseLeave s det clientY
      let s2 := { s1 with
        desktop := s1.desktop.map
          (fun x => if x.id = d then { x with inThrottle := true } else x) }
      (setTimeout s2 det.throttleLimit (.throttleReset d)).1

/-- `setupDesktopExitDetection(callback, throttleLimit)`: the state with the handler
registered, and the identifier of the returned cleanup function. -/
def setupDesktopExitDetection (s : State) (callback throttleLimit : Nat) : State × Nat :=
  let det : DesktopDetector :=
    { id := s.nextId, callback := callback, throttleLimit := throttleLimit,
      inThrottle := false, listening := true }
  ({ s with desktop := s.desktop ++ [det], nextId := s.nextId + 1 }, s.nextId)

/-- The function `triggerCallback` of mobile detector `d`, the call `callback()` returning;
`triggerCallbackWith` has the case in which it throws. -/
def triggerCallback (s : State) (d : Nat) : State :=
  match s.mobile.find? (fun det => det.id == d) with
  | none => s
  | some det =>
    let seen := hasSeenExitIntentRecently s.now s.store
    let s1 := { s with store := seen.2 }
    if seen.1 then s1
    else
      let s2 := { s1 with store := markExitIntentShown s1.now s1.store }
      let s3 := { s2 with
        invoked := s2.invoked ++
          [{ time := s2.now, callback := det.callback, detector := det.id }] }
      callMobileCleanup s3

/-- The function `resetTimer` of mobile detector `d`. -/
def resetTimer (s : State) (d : Nat) : State :=
  match s.mobile.find? (fun det => det.id == d) with
  | none => s
  | some det =>
    let s1 := clearTimeout s det.timer
    let r := setTimeout s1 det.inactivityTime (.inactivity d)
    { r.1 with
      mobile := r.1.mobile.map
        (fun m => if m.id = d then { m with timer := some r.2 } else m) }

/-- `setupMobileExitDetection(callback, inactivityTime)`: the state with the listeners
registered and the first timer started, and the identifier of the returned cleanup. -/
def setupMobileExitDetection (s : State) (callback inactivityTime : Nat) : State × Nat :=
  let det : MobileDetector :=
    { id := s.nextId, callback := callback, inactivityTime := inactivityTime,
      timer := none, listening := true }
  let s1 := { s with mobile := s.mobile ++ [det], nextId := s.nextId + 1 }
  (resetTimer s1 s.nextId, s.nextId)

/-- `initializeExitIntent(onExitIntentDetected)`. -/
def initializeExitIntent (s : State) (callback : Nat) : State :=
  let s1 := callDesktopCleanup s
  let s2 := callMobileCleanup s1
  let s3 := clearInitialDelay s2
  let seen := hasSeenExitIntentRecently s3.now s3.store
  let s4 := { s3 with store := seen.2 }
  if seen.1 then s4
  else
    let r := setTimeout s4 INITIAL_DELAY (.initDelay callback)
    { r.1 with initialDelayTimer := some r.2 }

/-- The arrow function run when the initial delay has elapsed. -/
def delayElapsed (s : State) (callback : Nat) : State :=
  if isMobileDevice s.userAgent s.innerWidth then
    let r := setupMobileExitDetection s callback mobileInactivityTime
    { r.1 with mobileCleanup := some r.2 }
  else
    let r := setupDesktopExitDetection s callback desktopThrottleLimit
    { r.1 with desktopCleanup := some r.2 }

/-- `cleanupExitIntent()`. -/
def cleanupExitIntent (s : State) : State :=
  let s1 := callDesktopCleanup s
  let s2 := callMobileCleanup s1
  let s3 := clearInitialDelay s2
  { s3 with desktopCleanup := none, mobileCleanup := none, initialDelayTimer := none }

/-- A `mouseleave` event on the document: each handler registered when the dispatch starts
is called in order of registration, unless it has been removed in the meantime. -/
def dispatchMouseLeave (s : State) (clientY : Int) : State :=
  ((s.desktop.filter (fun det => det.listening)).map (fun det => det.id)).foldl
    (fun st d =>
      if st.desktop.any (fun det => det.id == d && det.listening) then
        throttledHandler st d clientY
      else st) s

/-- One of the five activity events on the document. -/
def dispatchActivity (s : State) : State :=
  ((s.mobile.filter (fun det => det.listening)).map (fun det => det.id)).foldl
    (fun st d =>
      if st.mobile.any (fun det => det.id == d && det.listening) then resetTimer st d
      else st) s

/-- The function of a timer that has just expired. -/
def runTimer (s : State) : TimerKind → State
  | .initDelay callback => delayElapsed s callback
  | .throttleReset d =>
    { s with
      desktop := s.desktop.map
        (fun x => if x.id = d then { x with inThrottle := false } else x) }
  | .inactivity d => triggerCallback s d

/-- The timer `id` expires: it leaves the pending timers and its function runs.  Nothing
happens when no such timer is pending or when it is not due yet. -/
def timerExpires (s : State) (id : Nat) : State :=
  match s.timers.find? (fun t => t.id == id) with
  | none => s
  | some t =>
    if t.due ≤ s.now then
      runTimer { s with timers := s.timers.filter (fun x => x.id != id) } t.kind
    else s

/-- A page reload: the module is evaluated afresh, every listener and timer of the old page
is gone; the storage, the clock and the environment stay. -/
def reload (s : State) : State :=
  { State.initial s.now s.store s.userAgent s.innerWidth with
    nextId := s.nextId, invoked := s.invoked }

/-- The steps of the machine. -/
inductive Action where
  | initializeExitIntent (callback : Nat)
  | cleanupExitIntent
  | reload
  | advance (d : Nat)
  | mouseleave (clientY : Int)
  | activity (kind : ActivityKind)
  | timer (id : Nat)
  | resize (innerWidth : Nat)
  | setAgent (userAgent : Option String)
  deriving DecidableEq, Repr

/-- One step. -/
def step (s : State) : Action → State
  | .initializeExitIntent callback => initializeExitIntent s callback
  | .cleanupExitIntent => cleanupExitIntent s
  | .reload => reload s
  | .advance d => { s with now := s.now + d }
  | .mouseleave clientY => dispatchMouseLeave s clientY
  | .activity _ => dispatchActivity s
  | .timer id => timerExpires s id
  | .resize w => { s with innerWidth := w }
  | .setAgent ua => { s with userAgent := ua }

/-- The state after a list of steps. -/
def run (s : State) : List Action → State
  | [] => s
  | a :: as => run (step s a) as

/-- The wording of the specification: the expiry of a stored text that is a record carrying
a numeric expiry. -/
def numericExpiry : Stored → Option Int
  | .json (.obj fields) =>
    match fields.lookup "expiry" with
    | some (.num (.fin e)) => some e
    | _ => none
  | _ => none

/-- A closed gate has exactly one reset timer pending, an open gate none. -/
def Throttle.Tidy {α : Type} (s : Throttle α) : Prop :=
  s.resets.length ≤ 1 ∧ (s.inThrottle = false → s.resets = [])

/-- The clock, the storage and the record of invocations of a state. -/
def State.core (s : State) : Nat × Storage × List Invocation := (s.now, s.store, s.invoked)

/-- What the storage guarantees about past invocations: any two invocations are more than a
session apart, and for each past invocation either a session has already passed or the
store holds a record of the service that expires no earlier than a session after it. -/
def CoreInv (c : Nat × Storage × List Invocation) : Prop :=
  c.2.2.Pairwise (fun a b => a.time + SESSION_DURATION < b.time) ∧
  ∀ a ∈ c.2.2, a.time + SESSION_DURATION < c.1 ∨
    ∃ e, c.2.1 = some (shownRecord e) ∧ a.time + SESSION_DURATION ≤ e

/-- How the module-level handles, the registered listeners, the pending timers and the
record of invocations hang together in every state the service can reach. -/
structure HandleInv (s : State) : Prop where
  /-- A registered desktop handler belongs to the detector held in `desktopCleanup`. -/
  desktop_handle : ∀ det ∈ s.desktop, det.listening = true → s.desktopCleanup = some det.id
  /-- Registered activity listeners belong to the detector held in `mobileCleanup`. -/
  mobile_handle : ∀ det ∈ s.mobile, det.listening = true → s.mobileCleanup = some det.id
  /-- A pending inactivity timer is the one its detector holds in `timer`, and that
  detector is still listening. -/
  inactivity_owner : ∀ t ∈ s.timers, ∀ d, t.kind = .inactivity d →
    (∃ det ∈ s.mobile, det.id = d ∧ det.listening = true) ∧
    ∀ det ∈ s.mobile, det.id = d → det.timer = some t.id
  /-- A pending initial-delay timer is the one held in `initialDelayTimer`, and while it is
  pending nothing is listening. -/
  delay_pending : ∀ t ∈ s.timers, ∀ cb, t.kind = .initDelay cb →
    s.initialDelayTimer = some t.id ∧
    (∀ det ∈ s.desktop, det.listening = false) ∧ (∀ det ∈ s.mobile, det.listening = false)
  desktop_lt : ∀ det ∈ s.desktop, det.id < s.nextId
  mobile_lt : ∀ det ∈ s.mobile, det.id < s.nextId
  kinds_apart : ∀ a ∈ s.desktop, ∀ b ∈ s.mobile, a.id ≠ b.id
  invoked_lt : ∀ inv ∈ s.invoked, inv.detector < s.nextId
  /-- A detector that has invoked its callback is no longer listening. -/
  invoked_desktop : ∀ inv ∈ s.invoked, ∀ det ∈ s.desktop,
    det.id = inv.detector → det.listening = false
  invoked_mobile : ∀ inv ∈ s.invoked, ∀ det ∈ s.mobile,
    det.id = inv.detector → det.listening = false
  /-- No detector appears twice in the record of invocations. -/
  invoked_nodup : (s.invoked.map (fun inv => inv.detector)).Nodup

/-- Nothing is listening and no initial-delay timer is pending. -/
def Quiet (s : State) : Prop :=
  (∀ det ∈ s.desktop, det.listening = false) ∧ (∀ det ∈ s.mobile, det.listening = false) ∧
  ∀ t ∈ s.timers, ∀ cb, t.kind ≠ .initDelay cb

/-- Timer identifiers are below the counter and no two pending timers share one. -/
def TimersOk (s : State) : Prop :=
  (∀ t ∈ s.timers, t.id < s.nextId) ∧ (s.timers.map (fun t => t.id)).Nodup

/-- What every operation of the service other than starting the delay timer, installing a
detector and reloading the page leaves in place: the clock, the environment, the closures
that exist (with their windows); listeners are only ever removed, and a timer that is
started is never an initial-delay timer. -/
structure Steady (s s2 : State) : Prop where
  now_eq : s2.now = s.now
  agent_eq : s2.userAgent = s.userAgent
  width_eq : s2.innerWidth = s.innerWidth
  desktop_sig : s2.desktop.map (fun d => d.id) = s.desktop.map (fun d => d.id)
  mobile_sig : s2.mobile.map (fun m => (m.id, m.inactivityTime)) =
    s.mobile.map (fun m => (m.id, m.inactivityTime))
  desktop_listen : ∀ x ∈ s2.desktop, x.listening = true →
    ∃ y ∈ s.desktop, y.id = x.id ∧ y.listening = true
  mobile_listen : ∀ x ∈ s2.mobile, x.listening = true →
    ∃ y ∈ s.mobile, y.id = x.id ∧ y.listening = true
  next_le : s.nextId ≤ s2.nextId
  timers_new : ∀ t ∈ s2.timers, t ∈ s.timers ∨ (s.nextId ≤ t.id ∧ ∀ c, t.kind ≠ .initDelay c)
  timers_ok : TimersOk s → TimersOk s2

/-- Nothing is listening and only throttle reset timers are pending. -/
def Dormant (s : State) : Prop :=
  (∀ det ∈ s.desktop, det.listening = false) ∧ (∀ det ∈ s.mobile, det.listening = false) ∧
  ∀ t ∈ s.timers, ∃ d, t.kind = .throttleReset d

/-- Whether a step is a call of `initializeExitIntent`. -/
def Action.isInit : Action → Bool
  | .initializeExitIntent _ => true
  | _ => false

/-- Before time `T` nothing can be armed: nothing is listening, no inactivity timer is
pending, every pending initial-delay timer is due at `T` or later, and a delay started now
would be due at `T` or later too. -/
def PreArm (T : Nat) (s : State) : Prop :=
  T ≤ s.now + INITIAL_DELAY ∧
  (∀ det ∈ s.desktop, det.listening = false) ∧ (∀ det ∈ s.mobile, det.listening = false) ∧
  ∀ t ∈ s.timers, (∃ d, t.kind = .throttleReset d) ∨ (∃ c, t.kind = .initDelay c ∧ T ≤ t.due)

/-- Whether a step leaves a pending delay timer `id` alone: it is neither a call of
`initializeExitIntent` or `cleanupExitIntent`, nor a reload, nor the expiry of that timer. -/
def Action.keepsDelay (id : Nat) : Action → Bool
  | .initializeExitIntent _ => false
  | .cleanupExitIntent => false
  | .reload => false
  | .timer k => k != id
  | _ => true

/-- The delay timer `timer0` is pending, nothing is listening, and every other pending timer
is a throttle reset with another identifier. -/
def DelayPending (timer0 : Timer) (s : State) : Prop :=
  (∀ det ∈ s.desktop, det.listening = false) ∧ (∀ det ∈ s.mobile, det.listening = false) ∧
  timer0 ∈ s.timers ∧
  ∀ t ∈ s.timers, t = timer0 ∨ (∃ d, t.kind = .throttleReset d) ∧ t.id ≠ timer0.id

/-- Every detector of `s2` existed in `s`, and one that listens in `s2` listened in `s`. -/
def Kept (s s2 : State) : Prop :=
  (∀ x ∈ s2.desktop, ∃ y ∈ s.desktop, y.id = x.id ∧ (x.listening = true → y.listening = true)) ∧
  (∀ x ∈ s2.mobile, ∃ y ∈ s.mobile, y.id = x.id ∧ (x.listening = true → y.listening = true))

/-- No two desktop detectors and no two mobile detectors share an identifier. -/
def IdsNodup (s : State) : Prop :=
  (s.desktop.map (fun d => d.id)).Nodup ∧ (s.mobile.map (fun m => m.id)).Nodup

/-- Whether a timer runs the function `triggerCallback` of a mobile detector. -/
def Timer.isInactivity (t : Timer) : Bool :=
  match t.kind with
  | .inactivity _ => true
  | _ => false

/-! ## Activity signals (mobile) -/

/-- The signals a step gives to mobile detectors, as pairs of detector and time: an
activity event is a signal to every detector listening when it is dispatched, and the
installation of a detector (it was not there before the step) counts as its first signal. -/
def signals (s : State) (a : Action) : List (Nat × Nat) :=
  (match a with
   | .activity _ => (s.mobile.filter (fun m => m.listening)).map (fun m => (m.id, s.now))
   | _ => []) ++
  ((step s a).mobile.filter (fun m => !(s.mobile.any (fun y => y.id == m.id)))).map
    (fun m => (m.id, s.now))

/-- All signals along a list of steps. -/
def signalLog (s : State) : List Action → List (Nat × Nat)
  | [] => []
  | a :: as => signals s a ++ signalLog (step s a) as

/-- A step that neither signals a mobile detector nor lets one fire: the clock does not go
back, no detector is new, every pending inactivity timer was pending before, and a new
invocation comes from a desktop detector. -/
structure Calm (s s2 : State) : Prop where
  now_le : s.now ≤ s2.now
  next_le : s.nextId ≤ s2.nextId
  desktop_old : ∀ x ∈ s2.desktop, ∃ y ∈ s.desktop, y.id = x.id
  mobile_old : ∀ x ∈ s2.mobile, ∃ y ∈ s.mobile,
    y.id = x.id ∧ y.inactivityTime = x.inactivityTime
  timers_old : ∀ t ∈ s2.timers, t ∈ s.timers ∨ ∀ d, t.kind ≠ .inactivity d
  invoked_old : ∀ inv ∈ s2.invoked, inv ∈ s.invoked ∨ ∃ det ∈ s.desktop, det.id = inv.detector

/-- How the signals, the pending inactivity timers and the invocations hang together: the
deadline of a pending inactivity timer is the latest signal to its detector plus the window,
and a detector has invoked its callback only a full window after each of its signals. -/
structure DebounceInv (s : State) (log : List (Nat × Nat)) : Prop where
  deadline : ∀ t ∈ s.timers, ∀ d, t.kind = .inactivity d →
    (∃ p ∈ log, p.1 = d ∧ t.due = p.2 + mobileInactivityTime) ∧
    ∀ p ∈ log, p.1 = d → p.2 + mobileInactivityTime ≤ t.due
  quiet : ∀ inv ∈ s.invoked, ∀ p ∈ log, p.1 = inv.detector →
    p.2 + mobileInactivityTime ≤ inv.time
  past : ∀ p ∈ log, p.2 ≤ s.now
  log_lt : ∀ p ∈ log, p.1 < s.nextId
  log_mobile : ∀ p ∈ log, ∀ det ∈ s.desktop, det.id ≠ p.1
  window : ∀ det ∈ s.mobile, det.inactivityTime = mobileInactivityTime


/-- Whether a step is only the passing of time or the expiry of a timer: no call of the
service, no event, no change of the environment. -/
def Action.isPassive : Action → Bool
  | .advance _ => true
  | .timer _ => true
  | _ => false


/-! ## Backend: the lead model and the lead controller

`models/Lead.js` and `controllers/leadController.js`.  The database is the list of stored
leads.  Two functions of the platform are parameters: `validator.isEmail` and the method
`toLowerCase` of strings, which follows the case mappings of Unicode.  Mongoose runs the
setters of a schema path (`trim`, `lowercase`) when a document is built or a path is
assigned and, from version 5 on, also on the filter of a query (`server.js` is written for
"Mongoose 6+"); `settersOnQuery` says whether it does. -/

/-- A value of a property in the JSON body of a request. -/
inductive BodyValue where
  | null
  | bool (b : Bool)
  /-- A number; the controller only tests it for truthiness. -/
  | number (isZero : Bool)
  | string (s : String)
  /-- An array or an object. -/
  | compound
  deriving DecidableEq, Repr

/-- JavaScript truthiness of a body property; `none` is an absent property. -/
def truthy : Option BodyValue → Bool
  | none => false
  | some .null => false
  | some (.bool b) => b
  | some (.number isZero) => !isZero
  | some (.string s) => s != ""
  | some .compound => true

/-- What `createLead` reads of a request: `req.body.email`, `req.body.firstName`,
`req.body.source` (the last two absent or strings), `req.ip` and the `user-agent` header. -/
structure LeadRequest where
  email : Option BodyValue
  firstName : Option String
  source : Option String
  ip : Option String
  userAgent : Option String
  deriving DecidableEq, Repr

/-- A lead document, by the paths the controller sets. -/
structure Lead where
  email : String
  firstName : Option String
  source : String
  ipAddress : Option String
  userAgent : Option String
  deriving DecidableEq, Repr

/-- The code points `String.prototype.trim` strips, the white space and the line terminators
of ECMAScript: TAB, LF, VT, FF, CR, SPACE, NO-BREAK SPACE, U+1680, U+2000 to U+200A, U+2028,
U+2029, U+202F, U+205F, U+3000 and U+FEFF. -/
def whiteSpaceCodes : List Nat :=
  [9, 10, 11, 12, 13, 32, 160, 5760, 8192, 8193, 8194, 8195, 8196, 8197, 8198, 8199, 8200,
   8201, 8202, 8232, 8233, 8239, 8287, 12288, 65279]

/-- Whether `String.prototype.trim` strips the character. -/
def isWhiteSpace (c : Char) : Bool := whiteSpaceCodes.contains c.toNat

/-- The setter of `trim: true`: the method `trim`. -/
def trimSetter (s : String) : String :=
  ⟨((s.data.dropWhile isWhiteSpace).reverse.dropWhile isWhiteSpace).reverse⟩

/-- The setters of the path `email`, `trim` and `lowercase`, the latter calling the method
`toLowerCase`.  Mongoose applies the setters of a path one after the other; for a method
`toLowerCase` with `LowerCaseLaws` the order makes no difference (`emailSetters_order`). -/
def emailSetters (toLowerCase : String → String) (s : String) : String :=
  toLowerCase (trimSetter s)

/-- What the theorems use of the method `toLowerCase`: the empty text stays empty, text that
is lower-cased already stays as it is, and white space at the ends is neither made nor
removed, so that trimming before or after gives the same text. -/
structure LowerCaseLaws (toLowerCase : String → String) : Prop where
  empty : toLowerCase "" = ""
  idem : ∀ s, toLowerCase (toLowerCase s) = toLowerCase s
  trim : ∀ s, trimSetter (toLowerCase s) = toLowerCase (trimSetter s)

/-- The lower-case form of a character of the Latin-1 range: the letters A to Z, À to Ö and
Ø to Þ have theirs 32 code points further on, every other character is its own. -/
def latin1Lower (c : Char) : Char :=
  if (65 ≤ c.toNat ∧ c.toNat ≤ 90) ∨ (192 ≤ c.toNat ∧ c.toNat ≤ 222 ∧ c.toNat ≠ 215) then
    Char.ofNat (c.toNat + 32)
  else c

/-- The method `toLowerCase` as it acts on text of the Latin-1 range; the method of the
examples. -/
def latin1ToLowerCase (s : String) : String := ⟨s.data.map latin1Lower⟩

/-- The property `length` of a string: its number of UTF-16 code units, two for a character
beyond U+FFFF. -/
def jsLength (s : String) : Nat :=
  (s.data.map (fun c => if c.toNat < 65536 then 1 else 2)).sum

/-- The values of the `enum` of the path `source`. -/
def sourceValues : List String :=
  ["landing_page", "exit_intent", "training_video", "external", "manual"]

/-- The document `new Lead({ email, firstName, source, ipAddress, userAgent })`, setters
applied. -/
def Lead.new (toLowerCase : String → String) (email : String) (firstName : Option String)
    (source : String) (ipAddress userAgent : Option String) : Lead :=
  { email := emailSetters toLowerCase email, firstName := firstName.map trimSetter, source := source,
    ipAddress := ipAddress.map trimSetter, userAgent := userAgent.map trimSetter }

/-- The messages of the validators of the schema that fail on a document, path by path. -/
def validationErrors (isEmail : String → Bool) (doc : Lead) : List String :=
  (if doc.email = "" then ["Email address is required."]
   else if isEmail doc.email then []
   else ["Please provide a valid email address."]) ++
  (match doc.firstName with
   | some f => if jsLength f > 50 then ["First name cannot exceed 50 characters."] else []
   | none => []) ++
  (if doc.source = "" then ["Lead source is required."]
   else if doc.source ∈ sourceValues then []
   else ["Lead source must be one of the predefined values."])

/-- How `save` can fail. -/
inductive SaveError where
  /-- A `ValidationError`, with its messages. -/
  | validation (messages : List String)
  /-- The unique index on `email` is violated: error code 11000. -/
  | duplicateKey
  deriving DecidableEq, Repr

/-- The hook `LeadSchema.pre('save', …)` on a new document, whose email is modified:
`this.email = this.email.toLowerCase()`, the assignment running the setters of the path. -/
def preSave (toLowerCase : String → String) (doc : Lead) : Lead :=
  { doc with email := emailSetters toLowerCase (toLowerCase doc.email) }

/-- The method `save` of a new document: validation, then the hook, then the insertion
under the unique index on `email`. -/
def save (isEmail : String → Bool) (toLowerCase : String → String) (db : List Lead)
    (doc : Lead) : Except SaveError (Lead × List Lead) :=
  if validationErrors isEmail doc ≠ [] then .error (.validation (validationErrors isEmail doc))
  else if db.any (fun l => l.email == (preSave toLowerCase doc).email) then .error .duplicateKey
  else .ok (preSave toLowerCase doc, db ++ [preSave toLowerCase doc])

/-- The query `Lead.findOne({ email: value })`. -/
def findOne (toLowerCase : String → String) (settersOnQuery : Bool) (db : List Lead)
    (value : String) : Option Lead :=
  db.find? (fun l =>
    l.email == (if settersOnQuery then emailSetters toLowerCase value else value))

/-- The response of `createLead`, the global error handler of `server.js` included. -/
inductive Response where
  /-- Status 200 with the existing lead. -/
  | ok (existingLead : Lead)
  /-- Status 201 with the saved lead. -/
  | created (savedLead : Lead)
  /-- Status 400 with the messages. -/
  | badRequest (messages : List String)
  /-- Status 409. -/
  | conflict
  /-- An error passed to `next`: the global error handler answers 500. -/
  | serverError
  deriving DecidableEq, Repr

/-- The HTTP status of a response. -/
def Response.status : Response → Nat
  | .ok _ => 200
  | .created _ => 201
  | .badRequest _ => 400
  | .conflict => 409
  | .serverError => 500

/-- The expression `source || 'unknown'`. -/
def sourceOrUnknown : Option String → String
  | none => "unknown"
  | some s => if s = "" then "unknown" else s

/-- `createLead(req, res, next)`: the response and the database afterwards. -/
def createLead (isEmail : String → Bool) (toLowerCase : String → String)
    (settersOnQuery : Bool) (db : List Lead) (req : LeadRequest) : Response × List Lead :=
  if !truthy req.email then (.badRequest ["Email is required."], db)
  else
    match req.email with
    | some (.string email) =>
      match findOne toLowerCase settersOnQuery db (toLowerCase email) with
      | some existingLead => (.ok existingLead, db)
      | none =>
        match save isEmail toLowerCase db
          (Lead.new toLowerCase email req.firstName (sourceOrUnknown req.source) req.ip
            req.userAgent) with
        | .ok (savedLead, db2) => (.created savedLead, db2)
        | .error (.validation messages) => (.badRequest messages, db)
        | .error .duplicateKey => (.conflict, db)
    | _ => (.serverError, db)


/-! ## Frontend: the video context

`context/VideoContext.js`.  The state of `VideoProvider` as far as `selectVideo`,
`nextVideo` and `updateVideoProgress` read or write it (`volume` and `playbackRate` are
touched by none of them). -/

/-- A JavaScript number used as a progress percentage: a finite value (a rational, as every
finite double is) or one of `NaN`, `-Infinity`, `Infinity`. -/
inductive Percentage where
  | nan
  | negInf
  | fin (q : ℚ)
  | posInf
  deriving DecidableEq

/-- The comparison `progressPercentage >= 95`. -/
def Percentage.atLeast95 : Percentage → Bool
  | .nan => false
  | .negInf => false
  | .fin q => decide (95 ≤ q)
  | .posInf => true

/-- An entry of the playlist. -/
structure Video where
  id : String
  title : String
  src : String
  duration : Nat
  watched : Bool
  progress : Percentage
  deriving DecidableEq

/-- The constant `initialVideoData`. -/
def initialVideoData : List Video :=
  [{ id := "vid1", title := "Training Video 1", src := "/assets/videos/video1.mp4",
     duration := 300, watched := false, progress := .fin 0 },
   { id := "vid2", title := "Training Video 2", src := "/assets/videos/video2.mp4",
     duration := 450, watched := false, progress := .fin 0 },
   { id := "vid3", title := "Training Video 3", src := "/assets/videos/video3.mp4",
     duration := 600, watched := false, progress := .fin 0 },
   { id := "vid4", title := "Training Video 4", src := "/assets/videos/video4.mp4",
     duration := 500, watched := false, progress := .fin 0 }]

/-- The state hooks of `VideoProvider`. -/
structure VideoState where
  videos : List Video
  currentVideoIndex : Int
  isPlaying : Bool
  error : Option String
  deriving DecidableEq

/-- The initial values of the state hooks. -/
def VideoState.initial : VideoState :=
  { videos := initialVideoData, currentVideoIndex := 0, isPlaying := false, error := none }

/-- `selectVideo(index)` for an integer index. -/
def selectVideo (s : VideoState) (index : Int) : VideoState :=
  if index ≥ 0 ∧ index < s.videos.length then
    { s with currentVideoIndex := index, isPlaying := false }
  else
    { s with error := some "Invalid video selected." }

/-- `nextVideo()`. -/
def nextVideo (s : VideoState) : VideoState :=
  if s.currentVideoIndex < (s.videos.length : Int) - 1 then
    selectVideo s (s.currentVideoIndex + 1)
  else s

/-- The function given to `setVideos` by `updateVideoProgress(videoId, progressPercentage)`. -/
def updateVideos (videos : List Video) (videoId : String) (progressPercentage : Percentage) :
    List Video :=
  videos.map (fun video =>
    if video.id = videoId then
      { video with progress := progressPercentage,
                   watched := progressPercentage.atLeast95 }
    else video)

/-- `updateVideoProgress(videoId, progressPercentage, currentTime)`. -/
def updateVideoProgress (s : VideoState) (videoId : String)
    (progressPercentage : Percentage) : VideoState :=
  { s with videos := updateVideos s.videos videoId progressPercentage }

/-- The calls made on the context. -/
inductive VideoAction where
  | selectVideo (index : Int)
  | nextVideo
  | updateVideoProgress (videoId : String) (progressPercentage : Percentage)

/-- One call. -/
def VideoState.step (s : VideoState) : VideoAction → VideoState
  | .selectVideo index => selectVideo s index
  | .nextVideo => nextVideo s
  | .updateVideoProgress videoId p => updateVideoProgress s videoId p

/-- The state after a list of calls. -/
def VideoState.run (s : VideoState) : List VideoAction → VideoState
  | [] => s
  | a :: as => (s.step a).run as


/-- The three module-level variables `desktopCleanup`, `mobileCleanup` and
`initialDelayTimer`. -/
def State.handles (s : State) : Option Nat × Option Nat × Option Nat :=
  (s.desktopCleanup, s.mobileCleanup, s.initialDelayTimer)


/-- Whether a timer runs the arrow function scheduled by `initializeExitIntent`. -/
def Timer.isInitDelay (t : Timer) : Bool :=
  match t.kind with
  | .initDelay _ => true
  | _ => false


/-! ## A callback that calls back into the service

The functions `handleMouseLeave` and `triggerCallback` once more, with the code of the
supplied callback as a function `body` on the state of the service: `callback()` records the
invocation and runs `body`.  With `body` the identity these are the functions above. -/

/-- The function `handleMouseLeave` of desktop detector `det`, the callback running `body`. -/
def handleMouseLeaveRunning (body : State → State) (s : State) (det : DesktopDetector)
    (clientY : Int) : State :=
  let seen := hasSeenExitIntentRecently s.now s.store
  let s1 := { s with store := seen.2 }
  if seen.1 then s1
  else if clientY ≤ 5 then
    let s2 := { s1 with store := markExitIntentShown s1.now s1.store }
    let s3 := body { s2 with
      invoked := s2.invoked ++
        [{ time := s2.now, callback := det.callback, detector := det.id }] }
    callDesktopCleanup s3
  else s1

/-- The function `triggerCallback` of mobile detector `d`, the callback running `body`. -/
def triggerCallbackRunning (body : State → State) (s : State) (d : Nat) : State :=
  match s.mobile.find? (fun det => det.id == d) with
  | none => s
  | some det =>
    let seen := hasSeenExitIntentRecently s.now s.store
    let s1 := { s with store := seen.2 }
    if seen.1 then s1
    else
      let s2 := { s1 with store := markExitIntentShown s1.now s1.store }
      let s3 := body { s2 with
        invoked := s2.invoked ++
          [{ time := s2.now, callback := det.callback, detector := det.id }] }
      callMobileCleanup s3


/-! ## A host that lacks a capability

`initializeExitIntent` and the function run by its delay timer once more, on a host where a
call of a missing API throws.  The result is the state of the service when the function
returns or throws, and the error thrown, if any. -/

/-- Which APIs the host has: `localStorage` (`getItem`, `setItem`, `removeItem`), the timers
(`setTimeout`, `clearTimeout`), the listeners (`addEventListener`, `removeEventListener`). -/
structure Host where
  storage : Bool
  timers : Bool
  listeners : Bool
  deriving DecidableEq, Repr

/-- The API whose call threw. -/
inductive HostError where
  | storage
  | timers
  | listeners
  deriving DecidableEq, Repr

/-- The statement `if (desktopCleanup) desktopCleanup();` on a host. -/
def callDesktopCleanupOn (h : Host) (s : State) : State × Option HostError :=
  match s.desktopCleanup with
  | none => (s, none)
  | some d => if h.listeners then (desktopCleanupFn s d, none) else (s, some .listeners)

/-- The statement `if (mobileCleanup) mobileCleanup();` on a host: `clearTimeout(timer)`,
then `removeEventListener`. -/
def callMobileCleanupOn (h : Host) (s : State) : State × Option HostError :=
  match s.mobileCleanup with
  | none => (s, none)
  | some d =>
    match s.mobile.find? (fun det => det.id == d) with
    | none => (s, none)
    | some det =>
      if !h.timers then (s, some .timers)
      else if !h.listeners then (clearTimeout s det.timer, some .listeners)
      else (mobileCleanupFn s d, none)

/-- The statement `if (initialDelayTimer) clearTimeout(initialDelayTimer);` on a host. -/
def clearInitialDelayOn (h : Host) (s : State) : State × Option HostError :=
  match s.initialDelayTimer with
  | none => (s, none)
  | some id => if h.timers then (clearTimeout s (some id), none) else (s, some .timers)

/-- `initializeExitIntent(onExitIntentDetected)` on a host.  There is no `try` in the
function, and `hasSeenExitIntentRecently` calls `getItem` before its `try`. -/
def initializeExitIntentOn (h : Host) (s : State) (callback : Nat) :
    State × Option HostError :=
  match callDesktopCleanupOn h s with
  | (s1, some e) => (s1, some e)
  | (s1, none) =>
    match callMobileCleanupOn h s1 with
    | (s2, some e) => (s2, some e)
    | (s2, none) =>
      match clearInitialDelayOn h s2 with
      | (s3, some e) => (s3, some e)
      | (s3, none) =>
        if !h.storage then (s3, some .storage)
        else
          let seen := hasSeenExitIntentRecently s3.now s3.store
          let s4 := { s3 with store := seen.2 }
          if seen.1 then (s4, none)
          else if !h.timers then (s4, some .timers)
          else
            let r := setTimeout s4 INITIAL_DELAY (.initDelay callback)
            ({ r.1 with initialDelayTimer := some r.2 }, none)

/-- The arrow function run when the initial delay has elapsed, on a host: the first
`addEventListener` throws when the listeners are missing, before anything is registered and
before the handle is assigned; `resetTimer` throws when the timers are missing, with the
listeners registered and the handle not assigned. -/
def delayElapsedOn (h : Host) (s : State) (callback : Nat) : State × Option HostError :=
  if isMobileDevice s.userAgent s.innerWidth then
    if !h.listeners then (s, some .listeners)
    else if !h.timers then
      ({ s with
         mobile := s.mobile ++ [⟨s.nextId, callback, mobileInactivityTime, none, true⟩],
         nextId := s.nextId + 1 }, some .timers)
    else (delayElapsed s callback, none)
  else
    if !h.listeners then (s, some .listeners)
    else (delayElapsed s callback, none)


/-! ## The throttle gate of the desktop detector -/

/-- How the flag `inThrottle` of a desktop detector and the reset timers of `throttle` hang
together: a pending reset timer belongs to a detector whose gate is shut, no detector has
two of them, and every detector was made with the limit 200. -/
structure ThrottleInv (s : State) : Prop where
  owner : ∀ t ∈ s.timers, ∀ d, t.kind = .throttleReset d →
    ∃ x ∈ s.desktop, x.id = d ∧ x.inThrottle = true
  single : ∀ t1 ∈ s.timers, ∀ t2 ∈ s.timers, ∀ d,
    t1.kind = .throttleReset d → t2.kind = .throttleReset d → t1 = t2
  limit : ∀ x ∈ s.desktop, x.throttleLimit = desktopThrottleLimit

/-- An operation that leaves the gates alone: the desktop detectors keep their identifiers,
flags `inThrottle` and limits, and no reset timer is started. -/
structure GateKept (s s2 : State) : Prop where
  gates : s2.desktop.map (fun x => (x.id, x.inThrottle, x.throttleLimit)) =
    s.desktop.map (fun x => (x.id, x.inThrottle, x.throttleLimit))
  timers_old : ∀ t ∈ s2.timers, t ∈ s.timers ∨ ∀ d, t.kind ≠ .throttleReset d

/-- Until time `T` every gate that matters is shut: each listening desktop detector has
`inThrottle` set, its reset timer is not due before `T`, and no delay timer is pending. -/
def GateShut (T : Nat) (s : State) : Prop :=
  (∀ x ∈ s.desktop, x.listening = true → x.inThrottle = true) ∧
  (∀ t ∈ s.timers, ∀ c, t.kind ≠ .initDelay c) ∧
  (∀ t ∈ s.timers, ∀ d, t.kind = .throttleReset d →
    (∃ x ∈ s.desktop, x.id = d ∧ x.listening = true) → T ≤ t.due)

/-! ## A callback that throws

A supplied callback can throw.  Nothing in the service catches: the exception leaves
`handleMouseLeave` (and the function of `throttle` around it) or `triggerCallback` at the
statement `callback();`, so the statements after the call are skipped; the browser reports
the exception and goes on with the next listener or timer.  `throws` says which callbacks
throw.  With no callback throwing these are the functions above (`runWith_of_returning`). -/

/-- The function `handleMouseLeave` of desktop detector `det`: the state when it returns or
throws, and whether it threw.  A throw of `callback()` comes after `markExitIntentShown()`
and skips `if (desktopCleanup) desktopCleanup();`. -/
def handleMouseLeaveWith (throws : Nat → Bool) (s : State) (det : DesktopDetector)
    (clientY : Int) : State × Bool :=
  let seen := hasSeenExitIntentRecently s.now s.store
  let s1 := { s with store := seen.2 }
  if seen.1 then (s1, false)
  else if clientY ≤ 5 then
    let s2 := { s1 with store := markExitIntentShown s1.now s1.store }
    let s3 := { s2 with
      invoked := s2.invoked ++
        [{ time := s2.now, callback := det.callback, detector := det.id }] }
    if throws det.callback then (s3, true) else (callDesktopCleanup s3, false)
  else (s1, false)

/-- The handler registered by desktop detector `d`: when `func.apply(context, args)` throws,
`inThrottle = true` and the `setTimeout` of the reset are skipped. -/
def throttledHandlerWith (throws : Nat → Bool) (s : State) (d : Nat) (clientY : Int) : State :=
  match s.desktop.find? (fun det => det.id == d) with
  | none => s
  | some det =>
    if det.inThrottle then s
    else
      let r := handleMouseLeaveWith throws s det clientY
      if r.2 then r.1
      else
        let s2 := { r.1 with
          desktop := r.1.desktop.map
            (fun x => if x.id = d then { x with inThrottle := true } else x) }
        (setTimeout s2 det.throttleLimit (.throttleReset d)).1

/-- The function `triggerCallback` of mobile detector `d`: a throw of `callback()` skips
`if (mobileCleanup) mobileCleanup();`. -/
def triggerCallbackWith (throws : Nat → Bool) (s : State) (d : Nat) : State :=
  match s.mobile.find? (fun det => det.id == d) with
  | none => s
  | some det =>
    let seen := hasSeenExitIntentRecently s.now s.store
    let s1 := { s with store := seen.2 }
    if seen.1 then s1
    else
      let s2 := { s1 with store := markExitIntentShown s1.now s1.store }
      let s3 := { s2 with
        invoked := s2.invoked ++
          [{ time := s2.now, callback := det.callback, detector := det.id }] }
      if throws det.callback then s3 else callMobileCleanup s3

/-- A `mouseleave` event on the document; an exception thrown by a handler does not keep the
handlers after it from being called. -/
def dispatchMouseLeaveWith (throws : Nat → Bool) (s : State) (clientY : Int) : State :=
  ((s.desktop.filter (fun det => det.listening)).map (fun det => det.id)).foldl
    (fun st d =>
      if st.desktop.any (fun det => det.id == d && det.listening) then
        throttledHandlerWith throws st d clientY
      else st) s

/-- The function of a timer that has just expired. -/
def runTimerWith (throws : Nat → Bool) (s : State) : TimerKind → State
  | .initDelay callback => delayElapsed s callback
  | .throttleReset d =>
    { s with
      desktop := s.desktop.map
        (fun x => if x.id = d then { x with inThrottle := false } else x) }
  | .inactivity d => triggerCallbackWith throws s d

/-- The timer `id` expires: it leaves the pending timers and its function runs. -/
def timerExpiresWith (throws : Nat → Bool) (s : State) (id : Nat) : State :=
  match s.timers.find? (fun t => t.id == id) with
  | none => s
  | some t =>
    if t.due ≤ s.now then
      runTimerWith throws { s with timers := s.timers.filter (fun x => x.id != id) } t.kind
    else s

/-- One step of the machine, the callbacks named by `throws` throwing when invoked. -/
def stepWith (throws : Nat → Bool) (s : State) : Action → State
  | .mouseleave clientY => dispatchMouseLeaveWith throws s clientY
  | .timer id => timerExpiresWith throws s id
  | a => step s a

/-- The state after a list of steps. -/
def runWith (throws : Nat → Bool) (s : State) : List Action → State
  | [] => s
  | a :: as => runWith throws (stepWith throws s a) as


/-! # Theorems -/

/-! ## Suppression store -/

theorem session_duration_eq : SESSION_DURATION = 1800000 := by decide

/-- The reading of a record carrying a numeric expiry `e`: not suppressed, and removed,
exactly when the clock is past `e`. -/
theorem hasSeen_of_numericExpiry (now : Nat) (st : Stored) (e : Int)
    (h : numericExpiry st = some e) :
    hasSeenExitIntentRecently now (some st) =
      if e < (now : Int) then (false, none) else (true, some st) := by
  cases st with
  | empty => simp [numericExpiry] at h
  | malformed => simp [numericExpiry] at h
  | json item =>
    cases item with
    | value v => simp [numericExpiry] at h
    | obj fields =>
      simp only [numericExpiry] at h
      split at h
      · rename_i e1 hl
        simp only [Option.some.injEq] at h
        subst h
        simp [hasSeenExitIntentRecently, readExpiry, hl, toNumber, jsGt]
      · simp at h

theorem numericExpiry_shownRecord (e : Nat) : numericExpiry (shownRecord e) = some (e : Int) := by
  simp [numericExpiry, shownRecord, List.lookup]

/-- The reading of a record written by the service. -/
theorem hasSeen_shownRecord (now e : Nat) :
    hasSeenExitIntentRecently now (some (shownRecord e)) =
      if e < now then (false, none) else (true, some (shownRecord e)) := by
  rw [hasSeen_of_numericExpiry now _ _ (numericExpiry_shownRecord e)]
  simp

/-- C2 (as the code has it): after `markExitIntentShown` at time `T`, over any prior
content, `hasSeenExitIntentRecently` at query time `t` returns true exactly when
`t ≤ T + 1,800,000`; a true reading leaves the record in place and a false one removes it.
So it is true on `[T, T+W]`, the end point included, and false for `t > T+W`. -/
theorem c2_expiry_window (prior : Storage) (T t : Nat) :
    hasSeenExitIntentRecently t (markExitIntentShown T prior) =
      if t ≤ T + 1800000 then (true, markExitIntentShown T prior) else (false, none) := by
  simp only [markExitIntentShown, hasSeen_shownRecord, session_duration_eq]
  by_cases h : t ≤ T + 1800000
  · simp [h, Nat.not_lt.mpr h]
  · simp [h, Nat.lt_of_not_le h]

/-- C2 counterexample: the claim has the reading false for every `t ≥ T + W`; for a record
written at `T = 0` the reading at `t = 1,800,000 = T + W` is true. -/
theorem c2_boundary_counterexample :
    ¬ (∀ T t : Nat, T + 1800000 ≤ t →
        (hasSeenExitIntentRecently t (markExitIntentShown T none)).1 = false) := by
  intro h
  have := h 0 1800000 (by decide)
  revert this
  decide

/-- C3 (as the code has it): `hasSeenExitIntentRecently` returns false and leaves the store
without a record when the record is absent, when the stored text is non-empty and not
parseable as JSON, when it parses to `null`, and when it is a record whose numeric expiry is
smaller than the current time; for a record whose numeric expiry is not smaller than the
current time it returns true and leaves the record in place. -/
theorem c3_reading_cases (now : Nat) (st : Stored) (e : Int)
    (h : numericExpiry st = some e) :
    hasSeenExitIntentRecently now none = (false, none) ∧
    hasSeenExitIntentRecently now (some .malformed) = (false, none) ∧
    hasSeenExitIntentRecently now (some (.json (.value .null))) = (false, none) ∧
    (e < (now : Int) → hasSeenExitIntentRecently now (some st) = (false, none)) ∧
    ((now : Int) ≤ e → hasSeenExitIntentRecently now (some st) = (true, some st)) := by
  refine ⟨rfl, rfl, rfl, ?_, ?_⟩
  · intro hlt
    rw [hasSeen_of_numericExpiry now st e h, if_pos hlt]
  · intro hle
    rw [hasSeen_of_numericExpiry now st e h, if_neg (by omega)]

theorem c3_reading_cases_witness :
    numericExpiry (shownRecord 10) = some 10 ∧
    hasSeenExitIntentRecently 20 (some (shownRecord 10)) = (false, none) ∧
    hasSeenExitIntentRecently 5 (some (shownRecord 10)) = (true, some (shownRecord 10)) :=
  ⟨by decide,
   (c3_reading_cases 20 (shownRecord 10) 10 (by decide)).2.2.2.1 (by decide),
   (c3_reading_cases 5 (shownRecord 10) 10 (by decide)).2.2.2.2 (by decide)⟩

/-- C3 counterexample: a stored text `null` is present, parses as JSON and has no expiry
below the clock, yet the reading is false, not true; and a stored empty string, which does
not parse as JSON, is still in the store after the reading. -/
theorem c3_counterexample :
    (hasSeenExitIntentRecently 5 (some (.json (.value .null)))).1 = false ∧
    (hasSeenExitIntentRecently 5 (some .empty)).2 = some .empty := by
  decide

/-- C4 (the code at the failing input): a stored text `{}`, an object without an expiry
field, is read as suppressed at every time and is left in the store; the same holds for an
expiry that is a non-numeric string and for a bare number. -/
theorem c4_object_without_expiry_suppresses (now : Nat) :
    hasSeenExitIntentRecently now (some (.json (.obj []))) = (true, some (.json (.obj []))) ∧
    hasSeenExitIntentRecently now (some (.json (.obj [("expiry", .text "soon" .nan)]))) =
      (true, some (.json (.obj [("expiry", .text "soon" .nan)]))) ∧
    hasSeenExitIntentRecently now (some (.json (.value (.num (.fin 7))))) =
      (true, some (.json (.value (.num (.fin 7))))) := by
  refine ⟨rfl, rfl, rfl⟩

/-- C5: over every prior content and at every time `T`, `markExitIntentShown` leaves under
the key the one record `{ value: true, expiry: T + 1,800,000 }`; the window is 30 minutes,
and the expiry is strictly later than the time of creation. -/
theorem c5_mark_writes_record (prior : Storage) (T : Nat) :
    markExitIntentShown T prior =
      some (.json (.obj [("value", .bool true),
        ("expiry", .num (.fin ((T + 1800000 : Nat) : Int)))])) ∧
    SESSION_DURATION = 30 * 60 * 1000 ∧ SESSION_DURATION = 1800000 ∧
    numericExpiry (shownRecord (T + SESSION_DURATION)) = some ((T + 1800000 : Nat) : Int) ∧
    T < T + SESSION_DURATION := by
  refine ⟨rfl, rfl, rfl, ?_, ?_⟩
  · rw [numericExpiry_shownRecord, session_duration_eq]
  · rw [session_duration_eq]; omega

/-! ## Device classifier -/

theorem char_toNat_inj {a b : Char} (h : a.toNat = b.toNat) : a = b := by
  have := congrArg Char.ofNat h
  simpa using this

theorem char_toNat_ofNat_small (n : Nat) (h : n < 200) : (Char.ofNat n).toNat = n := by
  have hv : n.isValidChar := Or.inl (by omega)
  simp only [Char.ofNat, hv, dite_true]
  simp [Char.ofNatAux, Char.toNat, UInt32.toNat]

theorem toUpper_toNat (c : Char) :
    c.toUpper.toNat = if 97 ≤ c.toNat ∧ c.toNat ≤ 122 then c.toNat - 32 else c.toNat := by
  unfold Char.toUpper
  simp only [ge_iff_le]
  split
  · rw [char_toNat_ofNat_small _ (by omega)]
  · rfl

theorem toLower_toNat (c : Char) :
    c.toLower.toNat = if 65 ≤ c.toNat ∧ c.toNat ≤ 90 then c.toNat + 32 else c.toNat := by
  unfold Char.toLower
  simp only [ge_iff_le]
  split
  · rw [char_toNat_ofNat_small _ (by omega)]
  · rfl

theorem canonicalize_eq_iff (a b : Char) :
    canonicalize a = canonicalize b ↔ a.toLower = b.toLower := by
  unfold canonicalize
  constructor
  · intro h
    apply char_toNat_inj
    have h2 := congrArg Char.toNat h
    rw [toUpper_toNat, toUpper_toNat] at h2
    rw [toLower_toNat, toLower_toNat]
    split_ifs at h2 ⊢ <;> omega
  · intro h
    apply char_toNat_inj
    have h2 := congrArg Char.toNat h
    rw [toLower_toNat, toLower_toNat] at h2
    rw [toUpper_toNat, toUpper_toNat]
    split_ifs at h2 ⊢ <;> omega

theorem matchesAt_iff (tok input : List Char) :
    matchesAt tok input = true ↔
      ∃ mid rest, input = mid ++ rest ∧ mid.map Char.toLower = tok.map Char.toLower := by
  induction tok generalizing input with
  | nil =>
    simp only [matchesAt, List.map_nil, List.map_eq_nil_iff, true_iff]
    exact ⟨[], input, rfl, rfl⟩
  | cons t ts ih =>
    cases input with
    | nil =>
      simp only [matchesAt, Bool.false_eq_true, false_iff]
      rintro ⟨mid, rest, h1, h2⟩
      have hm : mid = [] := by
        cases mid with
        | nil => rfl
        | cons x xs => simp at h1
      subst hm
      simp at h2
    | cons c cs =>
      simp only [matchesAt, Bool.and_eq_true, beq_iff_eq, canonicalize_eq_iff, ih]
      constructor
      · rintro ⟨hc, mid, rest, h1, h2⟩
        exact ⟨c :: mid, rest, by simp [h1], by simp [h2, hc]⟩
      · rintro ⟨mid, rest, h1, h2⟩
        cases mid with
        | nil => simp at h2
        | cons x xs =>
          simp only [List.cons_append, List.cons.injEq] at h1
          simp only [List.map_cons, List.cons.injEq] at h2
          obtain ⟨rfl, h1⟩ := h1
          exact ⟨h2.1.symm, xs, rest, h1, h2.2⟩

/-- Some token occurs in `input` at some position, letter case ignored. -/
theorem regexTest_iff (input : List Char) :
    regexTest input = true ↔
      ∃ tok ∈ mobileTokens, ∃ pre mid post,
        input = pre ++ mid ++ post ∧ mid.map Char.toLower = tok.data.map Char.toLower := by
  induction input with
  | nil =>
    simp only [regexTest, List.any_eq_true, matchesAt_iff]
    constructor
    · rintro ⟨tok, htok, mid, rest, h1, h2⟩
      exact ⟨tok, htok, [], mid, rest, by simpa using h1, h2⟩
    · rintro ⟨tok, htok, pre, mid, post, h1, h2⟩
      have h3 := congrArg List.length h1
      simp only [List.length_nil, List.length_append] at h3
      have hm : mid = [] := List.eq_nil_of_length_eq_zero (by omega)
      exact ⟨tok, htok, [], [], by simp, by simpa [hm] using h2⟩
  | cons c cs ih =>
    simp only [regexTest, Bool.or_eq_true, List.any_eq_true, matchesAt_iff, ih]
    constructor
    · rintro (⟨tok, htok, mid, rest, h1, h2⟩ | ⟨tok, htok, pre, mid, post, h1, h2⟩)
      · exact ⟨tok, htok, [], mid, rest, by simpa using h1, h2⟩
      · exact ⟨tok, htok, c :: pre, mid, post, by simp [h1], h2⟩
    · rintro ⟨tok, htok, pre, mid, post, h1, h2⟩
      cases pre with
      | nil => exact Or.inl ⟨tok, htok, mid, post, by simpa using h1, h2⟩
      | cons x xs =>
        simp only [List.cons_append, List.cons.injEq] at h1
        exact Or.inr ⟨tok, htok, xs, mid, post, h1.2, h2⟩

theorem containsIgnoringCase_iff (ua tok : String) :
    ContainsIgnoringCase ua tok ↔
      ∃ pre mid post, ua.data = pre ++ mid ++ post ∧
        mid.map Char.toLower = tok.data.map Char.toLower := by
  unfold ContainsIgnoringCase
  constructor
  · rintro ⟨pre, post, h⟩
    rw [List.map_eq_append_iff] at h
    obtain ⟨l1, l2, h1, h2, h3⟩ := h
    rw [List.map_eq_append_iff] at h2
    obtain ⟨l3, l4, h4, h5, h6⟩ := h2
    exact ⟨l3, l4, l2, by rw [h1, h4], h6⟩
  · rintro ⟨pre, mid, post, h1, h2⟩
    exact ⟨pre.map Char.toLower, post.map Char.toLower, by simp [h1, h2]⟩

/-- C6: for every agent string `ua` and viewport width `w`, `isMobileDevice` answers mobile
exactly when `ua` contains, letter case ignored, one of the tokens Android, webOS, iPhone,
iPad, iPod, BlackBerry, IEMobile, Opera Mini, or `w ≤ 768`, and desktop otherwise; an iPhone
agent at width 1024 is mobile, a Windows NT agent at width 1920 is desktop and at width 600
mobile. -/
theorem c6_device_classification (ua : String) (w : Nat) :
    (isMobileDevice (some ua) w = true ↔
      (∃ tok ∈ ["Android", "webOS", "iPhone", "iPad", "iPod", "BlackBerry", "IEMobile",
          "Opera Mini"], ContainsIgnoringCase ua tok) ∨ w ≤ 768) ∧
    isMobileDevice (some "Mozilla/5.0 (iPhone...)") 1024 = true ∧
    isMobileDevice (some "Mozilla/5.0 (Windows NT...)") 1920 = false ∧
    isMobileDevice (some "Mozilla/5.0 (Windows NT...)") 600 = true := by
  refine ⟨?_, by decide, by decide, by decide⟩
  have hr := regexTest_iff ua.data
  simp only [mobileTokens] at hr
  simp only [isMobileDevice, agentText, Bool.or_eq_true, decide_eq_true_eq, hr,
    containsIgnoringCase_iff]

/-- C7: with the agent string missing (`navigator.userAgent` undefined) and a viewport wider
than 768, `isMobileDevice` evaluates without error, the test being made on the text
"undefined", and answers desktop. -/
theorem c7_missing_agent_is_desktop (w : Nat) (h : 768 < w) :
    agentText none = "undefined" ∧ isMobileDevice none w = false := by
  refine ⟨rfl, ?_⟩
  have hr : regexTest (agentText none).data = false := by decide
  simp [isMobileDevice, hr]
  omega

theorem c7_missing_agent_is_desktop_witness :
    768 < 1920 ∧ agentText none = "undefined" ∧ isMobileDevice none 1920 = false :=
  ⟨by decide, c7_missing_agent_is_desktop 1920 (by decide)⟩

/-! ## Throttle -/

namespace Throttle

variable {α : Type}

theorem step_limit (s : Throttle α) (e : ThrottleEvent α) : (s.step e).limit = s.limit := by
  cases e <;> simp only [step, call] <;> split <;> rfl

theorem run_limit (s : Throttle α) (es : List (ThrottleEvent α)) : (s.run es).limit = s.limit := by
  induction es generalizing s with
  | nil => rfl
  | cons e es ih => rw [run, ih, step_limit]

theorem step_now_le (s : Throttle α) (e : ThrottleEvent α) : s.now ≤ (s.step e).now := by
  cases e with
  | call a => simp only [step, call]; split <;> simp
  | advance d => simp [step]
  | timeout due => simp only [step]; split <;> simp

theorem run_now_le (s : Throttle α) (es : List (ThrottleEvent α)) : s.now ≤ (s.run es).now := by
  induction es generalizing s with
  | nil => exact Nat.le_refl _
  | cons e es ih => exact Nat.le_trans (step_now_le s e) (ih _)

theorem call_of_closed (s : Throttle α) (a : α) (h : s.inThrottle = true) : s.call a = s := by
  simp [call, h]

theorem call_of_open (s : Throttle α) (a : α) (h : s.inThrottle = false) :
    (s.call a).ran = s.ran ++ [(s.now, a)] := by
  simp [call, h]

theorem step_ran_length_le (s : Throttle α) (e : ThrottleEvent α) :
    s.ran.length ≤ (s.step e).ran.length := by
  cases e with
  | call a => simp only [step, call]; split <;> simp
  | advance d => simp [step]
  | timeout due => simp only [step]; split <;> simp

theorem run_ran_length_le (s : Throttle α) (es : List (ThrottleEvent α)) :
    s.ran.length ≤ (s.run es).ran.length := by
  induction es generalizing s with
  | nil => exact Nat.le_refl _
  | cons e es ih => exact Nat.le_trans (step_ran_length_le s e) (ih _)

theorem tidy_step (s : Throttle α) (e : ThrottleEvent α) (h : Tidy s) : Tidy (s.step e) := by
  obtain ⟨h1, h2⟩ := h
  cases e with
  | call a =>
    simp only [step, call]
    split
    · exact ⟨h1, h2⟩
    · rename_i hf
      have := h2 (by simpa using hf)
      simp [Tidy, this]
  | advance d => exact ⟨h1, h2⟩
  | timeout due =>
    simp only [step]
    split
    · rename_i hd
      have : s.resets = [due] := by
        have hm := hd.1
        cases hr : s.resets with
        | nil => rw [hr] at hm; simp at hm
        | cons x xs =>
          cases xs with
          | nil => rw [hr] at hm; simp at hm; simp [hm]
          | cons y ys => rw [hr] at h1; simp at h1
      simp [Tidy, this]
    · exact ⟨h1, h2⟩

theorem tidy_run (s : Throttle α) (es : List (ThrottleEvent α)) (h : Tidy s) : Tidy (s.run es) := by
  induction es generalizing s with
  | nil => exact h
  | cons e es ih => exact ih _ (tidy_step s e h)

theorem tidy_create (limit now : Nat) : Tidy (create limit now : Throttle α) := by
  simp [Tidy, create]

/-- While the clock is before the due time of the one pending reset, the gate stays closed
and every event leaves the flag, the timers and the record of calls as they are. -/
theorem closed_until_due (D : Nat) (es : List (ThrottleEvent α)) (s : Throttle α)
    (hc : s.inThrottle = true) (hr : s.resets = [D]) (hnow : (s.run es).now < D) :
    (s.run es).inThrottle = true := by
  induction es generalizing s with
  | nil => exact hc
  | cons e es ih =>
    rw [run] at hnow ⊢
    have hmono := run_now_le (s.step e) es
    cases e with
    | call a =>
      have : s.step (.call a) = s := by simp [step, call, hc]
      rw [this] at hnow ⊢
      exact ih s hc hr hnow
    | advance d => exact ih _ hc hr hnow
    | timeout due =>
      have hs : s.step (.timeout due) = s := by
        simp only [step]
        rw [if_neg]
        rintro ⟨hm, hle⟩
        rw [hr] at hm
        simp at hm
        subst hm
        have h1 := step_now_le s (.timeout due)
        omega
      rw [hs] at hnow ⊢
      exact ih s hc hr hnow

/-- Along a punctual run started with the gate closed and one reset due at `D`: until
another call passes, either the gate is still closed with the clock at most `D`, or the
reset has run and the gate is open. -/
theorem punctual_reopens (D : Nat) (es : List (ThrottleEvent α)) (s : Throttle α)
    (hs : (s.inThrottle = true ∧ s.resets = [D] ∧ s.now ≤ D) ∨
          (s.inThrottle = false ∧ s.resets = []))
    (hp : s.punctualRun es = true) (hran : (s.run es).ran = s.ran) :
    ((s.run es).inThrottle = true ∧ (s.run es).now ≤ D) ∨ (s.run es).inThrottle = false := by
  induction es generalizing s with
  | nil =>
    rcases hs with ⟨h1, _, h3⟩ | ⟨h1, _⟩
    · exact Or.inl ⟨h1, h3⟩
    · exact Or.inr h1
  | cons e es ih =>
    rw [punctualRun, Bool.and_eq_true] at hp
    rw [run] at hran ⊢
    have hlen := run_ran_length_le (s.step e) es
    rw [hran] at hlen
    cases e with
    | call a =>
      cases hc : s.inThrottle with
      | true =>
        have hstep : s.step (.call a) = s := by simp [step, call, hc]
        rw [hstep] at hp hran ⊢
        exact ih s hs hp.2 hran
      | false =>
        simp [step, call, hc] at hlen
    | advance d =>
      refine ih _ ?_ hp.2 hran
      rcases hs with ⟨h1, h2, _⟩ | ⟨h1, h2⟩
      · have hp1 := hp.1
        simp only [punctual, h2, List.all_cons, List.all_nil, Bool.and_true,
          decide_eq_true_eq] at hp1
        exact Or.inl ⟨h1, h2, hp1⟩
      · exact Or.inr ⟨h1, h2⟩
    | timeout due =>
      have hr : (s.step (.timeout due)).ran = s.ran := by
        simp only [step]; split <;> rfl
      refine ih _ ?_ hp.2 (hran.trans hr.symm)
      simp only [step]
      split
      · exact Or.inr ⟨rfl, by
          rename_i hd
          rcases hs with ⟨_, h2, _⟩ | ⟨_, h2⟩
          · have hm := hd.1
            rw [h2] at hm
            simp at hm
            simp [h2, hm]
          · simp [h2]⟩
      · exact hs

/-- While no further call passes the gate, the gate is either closed with the reset of the
last pass still pending, or open with no reset pending: the gate opens when, and only when,
the reset timer runs. -/
theorem reset_pending_or_open (D : Nat) (es : List (ThrottleEvent α)) (s : Throttle α)
    (hs : (s.inThrottle = true ∧ s.resets = [D]) ∨ (s.inThrottle = false ∧ s.resets = []))
    (hran : (s.run es).ran = s.ran) :
    ((s.run es).inThrottle = true ∧ (s.run es).resets = [D]) ∨
      ((s.run es).inThrottle = false ∧ (s.run es).resets = []) := by
  induction es generalizing s with
  | nil => exact hs
  | cons e es ih =>
    rw [run] at hran ⊢
    have hlen := run_ran_length_le (s.step e) es
    rw [hran] at hlen
    cases e with
    | call a =>
      cases hc : s.inThrottle with
      | true =>
        have hstep : s.step (.call a) = s := by simp [step, call, hc]
        rw [hstep] at hran ⊢
        exact ih s hs hran
      | false =>
        simp [step, call, hc] at hlen
    | advance d => exact ih _ hs hran
    | timeout due =>
      have hr : (s.step (.timeout due)).ran = s.ran := by
        simp only [step]; split <;> rfl
      refine ih _ ?_ (hran.trans hr.symm)
      simp only [step]
      split
      · exact Or.inr ⟨rfl, by
          rename_i hd
          rcases hs with ⟨_, h2⟩ | ⟨_, h2⟩
          · have hm := hd.1
            rw [h2] at hm
            simp at hm
            simp [h2, hm]
          · simp [h2]⟩
      · exact hs

end Throttle

/-- C8 counterexample: a throttle with limit 200 whose gate is open at time 0 runs `func`
for the call at 0.  The clock then moves to 451 while the reset timer, due at 200, has not
run yet (timers may run late).  The call at 451 comes more than `limit` after the first one
and no other call passed the gate in between, yet `func` is not run for it: the call leaves
the state as it was. -/
theorem c8_late_reset_counterexample :
    ((Throttle.create 200 0 : Throttle Int).run []).inThrottle = false ∧
    (((Throttle.create 200 0 : Throttle Int).run []).call 2).ran = [(0, 2)] ∧
    ((((Throttle.create 200 0 : Throttle Int).run []).call 2).run [.advance 451]).now = 451 ∧
    ((Throttle.create 200 0 : Throttle Int).run []).now + 200 <
      ((((Throttle.create 200 0 : Throttle Int).run []).call 2).run [.advance 451]).now ∧
    ((((Throttle.create 200 0 : Throttle Int).run []).call 2).run [.advance 451]).ran =
      (((Throttle.create 200 0 : Throttle Int).run []).call 2).ran ∧
    ((((Throttle.create 200 0 : Throttle Int).run []).call 2).run [.advance 451]).call 1 =
      (((Throttle.create 200 0 : Throttle Int).run []).call 2).run [.advance 451] ∧
    (((((Throttle.create 200 0 : Throttle Int).run []).call 2).run [.advance 451]).call 1).ran =
      [(0, 2)] :=
  ⟨rfl, rfl, rfl, by decide, rfl, rfl, rfl⟩

/-- C8 (as the code has it): for the function returned by `throttle(func, limit)`, on any
history that leaves the gate open at the time `t1` of a call: `func` is run for that call; a
call at a time `t2 < t1 + limit` is dropped and leaves no trace at all (nothing is queued
for later); a call at a later time `t2` runs `func` when no other call passed the gate in
between and the reset timer started at `t1` has run by then, which it cannot have before
`t1 + limit`; and it has run, so that `func` is run, whenever `t2 > t1 + limit` and timers
are punctual (the clock never passes a pending timer).  The desktop detector uses the limit
200 ms. -/
theorem c8_throttle_gate {α : Type} (limit t0 : Nat) (before between : List (ThrottleEvent α))
    (a1 a2 : α)
    (hopen : ((Throttle.create limit t0).run before).inThrottle = false) :
    (((Throttle.create limit t0).run before).call a1).ran =
      ((Throttle.create limit t0).run before).ran ++
        [(((Throttle.create limit t0).run before).now, a1)] ∧
    (((((Throttle.create limit t0).run before).call a1).run between).now <
        ((Throttle.create limit t0).run before).now + limit →
      ((((Throttle.create limit t0).run before).call a1).run between).call a2 =
        (((Throttle.create limit t0).run before).call a1).run between) ∧
    ((((Throttle.create limit t0).run before).now + limit) ∉
        ((((Throttle.create limit t0).run before).call a1).run between).resets →
      ((((Throttle.create limit t0).run before).call a1).run between).ran =
        (((Throttle.create limit t0).run before).call a1).ran →
      ((Throttle.create limit t0).run before).now + limit ≤
          ((((Throttle.create limit t0).run before).call a1).run between).now ∧
        (((((Throttle.create limit t0).run before).call a1).run between).call a2).ran =
          ((((Throttle.create limit t0).run before).call a1).run between).ran ++
            [(((((Throttle.create limit t0).run before).call a1).run between).now, a2)]) ∧
    ((((Throttle.create limit t0).run before).call a1).punctualRun between = true →
      ((Throttle.create limit t0).run before).now + limit <
        ((((Throttle.create limit t0).run before).call a1).run between).now →
      ((((Throttle.create limit t0).run before).call a1).run between).ran =
        (((Throttle.create limit t0).run before).call a1).ran →
      (((((Throttle.create limit t0).run before).call a1).run between).call a2).ran =
        ((((Throttle.create limit t0).run before).call a1).run between).ran ++
          [(((((Throttle.create limit t0).run before).call a1).run between).now, a2)]) ∧
    desktopThrottleLimit = 200 := by
  generalize hs1 : (Throttle.create limit t0).run before = s1 at hopen ⊢
  have htidy : Throttle.Tidy s1 := by
    rw [← hs1]; exact Throttle.tidy_run _ _ (Throttle.tidy_create limit t0)
  have hlim : s1.limit = limit := by
    rw [← hs1, Throttle.run_limit]; rfl
  have hres : s1.resets = [] := htidy.2 hopen
  have hc1 : (s1.call a1).inThrottle = true := by simp [Throttle.call, hopen]
  have hc2 : (s1.call a1).resets = [s1.now + limit] := by
    simp [Throttle.call, hopen, hres, hlim]
  have hc3 : (s1.call a1).now = s1.now := by simp [Throttle.call, hopen]
  refine ⟨Throttle.call_of_open _ _ hopen, ?_, ?_, ?_, rfl⟩
  · intro hlt
    exact Throttle.call_of_closed _ _
      (Throttle.closed_until_due (s1.now + limit) between (s1.call a1) hc1 hc2 hlt)
  · intro hgone hran
    have := Throttle.reset_pending_or_open (s1.now + limit) between (s1.call a1)
      (Or.inl ⟨hc1, hc2⟩) hran
    rcases this with ⟨_, h2⟩ | ⟨h2, _⟩
    · rw [h2] at hgone
      simp at hgone
    · refine ⟨?_, Throttle.call_of_open _ _ h2⟩
      by_contra hlt
      have hcl := Throttle.closed_until_due (s1.now + limit) between (s1.call a1) hc1 hc2
        (by omega)
      rw [h2] at hcl
      exact Bool.noConfusion hcl
  · intro hp hgt hran
    have := Throttle.punctual_reopens (s1.now + limit) between (s1.call a1)
      (Or.inl ⟨hc1, hc2, by rw [hc3]; omega⟩) hp hran
    rcases this with ⟨_, h2⟩ | h2
    · omega
    · exact Throttle.call_of_open _ _ h2

theorem c8_throttle_gate_witness :
    ((Throttle.create 200 0 : Throttle Int).run []).inThrottle = false ∧
    ((((Throttle.create 200 0 : Throttle Int).run []).call 2).run
        [.advance 100]).call 1 =
      (((Throttle.create 200 0 : Throttle Int).run []).call 2).run [.advance 100] ∧
    (((((Throttle.create 200 0 : Throttle Int).run []).call 2).run
        [.advance 451, .timeout 200]).call 1).ran = [(0, 2), (451, 1)] ∧
    (((((Throttle.create 200 0 : Throttle Int).run []).call 2).run
        [.advance 200, .timeout 200, .advance 1]).call 1).ran = [(0, 2), (201, 1)] :=
  ⟨rfl,
   (c8_throttle_gate 200 0 [] [.advance 100] 2 1 rfl).2.1 (by decide),
   ((c8_throttle_gate 200 0 [] [.advance 451, .timeout 200] 2 1 rfl).2.2.1
     (by decide) (by decide)).2,
   (c8_throttle_gate 200 0 [] [.advance 200, .timeout 200, .advance 1] 2 1 rfl).2.2.2.1
     (by decide) (by decide) (by decide)⟩

/-! ## The state machine: clock, storage and invocations -/

theorem foldl_preserves {σ β : Type} (P : σ → Prop) (f : σ → β → σ)
    (h : ∀ s x, P s → P (f s x)) (l : List β) (s : σ) (hs : P s) : P (l.foldl f s) := by
  induction l generalizing s with
  | nil => exact hs
  | cons x xs ih => exact ih _ (h s x hs)

theorem coreInv_advance (now d : Nat) (st : Storage) (l : List Invocation)
    (h : CoreInv (now, st, l)) : CoreInv (now + d, st, l) := by
  refine ⟨h.1, fun a ha => ?_⟩
  rcases h.2 a ha with h1 | h1
  · have h2 : a.time + SESSION_DURATION < now := h1
    exact Or.inl (Nat.lt_of_lt_of_le h2 (Nat.le_add_right now d))
  · exact Or.inr h1

theorem hasSeen_snd (now : Nat) (st : Storage) :
    (hasSeenExitIntentRecently now st).2 = st ∨
      ((hasSeenExitIntentRecently now st).2 = none ∧ ∀ e, st = some (shownRecord e) → e < now) := by
  match st with
  | none => exact Or.inl rfl
  | some .empty => exact Or.inl rfl
  | some .malformed => exact Or.inr ⟨rfl, fun e he => by simp [shownRecord] at he⟩
  | some (.json item) =>
    by_cases hr : ∃ e, Stored.json item = shownRecord e
    · obtain ⟨e, he⟩ := hr
      rw [he, hasSeen_shownRecord]
      by_cases hlt : e < now
      · refine Or.inr ⟨by simp [hlt], fun e2 he2 => ?_⟩
        have : e2 = e := by
          simp only [shownRecord, Option.some.injEq, Stored.json.injEq, Item.obj.injEq,
            List.cons.injEq, Prod.mk.injEq, JsVal.num.injEq, JsNum.fin.injEq, Nat.cast_inj,
            true_and, and_true] at he2
          exact he2.symm
        omega
      · exact Or.inl (by simp [hlt])
    · simp only [hasSeenExitIntentRecently]
      split
      · exact Or.inr ⟨rfl, fun e he => absurd ⟨e, Option.some.inj he⟩ hr⟩
      · split
        · exact Or.inr ⟨rfl, fun e he => absurd ⟨e, Option.some.inj he⟩ hr⟩
        · exact Or.inl rfl

theorem hasSeen_false_of_record (now e : Nat)
    (h : (hasSeenExitIntentRecently now (some (shownRecord e))).1 = false) : e < now := by
  rw [hasSeen_shownRecord] at h
  by_cases hlt : e < now
  · exact hlt
  · simp [hlt] at h

theorem coreInv_check (now : Nat) (st : Storage) (l : List Invocation)
    (h : CoreInv (now, st, l)) : CoreInv (now, (hasSeenExitIntentRecently now st).2, l) := by
  rcases hasSeen_snd now st with h1 | ⟨h1, h2⟩
  · rw [h1]; exact h
  · rw [h1]
    refine ⟨h.1, fun a ha => ?_⟩
    rcases h.2 a ha with h3 | ⟨e, he, hle⟩
    · exact Or.inl h3
    · have := h2 e he
      have hle2 : a.time + SESSION_DURATION ≤ e := hle
      exact Or.inl (Nat.lt_of_le_of_lt hle2 this)

theorem coreInv_fire (now : Nat) (st st2 : Storage) (l : List Invocation) (cb d : Nat)
    (h : CoreInv (now, st, l)) (hf : (hasSeenExitIntentRecently now st).1 = false) :
    CoreInv (now, markExitIntentShown now st2,
      l ++ [{ time := now, callback := cb, detector := d }]) := by
  have hold : ∀ a ∈ l, a.time + SESSION_DURATION < now := by
    intro a ha
    rcases h.2 a ha with h3 | ⟨e, he, hle⟩
    · exact h3
    · have he2 : st = some (shownRecord e) := he
      rw [he2] at hf
      have := hasSeen_false_of_record now e hf
      have hle2 : a.time + SESSION_DURATION ≤ e := hle
      exact Nat.lt_of_le_of_lt hle2 this
  refine ⟨?_, ?_⟩
  · simp only [List.pairwise_append, List.pairwise_cons, List.Pairwise.nil, List.mem_singleton,
      List.not_mem_nil, false_implies, implies_true, and_self, true_and]
    refine ⟨h.1, ?_⟩
    intro a ha b hb
    subst hb
    exact hold a ha
  · intro a ha
    simp only [List.mem_append, List.mem_singleton] at ha
    refine Or.inr ⟨now + SESSION_DURATION, rfl, ?_⟩
    rcases ha with ha | ha
    · have := hold a ha
      omega
    · subst ha
      exact Nat.le_refl _

theorem core_setTimeout (s : State) (delay : Nat) (kind : TimerKind) :
    (setTimeout s delay kind).1.core = s.core := rfl

theorem core_clearTimeout (s : State) (id : Option Nat) : (clearTimeout s id).core = s.core := by
  cases id <;> rfl

theorem core_desktopCleanupFn (s : State) (d : Nat) : (desktopCleanupFn s d).core = s.core := rfl

theorem core_mobileCleanupFn (s : State) (d : Nat) : (mobileCleanupFn s d).core = s.core := by
  unfold mobileCleanupFn
  split
  · rfl
  · exact core_clearTimeout s _

theorem core_callDesktopCleanup (s : State) : (callDesktopCleanup s).core = s.core := by
  unfold callDesktopCleanup
  split
  · rfl
  · exact core_desktopCleanupFn s _

theorem core_callMobileCleanup (s : State) : (callMobileCleanup s).core = s.core := by
  unfold callMobileCleanup
  split
  · rfl
  · exact core_mobileCleanupFn s _

theorem core_clearInitialDelay (s : State) : (clearInitialDelay s).core = s.core :=
  core_clearTimeout s _

theorem core_resetTimer (s : State) (d : Nat) : (resetTimer s d).core = s.core := by
  unfold resetTimer
  split
  · rfl
  · exact core_clearTimeout s _

theorem core_setupDesktop (s : State) (cb limit : Nat) :
    (setupDesktopExitDetection s cb limit).1.core = s.core := rfl

theorem core_setupMobile (s : State) (cb t : Nat) :
    (setupMobileExitDetection s cb t).1.core = s.core := by
  unfold setupMobileExitDetection
  exact core_resetTimer _ _

theorem core_delayElapsed (s : State) (cb : Nat) : (delayElapsed s cb).core = s.core := by
  unfold delayElapsed
  split
  · exact core_setupMobile s cb mobileInactivityTime
  · exact core_setupDesktop s cb desktopThrottleLimit

theorem core_cleanupExitIntent (s : State) : (cleanupExitIntent s).core = s.core := by
  unfold cleanupExitIntent
  show (clearInitialDelay (callMobileCleanup (callDesktopCleanup s))).core = s.core
  rw [core_clearInitialDelay, core_callMobileCleanup, core_callDesktopCleanup]

theorem coreInv_handleMouseLeave (s : State) (det : DesktopDetector) (y : Int)
    (h : CoreInv s.core) : CoreInv (handleMouseLeave s det y).core := by
  unfold handleMouseLeave
  simp only
  split
  · exact coreInv_check s.now s.store s.invoked h
  · rename_i hf
    split
    · rw [core_callDesktopCleanup]
      exact coreInv_fire s.now s.store (hasSeenExitIntentRecently s.now s.store).2 s.invoked det.callback det.id h (by simpa using hf)
    · exact coreInv_check s.now s.store s.invoked h

theorem coreInv_throttledHandler (s : State) (d : Nat) (y : Int)
    (h : CoreInv s.core) : CoreInv (throttledHandler s d y).core := by
  unfold throttledHandler
  split
  · exact h
  · split
    · exact h
    · exact coreInv_handleMouseLeave s _ y h

theorem coreInv_triggerCallback (s : State) (d : Nat)
    (h : CoreInv s.core) : CoreInv (triggerCallback s d).core := by
  unfold triggerCallback
  split
  · exact h
  · rename_i det _
    simp only
    split
    · exact coreInv_check s.now s.store s.invoked h
    · rename_i hf
      rw [core_callMobileCleanup]
      exact coreInv_fire s.now s.store (hasSeenExitIntentRecently s.now s.store).2 s.invoked det.callback det.id h (by simpa using hf)

theorem coreInv_initialize (s : State) (cb : Nat)
    (h : CoreInv s.core) : CoreInv (initializeExitIntent s cb).core := by
  have hc : (clearInitialDelay (callMobileCleanup (callDesktopCleanup s))).core = s.core := by
    rw [core_clearInitialDelay, core_callMobileCleanup, core_callDesktopCleanup]
  unfold initializeExitIntent
  simp only
  generalize clearInitialDelay (callMobileCleanup (callDesktopCleanup s)) = s3 at hc ⊢
  have h3 : CoreInv s3.core := hc ▸ h
  have h4 := coreInv_check s3.now s3.store s3.invoked h3
  split
  · exact h4
  · exact h4

theorem coreInv_step (s : State) (a : Action) (h : CoreInv s.core) : CoreInv (step s a).core := by
  cases a with
  | initializeExitIntent cb => exact coreInv_initialize s cb h
  | cleanupExitIntent => exact (core_cleanupExitIntent s).symm ▸ h
  | reload => exact h
  | advance d => exact coreInv_advance s.now d s.store s.invoked h
  | mouseleave y =>
    show CoreInv (dispatchMouseLeave s y).core
    unfold dispatchMouseLeave
    apply foldl_preserves (fun st => CoreInv st.core) _ _ _ s h
    intro st d hst
    split
    · exact coreInv_throttledHandler st d y hst
    · exact hst
  | activity k =>
    show CoreInv (dispatchActivity s).core
    unfold dispatchActivity
    apply foldl_preserves (fun st => CoreInv st.core) _ _ _ s h
    intro st d hst
    split
    · exact (core_resetTimer st d).symm ▸ hst
    · exact hst
  | timer id =>
    show CoreInv (timerExpires s id).core
    unfold timerExpires
    split
    · exact h
    · rename_i t _
      split
      · cases hk : t.kind with
        | initDelay cb => exact (core_delayElapsed _ cb).symm ▸ h
        | throttleReset d => exact h
        | inactivity d => exact coreInv_triggerCallback _ d h
      · exact h
  | resize w => exact h
  | setAgent ua => exact h

theorem coreInv_run (acts : List Action) (s : State) (h : CoreInv s.core) :
    CoreInv (run s acts).core := by
  induction acts generalizing s with
  | nil => exact h
  | cons a as ih => exact ih _ (coreInv_step s a h)

/-- C1: from a freshly loaded page with any stored content, along every sequence of
`initializeExitIntent`, `cleanupExitIntent`, reloads, clock advances, pointer-leave events
with any `clientY`, activity events, timer expiries and environment changes, any two
invocations of a supplied callback are more than 1,800,000 ms apart: within one suppression
window a callback is invoked 0 or 1 times. -/
theorem c1_at_most_once_per_window (t0 : Nat) (store : Storage) (userAgent : Option String)
    (innerWidth : Nat) (acts : List Action) :
    (run (State.initial t0 store userAgent innerWidth) acts).invoked.Pairwise
      (fun a b => a.time + 1800000 < b.time) := by
  have h := coreInv_run acts (State.initial t0 store userAgent innerWidth)
    ⟨List.Pairwise.nil, fun a ha => by simp [State.initial, State.core] at ha⟩
  have h1 := h.1
  rw [session_duration_eq] at h1
  exact h1

/-! ## The state machine: handles, listeners and timers -/

theorem handleInv_initial (t0 : Nat) (store : Storage) (ua : Option String) (w : Nat) :
    HandleInv (State.initial t0 store ua w) := by
  constructor <;> simp [State.initial]

theorem handleInv_desktopCleanupFn (s : State) (d : Nat) (h : HandleInv s) :
    HandleInv (desktopCleanupFn s d) := by
  obtain ⟨h1, h2, h3, h4, h5, h6, h7, h8, h9, h10, h11⟩ := h
  constructor
  · intro det hdet hl
    simp only [desktopCleanupFn, List.mem_map] at hdet
    obtain ⟨x, hx, rfl⟩ := hdet
    split at hl
    · simp at hl
    · rename_i hne
      simp only [hne, if_false]
      exact h1 x hx hl
  · exact h2
  · exact h3
  · intro t ht cb hk
    obtain ⟨a, b, c⟩ := h4 t ht cb hk
    refine ⟨a, ?_, c⟩
    intro det hdet
    simp only [desktopCleanupFn, List.mem_map] at hdet
    obtain ⟨x, hx, rfl⟩ := hdet
    split
    · rfl
    · exact b x hx
  · intro det hdet
    simp only [desktopCleanupFn, List.mem_map] at hdet
    obtain ⟨x, hx, rfl⟩ := hdet
    split <;> exact h5 x hx
  · exact h6
  · intro a ha b hb
    simp only [desktopCleanupFn, List.mem_map] at ha
    obtain ⟨x, hx, rfl⟩ := ha
    split <;> exact h7 x hx b hb
  · exact h8
  · intro inv hinv det hdet hid
    simp only [desktopCleanupFn, List.mem_map] at hdet
    obtain ⟨x, hx, rfl⟩ := hdet
    split
    · rfl
    · rename_i hne
      simp only [hne, if_false] at hid
      exact h9 inv hinv x hx hid
  · exact h10
  · exact h11

theorem mem_timers_clearTimeout (s : State) (id : Option Nat) (t : Timer) :
    t ∈ (clearTimeout s id).timers ↔ t ∈ s.timers ∧ id ≠ some t.id := by
  cases id with
  | none => simp [clearTimeout]
  | some i =>
    simp only [clearTimeout, List.mem_filter, bne_iff_ne, ne_eq, Option.some.injEq]
    constructor
    · rintro ⟨h1, h2⟩
      exact ⟨h1, fun h => h2 h.symm⟩
    · rintro ⟨h1, h2⟩
      exact ⟨h1, fun h => h2 h.symm⟩

theorem clearTimeout_rest (s : State) (id : Option Nat) :
    (clearTimeout s id).desktop = s.desktop ∧ (clearTimeout s id).mobile = s.mobile ∧
    (clearTimeout s id).desktopCleanup = s.desktopCleanup ∧
    (clearTimeout s id).mobileCleanup = s.mobileCleanup ∧
    (clearTimeout s id).initialDelayTimer = s.initialDelayTimer ∧
    (clearTimeout s id).nextId = s.nextId ∧ (clearTimeout s id).invoked = s.invoked := by
  cases id <;> exact ⟨rfl, rfl, rfl, rfl, rfl, rfl, rfl⟩

theorem handleInv_clearTimeout (s : State) (id : Option Nat) (h : HandleInv s) :
    HandleInv (clearTimeout s id) := by
  obtain ⟨h1, h2, h3, h4, h5, h6, h7, h8, h9, h10, h11⟩ := h
  obtain ⟨e1, e2, e3, e4, e5, e6, e7⟩ := clearTimeout_rest s id
  constructor
  · rw [e1, e3]; exact h1
  · rw [e2, e4]; exact h2
  · intro t ht d hk
    rw [e2]
    exact h3 t ((mem_timers_clearTimeout s id t).1 ht).1 d hk
  · intro t ht cb hk
    rw [e1, e2, e5]
    exact h4 t ((mem_timers_clearTimeout s id t).1 ht).1 cb hk
  · rw [e1, e6]; exact h5
  · rw [e2, e6]; exact h6
  · rw [e1, e2]; exact h7
  · rw [e6, e7]; exact h8
  · rw [e1, e7]; exact h9
  · rw [e2, e7]; exact h10
  · rw [e7]; exact h11

theorem find?_id_some {β : Type} (key : β → Nat) (l : List β) (d : Nat) (x : β)
    (h : l.find? (fun y => key y == d) = some x) : x ∈ l ∧ key x = d := by
  refine ⟨List.mem_of_find?_eq_some h, ?_⟩
  have := List.find?_some h
  simpa using this

theorem find?_id_none {β : Type} (key : β → Nat) (l : List β) (d : Nat)
    (h : l.find? (fun y => key y == d) = none) : ∀ x ∈ l, key x ≠ d := by
  intro x hx
  have := List.find?_eq_none.1 h x hx
  simpa using this

theorem handleInv_mobileCleanupFn (s : State) (d : Nat) (h : HandleInv s) :
    HandleInv (mobileCleanupFn s d) := by
  unfold mobileCleanupFn
  split
  · exact h
  · rename_i det hfind
    obtain ⟨hmem, hid⟩ := find?_id_some (fun m : MobileDetector => m.id) s.mobile d det hfind
    have hc := handleInv_clearTimeout s det.timer h
    obtain ⟨e1, e2, e3, e4, e5, e6, e7⟩ := clearTimeout_rest s det.timer
    obtain ⟨h1, h2, h3, h4, h5, h6, h7, h8, h9, h10, h11⟩ := hc
    constructor
    · exact h1
    · intro x hx hl
      simp only [List.mem_map] at hx
      obtain ⟨y, hy, rfl⟩ := hx
      split at hl
      · simp at hl
      · rename_i hne
        simp only [hne, if_false]
        exact h2 y hy hl
    · intro t ht d2 hk
      have ht2 := (mem_timers_clearTimeout s det.timer t).1 ht
      obtain ⟨⟨y, hy, hyid, hyl⟩, hall⟩ := h.inactivity_owner t ht2.1 d2 hk
      have hne : d2 ≠ d := by
        intro heq
        have := hall det hmem (by rw [hid, heq])
        exact ht2.2 this
      constructor
      · refine ⟨y, ?_, hyid, hyl⟩
        simp only [List.mem_map]
        refine ⟨y, by rw [e2]; exact hy, ?_⟩
        rw [if_neg (by rw [hyid]; exact hne)]
      · intro x hx hxid
        simp only [List.mem_map] at hx
        obtain ⟨z, hz, rfl⟩ := hx
        by_cases hzd : z.id = d
        · rw [if_pos hzd] at hxid
          exact absurd (hxid.symm.trans hzd) hne
        · rw [if_neg hzd] at hxid ⊢
          exact hall z (by rw [← e2]; exact hz) hxid
    · intro t ht cb hk
      obtain ⟨a, b, c⟩ := h4 t ht cb hk
      refine ⟨a, b, ?_⟩
      intro x hx
      simp only [List.mem_map] at hx
      obtain ⟨y, hy, rfl⟩ := hx
      split
      · rfl
      · exact c y hy
    · exact h5
    · intro x hx
      simp only [List.mem_map] at hx
      obtain ⟨y, hy, rfl⟩ := hx
      split <;> exact h6 y hy
    · intro a ha b hb
      simp only [List.mem_map] at hb
      obtain ⟨y, hy, rfl⟩ := hb
      split <;> exact h7 a ha y hy
    · exact h8
    · exact h9
    · intro inv hinv x hx hxid
      simp only [List.mem_map] at hx
      obtain ⟨y, hy, rfl⟩ := hx
      split
      · rfl
      · rename_i hne
        simp only [hne, if_false] at hxid
        exact h10 inv hinv y hy hxid
    · exact h11

theorem handleInv_callDesktopCleanup (s : State) (h : HandleInv s) :
    HandleInv (callDesktopCleanup s) := by
  unfold callDesktopCleanup
  split
  · exact h
  · exact handleInv_desktopCleanupFn s _ h

theorem handleInv_callMobileCleanup (s : State) (h : HandleInv s) :
    HandleInv (callMobileCleanup s) := by
  unfold callMobileCleanup
  split
  · exact h
  · exact handleInv_mobileCleanupFn s _ h

theorem desktop_quiet_after (s : State) (h : HandleInv s) :
    ∀ det ∈ (callDesktopCleanup s).desktop, det.listening = false := by
  unfold callDesktopCleanup
  split
  · rename_i hn
    intro det hdet
    cases hl : det.listening with
    | false => rfl
    | true => have := h.desktop_handle det hdet hl; rw [hn] at this; simp at this
  · rename_i d hd
    intro det hdet
    simp only [desktopCleanupFn, List.mem_map] at hdet
    obtain ⟨x, hx, rfl⟩ := hdet
    split
    · rfl
    · rename_i hne
      cases hl : x.listening with
      | false => rfl
      | true =>
        have := h.desktop_handle x hx hl
        rw [hd] at this
        exact absurd (Option.some.inj this).symm hne

theorem mobile_quiet_after (s : State) (h : HandleInv s) :
    ∀ det ∈ (callMobileCleanup s).mobile, det.listening = false := by
  unfold callMobileCleanup
  split
  · rename_i hn
    intro det hdet
    cases hl : det.listening with
    | false => rfl
    | true => have := h.mobile_handle det hdet hl; rw [hn] at this; simp at this
  · rename_i d hd
    unfold mobileCleanupFn
    split
    · rename_i hfind
      intro det hdet
      cases hl : det.listening with
      | false => rfl
      | true =>
        have := h.mobile_handle det hdet hl
        rw [hd] at this
        exact absurd (Option.some.inj this).symm
          (find?_id_none (fun m : MobileDetector => m.id) s.mobile d hfind det hdet)
    · rename_i found hfind
      intro det hdet
      simp only [List.mem_map, (clearTimeout_rest s found.timer).2.1] at hdet
      obtain ⟨x, hx, rfl⟩ := hdet
      split
      · rfl
      · rename_i hne
        cases hl : x.listening with
        | false => rfl
        | true =>
          have := h.mobile_handle x hx hl
          rw [hd] at this
          exact absurd (Option.some.inj this).symm hne

theorem callMobileCleanup_desktop (s : State) : (callMobileCleanup s).desktop = s.desktop := by
  unfold callMobileCleanup
  split
  · rfl
  · unfold mobileCleanupFn
    split
    · rfl
    · exact (clearTimeout_rest s _).1

/-- After the three teardown statements shared by `initializeExitIntent` and
`cleanupExitIntent` nothing is listening and no initial-delay timer is pending. -/
theorem teardown_quiet (s : State) (h : HandleInv s) :
    HandleInv (clearInitialDelay (callMobileCleanup (callDesktopCleanup s))) ∧
    Quiet (clearInitialDelay (callMobileCleanup (callDesktopCleanup s))) := by
  have h1 := handleInv_callDesktopCleanup s h
  have h2 := handleInv_callMobileCleanup _ h1
  have h3 : HandleInv (clearInitialDelay (callMobileCleanup (callDesktopCleanup s))) :=
    handleInv_clearTimeout _ _ h2
  refine ⟨h3, ?_, ?_, ?_⟩
  · intro det hdet
    unfold clearInitialDelay at hdet
    rw [(clearTimeout_rest _ _).1, callMobileCleanup_desktop] at hdet
    exact desktop_quiet_after s h det hdet
  · intro det hdet
    unfold clearInitialDelay at hdet
    rw [(clearTimeout_rest _ _).2.1] at hdet
    exact mobile_quiet_after _ h1 det hdet
  · intro t ht cb hk
    unfold clearInitialDelay at ht
    have ht2 := (mem_timers_clearTimeout _ _ t).1 ht
    exact ht2.2 (h2.delay_pending t ht2.1 cb hk).1

theorem handleInv_store (s : State) (x : Storage) (h : HandleInv s) :
    HandleInv { s with store := x } := by
  obtain ⟨h1, h2, h3, h4, h5, h6, h7, h8, h9, h10, h11⟩ := h
  exact ⟨h1, h2, h3, h4, h5, h6, h7, h8, h9, h10, h11⟩

theorem handleInv_initialize (s : State) (cb : Nat) (h : HandleInv s) :
    HandleInv (initializeExitIntent s cb) := by
  obtain ⟨h3, q1, q2, q3⟩ := teardown_quiet s h
  unfold initializeExitIntent
  simp only
  generalize clearInitialDelay (callMobileCleanup (callDesktopCleanup s)) = s3 at h3 q1 q2 q3 ⊢
  split
  · exact handleInv_store s3 _ h3
  · obtain ⟨h1, h2, h3, h4, h5, h6, h7, h8, h9, h10, h11⟩ := h3
    constructor
    · intro det hdet hl
      have := q1 det hdet
      rw [hl] at this
      simp at this
    · intro det hdet hl
      have := q2 det hdet
      rw [hl] at this
      simp at this
    · intro t ht d hk
      simp only [setTimeout, List.mem_append, List.mem_singleton] at ht
      rcases ht with ht | ht
      · exact h3 t ht d hk
      · subst ht
        simp at hk
    · intro t ht cb2 hk
      simp only [setTimeout, List.mem_append, List.mem_singleton] at ht
      rcases ht with ht | ht
      · exact absurd hk (q3 t ht cb2)
      · subst ht
        exact ⟨rfl, q1, q2⟩
    · intro det hdet
      exact Nat.lt_succ_of_lt (h5 det hdet)
    · intro det hdet
      exact Nat.lt_succ_of_lt (h6 det hdet)
    · exact h7
    · intro inv hinv
      exact Nat.lt_succ_of_lt (h8 inv hinv)
    · exact h9
    · exact h10
    · exact h11

theorem handleInv_cleanupExitIntent (s : State) (h : HandleInv s) :
    HandleInv (cleanupExitIntent s) := by
  obtain ⟨h3, q1, q2, q3⟩ := teardown_quiet s h
  unfold cleanupExitIntent
  simp only
  generalize clearInitialDelay (callMobileCleanup (callDesktopCleanup s)) = s3 at h3 q1 q2 q3 ⊢
  obtain ⟨h1, h2, h3, h4, h5, h6, h7, h8, h9, h10, h11⟩ := h3
  constructor
  · intro det hdet hl
    have := q1 det hdet
    rw [hl] at this
    simp at this
  · intro det hdet hl
    have := q2 det hdet
    rw [hl] at this
    simp at this
  · exact h3
  · intro t ht cb2 hk
    exact absurd hk (q3 t ht cb2)
  · exact h5
  · exact h6
  · exact h7
  · exact h8
  · exact h9
  · exact h10
  · exact h11

theorem handleInv_reload (s : State) (h : HandleInv s) : HandleInv (reload s) := by
  obtain ⟨h1, h2, h3, h4, h5, h6, h7, h8, h9, h10, h11⟩ := h
  constructor
  · simp [reload, State.initial]
  · simp [reload, State.initial]
  · simp [reload, State.initial]
  · simp [reload, State.initial]
  · simp [reload, State.initial]
  · simp [reload, State.initial]
  · simp [reload, State.initial]
  · exact h8
  · simp [reload, State.initial]
  · simp [reload, State.initial]
  · exact h11

/-- Changing the private throttle flag of desktop detectors touches nothing the handles
depend on. -/
theorem handleInv_setInThrottle (s : State) (d : Nat) (b : Bool) (h : HandleInv s) :
    HandleInv { s with
      desktop := s.desktop.map (fun x => if x.id = d then { x with inThrottle := b } else x) } := by
  obtain ⟨h1, h2, h3, h4, h5, h6, h7, h8, h9, h10, h11⟩ := h
  constructor
  · intro det hdet hl
    simp only [List.mem_map] at hdet
    obtain ⟨x, hx, rfl⟩ := hdet
    split at hl <;> split <;> exact h1 x hx hl
  · exact h2
  · exact h3
  · intro t ht cb hk
    obtain ⟨a, b2, c⟩ := h4 t ht cb hk
    refine ⟨a, ?_, c⟩
    intro det hdet
    simp only [List.mem_map] at hdet
    obtain ⟨x, hx, rfl⟩ := hdet
    split <;> exact b2 x hx
  · intro det hdet
    simp only [List.mem_map] at hdet
    obtain ⟨x, hx, rfl⟩ := hdet
    split <;> exact h5 x hx
  · exact h6
  · intro a ha b2 hb
    simp only [List.mem_map] at ha
    obtain ⟨x, hx, rfl⟩ := ha
    split <;> exact h7 x hx b2 hb
  · exact h8
  · intro inv hinv det hdet hid
    simp only [List.mem_map] at hdet
    obtain ⟨x, hx, rfl⟩ := hdet
    split at hid <;> split <;> exact h9 inv hinv x hx hid
  · exact h10
  · exact h11

/-- Scheduling a throttle reset touches nothing the handles depend on. -/
theorem handleInv_setTimeout_reset (s : State) (delay d : Nat) (h : HandleInv s) :
    HandleInv (setTimeout s delay (.throttleReset d)).1 := by
  obtain ⟨h1, h2, h3, h4, h5, h6, h7, h8, h9, h10, h11⟩ := h
  constructor
  · exact h1
  · exact h2
  · intro t ht d2 hk
    simp only [setTimeout, List.mem_append, List.mem_singleton] at ht
    rcases ht with ht | ht
    · exact h3 t ht d2 hk
    · subst ht
      simp at hk
  · intro t ht cb hk
    simp only [setTimeout, List.mem_append, List.mem_singleton] at ht
    rcases ht with ht | ht
    · exact h4 t ht cb hk
    · subst ht
      simp at hk
  · intro det hdet
    exact Nat.lt_succ_of_lt (h5 det hdet)
  · intro det hdet
    exact Nat.lt_succ_of_lt (h6 det hdet)
  · exact h7
  · intro inv hinv
    exact Nat.lt_succ_of_lt (h8 inv hinv)
  · exact h9
  · exact h10
  · exact h11

/-- Recording an invocation by a detector that is no longer listening and has not invoked
before. -/
theorem handleInv_record (s : State) (x : Storage) (t cb d : Nat) (h : HandleInv s)
    (hlt : d < s.nextId)
    (hd : ∀ det ∈ s.desktop, det.id = d → det.listening = false)
    (hm : ∀ det ∈ s.mobile, det.id = d → det.listening = false)
    (hnew : ∀ inv ∈ s.invoked, inv.detector ≠ d) :
    HandleInv { s with
      store := x, invoked := s.invoked ++ [{ time := t, callback := cb, detector := d }] } := by
  obtain ⟨h1, h2, h3, h4, h5, h6, h7, h8, h9, h10, h11⟩ := h
  constructor
  · exact h1
  · exact h2
  · exact h3
  · exact h4
  · exact h5
  · exact h6
  · exact h7
  · intro inv hinv
    simp only [List.mem_append, List.mem_singleton] at hinv
    rcases hinv with hinv | hinv
    · exact h8 inv hinv
    · subst hinv; exact hlt
  · intro inv hinv det hdet hid
    simp only [List.mem_append, List.mem_singleton] at hinv
    rcases hinv with hinv | hinv
    · exact h9 inv hinv det hdet hid
    · subst hinv; exact hd det hdet hid
  · intro inv hinv det hdet hid
    simp only [List.mem_append, List.mem_singleton] at hinv
    rcases hinv with hinv | hinv
    · exact h10 inv hinv det hdet hid
    · subst hinv; exact hm det hdet hid
  · simp only [List.map_append, List.map_cons, List.map_nil]
    rw [List.nodup_append]
    refine ⟨h11, List.nodup_singleton _, ?_⟩
    intro a ha hb
    simp only [List.mem_singleton] at hb
    simp only [List.mem_map] at ha
    obtain ⟨inv, hinv, rfl⟩ := ha
    exact hnew inv hinv hb

theorem callDesktopCleanup_of (s : State) (d : Nat) (h : s.desktopCleanup = some d) :
    callDesktopCleanup s = desktopCleanupFn s d := by
  unfold callDesktopCleanup
  rw [h]

theorem callMobileCleanup_of (s : State) (d : Nat) (h : s.mobileCleanup = some d) :
    callMobileCleanup s = mobileCleanupFn s d := by
  unfold callMobileCleanup
  rw [h]

theorem fire_desktop_eq (s : State) (x : Storage) (l : List Invocation) (d : Nat)
    (h : s.desktopCleanup = some d) :
    callDesktopCleanup { s with store := x, invoked := l } =
      { desktopCleanupFn s d with store := x, invoked := l } := by
  have h2 : ({ s with store := x, invoked := l } : State).desktopCleanup = some d := h
  rw [callDesktopCleanup_of _ d h2]
  rfl

theorem handleInv_handleMouseLeave (s : State) (det : DesktopDetector) (y : Int)
    (h : HandleInv s) (hmem : det ∈ s.desktop)
    (hlisten : ∃ x ∈ s.desktop, x.id = det.id ∧ x.listening = true) :
    HandleInv (handleMouseLeave s det y) := by
  unfold handleMouseLeave
  simp only
  split
  · exact handleInv_store s _ h
  · split
    · obtain ⟨x, hx, hxid, hxl⟩ := hlisten
      have hh : s.desktopCleanup = some det.id := by
        rw [← hxid]; exact h.desktop_handle x hx hxl
      rw [fire_desktop_eq s _ _ det.id hh]
      have hoff := handleInv_desktopCleanupFn s det.id h
      refine handleInv_record (desktopCleanupFn s det.id)
        (markExitIntentShown s.now (hasSeenExitIntentRecently s.now s.store).2)
        s.now det.callback det.id hoff (h.desktop_lt det hmem) ?_ ?_ ?_
      · intro z hz hzid
        simp only [desktopCleanupFn, List.mem_map] at hz
        obtain ⟨w, hw, rfl⟩ := hz
        split
        · rfl
        · rename_i hne
          rw [if_neg hne] at hzid
          exact absurd hzid hne
      · intro z hz hzid
        exact absurd hzid.symm (h.kinds_apart det hmem z hz)
      · intro inv hinv heq
        have := h.invoked_desktop inv hinv x hx (by rw [hxid, heq])
        rw [hxl] at this
        simp at this
    · exact handleInv_store s _ h

theorem handleInv_throttledHandler (s : State) (d : Nat) (y : Int) (h : HandleInv s)
    (hlisten : ∃ x ∈ s.desktop, x.id = d ∧ x.listening = true) :
    HandleInv (throttledHandler s d y) := by
  unfold throttledHandler
  split
  · exact h
  · rename_i det hfind
    obtain ⟨hmem, hid⟩ := find?_id_some (fun m : DesktopDetector => m.id) s.desktop d det hfind
    split
    · exact h
    · simp only
      apply handleInv_setTimeout_reset
      apply handleInv_setInThrottle
      exact handleInv_handleMouseLeave s det y h hmem (by rw [hid]; exact hlisten)

theorem handleInv_dispatchMouseLeave (s : State) (y : Int) (h : HandleInv s) :
    HandleInv (dispatchMouseLeave s y) := by
  unfold dispatchMouseLeave
  apply foldl_preserves HandleInv _ _ _ s h
  intro st d hst
  split
  · rename_i hany
    simp only [List.any_eq_true, Bool.and_eq_true, beq_iff_eq] at hany
    exact handleInv_throttledHandler st d y hst hany
  · exact hst

theorem handleInv_resetTimer (s : State) (d : Nat) (h : HandleInv s)
    (hlisten : ∃ x ∈ s.mobile, x.id = d ∧ x.listening = true) :
    HandleInv (resetTimer s d) := by
  unfold resetTimer
  split
  · exact h
  · rename_i det hfind
    obtain ⟨hmem, hid⟩ := find?_id_some (fun m : MobileDetector => m.id) s.mobile d det hfind
    have hc := handleInv_clearTimeout s det.timer h
    obtain ⟨e1, e2, e3, e4, e5, e6, e7⟩ := clearTimeout_rest s det.timer
    obtain ⟨h1, h2, h3, h4, h5, h6, h7, h8, h9, h10, h11⟩ := hc
    simp only [setTimeout]
    constructor
    · exact h1
    · intro x hx hl
      simp only [List.mem_map] at hx
      obtain ⟨z, hz, rfl⟩ := hx
      split at hl <;> split <;> exact h2 z hz hl
    · intro t ht d2 hk
      simp only [List.mem_append, List.mem_singleton] at ht
      rcases ht with ht | ht
      · have ht2 := (mem_timers_clearTimeout s det.timer t).1 ht
        obtain ⟨⟨z, hz, hzid, hzl⟩, hall⟩ := h.inactivity_owner t ht2.1 d2 hk
        have hne : d2 ≠ d := by
          intro heq
          exact ht2.2 (hall det hmem (by rw [hid, heq]))
        constructor
        · refine ⟨z, ?_, hzid, hzl⟩
          simp only [List.mem_map]
          refine ⟨z, by rw [e2]; exact hz, ?_⟩
          rw [if_neg (by rw [hzid]; exact hne)]
        · intro x hx hxid
          simp only [List.mem_map] at hx
          obtain ⟨w, hw, rfl⟩ := hx
          by_cases hwd : w.id = d
          · rw [if_pos hwd] at hxid
            exact absurd (hxid.symm.trans hwd) hne
          · rw [if_neg hwd] at hxid ⊢
            exact hall w (by rw [← e2]; exact hw) hxid
      · subst ht
        simp only [TimerKind.inactivity.injEq] at hk
        subst hk
        obtain ⟨z, hz, hzid, hzl⟩ := hlisten
        constructor
        · refine ⟨{ z with timer := some (clearTimeout s det.timer).nextId }, ?_, hzid, hzl⟩
          simp only [List.mem_map]
          exact ⟨z, by rw [e2]; exact hz, by rw [if_pos hzid]⟩
        · intro x hx hxid
          simp only [List.mem_map] at hx
          obtain ⟨w, hw, rfl⟩ := hx
          by_cases hwd : w.id = d
          · rw [if_pos hwd]
          · rw [if_neg hwd] at hxid
            exact absurd hxid hwd
    · intro t ht cb hk
      simp only [List.mem_append, List.mem_singleton] at ht
      rcases ht with ht | ht
      · obtain ⟨a, b, c⟩ := h4 t ht cb hk
        refine ⟨a, b, ?_⟩
        intro x hx
        simp only [List.mem_map] at hx
        obtain ⟨w, hw, rfl⟩ := hx
        split <;> exact c w hw
      · subst ht
        simp at hk
    · intro x hx
      exact Nat.lt_succ_of_lt (h5 x hx)
    · intro x hx
      simp only [List.mem_map] at hx
      obtain ⟨w, hw, rfl⟩ := hx
      split <;> exact Nat.lt_succ_of_lt (h6 w hw)
    · intro a ha b hb
      simp only [List.mem_map] at hb
      obtain ⟨w, hw, rfl⟩ := hb
      split <;> exact h7 a ha w hw
    · intro inv hinv
      exact Nat.lt_succ_of_lt (h8 inv hinv)
    · exact h9
    · intro inv hinv x hx hxid
      simp only [List.mem_map] at hx
      obtain ⟨w, hw, rfl⟩ := hx
      split at hxid <;> split <;> exact h10 inv hinv w hw hxid
    · exact h11

theorem handleInv_dispatchActivity (s : State) (h : HandleInv s) :
    HandleInv (dispatchActivity s) := by
  unfold dispatchActivity
  apply foldl_preserves HandleInv _ _ _ s h
  intro st d hst
  split
  · rename_i hany
    simp only [List.any_eq_true, Bool.and_eq_true, beq_iff_eq] at hany
    exact handleInv_resetTimer st d hst hany
  · exact hst

theorem mobileCleanupFn_of_find (s : State) (d : Nat) (det : MobileDetector)
    (h : s.mobile.find? (fun m => m.id == d) = some det) :
    mobileCleanupFn s d =
      { clearTimeout s det.timer with
        mobile := s.mobile.map
          (fun m => if m.id = d then { m with listening := false } else m) } := by
  unfold mobileCleanupFn
  rw [h]
  simp only [(clearTimeout_rest s det.timer).2.1]

theorem fire_mobile_eq (s : State) (x : Storage) (l : List Invocation) (d : Nat)
    (h : s.mobileCleanup = some d) :
    callMobileCleanup { s with store := x, invoked := l } =
      { mobileCleanupFn s d with store := x, invoked := l } := by
  have h2 : ({ s with store := x, invoked := l } : State).mobileCleanup = some d := h
  rw [callMobileCleanup_of _ d h2]
  unfold mobileCleanupFn
  simp only
  cases s.mobile.find? (fun m => m.id == d) with
  | none => rfl
  | some det =>
    simp only
    cases det.timer <;> rfl

theorem handleInv_triggerCallback (s : State) (d : Nat) (h : HandleInv s)
    (hlisten : ∃ x ∈ s.mobile, x.id = d ∧ x.listening = true) :
    HandleInv (triggerCallback s d) := by
  unfold triggerCallback
  split
  · exact h
  · rename_i det hfind
    obtain ⟨hmem, hid⟩ := find?_id_some (fun m : MobileDetector => m.id) s.mobile d det hfind
    simp only
    split
    · exact handleInv_store s _ h
    · obtain ⟨x, hx, hxid, hxl⟩ := hlisten
      have hh : s.mobileCleanup = some d := by
        rw [← hxid]; exact h.mobile_handle x hx hxl
      rw [fire_mobile_eq s _ _ d hh, hid]
      have hoff := handleInv_mobileCleanupFn s d h
      have hform := mobileCleanupFn_of_find s d det hfind
      obtain ⟨e1, e2, e3, e4, e5, e6, e7⟩ := clearTimeout_rest s det.timer
      have hinvk : (mobileCleanupFn s d).invoked = s.invoked := by rw [hform]; exact e7
      have key : ∀ p1 p2 p3 p4, _ := handleInv_record (mobileCleanupFn s d)
        (markExitIntentShown s.now (hasSeenExitIntentRecently s.now s.store).2)
        s.now det.callback d hoff
      rw [hinvk] at key
      refine key ?_ ?_ ?_ ?_
      · rw [hform]
        show d < (clearTimeout s det.timer).nextId
        rw [e6, ← hid]
        exact h.mobile_lt det hmem
      · rw [hform]
        intro z hz hzid
        have hz2 : z ∈ s.desktop := by rw [← e1]; exact hz
        exact absurd (hzid.trans hid.symm) (h.kinds_apart z hz2 det hmem)
      · rw [hform]
        intro z hz hzid
        simp only [List.mem_map] at hz
        obtain ⟨w, hw, rfl⟩ := hz
        split
        · rfl
        · rename_i hne
          rw [if_neg hne] at hzid
          exact absurd hzid hne
      · intro inv hinv heq
        have := h.invoked_mobile inv hinv x hx (by rw [hxid, heq])
        rw [hxl] at this
        simp at this

theorem not_listening_of_quiet {l : List MobileDetector}
    (q : ∀ det ∈ l, det.listening = false) (x : MobileDetector) (hx : x ∈ l)
    (hl : x.listening = true) : False := by
  have := q x hx
  rw [hl] at this
  simp at this

theorem resetTimer_comm_handle (s : State) (d : Nat) (hd : Option Nat) :
    { resetTimer s d with mobileCleanup := hd } = resetTimer { s with mobileCleanup := hd } d := by
  unfold resetTimer
  simp only
  cases s.mobile.find? (fun m => m.id == d) with
  | none => rfl
  | some det =>
    simp only
    cases det.timer <;> rfl

theorem handleInv_delayElapsed (s : State) (cb : Nat) (h : HandleInv s) (q : Quiet s) :
    HandleInv (delayElapsed s cb) := by
  obtain ⟨q1, q2, q3⟩ := q
  obtain ⟨h1, h2, h3, h4, h5, h6, h7, h8, h9, h10, h11⟩ := h
  unfold delayElapsed
  split
  · simp only [setupMobileExitDetection]
    rw [resetTimer_comm_handle]
    apply handleInv_resetTimer
    · constructor
      · exact h1
      · intro x hx hl
        simp only [List.mem_append, List.mem_singleton] at hx
        rcases hx with hx | hx
        · exact (not_listening_of_quiet q2 x hx hl).elim
        · subst hx; rfl
      · intro t ht d hk
        obtain ⟨⟨z, hz, _, hzl⟩, _⟩ := h3 t ht d hk
        exact (not_listening_of_quiet q2 z hz hzl).elim
      · intro t ht cb2 hk
        exact absurd hk (q3 t ht cb2)
      · intro x hx
        exact Nat.lt_succ_of_lt (h5 x hx)
      · intro x hx
        simp only [List.mem_append, List.mem_singleton] at hx
        rcases hx with hx | hx
        · exact Nat.lt_succ_of_lt (h6 x hx)
        · subst hx; exact Nat.lt_succ_self _
      · intro a ha b hb
        simp only [List.mem_append, List.mem_singleton] at hb
        rcases hb with hb | hb
        · exact h7 a ha b hb
        · subst hb; exact Nat.ne_of_lt (h5 a ha)
      · intro inv hinv
        exact Nat.lt_succ_of_lt (h8 inv hinv)
      · exact h9
      · intro inv hinv x hx hxid
        simp only [List.mem_append, List.mem_singleton] at hx
        rcases hx with hx | hx
        · exact h10 inv hinv x hx hxid
        · subst hx
          exact absurd hxid (Nat.ne_of_gt (h8 inv hinv))
      · exact h11
    · exact ⟨_, List.mem_append_right _ (List.mem_singleton_self _), rfl, rfl⟩
  · simp only [setupDesktopExitDetection]
    constructor
    · intro x hx hl
      simp only [List.mem_append, List.mem_singleton] at hx
      rcases hx with hx | hx
      · have := q1 x hx
        rw [hl] at this
        simp at this
      · subst hx; rfl
    · exact h2
    · exact h3
    · intro t ht cb2 hk
      exact absurd hk (q3 t ht cb2)
    · intro x hx
      simp only [List.mem_append, List.mem_singleton] at hx
      rcases hx with hx | hx
      · exact Nat.lt_succ_of_lt (h5 x hx)
      · subst hx; exact Nat.lt_succ_self _
    · intro x hx
      exact Nat.lt_succ_of_lt (h6 x hx)
    · intro a ha b hb
      simp only [List.mem_append, List.mem_singleton] at ha
      rcases ha with ha | ha
      · exact h7 a ha b hb
      · subst ha; exact Nat.ne_of_gt (h6 b hb)
    · intro inv hinv
      exact Nat.lt_succ_of_lt (h8 inv hinv)
    · intro inv hinv x hx hxid
      simp only [List.mem_append, List.mem_singleton] at hx
      rcases hx with hx | hx
      · exact h9 inv hinv x hx hxid
      · subst hx
        exact absurd hxid (Nat.ne_of_gt (h8 inv hinv))
    · exact h10
    · exact h11

theorem handleInv_timerExpires (s : State) (id : Nat) (h : HandleInv s) :
    HandleInv (timerExpires s id) := by
  unfold timerExpires
  split
  · exact h
  · rename_i t hfind
    obtain ⟨hmem, hid⟩ := find?_id_some (fun x : Timer => x.id) s.timers id t hfind
    split
    · have hc : HandleInv { s with timers := s.timers.filter (fun x => x.id != id) } :=
        handleInv_clearTimeout s (some id) h
      cases hk : t.kind with
      | initDelay cb =>
        refine handleInv_delayElapsed _ cb hc ⟨?_, ?_, ?_⟩
        · exact (h.delay_pending t hmem cb hk).2.1
        · exact (h.delay_pending t hmem cb hk).2.2
        · intro t2 ht2 cb2 hk2
          simp only [List.mem_filter, bne_iff_ne, ne_eq] at ht2
          have e1 := (h.delay_pending t hmem cb hk).1
          have e2 := (h.delay_pending t2 ht2.1 cb2 hk2).1
          rw [e1] at e2
          exact ht2.2 ((Option.some.inj e2).symm.trans hid)
      | throttleReset d => exact handleInv_setInThrottle _ d false hc
      | inactivity d =>
        exact handleInv_triggerCallback _ d hc (h.inactivity_owner t hmem d hk).1
    · exact h

theorem handleInv_step (s : State) (a : Action) (h : HandleInv s) : HandleInv (step s a) := by
  cases a with
  | initializeExitIntent cb => exact handleInv_initialize s cb h
  | cleanupExitIntent => exact handleInv_cleanupExitIntent s h
  | reload => exact handleInv_reload s h
  | advance d =>
    obtain ⟨h1, h2, h3, h4, h5, h6, h7, h8, h9, h10, h11⟩ := h
    exact ⟨h1, h2, h3, h4, h5, h6, h7, h8, h9, h10, h11⟩
  | mouseleave y => exact handleInv_dispatchMouseLeave s y h
  | activity k => exact handleInv_dispatchActivity s h
  | timer id => exact handleInv_timerExpires s id h
  | resize w =>
    obtain ⟨h1, h2, h3, h4, h5, h6, h7, h8, h9, h10, h11⟩ := h
    exact ⟨h1, h2, h3, h4, h5, h6, h7, h8, h9, h10, h11⟩
  | setAgent ua =>
    obtain ⟨h1, h2, h3, h4, h5, h6, h7, h8, h9, h10, h11⟩ := h
    exact ⟨h1, h2, h3, h4, h5, h6, h7, h8, h9, h10, h11⟩

theorem handleInv_run (acts : List Action) (s : State) (h : HandleInv s) :
    HandleInv (run s acts) := by
  induction acts generalizing s with
  | nil => exact h
  | cons a as ih => exact ih _ (handleInv_step s a h)

theorem hasSeen_true_store (now : Nat) (st : Storage)
    (h : (hasSeenExitIntentRecently now st).1 = true) :
    (hasSeenExitIntentRecently now st).2 = st := by
  match st with
  | none => simp [hasSeenExitIntentRecently] at h
  | some .empty => rfl
  | some .malformed => simp [hasSeenExitIntentRecently] at h
  | some (.json item) =>
    cases hr : readExpiry item with
    | none => simp [hasSeenExitIntentRecently, hr] at h
    | some e =>
      by_cases hgt : jsGt now (toNumber e) = true
      · simp [hasSeenExitIntentRecently, hr, hgt] at h
      · simp [hasSeenExitIntentRecently, hr, hgt]

/-- C9: when a pointer-leave event passes the throttle gate of the handler a desktop
detector has registered, then, the store not being suppressed, the callback is invoked (once,
at that moment, for that detector) if and only if `clientY ≤ 5`; and, the store being
suppressed, for every `clientY` no callback is invoked, the store is left as it is and every
listener stays registered (`handleMouseLeave` returns at once). -/
theorem c9_top_edge_band (s : State) (d : Nat) (det : DesktopDetector) (clientY : Int)
    (hfind : s.desktop.find? (fun x => x.id == d) = some det)
    (hgate : det.inThrottle = false) :
    ((hasSeenExitIntentRecently s.now s.store).1 = false →
      ((throttledHandler s d clientY).invoked =
          s.invoked ++ [{ time := s.now, callback := det.callback, detector := det.id }] ↔
        clientY ≤ 5) ∧
      (¬ clientY ≤ 5 → (throttledHandler s d clientY).invoked = s.invoked)) ∧
    ((hasSeenExitIntentRecently s.now s.store).1 = true →
      handleMouseLeave s det clientY = s ∧
      (throttledHandler s d clientY).invoked = s.invoked ∧
      (throttledHandler s d clientY).store = s.store ∧
      (throttledHandler s d clientY).desktop.map (fun x => (x.id, x.listening)) =
        s.desktop.map (fun x => (x.id, x.listening))) := by
  have hth : throttledHandler s d clientY =
      (setTimeout { handleMouseLeave s det clientY with
        desktop := (handleMouseLeave s det clientY).desktop.map
          (fun x => if x.id = d then { x with inThrottle := true } else x) }
        det.throttleLimit (.throttleReset d)).1 := by
    unfold throttledHandler
    rw [hfind]
    simp only [hgate, Bool.false_eq_true, if_false]
  have hinv : (throttledHandler s d clientY).invoked = (handleMouseLeave s det clientY).invoked := by
    rw [hth]; rfl
  constructor
  · intro hns
    have hcase : (handleMouseLeave s det clientY).invoked =
        if clientY ≤ 5 then
          s.invoked ++ [{ time := s.now, callback := det.callback, detector := det.id }]
        else s.invoked := by
      unfold handleMouseLeave
      simp only [hns, Bool.false_eq_true, if_false]
      split
      · have := core_callDesktopCleanup
          { s with
            store := markExitIntentShown s.now (hasSeenExitIntentRecently s.now s.store).2,
            invoked := s.invoked ++
              [{ time := s.now, callback := det.callback, detector := det.id }] }
        exact congrArg (fun c => c.2.2) this
      · rfl
    rw [hinv, hcase]
    constructor
    · constructor
      · intro h
        by_contra hy
        rw [if_neg hy] at h
        have := congrArg List.length h
        simp at this
      · intro hy
        rw [if_pos hy]
    · intro hy
      rw [if_neg hy]
  · intro hsup
    have hm : handleMouseLeave s det clientY = s := by
      unfold handleMouseLeave
      simp only [hsup, if_true]
      rw [hasSeen_true_store s.now s.store hsup]
    refine ⟨hm, ?_, ?_, ?_⟩
    · rw [hinv, hm]
    · rw [hth, hm]; rfl
    · rw [hth, hm]
      simp only [setTimeout, List.map_map]
      apply List.map_congr_left
      intro x _
      simp only [Function.comp]
      split <;> rfl

theorem c9_top_edge_band_witness :
    (run (State.initial 0 none none 1920)
        [.initializeExitIntent 7, .advance 10000, .timer 1]).desktop.find?
        (fun x => x.id == 2) =
      some { id := 2, callback := 7, throttleLimit := 200, inThrottle := false,
             listening := true } ∧
    (throttledHandler (run (State.initial 0 none none 1920)
        [.initializeExitIntent 7, .advance 10000, .timer 1]) 2 2).invoked =
      [{ time := 10000, callback := 7, detector := 2 }] ∧
    (throttledHandler (run (State.initial 0 none none 1920)
        [.initializeExitIntent 7, .advance 10000, .timer 1]) 2 6).invoked = [] :=
  ⟨by decide,
   ((c9_top_edge_band (run (State.initial 0 none none 1920)
        [.initializeExitIntent 7, .advance 10000, .timer 1]) 2
      { id := 2, callback := 7, throttleLimit := 200, inThrottle := false, listening := true }
      2 (by decide) rfl).1 (by decide)).1.2 (by decide),
   ((c9_top_edge_band (run (State.initial 0 none none 1920)
        [.initializeExitIntent 7, .advance 10000, .timer 1]) 2
      { id := 2, callback := 7, throttleLimit := 200, inThrottle := false, listening := true }
      6 (by decide) rfl).1 (by decide)).2 (by decide)⟩

/-- One shot per installation, when every callback returns.  An installation is the set of
closures made by one `setup…ExitDetection` call, which the delay timer of one
`initializeExitIntent` call runs once.  Along every sequence of steps of `run` no
installation appears twice in the record of invocations, however much time passes: a
detector that has invoked its callback has no listener registered and no inactivity timer
pending any more, because the handle consulted when it fired was its own cleanup (every
registered listener and every pending inactivity timer belongs to the detector held in the
module-level handle). -/
theorem one_shot_when_callbacks_return (t0 : Nat) (store : Storage)
    (userAgent : Option String) (innerWidth : Nat) (acts : List Action) :
    ((run (State.initial t0 store userAgent innerWidth) acts).invoked.map
      (fun inv => inv.detector)).Nodup ∧
    (∀ inv ∈ (run (State.initial t0 store userAgent innerWidth) acts).invoked,
      (∀ det ∈ (run (State.initial t0 store userAgent innerWidth) acts).desktop,
        det.id = inv.detector → det.listening = false) ∧
      (∀ det ∈ (run (State.initial t0 store userAgent innerWidth) acts).mobile,
        det.id = inv.detector → det.listening = false) ∧
      (∀ t ∈ (run (State.initial t0 store userAgent innerWidth) acts).timers,
        t.kind ≠ .inactivity inv.detector)) ∧
    (∀ det ∈ (run (State.initial t0 store userAgent innerWidth) acts).desktop,
      det.listening = true →
        (run (State.initial t0 store userAgent innerWidth) acts).desktopCleanup = some det.id) ∧
    (∀ det ∈ (run (State.initial t0 store userAgent innerWidth) acts).mobile,
      det.listening = true →
        (run (State.initial t0 store userAgent innerWidth) acts).mobileCleanup = some det.id) ∧
    (∀ t ∈ (run (State.initial t0 store userAgent innerWidth) acts).timers,
      ∀ d, t.kind = .inactivity d →
        (run (State.initial t0 store userAgent innerWidth) acts).mobileCleanup = some d) := by
  have h := handleInv_run acts _ (handleInv_initial t0 store userAgent innerWidth)
  generalize run (State.initial t0 store userAgent innerWidth) acts = s at h ⊢
  refine ⟨h.invoked_nodup, ?_, h.desktop_handle, h.mobile_handle, ?_⟩
  · intro inv hinv
    refine ⟨h.invoked_desktop inv hinv, h.invoked_mobile inv hinv, ?_⟩
    intro t ht hk
    obtain ⟨⟨z, hz, hzid, hzl⟩, _⟩ := h.inactivity_owner t ht inv.detector hk
    have := h.invoked_mobile inv hinv z hz hzid
    rw [hzl] at this
    simp at this
  · intro t ht d hk
    obtain ⟨⟨z, hz, hzid, hzl⟩, _⟩ := h.inactivity_owner t ht d hk
    rw [← hzid]
    exact h.mobile_handle z hz hzl

/-! ## Cleanup and the delay callback -/

theorem cleanup_of_null (s : State) (h1 : s.desktopCleanup = none) (h2 : s.mobileCleanup = none)
    (h3 : s.initialDelayTimer = none) : cleanupExitIntent s = s := by
  unfold cleanupExitIntent callDesktopCleanup
  simp only [h1]
  unfold callMobileCleanup
  simp only [h2]
  unfold clearInitialDelay
  simp only [h3, clearTimeout]
  cases s
  simp_all

theorem cleanup_handles (s : State) :
    (cleanupExitIntent s).desktopCleanup = none ∧ (cleanupExitIntent s).mobileCleanup = none ∧
    (cleanupExitIntent s).initialDelayTimer = none := ⟨rfl, rfl, rfl⟩

/-- C16: `cleanupExitIntent` applied twice gives the same state as applied once, for every
state; and applied to the idle state of a freshly loaded page it changes nothing.  The
function is total: it has no step that can throw. -/
theorem c16_cleanup_idempotent (s : State) (t0 : Nat) (store : Storage)
    (userAgent : Option String) (innerWidth : Nat) :
    cleanupExitIntent (cleanupExitIntent s) = cleanupExitIntent s ∧
    cleanupExitIntent (State.initial t0 store userAgent innerWidth) =
      State.initial t0 store userAgent innerWidth :=
  ⟨cleanup_of_null _ rfl rfl rfl, cleanup_of_null _ rfl rfl rfl⟩

/-- C15 (the code at the failing input): a desktop detector is armed at 10 s, a pointer-leave
event with `clientY = 100` passes the throttle gate at once, and `cleanupExitIntent` is
called within the 200 ms of the gate: the listener is removed and the three handles are
cleared, but the reset timer scheduled by `throttle` is still pending. -/
theorem c15_throttle_timer_survives_cleanup :
    (run (State.initial 0 none none 1920)
      [.initializeExitIntent 7, .advance 10000, .timer 1, .mouseleave 100,
       .cleanupExitIntent]).timers =
      [{ id := 3, due := 10200, kind := .throttleReset 2 }] ∧
    (run (State.initial 0 none none 1920)
      [.initializeExitIntent 7, .advance 10000, .timer 1, .mouseleave 100,
       .cleanupExitIntent]).desktop =
      [{ id := 2, callback := 7, throttleLimit := 200, inThrottle := true,
         listening := false }] ∧
    (run (State.initial 0 none none 1920)
      [.initializeExitIntent 7, .advance 10000, .timer 1, .mouseleave 100,
       .cleanupExitIntent]).desktopCleanup = none := by
  decide

/-! ## What the operations leave in place -/

theorem steady_refl (s : State) : Steady s s :=
  ⟨rfl, rfl, rfl, rfl, rfl, fun x hx hl => ⟨x, hx, rfl, hl⟩, fun x hx hl => ⟨x, hx, rfl, hl⟩,
    Nat.le_refl _, fun _ ht => Or.inl ht, id⟩

theorem steady_trans {a b c : State} (h1 : Steady a b) (h2 : Steady b c) : Steady a c := by
  constructor
  · rw [h2.now_eq, h1.now_eq]
  · rw [h2.agent_eq, h1.agent_eq]
  · rw [h2.width_eq, h1.width_eq]
  · rw [h2.desktop_sig, h1.desktop_sig]
  · rw [h2.mobile_sig, h1.mobile_sig]
  · intro x hx hl
    obtain ⟨y, hy, hyid, hyl⟩ := h2.desktop_listen x hx hl
    obtain ⟨z, hz, hzid, hzl⟩ := h1.desktop_listen y hy hyl
    exact ⟨z, hz, hzid.trans hyid, hzl⟩
  · intro x hx hl
    obtain ⟨y, hy, hyid, hyl⟩ := h2.mobile_listen x hx hl
    obtain ⟨z, hz, hzid, hzl⟩ := h1.mobile_listen y hy hyl
    exact ⟨z, hz, hzid.trans hyid, hzl⟩
  · exact Nat.le_trans h1.next_le h2.next_le
  · intro t ht
    rcases h2.timers_new t ht with h | ⟨h, hk⟩
    · rcases h1.timers_new t h with h3 | ⟨h3, hk3⟩
      · exact Or.inl h3
      · exact Or.inr ⟨h3, hk3⟩
    · exact Or.inr ⟨Nat.le_trans h1.next_le h, hk⟩
  · exact fun h => h2.timers_ok (h1.timers_ok h)

theorem timersOk_filter (s : State) (p : Timer → Bool) (h : TimersOk s) :
    TimersOk { s with timers := s.timers.filter p } := by
  refine ⟨fun t ht => h.1 t (List.mem_of_mem_filter ht), ?_⟩
  exact List.Nodup.sublist (List.Sublist.map _ (List.filter_sublist _)) h.2

theorem steady_clearTimeout (s : State) (id : Option Nat) : Steady s (clearTimeout s id) := by
  cases id with
  | none => exact steady_refl s
  | some i =>
    exact ⟨rfl, rfl, rfl, rfl, rfl, fun x hx hl => ⟨x, hx, rfl, hl⟩,
      fun x hx hl => ⟨x, hx, rfl, hl⟩, Nat.le_refl _,
      fun t ht => Or.inl (List.mem_of_mem_filter ht), timersOk_filter s _⟩

theorem steady_desktopCleanupFn (s : State) (d : Nat) : Steady s (desktopCleanupFn s d) := by
  refine ⟨rfl, rfl, rfl, ?_, rfl, ?_, fun x hx hl => ⟨x, hx, rfl, hl⟩, Nat.le_refl _,
    fun _ ht => Or.inl ht, id⟩
  · simp only [desktopCleanupFn, List.map_map]
    apply List.map_congr_left
    intro x _
    simp only [Function.comp]
    split <;> rfl
  · intro x hx hl
    simp only [desktopCleanupFn, List.mem_map] at hx
    obtain ⟨y, hy, rfl⟩ := hx
    split at hl
    · simp at hl
    · rename_i hne
      exact ⟨y, hy, by rw [if_neg hne], hl⟩

theorem steady_mobileOff (s : State) (d : Nat) :
    Steady s { s with
      mobile := s.mobile.map (fun m => if m.id = d then { m with listening := false } else m) } := by
  refine ⟨rfl, rfl, rfl, rfl, ?_, fun x hx hl => ⟨x, hx, rfl, hl⟩, ?_, Nat.le_refl _,
    fun _ ht => Or.inl ht, id⟩
  · simp only [List.map_map]
    apply List.map_congr_left
    intro x _
    simp only [Function.comp]
    split <;> rfl
  · intro x hx hl
    simp only [List.mem_map] at hx
    obtain ⟨y, hy, rfl⟩ := hx
    split at hl
    · simp at hl
    · rename_i hne
      exact ⟨y, hy, by rw [if_neg hne], hl⟩

theorem steady_mobileCleanupFn (s : State) (d : Nat) : Steady s (mobileCleanupFn s d) := by
  unfold mobileCleanupFn
  split
  · exact steady_refl s
  · exact steady_trans (steady_clearTimeout s _) (steady_mobileOff _ d)

theorem steady_callDesktopCleanup (s : State) : Steady s (callDesktopCleanup s) := by
  unfold callDesktopCleanup
  split
  · exact steady_refl s
  · exact steady_desktopCleanupFn s _

theorem steady_callMobileCleanup (s : State) : Steady s (callMobileCleanup s) := by
  unfold callMobileCleanup
  split
  · exact steady_refl s
  · exact steady_mobileCleanupFn s _

theorem steady_teardown (s : State) :
    Steady s (clearInitialDelay (callMobileCleanup (callDesktopCleanup s))) :=
  steady_trans (steady_trans (steady_callDesktopCleanup s) (steady_callMobileCleanup _))
    (steady_clearTimeout _ _)

theorem steady_fields (s : State) (x : Storage) (l : List Invocation) (h1 h2 h3 : Option Nat) :
    Steady s { s with store := x, invoked := l, desktopCleanup := h1, mobileCleanup := h2,
                      initialDelayTimer := h3 } :=
  ⟨rfl, rfl, rfl, rfl, rfl, fun y hy hl => ⟨y, hy, rfl, hl⟩, fun y hy hl => ⟨y, hy, rfl, hl⟩,
    Nat.le_refl _, fun _ ht => Or.inl ht, id⟩

theorem steady_store (s : State) (x : Storage) : Steady s { s with store := x } :=
  steady_fields s x s.invoked s.desktopCleanup s.mobileCleanup s.initialDelayTimer

theorem steady_cleanupExitIntent (s : State) : Steady s (cleanupExitIntent s) := by
  unfold cleanupExitIntent
  exact steady_trans (steady_teardown s) (steady_fields _ _ _ none none none)

theorem steady_handleMouseLeave (s : State) (det : DesktopDetector) (y : Int) :
    Steady s (handleMouseLeave s det y) := by
  unfold handleMouseLeave
  simp only
  split
  · exact steady_store s _
  · split
    · exact steady_trans
        (steady_fields s (markExitIntentShown s.now (hasSeenExitIntentRecently s.now s.store).2)
          (s.invoked ++ [{ time := s.now, callback := det.callback, detector := det.id }])
          s.desktopCleanup s.mobileCleanup s.initialDelayTimer)
        (steady_callDesktopCleanup _)
    · exact steady_store s _

theorem steady_setInThrottle (s : State) (d : Nat) (b : Bool) :
    Steady s { s with
      desktop := s.desktop.map (fun x => if x.id = d then { x with inThrottle := b } else x) } := by
  refine ⟨rfl, rfl, rfl, ?_, rfl, ?_, fun x hx hl => ⟨x, hx, rfl, hl⟩, Nat.le_refl _,
    fun _ ht => Or.inl ht, id⟩
  · simp only [List.map_map]
    apply List.map_congr_left
    intro x _
    simp only [Function.comp]
    split <;> rfl
  · intro x hx hl
    simp only [List.mem_map] at hx
    obtain ⟨y, hy, rfl⟩ := hx
    refine ⟨y, hy, ?_, ?_⟩
    · split <;> rfl
    · split at hl <;> exact hl

theorem steady_setTimeout (s : State) (delay : Nat) (kind : TimerKind)
    (hk : ∀ c, kind ≠ .initDelay c) : Steady s (setTimeout s delay kind).1 := by
  refine ⟨rfl, rfl, rfl, rfl, rfl, fun x hx hl => ⟨x, hx, rfl, hl⟩,
    fun x hx hl => ⟨x, hx, rfl, hl⟩, Nat.le_succ _, ?_, ?_⟩
  · intro t ht
    simp only [setTimeout, List.mem_append, List.mem_singleton] at ht
    rcases ht with ht | ht
    · exact Or.inl ht
    · subst ht
      exact Or.inr ⟨Nat.le_refl _, hk⟩
  · intro h
    constructor
    · intro t ht
      simp only [setTimeout, List.mem_append, List.mem_singleton] at ht
      rcases ht with ht | ht
      · exact Nat.lt_succ_of_lt (h.1 t ht)
      · subst ht
        exact Nat.lt_succ_self _
    · simp only [setTimeout, List.map_append, List.map_cons, List.map_nil]
      rw [List.nodup_append]
      refine ⟨h.2, List.nodup_singleton _, ?_⟩
      intro a ha hb
      simp only [List.mem_singleton] at hb
      simp only [List.mem_map] at ha
      obtain ⟨t, ht, rfl⟩ := ha
      have := h.1 t ht
      omega

theorem steady_throttledHandler (s : State) (d : Nat) (y : Int) :
    Steady s (throttledHandler s d y) := by
  unfold throttledHandler
  split
  · exact steady_refl s
  · split
    · exact steady_refl s
    · simp only
      exact steady_trans (steady_trans (steady_handleMouseLeave s _ y) (steady_setInThrottle _ d true))
        (steady_setTimeout _ _ _ (fun c hc => by simp at hc))

theorem steady_dispatchMouseLeave (s : State) (y : Int) : Steady s (dispatchMouseLeave s y) := by
  unfold dispatchMouseLeave
  apply foldl_preserves (fun st => Steady s st) _ _ _ s (steady_refl s)
  intro st d hst
  split
  · exact steady_trans hst (steady_throttledHandler st d y)
  · exact hst


theorem steady_mobileTimer (s : State) (d : Nat) (v : Option Nat) :
    Steady s { s with
      mobile := s.mobile.map (fun m => if m.id = d then { m with timer := v } else m) } := by
  refine ⟨rfl, rfl, rfl, rfl, ?_, fun x hx hl => ⟨x, hx, rfl, hl⟩, ?_, Nat.le_refl _,
    fun _ ht => Or.inl ht, id⟩
  · simp only [List.map_map]
    apply List.map_congr_left
    intro x _
    simp only [Function.comp]
    split <;> rfl
  · intro x hx hl
    simp only [List.mem_map] at hx
    obtain ⟨y, hy, rfl⟩ := hx
    refine ⟨y, hy, ?_, ?_⟩
    · split <;> rfl
    · split at hl <;> exact hl

theorem steady_resetTimer (s : State) (d : Nat) : Steady s (resetTimer s d) := by
  unfold resetTimer
  split
  · exact steady_refl s
  · simp only
    exact steady_trans (steady_trans (steady_clearTimeout s _)
      (steady_setTimeout _ _ _ (fun c hc => by simp at hc))) (steady_mobileTimer _ d _)

theorem steady_dispatchActivity (s : State) : Steady s (dispatchActivity s) := by
  unfold dispatchActivity
  apply foldl_preserves (fun st => Steady s st) _ _ _ s (steady_refl s)
  intro st d hst
  split
  · exact steady_trans hst (steady_resetTimer st d)
  · exact hst

theorem steady_triggerCallback (s : State) (d : Nat) : Steady s (triggerCallback s d) := by
  unfold triggerCallback
  split
  · exact steady_refl s
  · rename_i det _
    simp only
    split
    · exact steady_store s _
    · exact steady_trans
        (steady_fields s (markExitIntentShown s.now (hasSeenExitIntentRecently s.now s.store).2)
          (s.invoked ++ [{ time := s.now, callback := det.callback, detector := det.id }])
          s.desktopCleanup s.mobileCleanup s.initialDelayTimer)
        (steady_callMobileCleanup _)

/-- The clock never runs backwards. -/
theorem step_now_ge (s : State) (a : Action) : s.now ≤ (step s a).now := by
  cases a with
  | initializeExitIntent cb =>
    have h := congrArg (fun c => c.1) (core_clearInitialDelay (callMobileCleanup (callDesktopCleanup s)))
    have h2 := congrArg (fun c => c.1) (core_callMobileCleanup (callDesktopCleanup s))
    have h3 := congrArg (fun c => c.1) (core_callDesktopCleanup s)
    simp only [State.core] at h h2 h3
    show s.now ≤ (initializeExitIntent s cb).now
    unfold initializeExitIntent
    simp only
    split
    · simp only [h, h2, h3]; exact Nat.le_refl _
    · simp only [setTimeout, h, h2, h3]; exact Nat.le_refl _
  | cleanupExitIntent => exact Nat.le_of_eq (steady_cleanupExitIntent s).now_eq.symm
  | reload => exact Nat.le_refl _
  | advance d => exact Nat.le_add_right _ _
  | mouseleave y => exact Nat.le_of_eq (steady_dispatchMouseLeave s y).now_eq.symm
  | activity k => exact Nat.le_of_eq (steady_dispatchActivity s).now_eq.symm
  | timer id =>
    show s.now ≤ (timerExpires s id).now
    unfold timerExpires
    split
    · exact Nat.le_refl _
    · rename_i t _
      split
      · cases t.kind with
        | initDelay cb =>
          exact Nat.le_of_eq
            (congrArg (fun c => c.1) (core_delayElapsed (clearTimeout s (some id)) cb)).symm
        | throttleReset d => exact Nat.le_refl _
        | inactivity d =>
          exact Nat.le_of_eq (steady_triggerCallback (clearTimeout s (some id)) d).now_eq.symm
      · exact Nat.le_refl _
  | resize w => exact Nat.le_refl _
  | setAgent ua => exact Nat.le_refl _

theorem run_now_ge (acts : List Action) (s : State) : s.now ≤ (run s acts).now := by
  induction acts generalizing s with
  | nil => exact Nat.le_refl _
  | cons a as ih => exact Nat.le_trans (step_now_ge s a) (ih _)

/-! ## States in which nothing is armed -/

theorem dispatchMouseLeave_of_none (s : State) (y : Int)
    (h : ∀ det ∈ s.desktop, det.listening = false) : dispatchMouseLeave s y = s := by
  have : s.desktop.filter (fun det => det.listening) = [] := by
    rw [List.filter_eq_nil_iff]
    intro a ha
    rw [h a ha]
    simp
  simp [dispatchMouseLeave, this]

theorem dispatchActivity_of_none (s : State)
    (h : ∀ det ∈ s.mobile, det.listening = false) : dispatchActivity s = s := by
  have : s.mobile.filter (fun det => det.listening) = [] := by
    rw [List.filter_eq_nil_iff]
    intro a ha
    rw [h a ha]
    simp
  simp [dispatchActivity, this]

theorem timers_callDesktopCleanup (s : State) : (callDesktopCleanup s).timers = s.timers := by
  unfold callDesktopCleanup
  split <;> rfl

theorem timers_callMobileCleanup (s : State) :
    ∀ t ∈ (callMobileCleanup s).timers, t ∈ s.timers := by
  unfold callMobileCleanup
  split
  · exact fun _ h => h
  · unfold mobileCleanupFn
    split
    · exact fun _ h => h
    · intro t ht
      exact ((mem_timers_clearTimeout s _ t).1 ht).1

theorem timers_teardown (s : State) :
    ∀ t ∈ (clearInitialDelay (callMobileCleanup (callDesktopCleanup s))).timers, t ∈ s.timers := by
  intro t ht
  have h1 := ((mem_timers_clearTimeout _ _ t).1 ht).1
  have h2 := timers_callMobileCleanup _ t h1
  rw [timers_callDesktopCleanup] at h2
  exact h2

theorem nextId_teardown (s : State) :
    (clearInitialDelay (callMobileCleanup (callDesktopCleanup s))).nextId = s.nextId := by
  have h1 : (callDesktopCleanup s).nextId = s.nextId := by
    unfold callDesktopCleanup
    split <;> rfl
  have h2 : ∀ s2 : State, (callMobileCleanup s2).nextId = s2.nextId := by
    intro s2
    unfold callMobileCleanup
    split
    · rfl
    · unfold mobileCleanupFn
      split
      · rfl
      · exact (clearTimeout_rest s2 _).2.2.2.2.2.1
  unfold clearInitialDelay
  rw [(clearTimeout_rest _ _).2.2.2.2.2.1, h2, h1]

theorem not_listening_of_steady_desktop {s s2 : State} (h : Steady s s2)
    (hq : ∀ det ∈ s.desktop, det.listening = false) : ∀ det ∈ s2.desktop, det.listening = false := by
  intro det hdet
  cases hl : det.listening with
  | false => rfl
  | true =>
    obtain ⟨y, hy, _, hyl⟩ := h.desktop_listen det hdet hl
    rw [hq y hy] at hyl
    simp at hyl

theorem not_listening_of_steady_mobile {s s2 : State} (h : Steady s s2)
    (hq : ∀ det ∈ s.mobile, det.listening = false) : ∀ det ∈ s2.mobile, det.listening = false := by
  intro det hdet
  cases hl : det.listening with
  | false => rfl
  | true =>
    obtain ⟨y, hy, _, hyl⟩ := h.mobile_listen det hdet hl
    rw [hq y hy] at hyl
    simp at hyl

theorem dormant_step (s : State) (a : Action) (h : Dormant s) (ha : a.isInit = false) :
    Dormant (step s a) ∧ (step s a).invoked = s.invoked := by
  obtain ⟨h1, h2, h3⟩ := h
  cases a with
  | initializeExitIntent cb => simp [Action.isInit] at ha
  | cleanupExitIntent =>
    have hs := steady_cleanupExitIntent s
    refine ⟨⟨not_listening_of_steady_desktop hs h1, not_listening_of_steady_mobile hs h2, ?_⟩,
      congrArg (fun c => c.2.2) (core_cleanupExitIntent s)⟩
    intro t ht
    exact h3 t (timers_teardown s t ht)
  | reload =>
    exact ⟨⟨by simp [step, reload, State.initial], by simp [step, reload, State.initial],
      by simp [step, reload, State.initial]⟩, rfl⟩
  | advance d => exact ⟨⟨h1, h2, h3⟩, rfl⟩
  | mouseleave y =>
    show Dormant (dispatchMouseLeave s y) ∧ (dispatchMouseLeave s y).invoked = s.invoked
    rw [dispatchMouseLeave_of_none s y h1]
    exact ⟨⟨h1, h2, h3⟩, rfl⟩
  | activity k =>
    show Dormant (dispatchActivity s) ∧ (dispatchActivity s).invoked = s.invoked
    rw [dispatchActivity_of_none s h2]
    exact ⟨⟨h1, h2, h3⟩, rfl⟩
  | timer id =>
    show Dormant (timerExpires s id) ∧ (timerExpires s id).invoked = s.invoked
    unfold timerExpires
    split
    · exact ⟨⟨h1, h2, h3⟩, rfl⟩
    · rename_i t hfind
      have hmem := List.mem_of_find?_eq_some hfind
      obtain ⟨d, hd⟩ := h3 t hmem
      split
      · rw [hd]
        refine ⟨⟨?_, h2, ?_⟩, rfl⟩
        · exact not_listening_of_steady_desktop
            (steady_setInThrottle (clearTimeout s (some id)) d false) h1
        · intro t2 ht2
          exact h3 t2 (List.mem_of_mem_filter ht2)
      · exact ⟨⟨h1, h2, h3⟩, rfl⟩
  | resize w => exact ⟨⟨h1, h2, h3⟩, rfl⟩
  | setAgent ua => exact ⟨⟨h1, h2, h3⟩, rfl⟩

theorem dormant_run (later : List Action) (s : State) (h : Dormant s)
    (hl : later.all (fun a => !a.isInit) = true) :
    Dormant (run s later) ∧ (run s later).invoked = s.invoked := by
  induction later generalizing s with
  | nil => exact ⟨h, rfl⟩
  | cons a as ih =>
    simp only [List.all_cons, Bool.and_eq_true, Bool.not_eq_true'] at hl
    obtain ⟨hd, hinv⟩ := dormant_step s a h hl.1
    obtain ⟨h2, hinv2⟩ := ih (step s a) hd hl.2
    exact ⟨h2, hinv2.trans hinv⟩

theorem dormant_of_quiet (s : State) (h : HandleInv s) (q : Quiet s) : Dormant s := by
  refine ⟨q.1, q.2.1, ?_⟩
  intro t ht
  cases hk : t.kind with
  | initDelay cb => exact absurd hk (q.2.2 t ht cb)
  | throttleReset d => exact ⟨d, rfl⟩
  | inactivity d =>
    obtain ⟨⟨z, hz, _, hzl⟩, _⟩ := h.inactivity_owner t ht d hk
    exact (not_listening_of_quiet q.2.1 z hz hzl).elim

/-- The state `initializeExitIntent` returns when the store check says suppressed: the
state after the three teardown statements. -/
theorem initialize_of_suppressed (s : State) (cb : Nat)
    (h : (hasSeenExitIntentRecently s.now s.store).1 = true) :
    initializeExitIntent s cb = clearInitialDelay (callMobileCleanup (callDesktopCleanup s)) := by
  have hc : (clearInitialDelay (callMobileCleanup (callDesktopCleanup s))).core = s.core := by
    rw [core_clearInitialDelay, core_callMobileCleanup, core_callDesktopCleanup]
  unfold initializeExitIntent
  simp only
  generalize clearInitialDelay (callMobileCleanup (callDesktopCleanup s)) = s3 at hc ⊢
  have hnow : s3.now = s.now := congrArg (fun c => c.1) hc
  have hstore : s3.store = s.store := congrArg (fun c => c.2.1) hc
  have hseen : hasSeenExitIntentRecently s3.now s3.store =
      hasSeenExitIntentRecently s.now s.store := by rw [hnow, hstore]
  simp only [hseen, h, if_true]
  rw [hasSeen_true_store s.now s.store h, ← hstore]

/-- C12: in every state the service can reach, a call of `initializeExitIntent` made while
`hasSeenExitIntentRecently` is true only tears down: it starts no timer and creates no
detector (the counter of identifiers does not move and every pending timer was pending
before), no initial-delay timer is pending and nothing is listening afterwards, and along
every later sequence of steps without another `initializeExitIntent` no callback is
invoked. -/
theorem c12_suppressed_initialize_does_not_arm (t0 : Nat) (store : Storage)
    (userAgent : Option String) (innerWidth : Nat) (acts later : List Action) (cb : Nat)
    (hsup : (hasSeenExitIntentRecently (run (State.initial t0 store userAgent innerWidth) acts).now
      (run (State.initial t0 store userAgent innerWidth) acts).store).1 = true)
    (hlater : later.all (fun a => !a.isInit) = true) :
    (initializeExitIntent (run (State.initial t0 store userAgent innerWidth) acts) cb).nextId =
      (run (State.initial t0 store userAgent innerWidth) acts).nextId ∧
    (∀ t ∈ (initializeExitIntent (run (State.initial t0 store userAgent innerWidth) acts)
        cb).timers,
      t ∈ (run (State.initial t0 store userAgent innerWidth) acts).timers ∧
      ∀ c, t.kind ≠ .initDelay c) ∧
    (∀ det ∈ (initializeExitIntent (run (State.initial t0 store userAgent innerWidth) acts)
        cb).desktop, det.listening = false) ∧
    (∀ det ∈ (initializeExitIntent (run (State.initial t0 store userAgent innerWidth) acts)
        cb).mobile, det.listening = false) ∧
    (initializeExitIntent (run (State.initial t0 store userAgent innerWidth) acts) cb).invoked =
      (run (State.initial t0 store userAgent innerWidth) acts).invoked ∧
    (run (initializeExitIntent (run (State.initial t0 store userAgent innerWidth) acts) cb)
      later).invoked = (run (State.initial t0 store userAgent innerWidth) acts).invoked := by
  have h := handleInv_run acts _ (handleInv_initial t0 store userAgent innerWidth)
  generalize run (State.initial t0 store userAgent innerWidth) acts = s at h hsup ⊢
  rw [initialize_of_suppressed s cb hsup]
  obtain ⟨h3, q⟩ := teardown_quiet s h
  have hd := dormant_of_quiet _ h3 q
  have hcore : (clearInitialDelay (callMobileCleanup (callDesktopCleanup s))).core = s.core := by
    rw [core_clearInitialDelay, core_callMobileCleanup, core_callDesktopCleanup]
  have hinv : (clearInitialDelay (callMobileCleanup (callDesktopCleanup s))).invoked = s.invoked :=
    congrArg (fun c => c.2.2) hcore
  have hnext := nextId_teardown s
  refine ⟨hnext, ?_, hd.1, hd.2.1, hinv, ?_⟩
  · intro t ht
    exact ⟨timers_teardown s t ht, q.2.2 t ht⟩
  · rw [(dormant_run later _ hd hlater).2, hinv]

theorem c12_suppressed_initialize_does_not_arm_witness :
    (hasSeenExitIntentRecently
      (run (State.initial 100 (some (shownRecord 2000000)) none 1920) []).now
      (run (State.initial 100 (some (shownRecord 2000000)) none 1920) []).store).1 = true ∧
    [Action.advance 20000, .timer 1, .mouseleave 2, .activity .scroll].all
      (fun a => !a.isInit) = true ∧
    (run (initializeExitIntent (run (State.initial 100 (some (shownRecord 2000000)) none 1920) [])
      7) [.advance 20000, .timer 1, .mouseleave 2, .activity .scroll]).invoked = [] :=
  ⟨by decide, by decide,
   (c12_suppressed_initialize_does_not_arm 100 (some (shownRecord 2000000)) none 1920 []
      [.advance 20000, .timer 1, .mouseleave 2, .activity .scroll] 7
      (by decide) (by decide)).2.2.2.2.2⟩

theorem resetTimer_store (s : State) (d : Nat) (x : Storage) :
    resetTimer { s with store := x } d = { resetTimer s d with store := x } := by
  unfold resetTimer
  simp only
  cases s.mobile.find? (fun m => m.id == d) with
  | none => rfl
  | some det =>
    simp only
    cases det.timer <;> rfl

theorem resetTimer_listening (s : State) (d : Nat) :
    (resetTimer s d).mobile.map (fun m => (m.id, m.callback, m.listening)) =
      s.mobile.map (fun m => (m.id, m.callback, m.listening)) ∧
    (resetTimer s d).desktop = s.desktop := by
  unfold resetTimer
  split
  · exact ⟨rfl, rfl⟩
  · rename_i det _
    refine ⟨?_, (clearTimeout_rest s det.timer).1⟩
    simp only [setTimeout, List.map_map, (clearTimeout_rest s det.timer).2.1]
    apply List.map_congr_left
    intro x _
    simp only [Function.comp]
    split <;> rfl

/-- The detectors after the function run by the delay timer: one more, listening, of the
kind the classifier gives. -/
theorem delayElapsed_lists (s : State) (cb : Nat) :
    (delayElapsed s cb).desktop =
      (if isMobileDevice s.userAgent s.innerWidth then s.desktop
       else s.desktop ++ [{ id := s.nextId, callback := cb, throttleLimit := 200,
                            inThrottle := false, listening := true }]) ∧
    (delayElapsed s cb).mobile.map (fun m => (m.id, m.callback, m.listening)) =
      (if isMobileDevice s.userAgent s.innerWidth then
         s.mobile.map (fun m => (m.id, m.callback, m.listening)) ++ [(s.nextId, cb, true)]
       else s.mobile.map (fun m => (m.id, m.callback, m.listening))) := by
  constructor
  · unfold delayElapsed
    split
    · simp only [setupMobileExitDetection]
      exact (resetTimer_listening _ _).2
    · rfl
  · unfold delayElapsed
    split
    · simp only [setupMobileExitDetection]
      rw [(resetTimer_listening _ _).1]
      simp
    · rfl

/-- C14 (as the code has it): the store is consulted when `initializeExitIntent` is called,
not when the delay elapses.  The function run by the delay timer does not read the store: it
leaves it as it is and does the same whatever it holds, and it always installs a listening
detector of the kind the classifier gives at that moment, for the callback of the call. -/
theorem c14_delay_elapsed_ignores_store (s : State) (cb : Nat) (x : Storage) :
    delayElapsed { s with store := x } cb = { delayElapsed s cb with store := x } ∧
    (delayElapsed s cb).store = s.store ∧
    (delayElapsed s cb).desktop =
      (if isMobileDevice s.userAgent s.innerWidth then s.desktop
       else s.desktop ++ [{ id := s.nextId, callback := cb, throttleLimit := 200,
                            inThrottle := false, listening := true }]) ∧
    (delayElapsed s cb).mobile.map (fun m => (m.id, m.callback, m.listening)) =
      (if isMobileDevice s.userAgent s.innerWidth then
         s.mobile.map (fun m => (m.id, m.callback, m.listening)) ++ [(s.nextId, cb, true)]
       else s.mobile.map (fun m => (m.id, m.callback, m.listening))) := by
  refine ⟨?_, congrArg (fun c => c.2.1) (core_delayElapsed s cb),
    (delayElapsed_lists s cb).1, (delayElapsed_lists s cb).2⟩
  unfold delayElapsed
  simp only
  split
  · have key := resetTimer_store
      { s with mobile := s.mobile ++ [⟨s.nextId, cb, mobileInactivityTime, none, true⟩],
               nextId := s.nextId + 1 } s.nextId x
    simp only [setupMobileExitDetection]
    exact congrArg (fun st : State => { st with mobileCleanup := some s.nextId }) key
  · rfl

/-- C14 counterexample: the delay was started at time 0 with an empty store; when the timer
fires at 10 s the store holds a record that is valid until 5,000 s (written in the
meantime by another page on the same storage), so `hasSeenExitIntentRecently` is true at
that moment, and a desktop detector is installed all the same. -/
theorem c14_counterexample :
    (hasSeenExitIntentRecently 10000 (some (shownRecord 5000000))).1 = true ∧
    (timerExpires
      { run (State.initial 0 none none 1920) [.initializeExitIntent 7, .advance 10000] with
        store := some (shownRecord 5000000) } 1).desktop =
      [{ id := 2, callback := 7, throttleLimit := 200, inThrottle := false,
         listening := true }] := by
  decide

/-! ## The initial delay -/

theorem timersOk_setTimeout (s : State) (delay : Nat) (kind : TimerKind) (h : TimersOk s) :
    TimersOk (setTimeout s delay kind).1 := by
  constructor
  · intro t ht
    simp only [setTimeout, List.mem_append, List.mem_singleton] at ht
    rcases ht with ht | ht
    · exact Nat.lt_succ_of_lt (h.1 t ht)
    · subst ht
      exact Nat.lt_succ_self _
  · simp only [setTimeout, List.map_append, List.map_cons, List.map_nil]
    rw [List.nodup_append]
    refine ⟨h.2, List.nodup_singleton _, ?_⟩
    intro a ha hb
    simp only [List.mem_singleton] at hb
    simp only [List.mem_map] at ha
    obtain ⟨t, ht, rfl⟩ := ha
    have := h.1 t ht
    omega

theorem timersOk_step (s : State) (a : Action) (h : TimersOk s) : TimersOk (step s a) := by
  cases a with
  | initializeExitIntent cb =>
    have h3 := (steady_teardown s).timers_ok h
    show TimersOk (initializeExitIntent s cb)
    unfold initializeExitIntent
    simp only
    generalize clearInitialDelay (callMobileCleanup (callDesktopCleanup s)) = s3 at h3 ⊢
    split
    · exact h3
    · exact timersOk_setTimeout { s3 with store := _ } INITIAL_DELAY (.initDelay cb) h3
  | cleanupExitIntent => exact (steady_cleanupExitIntent s).timers_ok h
  | reload => exact ⟨by simp [step, reload, State.initial], by simp [step, reload, State.initial]⟩
  | advance d => exact h
  | mouseleave y => exact (steady_dispatchMouseLeave s y).timers_ok h
  | activity k => exact (steady_dispatchActivity s).timers_ok h
  | timer id =>
    show TimersOk (timerExpires s id)
    unfold timerExpires
    split
    · exact h
    · rename_i t _
      split
      · have hc : TimersOk (clearTimeout s (some id)) := (steady_clearTimeout s (some id)).timers_ok h
        cases t.kind with
        | initDelay cb =>
          show TimersOk (delayElapsed (clearTimeout s (some id)) cb)
          generalize clearTimeout s (some id) = s2 at hc ⊢
          unfold delayElapsed
          split
          · simp only [setupMobileExitDetection]
            have h1 : TimersOk { s2 with
                mobile := s2.mobile ++ [⟨s2.nextId, cb, mobileInactivityTime, none, true⟩],
                nextId := s2.nextId + 1 } :=
              ⟨fun t ht => Nat.lt_succ_of_lt (hc.1 t ht), hc.2⟩
            exact (steady_resetTimer _ s2.nextId).timers_ok h1
          · exact ⟨fun t ht => Nat.lt_succ_of_lt (hc.1 t ht), hc.2⟩
        | throttleReset d => exact (steady_setInThrottle _ d false).timers_ok hc
        | inactivity d => exact (steady_triggerCallback _ d).timers_ok hc
      · exact h
  | resize w => exact h
  | setAgent ua => exact h

theorem timersOk_run (acts : List Action) (s : State) (h : TimersOk s) : TimersOk (run s acts) := by
  induction acts generalizing s with
  | nil => exact h
  | cons a as ih => exact ih _ (timersOk_step s a h)

theorem timersOk_initial (t0 : Nat) (store : Storage) (ua : Option String) (w : Nat) :
    TimersOk (State.initial t0 store ua w) := by
  simp [TimersOk, State.initial]

theorem prearm_teardown (T : Nat) (s : State) (h : PreArm T s) :
    PreArm T (clearInitialDelay (callMobileCleanup (callDesktopCleanup s))) := by
  have hs := steady_teardown s
  refine ⟨?_, not_listening_of_steady_desktop hs h.2.1, not_listening_of_steady_mobile hs h.2.2.1,
    fun t ht => h.2.2.2 t (timers_teardown s t ht)⟩
  rw [hs.now_eq]
  exact h.1

theorem prearm_step (T : Nat) (s : State) (a : Action) (h : PreArm T s)
    (hnow : (step s a).now < T) : PreArm T (step s a) := by
  have hmono := step_now_ge s a
  cases a with
  | initializeExitIntent cb =>
    have h3 := prearm_teardown T s h
    show PreArm T (initializeExitIntent s cb)
    unfold initializeExitIntent
    simp only
    generalize clearInitialDelay (callMobileCleanup (callDesktopCleanup s)) = s3 at h3 ⊢
    split
    · exact h3
    · refine ⟨h3.1, h3.2.1, h3.2.2.1, ?_⟩
      intro t ht
      simp only [setTimeout, List.mem_append, List.mem_singleton] at ht
      rcases ht with ht | ht
      · exact h3.2.2.2 t ht
      · subst ht
        exact Or.inr ⟨cb, rfl, h3.1⟩
  | cleanupExitIntent =>
    have h3 := prearm_teardown T s h
    exact ⟨h3.1, h3.2.1, h3.2.2.1, h3.2.2.2⟩
  | reload =>
    exact ⟨h.1, by simp [step, reload, State.initial], by simp [step, reload, State.initial],
      by simp [step, reload, State.initial]⟩
  | advance d =>
    refine ⟨?_, h.2.1, h.2.2.1, h.2.2.2⟩
    have := h.1
    simp only [step]
    omega
  | mouseleave y =>
    show PreArm T (dispatchMouseLeave s y)
    rw [dispatchMouseLeave_of_none s y h.2.1]
    exact h
  | activity k =>
    show PreArm T (dispatchActivity s)
    rw [dispatchActivity_of_none s h.2.2.1]
    exact h
  | timer id =>
    have hnow2 : s.now < T := Nat.lt_of_le_of_lt hmono hnow
    show PreArm T (timerExpires s id)
    unfold timerExpires
    split
    · exact h
    · rename_i t hfind
      have hmem := List.mem_of_find?_eq_some hfind
      split
      · rename_i hdue
        rcases h.2.2.2 t hmem with ⟨d, hd⟩ | ⟨c, _, hc⟩
        · rw [hd]
          refine ⟨h.1, ?_, h.2.2.1, fun t2 ht2 => h.2.2.2 t2 (List.mem_of_mem_filter ht2)⟩
          exact not_listening_of_steady_desktop
            (steady_setInThrottle (clearTimeout s (some id)) d false) h.2.1
        · omega
      · exact h
  | resize w => exact h
  | setAgent ua => exact h

theorem prearm_run (T : Nat) (mid : List Action) (s : State) (h : PreArm T s)
    (hnow : (run s mid).now < T) : PreArm T (run s mid) := by
  induction mid generalizing s with
  | nil => exact h
  | cons a as ih =>
    have h1 : (step s a).now < T := Nat.lt_of_le_of_lt (run_now_ge as (step s a)) hnow
    exact ih _ (prearm_step T s a h h1) hnow

theorem delayPending_step (timer0 : Timer) (s : State) (a : Action)
    (h : DelayPending timer0 s) (hk : a.keepsDelay timer0.id = true) :
    DelayPending timer0 (step s a) := by
  obtain ⟨h1, h2, h3, h4⟩ := h
  cases a with
  | initializeExitIntent cb => simp [Action.keepsDelay] at hk
  | cleanupExitIntent => simp [Action.keepsDelay] at hk
  | reload => simp [Action.keepsDelay] at hk
  | advance d => exact ⟨h1, h2, h3, h4⟩
  | mouseleave y =>
    show DelayPending timer0 (dispatchMouseLeave s y)
    rw [dispatchMouseLeave_of_none s y h1]
    exact ⟨h1, h2, h3, h4⟩
  | activity k =>
    show DelayPending timer0 (dispatchActivity s)
    rw [dispatchActivity_of_none s h2]
    exact ⟨h1, h2, h3, h4⟩
  | timer k =>
    simp only [Action.keepsDelay, bne_iff_ne, ne_eq] at hk
    show DelayPending timer0 (timerExpires s k)
    unfold timerExpires
    split
    · exact ⟨h1, h2, h3, h4⟩
    · rename_i t hfind
      obtain ⟨hmem, hid⟩ := find?_id_some (fun x : Timer => x.id) s.timers k t hfind
      split
      · rcases h4 t hmem with heq | ⟨⟨d, hd⟩, _⟩
        · rw [heq] at hid
          exact absurd hid.symm hk
        · rw [hd]
          refine ⟨?_, h2, ?_, ?_⟩
          · exact not_listening_of_steady_desktop
              (steady_setInThrottle (clearTimeout s (some k)) d false) h1
          · show timer0 ∈ s.timers.filter (fun x => x.id != k)
            simp only [List.mem_filter, bne_iff_ne, ne_eq]
            exact ⟨h3, fun h => hk h.symm⟩
          · intro t2 ht2
            exact h4 t2 (List.mem_of_mem_filter ht2)
      · exact ⟨h1, h2, h3, h4⟩
  | resize w => exact ⟨h1, h2, h3, h4⟩
  | setAgent ua => exact ⟨h1, h2, h3, h4⟩

theorem delayPending_run (timer0 : Timer) (mid : List Action) (s : State)
    (h : DelayPending timer0 s) (hk : mid.all (fun a => a.keepsDelay timer0.id) = true) :
    DelayPending timer0 (run s mid) := by
  induction mid generalizing s with
  | nil => exact h
  | cons a as ih =>
    simp only [List.all_cons, Bool.and_eq_true] at hk
    exact ih _ (delayPending_step timer0 s a h hk.1) hk.2

/-- The state `initializeExitIntent` returns when the store check says not suppressed. -/
theorem initialize_of_unsuppressed (s : State) (cb : Nat)
    (h : (hasSeenExitIntentRecently s.now s.store).1 = false) :
    initializeExitIntent s cb =
      { (setTimeout { clearInitialDelay (callMobileCleanup (callDesktopCleanup s)) with
            store := (hasSeenExitIntentRecently s.now s.store).2 }
          INITIAL_DELAY (.initDelay cb)).1 with
        initialDelayTimer := some s.nextId } := by
  have hc : (clearInitialDelay (callMobileCleanup (callDesktopCleanup s))).core = s.core := by
    rw [core_clearInitialDelay, core_callMobileCleanup, core_callDesktopCleanup]
  have hn := nextId_teardown s
  unfold initializeExitIntent
  simp only
  generalize clearInitialDelay (callMobileCleanup (callDesktopCleanup s)) = s3 at hc hn ⊢
  have hnow : s3.now = s.now := congrArg (fun c => c.1) hc
  have hstore : s3.store = s.store := congrArg (fun c => c.2.1) hc
  have hseen : hasSeenExitIntentRecently s3.now s3.store =
      hasSeenExitIntentRecently s.now s.store := by rw [hnow, hstore]
  simp only [hseen, h, Bool.false_eq_true, if_false, setTimeout, hn]

/-- Right after an unsuppressed `initializeExitIntent` in a reachable state the new delay
timer is pending and nothing else can arm. -/
theorem delayPending_after_initialize (s : State) (cb : Nat) (hi : HandleInv s)
    (ht : TimersOk s) (h : (hasSeenExitIntentRecently s.now s.store).1 = false) :
    DelayPending ⟨s.nextId, s.now + INITIAL_DELAY, .initDelay cb⟩ (initializeExitIntent s cb) ∧
    PreArm (s.now + INITIAL_DELAY) (initializeExitIntent s cb) := by
  rw [initialize_of_unsuppressed s cb h]
  obtain ⟨h3, q⟩ := teardown_quiet s hi
  have hd := dormant_of_quiet _ h3 q
  have ht3 := (steady_teardown s).timers_ok ht
  have hn := nextId_teardown s
  have hnow := (steady_teardown s).now_eq
  generalize clearInitialDelay (callMobileCleanup (callDesktopCleanup s)) = s3 at hd ht3 hn hnow
  constructor
  · refine ⟨hd.1, hd.2.1, ?_, ?_⟩
    · simp only [setTimeout, List.mem_append, List.mem_singleton, hn, hnow]
      exact Or.inr trivial
    · intro t htm
      simp only [setTimeout, List.mem_append, List.mem_singleton, hn, hnow] at htm
      rcases htm with htm | htm
      · refine Or.inr ⟨hd.2.2 t htm, ?_⟩
        have := ht3.1 t htm
        simp only
        omega
      · exact Or.inl htm
  · refine ⟨?_, hd.1, hd.2.1, ?_⟩
    · simp only [setTimeout, hnow]
      exact Nat.le_refl _
    · intro t htm
      simp only [setTimeout, List.mem_append, List.mem_singleton, hn, hnow] at htm
      rcases htm with htm | htm
      · exact Or.inl (hd.2.2 t htm)
      · subst htm
        exact Or.inr ⟨cb, rfl, Nat.le_refl _⟩

/-- When the pending delay timer expires its function runs on the state without it. -/
theorem timerExpires_delay (timer0 : Timer) (cb : Nat) (s : State)
    (h : DelayPending timer0 s) (hk : timer0.kind = .initDelay cb) (hdue : timer0.due ≤ s.now) :
    timerExpires s timer0.id =
      delayElapsed { s with timers := s.timers.filter (fun x => x.id != timer0.id) } cb := by
  obtain ⟨_, _, h3, h4⟩ := h
  unfold timerExpires
  cases hf : s.timers.find? (fun t => t.id == timer0.id) with
  | none =>
    exact absurd rfl (find?_id_none (fun x : Timer => x.id) s.timers timer0.id hf timer0 h3)
  | some t =>
    obtain ⟨hmem, hid⟩ := find?_id_some (fun x : Timer => x.id) s.timers timer0.id t hf
    have heq : t = timer0 := by
      rcases h4 t hmem with heq | ⟨_, hne⟩
      · exact heq
      · exact absurd hid hne
    subst heq
    simp only [hdue, if_true, hk, runTimer]

theorem filter_listening_of_none {β : Type} (l : List β) (p : β → Bool)
    (h : ∀ x ∈ l, p x = false) : l.filter p = [] := by
  rw [List.filter_eq_nil_iff]
  intro a ha
  rw [h a ha]
  simp

/-- With nothing listening before, the function run by the delay timer leaves exactly one
detector listening: a mobile one when the classifier says mobile, a desktop one otherwise. -/
theorem delayElapsed_exactly_one (s : State) (cb : Nat)
    (h1 : ∀ det ∈ s.desktop, det.listening = false)
    (h2 : ∀ det ∈ s.mobile, det.listening = false) :
    (((delayElapsed s cb).desktop.filter (fun d => d.listening)).map (fun d => d.id),
     ((delayElapsed s cb).mobile.filter (fun m => m.listening)).map (fun m => m.id)) =
      (if isMobileDevice s.userAgent s.innerWidth then ([], [s.nextId])
       else ([s.nextId], [])) := by
  obtain ⟨e1, e2⟩ := delayElapsed_lists s cb
  have hm : ((delayElapsed s cb).mobile.filter (fun m => m.listening)).map (fun m => m.id) =
      (((delayElapsed s cb).mobile.map (fun m => (m.id, m.callback, m.listening))).filter
        (fun p => p.2.2)).map (fun p => p.1) := by
    rw [List.filter_map, List.map_map]
    rfl
  have hold : (s.mobile.map (fun m => (m.id, m.callback, m.listening))).filter
      (fun p => p.2.2) = [] := by
    apply filter_listening_of_none
    intro x hx
    simp only [List.mem_map] at hx
    obtain ⟨y, hy, rfl⟩ := hx
    exact h2 y hy
  rw [hm, e1, e2]
  split
  · simp [List.filter_append, hold, filter_listening_of_none s.desktop _ h1]
  · simp [List.filter_append, hold, filter_listening_of_none s.desktop _ h1]

theorem kept_refl (s : State) : Kept s s :=
  ⟨fun x hx => ⟨x, hx, rfl, id⟩, fun x hx => ⟨x, hx, rfl, id⟩⟩

theorem kept_trans {a b c : State} (h1 : Kept a b) (h2 : Kept b c) : Kept a c := by
  constructor
  · intro x hx
    obtain ⟨y, hy, hyid, hyl⟩ := h2.1 x hx
    obtain ⟨z, hz, hzid, hzl⟩ := h1.1 y hy
    exact ⟨z, hz, hzid.trans hyid, fun hl => hzl (hyl hl)⟩
  · intro x hx
    obtain ⟨y, hy, hyid, hyl⟩ := h2.2 x hx
    obtain ⟨z, hz, hzid, hzl⟩ := h1.2 y hy
    exact ⟨z, hz, hzid.trans hyid, fun hl => hzl (hyl hl)⟩

theorem kept_of_steady {s s2 : State} (h : Steady s s2) : Kept s s2 := by
  constructor
  · intro x hx
    cases hl : x.listening with
    | true =>
      obtain ⟨y, hy, hyid, hyl⟩ := h.desktop_listen x hx hl
      exact ⟨y, hy, hyid, fun _ => hyl⟩
    | false =>
      have hmem : x.id ∈ s2.desktop.map (fun d => d.id) := List.mem_map_of_mem _ hx
      rw [h.desktop_sig, List.mem_map] at hmem
      obtain ⟨y, hy, hyid⟩ := hmem
      exact ⟨y, hy, hyid, fun h => by simp at h⟩
  · intro x hx
    cases hl : x.listening with
    | true =>
      obtain ⟨y, hy, hyid, hyl⟩ := h.mobile_listen x hx hl
      exact ⟨y, hy, hyid, fun _ => hyl⟩
    | false =>
      have hmem : (x.id, x.inactivityTime) ∈ s2.mobile.map (fun m => (m.id, m.inactivityTime)) :=
        List.mem_map_of_mem _ hx
      rw [h.mobile_sig, List.mem_map] at hmem
      obtain ⟨y, hy, hyid⟩ := hmem
      exact ⟨y, hy, (Prod.mk.inj hyid).1, fun h => by simp at h⟩

theorem nodelay_of_steady {s s2 : State} (h : Steady s s2)
    (hn : ∀ t ∈ s.timers, ∀ c, t.kind ≠ .initDelay c) :
    ∀ t ∈ s2.timers, ∀ c, t.kind ≠ .initDelay c := by
  intro t ht c
  rcases h.timers_new t ht with h1 | ⟨_, h1⟩
  · exact hn t h1 c
  · exact h1 c

/-- Without a pending initial-delay timer and without a new `initializeExitIntent`, a step
creates no detector and makes none listen. -/
theorem nodelay_step (s : State) (a : Action)
    (hn : ∀ t ∈ s.timers, ∀ c, t.kind ≠ .initDelay c) (ha : a.isInit = false) :
    (∀ t ∈ (step s a).timers, ∀ c, t.kind ≠ .initDelay c) ∧ Kept s (step s a) := by
  cases a with
  | initializeExitIntent cb => simp [Action.isInit] at ha
  | cleanupExitIntent =>
    exact ⟨nodelay_of_steady (steady_cleanupExitIntent s) hn,
      kept_of_steady (steady_cleanupExitIntent s)⟩
  | reload =>
    exact ⟨by simp [step, reload, State.initial],
      by simp [Kept, step, reload, State.initial]⟩
  | advance d => exact ⟨hn, kept_refl s⟩
  | mouseleave y =>
    exact ⟨nodelay_of_steady (steady_dispatchMouseLeave s y) hn,
      kept_of_steady (steady_dispatchMouseLeave s y)⟩
  | activity k =>
    exact ⟨nodelay_of_steady (steady_dispatchActivity s) hn,
      kept_of_steady (steady_dispatchActivity s)⟩
  | timer id =>
    have key : Steady s (timerExpires s id) := by
      unfold timerExpires
      split
      · exact steady_refl s
      · rename_i t hfind
        have hmem := List.mem_of_find?_eq_some hfind
        split
        · cases hk : t.kind with
          | initDelay cb => exact absurd hk (hn t hmem cb)
          | throttleReset d =>
            exact steady_trans (steady_clearTimeout s (some id)) (steady_setInThrottle _ d false)
          | inactivity d =>
            exact steady_trans (steady_clearTimeout s (some id)) (steady_triggerCallback _ d)
        · exact steady_refl s
    exact ⟨nodelay_of_steady key hn, kept_of_steady key⟩
  | resize w => exact ⟨hn, kept_refl s⟩
  | setAgent ua => exact ⟨hn, kept_refl s⟩

theorem nodelay_run (later : List Action) (s : State)
    (hn : ∀ t ∈ s.timers, ∀ c, t.kind ≠ .initDelay c)
    (hl : later.all (fun a => !a.isInit) = true) : Kept s (run s later) := by
  induction later generalizing s with
  | nil => exact kept_refl s
  | cons a as ih =>
    simp only [List.all_cons, Bool.and_eq_true, Bool.not_eq_true'] at hl
    obtain ⟨h1, h2⟩ := nodelay_step s a hn hl.1
    exact kept_trans h2 (ih _ h1 hl.2)

theorem nodelay_delayElapsed (s : State) (cb : Nat)
    (hn : ∀ t ∈ s.timers, ∀ c, t.kind ≠ .initDelay c) :
    ∀ t ∈ (delayElapsed s cb).timers, ∀ c, t.kind ≠ .initDelay c := by
  unfold delayElapsed
  split
  · simp only [setupMobileExitDetection]
    have hs := steady_resetTimer
      { s with mobile := s.mobile ++ [⟨s.nextId, cb, mobileInactivityTime, none, true⟩],
               nextId := s.nextId + 1 } s.nextId
    exact nodelay_of_steady hs hn
  · exact hn

/-- C13: in a reachable state `s` at time `T0` with no valid suppression record,
`initializeExitIntent` starts the delay timer `s.nextId`.  Whatever steps follow, as long
as the clock is before `T0 + 10,000` nothing is listening and no inactivity timer is pending.
If no `initializeExitIntent`, `cleanupExitIntent` or reload intervenes, then when that timer
expires, which it can from `T0 + 10,000` on, exactly one detector is listening afterwards:
a mobile one if the classifier says mobile at that moment, a desktop one otherwise.  After
that, along any steps without a new `initializeExitIntent` (changes of viewport width and
of agent among them), every detector that exists or listens is one that did before: none
is added, none replaces it. -/
theorem c13_armed_after_delay (t0 : Nat) (store : Storage) (userAgent : Option String)
    (innerWidth : Nat) (acts mid later : List Action) (cb : Nat) (s : State)
    (hs : s = run (State.initial t0 store userAgent innerWidth) acts)
    (hns : (hasSeenExitIntentRecently s.now s.store).1 = false) :
    ((run (initializeExitIntent s cb) mid).now < s.now + 10000 →
      (∀ det ∈ (run (initializeExitIntent s cb) mid).desktop, det.listening = false) ∧
      (∀ det ∈ (run (initializeExitIntent s cb) mid).mobile, det.listening = false) ∧
      (∀ t ∈ (run (initializeExitIntent s cb) mid).timers, ∀ d, t.kind ≠ .inactivity d)) ∧
    (mid.all (fun a => a.keepsDelay s.nextId) = true →
      s.now + 10000 ≤ (run (initializeExitIntent s cb) mid).now →
      ((((step (run (initializeExitIntent s cb) mid) (.timer s.nextId)).desktop.filter
            (fun d => d.listening)).map (fun d => d.id),
        ((step (run (initializeExitIntent s cb) mid) (.timer s.nextId)).mobile.filter
            (fun m => m.listening)).map (fun m => m.id)) =
        (if isMobileDevice (run (initializeExitIntent s cb) mid).userAgent
              (run (initializeExitIntent s cb) mid).innerWidth then
           ([], [(run (initializeExitIntent s cb) mid).nextId])
         else ([(run (initializeExitIntent s cb) mid).nextId], []))) ∧
      (later.all (fun a => !a.isInit) = true →
        Kept (step (run (initializeExitIntent s cb) mid) (.timer s.nextId))
          (run (step (run (initializeExitIntent s cb) mid) (.timer s.nextId)) later))) := by
  have hi : HandleInv s := hs ▸ handleInv_run acts _ (handleInv_initial t0 store userAgent innerWidth)
  have ht : TimersOk s := hs ▸ timersOk_run acts _ (timersOk_initial t0 store userAgent innerWidth)
  obtain ⟨hp, hpre⟩ := delayPending_after_initialize s cb hi ht hns
  have hD : INITIAL_DELAY = 10000 := by decide
  rw [hD] at hp hpre
  constructor
  · intro hnow
    obtain ⟨_, h1, h2, h3⟩ := prearm_run (s.now + 10000) mid _ hpre hnow
    refine ⟨h1, h2, ?_⟩
    intro t htm d hk
    rcases h3 t htm with ⟨d2, hd2⟩ | ⟨c, hc, _⟩
    · rw [hd2] at hk; simp at hk
    · rw [hc] at hk; simp at hk
  · intro hkeep hdue
    have hpm := delayPending_run _ mid _ hp hkeep
    generalize run (initializeExitIntent s cb) mid = sm at hpm hdue ⊢
    have hfire := timerExpires_delay _ cb sm hpm rfl hdue
    have hstep : step sm (.timer s.nextId) =
        delayElapsed { sm with timers := sm.timers.filter (fun x => x.id != s.nextId) } cb := hfire
    rw [hstep]
    constructor
    · exact delayElapsed_exactly_one _ cb hpm.1 hpm.2.1
    · intro hl
      apply nodelay_run later _ _ hl
      apply nodelay_delayElapsed
      intro t htm c hk
      simp only [List.mem_filter, bne_iff_ne, ne_eq] at htm
      rcases hpm.2.2.2 t htm.1 with heq | ⟨⟨d, hd⟩, _⟩
      · rw [heq] at htm
        exact htm.2 rfl
      · rw [hd] at hk; simp at hk

theorem c13_armed_after_delay_witness :
    (hasSeenExitIntentRecently (State.initial 0 none none 1920).now
      (State.initial 0 none none 1920).store).1 = false ∧
    (∀ det ∈ (run (initializeExitIntent (State.initial 0 none none 1920) 7)
        [.advance 9999, .timer 1, .mouseleave 2]).desktop, det.listening = false) ∧
    (((step (run (initializeExitIntent (State.initial 0 none none 1920) 7)
          [.advance 10000, .resize 500]) (.timer 1)).desktop.filter
          (fun d => d.listening)).map (fun d => d.id),
      ((step (run (initializeExitIntent (State.initial 0 none none 1920) 7)
          [.advance 10000, .resize 500]) (.timer 1)).mobile.filter
          (fun m => m.listening)).map (fun m => m.id)) = ([], [2]) :=
  ⟨by decide,
   ((c13_armed_after_delay 0 none none 1920 [] [.advance 9999, .timer 1, .mouseleave 2] [] 7
      (State.initial 0 none none 1920) rfl (by decide)).1 (by decide)).1,
   ((c13_armed_after_delay 0 none none 1920 [] [.advance 10000, .resize 500] [] 7
      (State.initial 0 none none 1920) rfl (by decide)).2 (by decide) (by decide)).1⟩

/-! ## At most one detector -/

theorem filter_length_le_one {β : Type} (key : β → Nat) (p : β → Bool) (l : List β)
    (hn : (l.map key).Nodup)
    (hh : ∀ x ∈ l, ∀ y ∈ l, p x = true → p y = true → key x = key y) :
    (l.filter p).length ≤ 1 := by
  induction l with
  | nil => simp
  | cons x xs ih =>
    simp only [List.map_cons, List.nodup_cons] at hn
    have ih2 := ih hn.2 (fun a ha b hb => hh a (List.mem_cons_of_mem _ ha) b (List.mem_cons_of_mem _ hb))
    cases hp : p x with
    | false =>
      simp only [List.filter_cons, hp, Bool.false_eq_true, if_false]
      exact ih2
    | true =>
      have hnil : xs.filter p = [] := by
        rw [List.filter_eq_nil_iff]
        intro y hy hpy
        have := hh x (List.mem_cons_self _ _) y (List.mem_cons_of_mem _ hy) hp hpy
        exact hn.1 (this ▸ List.mem_map_of_mem key hy)
      simp [List.filter_cons, hp, hnil]

theorem mobile_ids_of_sig {s s2 : State}
    (h : s2.mobile.map (fun m => (m.id, m.inactivityTime)) =
      s.mobile.map (fun m => (m.id, m.inactivityTime))) :
    s2.mobile.map (fun m => m.id) = s.mobile.map (fun m => m.id) := by
  have := congrArg (List.map Prod.fst) h
  simpa [List.map_map, Function.comp] using this

theorem idsNodup_of_steady {s s2 : State} (h : Steady s s2) (hn : IdsNodup s) : IdsNodup s2 := by
  constructor
  · rw [h.desktop_sig]; exact hn.1
  · rw [mobile_ids_of_sig h.mobile_sig]; exact hn.2

theorem initialize_lists (s : State) (cb : Nat) :
    (initializeExitIntent s cb).desktop =
      (clearInitialDelay (callMobileCleanup (callDesktopCleanup s))).desktop ∧
    (initializeExitIntent s cb).mobile =
      (clearInitialDelay (callMobileCleanup (callDesktopCleanup s))).mobile := by
  unfold initializeExitIntent
  simp only
  split <;> exact ⟨rfl, rfl⟩

theorem idsNodup_delayElapsed (s : State) (cb : Nat) (hn : IdsNodup s)
    (hd : ∀ det ∈ s.desktop, det.id < s.nextId) (hm : ∀ det ∈ s.mobile, det.id < s.nextId) :
    IdsNodup (delayElapsed s cb) := by
  obtain ⟨e1, e2⟩ := delayElapsed_lists s cb
  have e3 : (delayElapsed s cb).mobile.map (fun m => m.id) =
      ((delayElapsed s cb).mobile.map (fun m => (m.id, m.callback, m.listening))).map
        (fun p => p.1) := by
    rw [List.map_map]; rfl
  have hfreshd : s.nextId ∉ s.desktop.map (fun d => d.id) := by
    intro hmem
    simp only [List.mem_map] at hmem
    obtain ⟨y, hy, hyid⟩ := hmem
    have := hd y hy
    omega
  have hfreshm : s.nextId ∉ s.mobile.map (fun m => m.id) := by
    intro hmem
    simp only [List.mem_map] at hmem
    obtain ⟨y, hy, hyid⟩ := hmem
    have := hm y hy
    omega
  constructor
  · rw [e1]
    split
    · exact hn.1
    · simp only [List.map_append, List.map_cons, List.map_nil]
      rw [List.nodup_append]
      refine ⟨hn.1, List.nodup_singleton _, ?_⟩
      intro a ha hb
      simp only [List.mem_singleton] at hb
      exact hfreshd (hb ▸ ha)
  · rw [e3, e2]
    split
    · simp only [List.map_append, List.map_map, List.map_cons, List.map_nil]
      rw [List.nodup_append]
      refine ⟨hn.2, List.nodup_singleton _, ?_⟩
      intro a ha hb
      simp only [List.mem_singleton] at hb
      exact hfreshm (hb ▸ ha)
    · simp only [List.map_map]
      exact hn.2

theorem idsNodup_step (s : State) (a : Action) (hi : HandleInv s) (hn : IdsNodup s) :
    IdsNodup (step s a) := by
  cases a with
  | initializeExitIntent cb =>
    have h3 := idsNodup_of_steady (steady_teardown s) hn
    obtain ⟨e1, e2⟩ := initialize_lists s cb
    exact ⟨by show ((initializeExitIntent s cb).desktop.map _).Nodup; rw [e1]; exact h3.1,
      by show ((initializeExitIntent s cb).mobile.map _).Nodup; rw [e2]; exact h3.2⟩
  | cleanupExitIntent => exact idsNodup_of_steady (steady_cleanupExitIntent s) hn
  | reload => exact ⟨by simp [step, reload, State.initial], by simp [step, reload, State.initial]⟩
  | advance d => exact hn
  | mouseleave y => exact idsNodup_of_steady (steady_dispatchMouseLeave s y) hn
  | activity k => exact idsNodup_of_steady (steady_dispatchActivity s) hn
  | timer id =>
    show IdsNodup (timerExpires s id)
    unfold timerExpires
    split
    · exact hn
    · rename_i t _
      split
      · cases t.kind with
        | initDelay cb =>
          exact idsNodup_delayElapsed (clearTimeout s (some id)) cb hn hi.desktop_lt hi.mobile_lt
        | throttleReset d =>
          exact idsNodup_of_steady
            (steady_trans (steady_clearTimeout s (some id)) (steady_setInThrottle _ d false)) hn
        | inactivity d =>
          exact idsNodup_of_steady
            (steady_trans (steady_clearTimeout s (some id)) (steady_triggerCallback _ d)) hn
      · exact hn
  | resize w => exact hn
  | setAgent ua => exact hn

/-- The invariants of the reachable states, together. -/
theorem reachable_invariants (t0 : Nat) (store : Storage) (ua : Option String) (w : Nat)
    (acts : List Action) :
    HandleInv (run (State.initial t0 store ua w) acts) ∧
    TimersOk (run (State.initial t0 store ua w) acts) ∧
    IdsNodup (run (State.initial t0 store ua w) acts) := by
  have key : ∀ (acts : List Action) (s : State), HandleInv s → TimersOk s → IdsNodup s →
      HandleInv (run s acts) ∧ TimersOk (run s acts) ∧ IdsNodup (run s acts) := by
    intro acts
    induction acts with
    | nil => exact fun s h1 h2 h3 => ⟨h1, h2, h3⟩
    | cons a as ih =>
      intro s h1 h2 h3
      exact ih _ (handleInv_step s a h1) (timersOk_step s a h2) (idsNodup_step s a h1 h3)
  exact key acts _ (handleInv_initial t0 store ua w) (timersOk_initial t0 store ua w)
    ⟨by simp [State.initial], by simp [State.initial]⟩

/-- C17: in every state reached through any interleaving of `initializeExitIntent`,
`cleanupExitIntent`, reloads, timer expiries and events, at most one desktop detector has its
handler registered, at most one mobile detector has its listeners registered, and at most
one inactivity timer is pending; each registered detector is the one whose cleanup function
the corresponding module-level handle holds, and a pending inactivity timer belongs to the
registered mobile detector held in `mobileCleanup`: no detector is orphaned. -/
theorem c17_at_most_one_detector (t0 : Nat) (store : Storage) (userAgent : Option String)
    (innerWidth : Nat) (acts : List Action) :
    ((run (State.initial t0 store userAgent innerWidth) acts).desktop.filter
      (fun d => d.listening)).length ≤ 1 ∧
    ((run (State.initial t0 store userAgent innerWidth) acts).mobile.filter
      (fun m => m.listening)).length ≤ 1 ∧
    ((run (State.initial t0 store userAgent innerWidth) acts).timers.filter
      (fun t => t.isInactivity)).length ≤ 1 ∧
    (∀ det ∈ (run (State.initial t0 store userAgent innerWidth) acts).desktop,
      det.listening = true →
        (run (State.initial t0 store userAgent innerWidth) acts).desktopCleanup = some det.id) ∧
    (∀ det ∈ (run (State.initial t0 store userAgent innerWidth) acts).mobile,
      det.listening = true →
        (run (State.initial t0 store userAgent innerWidth) acts).mobileCleanup = some det.id) ∧
    (∀ t ∈ (run (State.initial t0 store userAgent innerWidth) acts).timers,
      ∀ d, t.kind = .inactivity d →
        (run (State.initial t0 store userAgent innerWidth) acts).mobileCleanup = some d ∧
        ∃ det ∈ (run (State.initial t0 store userAgent innerWidth) acts).mobile,
          det.id = d ∧ det.listening = true) := by
  obtain ⟨hi, ht, hn⟩ := reachable_invariants t0 store userAgent innerWidth acts
  generalize run (State.initial t0 store userAgent innerWidth) acts = s at hi ht hn ⊢
  have hown : ∀ t ∈ s.timers, ∀ d, t.kind = .inactivity d →
      s.mobileCleanup = some d ∧ ∃ det ∈ s.mobile, det.id = d ∧ det.listening = true := by
    intro t htm d hk
    obtain ⟨⟨z, hz, hzid, hzl⟩, _⟩ := hi.inactivity_owner t htm d hk
    exact ⟨hzid ▸ hi.mobile_handle z hz hzl, z, hz, hzid, hzl⟩
  refine ⟨?_, ?_, ?_, hi.desktop_handle, hi.mobile_handle, hown⟩
  · apply filter_length_le_one (fun d : DesktopDetector => d.id) _ _ hn.1
    intro x hx y hy hpx hpy
    have h1 := hi.desktop_handle x hx hpx
    have h2 := hi.desktop_handle y hy hpy
    rw [h1] at h2
    exact Option.some.inj h2
  · apply filter_length_le_one (fun m : MobileDetector => m.id) _ _ hn.2
    intro x hx y hy hpx hpy
    have h1 := hi.mobile_handle x hx hpx
    have h2 := hi.mobile_handle y hy hpy
    rw [h1] at h2
    exact Option.some.inj h2
  · apply filter_length_le_one (fun t : Timer => t.id) _ _ ht.2
    intro x hx y hy hpx hpy
    have kx : ∃ d, x.kind = .inactivity d := by
      unfold Timer.isInactivity at hpx
      split at hpx
      · rename_i d hd; exact ⟨d, hd⟩
      · simp at hpx
    have ky : ∃ d, y.kind = .inactivity d := by
      unfold Timer.isInactivity at hpy
      split at hpy
      · rename_i d hd; exact ⟨d, hd⟩
      · simp at hpy
    obtain ⟨dx, hdx⟩ := kx
    obtain ⟨dy, hdy⟩ := ky
    have h1 := (hown x hx dx hdx).1
    have h2 := (hown y hy dy hdy).1
    rw [h1] at h2
    have hd : dx = dy := Option.some.inj h2
    obtain ⟨⟨z, hz, hzid, _⟩, hall⟩ := hi.inactivity_owner x hx dx hdx
    have t1 := hall z hz hzid
    have t2 := (hi.inactivity_owner y hy dy hdy).2 z hz (hzid.trans hd)
    rw [t1] at t2
    exact Option.some.inj t2

/-! ## Debounce -/

theorem calm_refl (s : State) : Calm s s :=
  ⟨Nat.le_refl _, Nat.le_refl _, fun x hx => ⟨x, hx, rfl⟩, fun x hx => ⟨x, hx, rfl, rfl⟩,
    fun _ ht => Or.inl ht, fun _ hi => Or.inl hi⟩

theorem calm_trans {a b c : State} (h1 : Calm a b) (h2 : Calm b c) : Calm a c := by
  constructor
  · exact Nat.le_trans h1.now_le h2.now_le
  · exact Nat.le_trans h1.next_le h2.next_le
  · intro x hx
    obtain ⟨y, hy, hyid⟩ := h2.desktop_old x hx
    obtain ⟨z, hz, hzid⟩ := h1.desktop_old y hy
    exact ⟨z, hz, hzid.trans hyid⟩
  · intro x hx
    obtain ⟨y, hy, hyid, hyw⟩ := h2.mobile_old x hx
    obtain ⟨z, hz, hzid, hzw⟩ := h1.mobile_old y hy
    exact ⟨z, hz, hzid.trans hyid, hzw.trans hyw⟩
  · intro t ht
    rcases h2.timers_old t ht with h | h
    · exact h1.timers_old t h
    · exact Or.inr h
  · intro inv hinv
    rcases h2.invoked_old inv hinv with h | ⟨det, hdet, hid⟩
    · exact h1.invoked_old inv h
    · obtain ⟨z, hz, hzid⟩ := h1.desktop_old det hdet
      exact Or.inr ⟨z, hz, hzid.trans hid⟩

theorem calm_of_steady {s s2 : State} (h : Steady s s2)
    (ht : ∀ t ∈ s2.timers, t ∈ s.timers ∨ ∀ d, t.kind ≠ .inactivity d)
    (hi : ∀ inv ∈ s2.invoked, inv ∈ s.invoked ∨ ∃ det ∈ s.desktop, det.id = inv.detector) :
    Calm s s2 := by
  have hk := kept_of_steady h
  refine ⟨Nat.le_of_eq h.now_eq.symm, h.next_le, ?_, ?_, ht, hi⟩
  · intro x hx
    obtain ⟨y, hy, hyid, _⟩ := hk.1 x hx
    exact ⟨y, hy, hyid⟩
  · intro x hx
    have hmem : (x.id, x.inactivityTime) ∈ s2.mobile.map (fun m => (m.id, m.inactivityTime)) :=
      List.mem_map_of_mem _ hx
    rw [h.mobile_sig, List.mem_map] at hmem
    obtain ⟨y, hy, hyid⟩ := hmem
    exact ⟨y, hy, (Prod.mk.inj hyid).1, (Prod.mk.inj hyid).2⟩

theorem invoked_teardown (s : State) :
    (clearInitialDelay (callMobileCleanup (callDesktopCleanup s))).invoked = s.invoked := by
  have hcore : (clearInitialDelay (callMobileCleanup (callDesktopCleanup s))).core = s.core := by
    rw [core_clearInitialDelay, core_callMobileCleanup, core_callDesktopCleanup]
  exact congrArg (fun c => c.2.2) hcore

theorem calm_teardown (s : State) :
    Calm s (clearInitialDelay (callMobileCleanup (callDesktopCleanup s))) :=
  calm_of_steady (steady_teardown s) (fun t ht => Or.inl (timers_teardown s t ht))
    (fun _ hinv => Or.inl (invoked_teardown s ▸ hinv))

theorem calm_initializeExitIntent (s : State) (cb : Nat) : Calm s (initializeExitIntent s cb) := by
  have h3 := calm_teardown s
  unfold initializeExitIntent
  simp only
  generalize clearInitialDelay (callMobileCleanup (callDesktopCleanup s)) = s3 at h3 ⊢
  split
  · exact ⟨h3.now_le, h3.next_le, h3.desktop_old, h3.mobile_old, h3.timers_old, h3.invoked_old⟩
  · refine ⟨h3.now_le, Nat.le_succ_of_le h3.next_le, h3.desktop_old, h3.mobile_old, ?_,
      h3.invoked_old⟩
    intro t ht
    simp only [setTimeout, List.mem_append, List.mem_singleton] at ht
    rcases ht with ht | ht
    · exact h3.timers_old t ht
    · subst ht
      exact Or.inr (fun d hd => by simp at hd)

theorem calm_cleanup (s : State) : Calm s (cleanupExitIntent s) := by
  have h3 := calm_teardown s
  unfold cleanupExitIntent
  exact ⟨h3.now_le, h3.next_le, h3.desktop_old, h3.mobile_old, h3.timers_old, h3.invoked_old⟩

theorem timers_handleMouseLeave (s : State) (det : DesktopDetector) (y : Int) :
    (handleMouseLeave s det y).timers = s.timers := by
  unfold handleMouseLeave
  simp only
  split
  · rfl
  · split
    · rw [timers_callDesktopCleanup]
    · rfl

theorem invoked_handleMouseLeave (s : State) (det : DesktopDetector) (y : Int) :
    (handleMouseLeave s det y).invoked = s.invoked ∨
    (handleMouseLeave s det y).invoked =
      s.invoked ++ [{ time := s.now, callback := det.callback, detector := det.id }] := by
  unfold handleMouseLeave
  simp only
  split
  · exact Or.inl rfl
  · split
    · right
      exact congrArg (fun c => c.2.2) (core_callDesktopCleanup _)
    · exact Or.inl rfl

theorem calm_throttledHandler (s : State) (d : Nat) (y : Int) :
    Calm s (throttledHandler s d y) := by
  apply calm_of_steady (steady_throttledHandler s d y)
  · unfold throttledHandler
    split
    · exact fun t ht => Or.inl ht
    · split
      · exact fun t ht => Or.inl ht
      · intro t ht
        simp only [setTimeout, List.mem_append, List.mem_singleton,
          timers_handleMouseLeave] at ht
        rcases ht with ht | ht
        · exact Or.inl ht
        · subst ht
          exact Or.inr (fun d2 hd => by simp at hd)
  · unfold throttledHandler
    split
    · exact fun _ hi => Or.inl hi
    · rename_i det hfind
      obtain ⟨hmem, _⟩ := find?_id_some (fun m : DesktopDetector => m.id) s.desktop d det hfind
      split
      · exact fun inv hi => Or.inl hi
      · intro inv hi
        have hi2 : inv ∈ (handleMouseLeave s det y).invoked := hi
        rcases invoked_handleMouseLeave s det y with h | h
        · rw [h] at hi2
          exact Or.inl hi2
        · rw [h] at hi2
          simp only [List.mem_append, List.mem_singleton] at hi2
          rcases hi2 with hi2 | hi2
          · exact Or.inl hi2
          · subst hi2
            exact Or.inr ⟨det, hmem, rfl⟩

theorem calm_dispatchMouseLeave (s : State) (y : Int) : Calm s (dispatchMouseLeave s y) := by
  unfold dispatchMouseLeave
  apply foldl_preserves (fun st => Calm s st) _ _ _ s (calm_refl s)
  intro st d hst
  split
  · exact calm_trans hst (calm_throttledHandler st d y)
  · exact hst

theorem debounce_calm {s s2 : State} {log : List (Nat × Nat)} (h : DebounceInv s log)
    (hc : Calm s s2) : DebounceInv s2 log := by
  constructor
  · intro t ht d hk
    rcases hc.timers_old t ht with h1 | h1
    · exact h.deadline t h1 d hk
    · exact absurd hk (h1 d)
  · intro inv hinv p hp hpd
    rcases hc.invoked_old inv hinv with h1 | ⟨det, hdet, hid⟩
    · exact h.quiet inv h1 p hp hpd
    · exact absurd (hid.trans hpd.symm) (h.log_mobile p hp det hdet)
  · intro p hp
    exact Nat.le_trans (h.past p hp) hc.now_le
  · intro p hp
    exact Nat.lt_of_lt_of_le (h.log_lt p hp) hc.next_le
  · intro p hp det hdet
    obtain ⟨y, hy, hyid⟩ := hc.desktop_old det hdet
    rw [← hyid]
    exact h.log_mobile p hp y hy
  · intro det hdet
    obtain ⟨y, hy, _, hyw⟩ := hc.mobile_old det hdet
    rw [← hyw]
    exact h.window y hy

theorem new_nil (s s2 : State) (h : ∀ x ∈ s2.mobile, ∃ y ∈ s.mobile, y.id = x.id) :
    s2.mobile.filter (fun m => !(s.mobile.any (fun y => y.id == m.id))) = [] := by
  rw [List.filter_eq_nil_iff]
  intro x hx
  obtain ⟨y, hy, hyid⟩ := h x hx
  simp only [Bool.not_eq_true', List.any_eq_false, beq_iff_eq, not_forall, Classical.not_imp,
    Decidable.not_not]
  exact ⟨y, hy, hyid⟩

theorem signals_of_calm (s : State) (a : Action) (hc : Calm s (step s a))
    (ha : ∀ k, a = .activity k → ∀ det ∈ s.mobile, det.listening = false) :
    signals s a = [] := by
  have hn := new_nil s (step s a) (fun x hx => by
    obtain ⟨y, hy, hyid, _⟩ := hc.mobile_old x hx
    exact ⟨y, hy, hyid⟩)
  unfold signals
  rw [hn]
  cases a with
  | activity k =>
    have := filter_listening_of_none s.mobile (fun m => m.listening) (ha k rfl)
    simp [this]
  | _ => rfl

theorem timers_resetTimer (s : State) (d : Nat) (det : MobileDetector)
    (h : s.mobile.find? (fun m => m.id == d) = some det) :
    (resetTimer s d).timers =
      (clearTimeout s det.timer).timers ++
        [{ id := s.nextId, due := s.now + det.inactivityTime, kind := .inactivity d }] ∧
    (resetTimer s d).nextId = s.nextId + 1 := by
  unfold resetTimer
  rw [h]
  obtain ⟨_, _, _, _, _, e6, _⟩ := clearTimeout_rest s det.timer
  have e8 : (clearTimeout s det.timer).now = s.now :=
    congrArg (fun c => c.1) (core_clearTimeout s det.timer)
  constructor
  · show (clearTimeout s det.timer).timers ++
      [{ id := (clearTimeout s det.timer).nextId,
         due := (clearTimeout s det.timer).now + det.inactivityTime,
         kind := .inactivity d }] = _
    rw [e6, e8]
  · show (clearTimeout s det.timer).nextId + 1 = _
    rw [e6]

/-- An activity signal to the listening detector `d`: the timers it had are cancelled and
the new deadline is the time of the signal plus the window. -/
theorem debounce_resetTimer (s : State) (log : List (Nat × Nat)) (d : Nat)
    (h : DebounceInv s log) (hi : HandleInv s)
    (hl : ∃ x ∈ s.mobile, x.id = d ∧ x.listening = true) :
    DebounceInv (resetTimer s d) (log ++ [(d, s.now)]) := by
  obtain ⟨x, hx, hxid, hxl⟩ := hl
  cases hf : s.mobile.find? (fun m => m.id == d) with
  | none => exact absurd hxid (find?_id_none (fun m : MobileDetector => m.id) s.mobile d hf x hx)
  | some det =>
    obtain ⟨hmem, hid⟩ := find?_id_some (fun m : MobileDetector => m.id) s.mobile d det hf
    obtain ⟨et, en⟩ := timers_resetTimer s d det hf
    have hs := steady_resetTimer s d
    have hw : det.inactivityTime = mobileInactivityTime := h.window det hmem
    constructor
    · intro t ht d2 hk
      rw [et] at ht
      simp only [List.mem_append, List.mem_singleton] at ht
      rcases ht with ht | ht
      · have ht2 := (mem_timers_clearTimeout s det.timer t).1 ht
        have hne : d2 ≠ d := by
          intro heq
          exact ht2.2 ((hi.inactivity_owner t ht2.1 d2 hk).2 det hmem (by rw [hid, heq]))
        obtain ⟨⟨p, hp, hpd, hpe⟩, hall⟩ := h.deadline t ht2.1 d2 hk
        refine ⟨⟨p, List.mem_append_left _ hp, hpd, hpe⟩, ?_⟩
        intro q hq hqd
        simp only [List.mem_append, List.mem_singleton] at hq
        rcases hq with hq | hq
        · exact hall q hq hqd
        · subst hq
          exact absurd hqd.symm hne
      · subst ht
        simp only [TimerKind.inactivity.injEq] at hk
        subst hk
        refine ⟨⟨(d, s.now), by simp, rfl, by simp [hw]⟩, ?_⟩
        intro q hq _
        simp only [List.mem_append, List.mem_singleton] at hq
        rcases hq with hq | hq
        · have := h.past q hq
          simp only [hw]
          omega
        · subst hq
          simp [hw]
    · intro inv hinv p hp hpd
      have hinv2 : inv ∈ s.invoked := by
        have := congrArg (fun c => c.2.2) (core_resetTimer s d)
        simp only [State.core] at this
        rw [← this]
        exact hinv
      simp only [List.mem_append, List.mem_singleton] at hp
      rcases hp with hp | hp
      · exact h.quiet inv hinv2 p hp hpd
      · subst hp
        have := hi.invoked_mobile inv hinv2 x hx (hxid.trans hpd)
        rw [hxl] at this
        simp at this
    · intro p hp
      rw [hs.now_eq]
      simp only [List.mem_append, List.mem_singleton] at hp
      rcases hp with hp | hp
      · exact h.past p hp
      · subst hp
        exact Nat.le_refl _
    · intro p hp
      rw [en]
      simp only [List.mem_append, List.mem_singleton] at hp
      rcases hp with hp | hp
      · exact Nat.lt_succ_of_lt (h.log_lt p hp)
      · subst hp
        exact Nat.lt_succ_of_lt (hxid ▸ hi.mobile_lt x hx)
    · intro p hp y hy
      rw [(resetTimer_listening s d).2] at hy
      simp only [List.mem_append, List.mem_singleton] at hp
      rcases hp with hp | hp
      · exact h.log_mobile p hp y hy
      · subst hp
        exact hxid ▸ hi.kinds_apart y hy x hx
    · intro y hy
      have hmem2 : (y.id, y.inactivityTime) ∈
          (resetTimer s d).mobile.map (fun m => (m.id, m.inactivityTime)) :=
        List.mem_map_of_mem _ hy
      rw [hs.mobile_sig, List.mem_map] at hmem2
      obtain ⟨z, hz, hzeq⟩ := hmem2
      rw [← (Prod.mk.inj hzeq).2]
      exact h.window z hz

theorem calm_clearTimeout (s : State) (id : Option Nat) : Calm s (clearTimeout s id) :=
  calm_of_steady (steady_clearTimeout s id)
    (fun t ht => Or.inl ((mem_timers_clearTimeout s id t).1 ht).1)
    (fun _ hinv => Or.inl ((clearTimeout_rest s id).2.2.2.2.2.2 ▸ hinv))

theorem filter_by_key {β γ : Type} (L : List β) (key : β → Nat) (q : Nat → Bool)
    (f : Nat → γ) :
    (L.filter (fun m => q (key m))).map (fun m => f (key m)) =
      ((L.map key).filter q).map f := by
  induction L with
  | nil => rfl
  | cons x xs ih =>
    cases hq : q (key x) <;> simp [List.filter_cons, hq, ih]

/-- The state in which `setupMobileExitDetection` calls `resetTimer`, with the handle
already set, satisfies the invariant of the handles. -/
theorem handleInv_mobile_created (s : State) (cb : Nat) (h : HandleInv s) (q : Quiet s) :
    HandleInv { s with
      mobile := s.mobile ++ [⟨s.nextId, cb, mobileInactivityTime, none, true⟩],
      nextId := s.nextId + 1, mobileCleanup := some s.nextId } := by
  obtain ⟨q1, q2, q3⟩ := q
  obtain ⟨h1, h2, h3, h4, h5, h6, h7, h8, h9, h10, h11⟩ := h
  constructor
  · exact h1
  · intro x hx hl
    simp only [List.mem_append, List.mem_singleton] at hx
    rcases hx with hx | hx
    · exact (not_listening_of_quiet q2 x hx hl).elim
    · subst hx; rfl
  · intro t ht d hk
    obtain ⟨⟨z, hz, _, hzl⟩, _⟩ := h3 t ht d hk
    exact (not_listening_of_quiet q2 z hz hzl).elim
  · intro t ht cb2 hk
    exact absurd hk (q3 t ht cb2)
  · intro x hx
    exact Nat.lt_succ_of_lt (h5 x hx)
  · intro x hx
    simp only [List.mem_append, List.mem_singleton] at hx
    rcases hx with hx | hx
    · exact Nat.lt_succ_of_lt (h6 x hx)
    · subst hx; exact Nat.lt_succ_self _
  · intro a ha b hb
    simp only [List.mem_append, List.mem_singleton] at hb
    rcases hb with hb | hb
    · exact h7 a ha b hb
    · subst hb; exact Nat.ne_of_lt (h5 a ha)
  · intro inv hinv
    exact Nat.lt_succ_of_lt (h8 inv hinv)
  · exact h9
  · intro inv hinv x hx hxid
    simp only [List.mem_append, List.mem_singleton] at hx
    rcases hx with hx | hx
    · exact h10 inv hinv x hx hxid
    · subst hx
      exact absurd hxid (Nat.ne_of_gt (h8 inv hinv))
  · exact h11

theorem delayElapsed_mobile_eq (s : State) (cb : Nat)
    (hm : isMobileDevice s.userAgent s.innerWidth = true) :
    delayElapsed s cb =
      resetTimer { s with
        mobile := s.mobile ++ [⟨s.nextId, cb, mobileInactivityTime, none, true⟩],
        nextId := s.nextId + 1, mobileCleanup := some s.nextId } s.nextId := by
  unfold delayElapsed
  rw [if_pos hm]
  simp only [setupMobileExitDetection]
  exact resetTimer_comm_handle
    { s with mobile := s.mobile ++ [⟨s.nextId, cb, mobileInactivityTime, none, true⟩],
             nextId := s.nextId + 1 } s.nextId (some s.nextId)

theorem delayElapsed_desktop_eq (s : State) (cb : Nat)
    (hm : isMobileDevice s.userAgent s.innerWidth = false) :
    delayElapsed s cb =
      { s with
        desktop := s.desktop ++ [⟨s.nextId, cb, desktopThrottleLimit, false, true⟩],
        nextId := s.nextId + 1, desktopCleanup := some s.nextId } := by
  unfold delayElapsed
  rw [hm]
  rfl

/-- The signals of the step in which the function of the delay timer runs on `s`: the new
mobile detector, if the classifier says mobile. -/
theorem new_of_delayElapsed (s : State) (cb : Nat) (hlt : ∀ det ∈ s.mobile, det.id < s.nextId) :
    ((delayElapsed s cb).mobile.filter
        (fun m => !(s.mobile.any (fun y => y.id == m.id)))).map (fun m => (m.id, s.now)) =
      (if isMobileDevice s.userAgent s.innerWidth then [(s.nextId, s.now)] else []) := by
  have hkey := filter_by_key (delayElapsed s cb).mobile (fun m => m.id)
    (fun i => !(s.mobile.any (fun y => y.id == i))) (fun i => (i, s.now))
  simp only at hkey
  rw [hkey]
  have hids : (delayElapsed s cb).mobile.map (fun m => m.id) =
      ((delayElapsed s cb).mobile.map (fun m => (m.id, m.callback, m.listening))).map
        (fun p => p.1) := by
    rw [List.map_map]; rfl
  rw [hids, (delayElapsed_lists s cb).2]
  have hold : (s.mobile.map (fun m => m.id)).filter
      (fun i => !(s.mobile.any (fun y => y.id == i))) = [] := by
    rw [List.filter_eq_nil_iff]
    intro i hi
    simp only [List.mem_map] at hi
    obtain ⟨y, hy, rfl⟩ := hi
    simp only [Bool.not_eq_true', List.any_eq_false, beq_iff_eq, not_forall, Classical.not_imp,
      Decidable.not_not]
    exact ⟨y, hy, rfl⟩
  have hnew : (s.mobile.any (fun y => y.id == s.nextId)) = false := by
    simp only [List.any_eq_false, beq_iff_eq]
    intro y hy
    exact Nat.ne_of_lt (hlt y hy)
  split
  · simp [List.map_append, List.filter_append, List.map_map, Function.comp, hold, hnew]
  · simp [List.map_map, Function.comp, hold]

theorem timers_triggerCallback (s : State) (d : Nat) :
    ∀ t ∈ (triggerCallback s d).timers, t ∈ s.timers := by
  unfold triggerCallback
  split
  · exact fun _ h => h
  · simp only
    split
    · exact fun _ h => h
    · intro t ht
      have h2 := timers_callMobileCleanup _ t ht
      exact h2

theorem invoked_triggerCallback (s : State) (d : Nat) :
    ∀ inv ∈ (triggerCallback s d).invoked,
      inv ∈ s.invoked ∨ (inv.time = s.now ∧ inv.detector = d) := by
  unfold triggerCallback
  split
  · exact fun _ h => Or.inl h
  · rename_i det hfind
    obtain ⟨_, hid⟩ := find?_id_some (fun m : MobileDetector => m.id) s.mobile d det hfind
    simp only
    split
    · exact fun _ h => Or.inl h
    · intro inv hinv
      have hc := congrArg (fun c => c.2.2) (core_callMobileCleanup
        { s with
          store := markExitIntentShown s.now (hasSeenExitIntentRecently s.now s.store).2,
          invoked := s.invoked ++
            [{ time := s.now, callback := det.callback, detector := det.id }] })
      simp only [State.core] at hc
      rw [hc] at hinv
      simp only [List.mem_append, List.mem_singleton] at hinv
      rcases hinv with hinv | hinv
      · exact Or.inl hinv
      · subst hinv
        exact Or.inr ⟨rfl, hid⟩

theorem debounce_of_calm_step (s : State) (a : Action) (log : List (Nat × Nat))
    (h : DebounceInv s log) (hc : Calm s (step s a))
    (ha : ∀ k, a = .activity k → ∀ det ∈ s.mobile, det.listening = false) :
    DebounceInv (step s a) (log ++ signals s a) := by
  rw [signals_of_calm s a hc ha, List.append_nil]
  exact debounce_calm h hc

theorem eq_singleton_of_mem {β : Type} (l : List β) (x : β) (hl : l.length ≤ 1) (hx : x ∈ l) :
    l = [x] := by
  match l, hl, hx with
  | [y], _, hx => simp only [List.mem_singleton] at hx; rw [hx]
  | _ :: _ :: _, hl, _ => simp at hl

theorem debounce_activity (s : State) (k : ActivityKind) (log : List (Nat × Nat))
    (h : DebounceInv s log) (hi : HandleInv s) (hn : IdsNodup s) :
    DebounceInv (step s (.activity k)) (log ++ signals s (.activity k)) := by
  by_cases hq : ∀ det ∈ s.mobile, det.listening = false
  · apply debounce_of_calm_step s _ log h _ (fun _ _ => hq)
    show Calm s (dispatchActivity s)
    rw [dispatchActivity_of_none s hq]
    exact calm_refl s
  · simp only [not_forall, Bool.not_eq_false] at hq
    obtain ⟨det, hdet, hl⟩ := hq
    have hlen : (s.mobile.filter (fun m => m.listening)).length ≤ 1 := by
      apply filter_length_le_one (fun m : MobileDetector => m.id) _ _ hn.2
      intro x hx y hy hpx hpy
      have h1 := hi.mobile_handle x hx hpx
      have h2 := hi.mobile_handle y hy hpy
      rw [h1] at h2
      exact Option.some.inj h2
    have hfil : s.mobile.filter (fun m => m.listening) = [det] :=
      eq_singleton_of_mem _ det hlen (by simp [List.mem_filter, hdet, hl])
    have hany : s.mobile.any (fun x => x.id == det.id && x.listening) = true := by
      simp only [List.any_eq_true, Bool.and_eq_true, beq_iff_eq]
      exact ⟨det, hdet, rfl, hl⟩
    have hstep : step s (.activity k) = resetTimer s det.id := by
      show dispatchActivity s = _
      unfold dispatchActivity
      rw [hfil]
      simp only [List.map_cons, List.map_nil, List.foldl_cons, List.foldl_nil, hany, if_true]
    have hnew := new_nil s (resetTimer s det.id) (fun x hx => by
      obtain ⟨y, hy, hyid, _⟩ := (kept_of_steady (steady_resetTimer s det.id)).2 x hx
      exact ⟨y, hy, hyid⟩)
    have hsig : signals s (.activity k) = [(det.id, s.now)] := by
      unfold signals
      rw [hstep, hnew, hfil]
      rfl
    rw [hsig, hstep]
    exact debounce_resetTimer s log det.id h hi ⟨det, hdet, rfl, hl⟩

theorem signals_timer (s : State) (id : Nat) :
    signals s (.timer id) =
      ((step s (.timer id)).mobile.filter
        (fun m => !(s.mobile.any (fun y => y.id == m.id)))).map (fun m => (m.id, s.now)) := by
  simp [signals]

theorem debounce_timer (s : State) (id : Nat) (log : List (Nat × Nat))
    (h : DebounceInv s log) (hi : HandleInv s) :
    DebounceInv (step s (.timer id)) (log ++ signals s (.timer id)) := by
  have hnoact : ∀ k, Action.timer id = .activity k →
      ∀ det ∈ s.mobile, det.listening = false := fun k hk => by simp at hk
  cases hf : s.timers.find? (fun t => t.id == id) with
  | none =>
    have hstep : step s (.timer id) = s := by simp [step, timerExpires, hf]
    exact debounce_of_calm_step s _ log h (by rw [hstep]; exact calm_refl s) hnoact
  | some t =>
    obtain ⟨hmem, _⟩ := find?_id_some (fun x : Timer => x.id) s.timers id t hf
    by_cases hdue : t.due ≤ s.now
    · have hc := calm_clearTimeout s (some id)
      have hi2 := handleInv_clearTimeout s (some id) hi
      have h2 := debounce_calm h hc
      cases hk : t.kind with
      | initDelay cb =>
        have hstep : step s (.timer id) = delayElapsed (clearTimeout s (some id)) cb := by
          simp [step, timerExpires, hf, hdue, hk, runTimer, clearTimeout]
        have hq : Quiet (clearTimeout s (some id)) := by
          refine ⟨(hi.delay_pending t hmem cb hk).2.1, (hi.delay_pending t hmem cb hk).2.2, ?_⟩
          intro t2 ht2 cb2 hk2
          have ht3 := (mem_timers_clearTimeout s (some id) t2).1 ht2
          have e1 := (hi.delay_pending t hmem cb hk).1
          have e2 := (hi.delay_pending t2 ht3.1 cb2 hk2).1
          rw [e1] at e2
          have e3 : t.id = t2.id := Option.some.inj e2
          have e4 : t.id = id := (find?_id_some (fun x : Timer => x.id) s.timers id t hf).2
          exact ht3.2 (by rw [← e4, e3])
        have hsig := new_of_delayElapsed (clearTimeout s (some id)) cb hi2.mobile_lt
        rw [signals_timer, hstep]
        have hsig2 : ((delayElapsed (clearTimeout s (some id)) cb).mobile.filter
            (fun m => !(s.mobile.any (fun y => y.id == m.id)))).map (fun m => (m.id, s.now)) =
            (if isMobileDevice s.userAgent s.innerWidth then [(s.nextId, s.now)] else []) := hsig
        rw [hsig2]
        by_cases hm : isMobileDevice s.userAgent s.innerWidth = true
        · rw [if_pos hm, delayElapsed_mobile_eq (clearTimeout s (some id)) cb hm]
          have hdeb : DebounceInv
              { clearTimeout s (some id) with
                mobile := (clearTimeout s (some id)).mobile ++
                  [⟨(clearTimeout s (some id)).nextId, cb, mobileInactivityTime, none, true⟩],
                nextId := (clearTimeout s (some id)).nextId + 1,
                mobileCleanup := some (clearTimeout s (some id)).nextId } log := by
            refine ⟨h2.deadline, h2.quiet, h2.past, ?_, h2.log_mobile, ?_⟩
            · intro p hp
              exact Nat.lt_succ_of_lt (h2.log_lt p hp)
            · intro det hdet
              simp only [List.mem_append, List.mem_singleton] at hdet
              rcases hdet with hdet | hdet
              · exact h2.window det hdet
              · subst hdet; rfl
          exact debounce_resetTimer _ log _ hdeb
            (handleInv_mobile_created (clearTimeout s (some id)) cb hi2 hq)
            ⟨_, List.mem_append_right _ (List.mem_singleton_self _), rfl, rfl⟩
        · simp only [Bool.not_eq_true] at hm
          rw [hm, delayElapsed_desktop_eq (clearTimeout s (some id)) cb hm]
          simp only [Bool.false_eq_true, if_false, List.append_nil]
          refine ⟨h2.deadline, h2.quiet, h2.past, ?_, ?_, h2.window⟩
          · intro p hp
            exact Nat.lt_succ_of_lt (h2.log_lt p hp)
          · intro p hp det hdet
            simp only [List.mem_append, List.mem_singleton] at hdet
            rcases hdet with hdet | hdet
            · exact h2.log_mobile p hp det hdet
            · subst hdet
              exact Nat.ne_of_gt (h2.log_lt p hp)
      | throttleReset d =>
        have hc2 : Calm s (step s (.timer id)) := by
          have hstep : step s (.timer id) =
              { clearTimeout s (some id) with
                desktop := (clearTimeout s (some id)).desktop.map
                  (fun x => if x.id = d then { x with inThrottle := false } else x) } := by
            simp [step, timerExpires, hf, hdue, hk, runTimer, clearTimeout]
          rw [hstep]
          exact calm_trans hc (calm_of_steady (steady_setInThrottle _ d false)
            (fun _ ht => Or.inl ht) (fun _ hv => Or.inl hv))
        exact debounce_of_calm_step s _ log h hc2 hnoact
      | inactivity d =>
        have hstep : step s (.timer id) = triggerCallback (clearTimeout s (some id)) d := by
          simp [step, timerExpires, hf, hdue, hk, runTimer, clearTimeout]
        have hst := steady_triggerCallback (clearTimeout s (some id)) d
        have hkept := kept_of_steady hst
        have hnew := new_nil s (triggerCallback (clearTimeout s (some id)) d) (fun x hx => by
          obtain ⟨y, hy, hyid, _⟩ := hkept.2 x hx
          exact ⟨y, hy, hyid⟩)
        rw [signals_timer, hstep, hnew]
        simp only [List.map_nil, List.append_nil]
        constructor
        · intro t2 ht2 d2 hk2
          exact h2.deadline t2 (timers_triggerCallback _ d t2 ht2) d2 hk2
        · intro inv hinv p hp hpd
          rcases invoked_triggerCallback _ d inv hinv with h3 | ⟨h3, h4⟩
          · exact h2.quiet inv h3 p hp hpd
          · have h5 := (h.deadline t hmem d hk).2 p hp (hpd.trans h4)
            have h6 : inv.time = s.now := h3
            omega
        · intro p hp
          rw [hst.now_eq]
          exact h2.past p hp
        · intro p hp
          exact Nat.lt_of_lt_of_le (h2.log_lt p hp) hst.next_le
        · intro p hp det hdet
          obtain ⟨y, hy, hyid, _⟩ := hkept.1 det hdet
          rw [← hyid]
          exact h2.log_mobile p hp y hy
        · intro det hdet
          have hmem2 : (det.id, det.inactivityTime) ∈
              (triggerCallback (clearTimeout s (some id)) d).mobile.map
                (fun m => (m.id, m.inactivityTime)) := List.mem_map_of_mem _ hdet
          rw [hst.mobile_sig, List.mem_map] at hmem2
          obtain ⟨z, hz, hzeq⟩ := hmem2
          rw [← (Prod.mk.inj hzeq).2]
          exact h2.window z hz
    · have hstep : step s (.timer id) = s := by simp [step, timerExpires, hf, hdue]
      exact debounce_of_calm_step s _ log h (by rw [hstep]; exact calm_refl s) hnoact

theorem debounce_step (s : State) (a : Action) (log : List (Nat × Nat))
    (h : DebounceInv s log) (hi : HandleInv s) (hn : IdsNodup s) :
    DebounceInv (step s a) (log ++ signals s a) := by
  cases a with
  | initializeExitIntent cb =>
    exact debounce_of_calm_step s _ log h (calm_initializeExitIntent s cb) (fun k hk => by simp at hk)
  | cleanupExitIntent =>
    exact debounce_of_calm_step s _ log h (calm_cleanup s) (fun k hk => by simp at hk)
  | reload =>
    refine debounce_of_calm_step s _ log h ?_ (fun k hk => by simp at hk)
    exact ⟨Nat.le_refl _, Nat.le_refl _, by simp [step, reload, State.initial],
      by simp [step, reload, State.initial], by simp [step, reload, State.initial],
      fun _ hv => Or.inl hv⟩
  | advance d =>
    refine debounce_of_calm_step s _ log h ?_ (fun k hk => by simp at hk)
    exact ⟨Nat.le_add_right _ _, Nat.le_refl _, fun x hx => ⟨x, hx, rfl⟩,
      fun x hx => ⟨x, hx, rfl, rfl⟩, fun _ ht => Or.inl ht, fun _ hv => Or.inl hv⟩
  | mouseleave y =>
    exact debounce_of_calm_step s _ log h (calm_dispatchMouseLeave s y)
      (fun k hk => by simp at hk)
  | activity k => exact debounce_activity s k log h hi hn
  | timer id => exact debounce_timer s id log h hi
  | resize w =>
    refine debounce_of_calm_step s _ log h ?_ (fun k hk => by simp at hk)
    exact ⟨Nat.le_refl _, Nat.le_refl _, fun x hx => ⟨x, hx, rfl⟩,
      fun x hx => ⟨x, hx, rfl, rfl⟩, fun _ ht => Or.inl ht, fun _ hv => Or.inl hv⟩
  | setAgent ua =>
    refine debounce_of_calm_step s _ log h ?_ (fun k hk => by simp at hk)
    exact ⟨Nat.le_refl _, Nat.le_refl _, fun x hx => ⟨x, hx, rfl⟩,
      fun x hx => ⟨x, hx, rfl, rfl⟩, fun _ ht => Or.inl ht, fun _ hv => Or.inl hv⟩

theorem debounce_run (acts : List Action) (s : State) (log : List (Nat × Nat))
    (h : DebounceInv s log) (hi : HandleInv s) (hn : IdsNodup s) :
    DebounceInv (run s acts) (log ++ signalLog s acts) := by
  induction acts generalizing s log with
  | nil => simpa [signalLog, run] using h
  | cons a as ih =>
    have := ih (step s a) (log ++ signals s a) (debounce_step s a log h hi hn)
      (handleInv_step s a hi) (idsNodup_step s a hi hn)
    simpa [signalLog, run, List.append_assoc] using this

theorem debounce_initial (t0 : Nat) (store : Storage) (ua : Option String) (w : Nat) :
    DebounceInv (State.initial t0 store ua w) [] := by
  constructor <;> simp [State.initial]

/-- An activity event while the mobile detector `det` listens is one call of its
`resetTimer`. -/
theorem activity_step_eq (s : State) (k : ActivityKind) (det : MobileDetector)
    (hi : HandleInv s) (hn : IdsNodup s) (hdet : det ∈ s.mobile) (hl : det.listening = true) :
    step s (.activity k) = resetTimer s det.id := by
  have hlen : (s.mobile.filter (fun m => m.listening)).length ≤ 1 := by
    apply filter_length_le_one (fun m : MobileDetector => m.id) _ _ hn.2
    intro x hx y hy hpx hpy
    have h1 := hi.mobile_handle x hx hpx
    have h2 := hi.mobile_handle y hy hpy
    rw [h1] at h2
    exact Option.some.inj h2
  have hfil : s.mobile.filter (fun m => m.listening) = [det] :=
    eq_singleton_of_mem _ det hlen (by simp [List.mem_filter, hdet, hl])
  have hany : s.mobile.any (fun x => x.id == det.id && x.listening) = true := by
    simp only [List.any_eq_true, Bool.and_eq_true, beq_iff_eq]
    exact ⟨det, hdet, rfl, hl⟩
  show dispatchActivity s = _
  unfold dispatchActivity
  rw [hfil]
  simp only [List.map_cons, List.map_nil, List.foldl_cons, List.foldl_nil, hany, if_true]

/-- C11: along every sequence of steps, with the signals to a mobile detector being its
installation and the activity events (touchstart, touchmove, scroll, click, keypress)
dispatched while it listens: the window of every mobile detector is 30,000 ms; the deadline
of a pending inactivity timer is the time of the latest signal to its detector plus the
window; an activity event at time `t` to a listening detector cancels the timer that was
pending and leaves the deadline at `t + 30,000`; and a detector has invoked its callback only
at a time that is a full window after every signal it received. -/
theorem c11_debounce (t0 : Nat) (store : Storage) (userAgent : Option String)
    (innerWidth : Nat) (acts : List Action) (k : ActivityKind) (s : State)
    (log : List (Nat × Nat))
    (hs : s = run (State.initial t0 store userAgent innerWidth) acts)
    (hlog : log = signalLog (State.initial t0 store userAgent innerWidth) acts) :
    (∀ det ∈ s.mobile, det.inactivityTime = 30000) ∧
    (∀ t ∈ s.timers, ∀ d, t.kind = .inactivity d →
      (∃ p ∈ log, p.1 = d ∧ t.due = p.2 + 30000) ∧
      ∀ p ∈ log, p.1 = d → p.2 + 30000 ≤ t.due) ∧
    (∀ det ∈ s.mobile, det.listening = true →
      (∀ t ∈ s.timers, t.kind = .inactivity det.id → t ∉ (step s (.activity k)).timers) ∧
      (∃ t ∈ (step s (.activity k)).timers, t.kind = .inactivity det.id) ∧
      ∀ t ∈ (step s (.activity k)).timers, t.kind = .inactivity det.id →
        t.due = s.now + 30000) ∧
    (∀ inv ∈ s.invoked, ∀ p ∈ log, p.1 = inv.detector → p.2 + 30000 ≤ inv.time) := by
  obtain ⟨hi, ht, hn⟩ := reachable_invariants t0 store userAgent innerWidth acts
  have hd := debounce_run acts _ [] (debounce_initial t0 store userAgent innerWidth)
    (handleInv_initial t0 store userAgent innerWidth) ⟨by simp [State.initial], by simp [State.initial]⟩
  rw [List.nil_append, ← hlog] at hd
  rw [← hs] at hi ht hn hd
  have hI : mobileInactivityTime = 30000 := by decide
  refine ⟨?_, ?_, ?_, ?_⟩
  · intro det hdet
    rw [← hI]
    exact hd.window det hdet
  · intro t htm d hk
    have := hd.deadline t htm d hk
    rw [hI] at this
    exact this
  · intro det hdet hl
    have hstep := activity_step_eq s k det hi hn hdet hl
    cases hf : s.mobile.find? (fun m => m.id == det.id) with
    | none =>
      exact absurd rfl (find?_id_none (fun m : MobileDetector => m.id) s.mobile det.id hf det hdet)
    | some f =>
      obtain ⟨hfm, hfid⟩ := find?_id_some (fun m : MobileDetector => m.id) s.mobile det.id f hf
      obtain ⟨et, _⟩ := timers_resetTimer s det.id f hf
      have hw : f.inactivityTime = 30000 := by rw [← hI]; exact hd.window f hfm
      rw [hstep, et]
      refine ⟨?_, ⟨_, List.mem_append_right _ (List.mem_singleton_self _), rfl⟩, ?_⟩
      · intro t htm hk hmem
        simp only [List.mem_append, List.mem_singleton] at hmem
        rcases hmem with hmem | hmem
        · have h1 := (mem_timers_clearTimeout s f.timer t).1 hmem
          exact h1.2 ((hi.inactivity_owner t htm det.id hk).2 f hfm hfid)
        · have h2 := ht.1 t htm
          rw [hmem] at h2
          simp at h2
      · intro t hmem hk
        simp only [List.mem_append, List.mem_singleton] at hmem
        rcases hmem with hmem | hmem
        · have h1 := (mem_timers_clearTimeout s f.timer t).1 hmem
          exact absurd ((hi.inactivity_owner t h1.1 det.id hk).2 f hfm hfid) h1.2
        · rw [hmem, hw]
  · exact fun inv hinv p hp hpd => by
      have := hd.quiet inv hinv p hp hpd
      rw [hI] at this
      exact this

theorem c11_debounce_witness :
    run (State.initial 0 none (some "iPhone") 1024)
        [.initializeExitIntent 7, .advance 10000, .timer 1, .advance 5000] =
      run (State.initial 0 none (some "iPhone") 1024)
        [.initializeExitIntent 7, .advance 10000, .timer 1, .advance 5000] ∧
    signalLog (State.initial 0 none (some "iPhone") 1024)
        [.initializeExitIntent 7, .advance 10000, .timer 1, .advance 5000] = [(2, 10000)] ∧
    (∀ t ∈ (run (State.initial 0 none (some "iPhone") 1024)
        [.initializeExitIntent 7, .advance 10000, .timer 1, .advance 5000]).timers,
      ∀ d, t.kind = .inactivity d →
        (∃ p ∈ [(2, 10000)], p.1 = d ∧ t.due = p.2 + 30000) ∧
        ∀ p ∈ [(2, 10000)], p.1 = d → p.2 + 30000 ≤ t.due) :=
  ⟨rfl, by decide,
   (c11_debounce 0 none (some "iPhone") 1024
      [.initializeExitIntent 7, .advance 10000, .timer 1, .advance 5000] .scroll
      (run (State.initial 0 none (some "iPhone") 1024)
        [.initializeExitIntent 7, .advance 10000, .timer 1, .advance 5000])
      [(2, 10000)] rfl (by decide)).2.1⟩


/-! ## End-to-end scenarios -/

theorem run_concat (s : State) (xs ys : List Action) : run s (xs ++ ys) = run (run s xs) ys := by
  induction xs generalizing s with
  | nil => rfl
  | cons a as ih => exact ih (step s a)

theorem invoked_initializeExitIntent (s : State) (cb : Nat) :
    (initializeExitIntent s cb).invoked = s.invoked := by
  have h3 := invoked_teardown s
  unfold initializeExitIntent
  simp only
  generalize clearInitialDelay (callMobileCleanup (callDesktopCleanup s)) = s3 at h3 ⊢
  split
  · exact h3
  · exact h3

/-- Before the delay has run out no callback is invoked. -/
theorem prearm_invoked_step (T : Nat) (s : State) (a : Action) (h : PreArm T s)
    (hnow : (step s a).now < T) : (step s a).invoked = s.invoked := by
  have hmono := step_now_ge s a
  cases a with
  | initializeExitIntent cb => exact invoked_initializeExitIntent s cb
  | cleanupExitIntent => exact congrArg (fun c => c.2.2) (core_cleanupExitIntent s)
  | reload => rfl
  | advance d => rfl
  | mouseleave y =>
    show (dispatchMouseLeave s y).invoked = _
    rw [dispatchMouseLeave_of_none s y h.2.1]
  | activity k =>
    show (dispatchActivity s).invoked = _
    rw [dispatchActivity_of_none s h.2.2.1]
  | timer id =>
    have hnow2 : s.now < T := Nat.lt_of_le_of_lt hmono hnow
    show (timerExpires s id).invoked = _
    unfold timerExpires
    split
    · rfl
    · rename_i t hfind
      have hmem := List.mem_of_find?_eq_some hfind
      split
      · rename_i hdue
        rcases h.2.2.2 t hmem with ⟨d, hd⟩ | ⟨c, _, hc⟩
        · rw [hd]
          rfl
        · omega
      · rfl
  | resize w => rfl
  | setAgent ua => rfl

theorem prearm_invoked_run (T : Nat) (mid : List Action) (s : State) (h : PreArm T s)
    (hnow : (run s mid).now < T) : (run s mid).invoked = s.invoked := by
  induction mid generalizing s with
  | nil => rfl
  | cons a as ih =>
    have h1 : (step s a).now < T := Nat.lt_of_le_of_lt (run_now_ge as (step s a)) hnow
    exact (ih _ (prearm_step T s a h h1) hnow).trans (prearm_invoked_step T s a h h1)

/-- The page of the desktop scenario once the delay timer has expired at 10,000 ms. -/
theorem desktop_armed_state (userAgent : Option String) (innerWidth : Nat) (cb : Nat)
    (hd : isMobileDevice userAgent innerWidth = false) :
    run (State.initial 0 none userAgent innerWidth)
        [.initializeExitIntent cb, .advance 10000, .timer 1] =
      { now := 10000, store := none, userAgent := userAgent, innerWidth := innerWidth,
        desktopCleanup := some 2, mobileCleanup := none, initialDelayTimer := some 1,
        desktop := [⟨2, cb, 200, false, true⟩], mobile := [], timers := [], nextId := 3,
        invoked := [] } := by
  simp [run, step, State.initial, initializeExitIntent, callDesktopCleanup, callMobileCleanup,
    clearInitialDelay, clearTimeout, hasSeenExitIntentRecently, setTimeout, INITIAL_DELAY,
    timerExpires, runTimer, delayElapsed, hd, setupDesktopExitDetection, desktopThrottleLimit]

theorem desktop_handle_fires (userAgent : Option String) (innerWidth : Nat) (cb : Nat) :
    handleMouseLeave
      { now := 10001, store := none, userAgent := userAgent, innerWidth := innerWidth,
        desktopCleanup := some 2, mobileCleanup := none, initialDelayTimer := some 1,
        desktop := [⟨2, cb, 200, false, true⟩], mobile := [], timers := [], nextId := 3,
        invoked := [] } ⟨2, cb, 200, false, true⟩ 2 =
      { now := 10001, store := some (shownRecord (10001 + 1800000)),
        userAgent := userAgent, innerWidth := innerWidth,
        desktopCleanup := some 2, mobileCleanup := none, initialDelayTimer := some 1,
        desktop := [⟨2, cb, 200, false, false⟩], mobile := [], timers := [], nextId := 3,
        invoked := [⟨10001, cb, 2⟩] } := by
  simp only [handleMouseLeave, hasSeenExitIntentRecently]
  rw [if_neg (by decide), if_pos (by decide)]
  simp only [callDesktopCleanup, desktopCleanupFn, markExitIntentShown, List.map_cons, List.map_nil,
    if_true, List.nil_append]
  rw [show SESSION_DURATION = 1800000 from by decide]

/-- The page of the desktop scenario after the pointer has left at the top edge at
10,001 ms. -/
theorem desktop_fired_state (userAgent : Option String) (innerWidth : Nat) (cb : Nat)
    (hd : isMobileDevice userAgent innerWidth = false) :
    run (State.initial 0 none userAgent innerWidth)
        [.initializeExitIntent cb, .advance 10000, .timer 1, .advance 1, .mouseleave 2] =
      { now := 10001, store := some (shownRecord (10001 + 1800000)),
        userAgent := userAgent, innerWidth := innerWidth,
        desktopCleanup := some 2, mobileCleanup := none, initialDelayTimer := some 1,
        desktop := [⟨2, cb, 200, true, false⟩], mobile := [],
        timers := [⟨3, 10201, .throttleReset 2⟩], nextId := 4,
        invoked := [⟨10001, cb, 2⟩] } := by
  have h := desktop_armed_state userAgent innerWidth cb hd
  rw [show [Action.initializeExitIntent cb, .advance 10000, .timer 1, .advance 1, .mouseleave 2] =
    [Action.initializeExitIntent cb, .advance 10000, .timer 1] ++ [.advance 1, .mouseleave 2]
    from rfl, run_concat, h]
  simp only [run, step, dispatchMouseLeave, List.filter_cons, List.filter_nil, if_true,
    List.map_cons, List.map_nil, List.foldl_cons, List.foldl_nil, Nat.reduceAdd]
  simp only [List.any_cons, List.any_nil, beq_self_eq_true, Bool.and_self, Bool.or_false, if_true,
    throttledHandler, List.find?_cons]
  rw [desktop_handle_fires userAgent innerWidth cb]
  simp [setTimeout]

/-- The page of the desktop scenario at 20,000 ms, the throttle reset timer having expired
at 10,201 ms. -/
theorem desktop_later_state (userAgent : Option String) (innerWidth : Nat) (cb : Nat)
    (hd : isMobileDevice userAgent innerWidth = false) :
    run (State.initial 0 none userAgent innerWidth)
        [.initializeExitIntent cb, .advance 10000, .timer 1, .advance 1, .mouseleave 2,
          .advance 200, .timer 3, .advance 9799] =
      { now := 20000, store := some (shownRecord (10001 + 1800000)),
        userAgent := userAgent, innerWidth := innerWidth,
        desktopCleanup := some 2, mobileCleanup := none, initialDelayTimer := some 1,
        desktop := [⟨2, cb, 200, false, false⟩], mobile := [],
        timers := [], nextId := 4,
        invoked := [⟨10001, cb, 2⟩] } := by
  have h := desktop_fired_state userAgent innerWidth cb hd
  rw [show [Action.initializeExitIntent cb, .advance 10000, .timer 1, .advance 1, .mouseleave 2,
      .advance 200, .timer 3, .advance 9799] =
    [Action.initializeExitIntent cb, .advance 10000, .timer 1, .advance 1, .mouseleave 2] ++
      [.advance 200, .timer 3, .advance 9799]
    from rfl, run_concat, h]
  simp [run, step, timerExpires, runTimer]

/-- In the state of the desktop scenario at 20,000 ms a call of `initializeExitIntent`
changes nothing. -/
theorem desktop_second_call (userAgent : Option String) (innerWidth : Nat) (cb cb2 : Nat) :
    initializeExitIntent
      { now := 20000, store := some (shownRecord (10001 + 1800000)),
        userAgent := userAgent, innerWidth := innerWidth,
        desktopCleanup := some 2, mobileCleanup := none, initialDelayTimer := some 1,
        desktop := [⟨2, cb, 200, false, false⟩], mobile := [],
        timers := [], nextId := 4,
        invoked := [⟨10001, cb, 2⟩] } cb2 =
      { now := 20000, store := some (shownRecord (10001 + 1800000)),
        userAgent := userAgent, innerWidth := innerWidth,
        desktopCleanup := some 2, mobileCleanup := none, initialDelayTimer := some 1,
        desktop := [⟨2, cb, 200, false, false⟩], mobile := [],
        timers := [], nextId := 4,
        invoked := [⟨10001, cb, 2⟩] } := by
  have hseen : (hasSeenExitIntentRecently 20000
      (some (shownRecord (10001 + 1800000)))).1 = true := by
    rw [hasSeen_shownRecord, if_neg (by decide)]
  rw [initialize_of_suppressed _ cb2 hseen]
  simp [clearInitialDelay, callMobileCleanup, callDesktopCleanup, desktopCleanupFn, clearTimeout]

/-- C18: the desktop scenario.  On a page classified desktop with an empty store,
`initializeExitIntent(cb)` is called at time 0.  Whatever steps follow, as long as the clock
is below 10,000 ms nothing listens, no inactivity timer is pending and `cb` has not been
invoked.  With the delay timer expiring at 10,000 ms, a pointer-leave event with clientY = 2
at 10,001 ms leaves exactly one invocation on record, of `cb` at 10,001, and the store holds
the record with expiry 10,001 + 1,800,000.  A second `initializeExitIntent(cb)` at 20,000 ms
leaves the state as it was: no timer is started (none is pending), nothing listens, and the
record of invocations is unchanged. -/
theorem c18_desktop_scenario (userAgent : Option String) (innerWidth : Nat) (cb : Nat)
    (mid : List Action) (hd : isMobileDevice userAgent innerWidth = false) :
    ((run (State.initial 0 none userAgent innerWidth) (.initializeExitIntent cb :: mid)).now
        < 10000 →
      (∀ det ∈ (run (State.initial 0 none userAgent innerWidth)
          (.initializeExitIntent cb :: mid)).desktop, det.listening = false) ∧
      (∀ det ∈ (run (State.initial 0 none userAgent innerWidth)
          (.initializeExitIntent cb :: mid)).mobile, det.listening = false) ∧
      (∀ t ∈ (run (State.initial 0 none userAgent innerWidth)
          (.initializeExitIntent cb :: mid)).timers, ∀ d, t.kind ≠ .inactivity d) ∧
      (run (State.initial 0 none userAgent innerWidth)
          (.initializeExitIntent cb :: mid)).invoked = []) ∧
    (run (State.initial 0 none userAgent innerWidth)
        [.initializeExitIntent cb, .advance 10000, .timer 1, .advance 1]).now = 10001 ∧
    (run (State.initial 0 none userAgent innerWidth)
        [.initializeExitIntent cb, .advance 10000, .timer 1, .advance 1]).invoked = [] ∧
    (run (State.initial 0 none userAgent innerWidth)
        [.initializeExitIntent cb, .advance 10000, .timer 1, .advance 1,
          .mouseleave 2]).invoked = [⟨10001, cb, 2⟩] ∧
    (run (State.initial 0 none userAgent innerWidth)
        [.initializeExitIntent cb, .advance 10000, .timer 1, .advance 1,
          .mouseleave 2]).store = some (shownRecord (10001 + 1800000)) ∧
    (run (State.initial 0 none userAgent innerWidth)
        [.initializeExitIntent cb, .advance 10000, .timer 1, .advance 1, .mouseleave 2,
          .advance 200, .timer 3, .advance 9799]).now = 20000 ∧
    run (State.initial 0 none userAgent innerWidth)
        [.initializeExitIntent cb, .advance 10000, .timer 1, .advance 1, .mouseleave 2,
          .advance 200, .timer 3, .advance 9799, .initializeExitIntent cb] =
      run (State.initial 0 none userAgent innerWidth)
        [.initializeExitIntent cb, .advance 10000, .timer 1, .advance 1, .mouseleave 2,
          .advance 200, .timer 3, .advance 9799] ∧
    (run (State.initial 0 none userAgent innerWidth)
        [.initializeExitIntent cb, .advance 10000, .timer 1, .advance 1, .mouseleave 2,
          .advance 200, .timer 3, .advance 9799, .initializeExitIntent cb]).timers = [] ∧
    (∀ det ∈ (run (State.initial 0 none userAgent innerWidth)
        [.initializeExitIntent cb, .advance 10000, .timer 1, .advance 1, .mouseleave 2,
          .advance 200, .timer 3, .advance 9799, .initializeExitIntent cb]).desktop,
      det.listening = false) ∧
    (run (State.initial 0 none userAgent innerWidth)
        [.initializeExitIntent cb, .advance 10000, .timer 1, .advance 1, .mouseleave 2,
          .advance 200, .timer 3, .advance 9799, .initializeExitIntent cb]).mobile = [] := by
  have harm := desktop_armed_state userAgent innerWidth cb hd
  have hfire := desktop_fired_state userAgent innerWidth cb hd
  have hlate := desktop_later_state userAgent innerWidth cb hd
  have hsecond : run (State.initial 0 none userAgent innerWidth)
        [.initializeExitIntent cb, .advance 10000, .timer 1, .advance 1, .mouseleave 2,
          .advance 200, .timer 3, .advance 9799, .initializeExitIntent cb] =
      run (State.initial 0 none userAgent innerWidth)
        [.initializeExitIntent cb, .advance 10000, .timer 1, .advance 1, .mouseleave 2,
          .advance 200, .timer 3, .advance 9799] := by
    rw [show [Action.initializeExitIntent cb, .advance 10000, .timer 1, .advance 1,
        .mouseleave 2, .advance 200, .timer 3, .advance 9799, .initializeExitIntent cb] =
      [Action.initializeExitIntent cb, .advance 10000, .timer 1, .advance 1, .mouseleave 2,
        .advance 200, .timer 3, .advance 9799] ++ [.initializeExitIntent cb]
      from rfl, run_concat, hlate]
    exact desktop_second_call userAgent innerWidth cb cb
  have hbefore : run (State.initial 0 none userAgent innerWidth)
        [.initializeExitIntent cb, .advance 10000, .timer 1, .advance 1] =
      { run (State.initial 0 none userAgent innerWidth)
          [.initializeExitIntent cb, .advance 10000, .timer 1] with now := 10001 } := by
    rw [show [Action.initializeExitIntent cb, .advance 10000, .timer 1, .advance 1] =
      [Action.initializeExitIntent cb, .advance 10000, .timer 1] ++ [.advance 1]
      from rfl, run_concat, harm]
    rfl
  refine ⟨?_, ?_, ?_, ?_, ?_, ?_, hsecond, ?_, ?_, ?_⟩
  · intro hnow
    have hinit : HandleInv (State.initial 0 none userAgent innerWidth) :=
      handleInv_initial 0 none userAgent innerWidth
    have ht : TimersOk (State.initial 0 none userAgent innerWidth) :=
      timersOk_initial 0 none userAgent innerWidth
    obtain ⟨_, hpre⟩ := delayPending_after_initialize _ cb hinit ht (by rfl)
    have hD : (State.initial 0 none userAgent innerWidth).now + INITIAL_DELAY = 10000 := by
      show 0 + INITIAL_DELAY = 10000
      decide
    rw [hD] at hpre
    have hrun : run (State.initial 0 none userAgent innerWidth)
        (.initializeExitIntent cb :: mid) =
        run (initializeExitIntent (State.initial 0 none userAgent innerWidth) cb) mid := rfl
    rw [hrun] at hnow ⊢
    obtain ⟨_, h1, h2, h3⟩ := prearm_run 10000 mid _ hpre hnow
    refine ⟨h1, h2, ?_, ?_⟩
    · intro t htm d hk
      rcases h3 t htm with ⟨d2, hd2⟩ | ⟨c, hc, _⟩
      · rw [hd2] at hk; simp at hk
      · rw [hc] at hk; simp at hk
    · rw [prearm_invoked_run 10000 mid _ hpre hnow, invoked_initializeExitIntent]
      rfl
  · rw [hbefore]
  · rw [hbefore, harm]
  · rw [hfire]
  · rw [hfire]
  · rw [hlate]
  · rw [hsecond, hlate]
  · rw [hsecond, hlate]
    simp
  · rw [hsecond, hlate]

theorem c18_desktop_scenario_witness :
    isMobileDevice none 1920 = false ∧
    ((run (State.initial 0 none none 1920)
        (.initializeExitIntent 7 :: [.advance 9999, .timer 1, .mouseleave 2])).now < 10000 →
      (run (State.initial 0 none none 1920)
        (.initializeExitIntent 7 :: [.advance 9999, .timer 1, .mouseleave 2])).invoked = []) ∧
    (run (State.initial 0 none none 1920)
        [.initializeExitIntent 7, .advance 10000, .timer 1, .advance 1,
          .mouseleave 2]).invoked = [⟨10001, 7, 2⟩] :=
  ⟨by decide,
   fun h => ((c18_desktop_scenario none 1920 7 [.advance 9999, .timer 1, .mouseleave 2]
      (by decide)).1 h).2.2.2,
   (c18_desktop_scenario none 1920 7 [.advance 9999, .timer 1, .mouseleave 2]
      (by decide)).2.2.2.1⟩


/-- The page of the mobile scenario just before the delay timer expires at 10,000 ms; the
activity event at 5,000 ms found no listener. -/
theorem mobile_waiting_state (userAgent : Option String) (innerWidth : Nat) (cb : Nat)
    (k1 : ActivityKind) :
    run (State.initial 0 none userAgent innerWidth)
        [.initializeExitIntent cb, .advance 5000, .activity k1, .advance 5000] =
      { now := 10000, store := none, userAgent := userAgent, innerWidth := innerWidth,
        desktopCleanup := none, mobileCleanup := none, initialDelayTimer := some 1,
        desktop := [], mobile := [], timers := [⟨1, 10000, .initDelay cb⟩], nextId := 2,
        invoked := [] } := rfl

/-- The page of the mobile scenario once the delay timer has expired at 10,000 ms. -/
theorem mobile_armed_state (userAgent : Option String) (innerWidth : Nat) (cb : Nat)
    (k1 : ActivityKind) (hm : isMobileDevice userAgent innerWidth = true) :
    run (State.initial 0 none userAgent innerWidth)
        [.initializeExitIntent cb, .advance 5000, .activity k1, .advance 5000, .timer 1] =
      { now := 10000, store := none, userAgent := userAgent, innerWidth := innerWidth,
        desktopCleanup := none, mobileCleanup := some 2, initialDelayTimer := some 1,
        desktop := [], mobile := [⟨2, cb, 30000, some 3, true⟩],
        timers := [⟨3, 40000, .inactivity 2⟩], nextId := 4, invoked := [] } := by
  rw [show [Action.initializeExitIntent cb, .advance 5000, .activity k1, .advance 5000, .timer 1] =
    [Action.initializeExitIntent cb, .advance 5000, .activity k1, .advance 5000] ++ [.timer 1]
    from rfl, run_concat, mobile_waiting_state]
  simp only [run, step, timerExpires, List.find?_cons, beq_self_eq_true, Nat.le_refl, if_true,
    runTimer, delayElapsed, hm, setupMobileExitDetection, resetTimer, List.nil_append,
    clearTimeout, setTimeout]
  rfl

/-- The page of the mobile scenario after the activity event at 15,000 ms. -/
theorem mobile_reset_state (userAgent : Option String) (innerWidth : Nat) (cb : Nat)
    (k1 k2 : ActivityKind) (hm : isMobileDevice userAgent innerWidth = true) :
    run (State.initial 0 none userAgent innerWidth)
        [.initializeExitIntent cb, .advance 5000, .activity k1, .advance 5000, .timer 1,
          .advance 5000, .activity k2] =
      { now := 15000, store := none, userAgent := userAgent, innerWidth := innerWidth,
        desktopCleanup := none, mobileCleanup := some 2, initialDelayTimer := some 1,
        desktop := [], mobile := [⟨2, cb, 30000, some 4, true⟩],
        timers := [⟨4, 45000, .inactivity 2⟩], nextId := 5, invoked := [] } := by
  have h := mobile_armed_state userAgent innerWidth cb k1 hm
  rw [show [Action.initializeExitIntent cb, .advance 5000, .activity k1, .advance 5000, .timer 1,
      .advance 5000, .activity k2] =
    [Action.initializeExitIntent cb, .advance 5000, .activity k1, .advance 5000, .timer 1] ++
      [.advance 5000, .activity k2] from rfl, run_concat, h]
  simp only [run, step, dispatchActivity, List.filter_cons, List.filter_nil, if_true,
    List.map_cons, List.map_nil, List.foldl_cons, List.foldl_nil, List.any_cons, List.any_nil,
    beq_self_eq_true, Bool.and_self, Bool.or_false, resetTimer, List.find?_cons,
    clearTimeout, setTimeout]
  rfl

/-- The function `triggerCallback` run at 45,000 ms in the mobile scenario. -/
theorem mobile_trigger_fires (userAgent : Option String) (innerWidth : Nat) (cb : Nat) :
    triggerCallback
      { now := 45000, store := none, userAgent := userAgent, innerWidth := innerWidth,
        desktopCleanup := none, mobileCleanup := some 2, initialDelayTimer := some 1,
        desktop := [], mobile := [⟨2, cb, 30000, some 4, true⟩],
        timers := [], nextId := 5, invoked := [] } 2 =
      { now := 45000, store := some (shownRecord 1845000),
        userAgent := userAgent, innerWidth := innerWidth,
        desktopCleanup := none, mobileCleanup := some 2, initialDelayTimer := some 1,
        desktop := [], mobile := [⟨2, cb, 30000, some 4, false⟩],
        timers := [], nextId := 5, invoked := [⟨45000, cb, 2⟩] } := by
  simp only [triggerCallback, List.find?_cons, beq_self_eq_true, hasSeenExitIntentRecently]
  rw [if_neg (by decide)]
  simp only [callMobileCleanup, mobileCleanupFn, List.find?_cons, beq_self_eq_true, clearTimeout,
    List.filter_nil, markExitIntentShown, List.map_cons, List.map_nil, if_true, List.nil_append]
  rw [show 45000 + SESSION_DURATION = 1845000 from by decide]

/-- The page of the mobile scenario after the inactivity timer has expired at 45,000 ms. -/
theorem mobile_fired_state (userAgent : Option String) (innerWidth : Nat) (cb : Nat)
    (k1 k2 : ActivityKind) (hm : isMobileDevice userAgent innerWidth = true) :
    run (State.initial 0 none userAgent innerWidth)
        [.initializeExitIntent cb, .advance 5000, .activity k1, .advance 5000, .timer 1,
          .advance 5000, .activity k2, .advance 30000, .timer 4] =
      { now := 45000, store := some (shownRecord 1845000),
        userAgent := userAgent, innerWidth := innerWidth,
        desktopCleanup := none, mobileCleanup := some 2, initialDelayTimer := some 1,
        desktop := [], mobile := [⟨2, cb, 30000, some 4, false⟩],
        timers := [], nextId := 5, invoked := [⟨45000, cb, 2⟩] } := by
  have h := mobile_reset_state userAgent innerWidth cb k1 k2 hm
  rw [show [Action.initializeExitIntent cb, .advance 5000, .activity k1, .advance 5000, .timer 1,
      .advance 5000, .activity k2, .advance 30000, .timer 4] =
    [Action.initializeExitIntent cb, .advance 5000, .activity k1, .advance 5000, .timer 1,
      .advance 5000, .activity k2] ++ [.advance 30000, .timer 4] from rfl, run_concat, h]
  simp only [run, step]
  rw [show (15000 : Nat) + 30000 = 45000 from rfl]
  simp only [timerExpires, List.find?_cons, beq_self_eq_true,
    Nat.le_refl, if_true, runTimer, List.filter_cons, List.filter_nil, bne_self_eq_false,
    Bool.false_eq_true, if_false]
  exact mobile_trigger_fires userAgent innerWidth cb

/-- While the clock of the mobile scenario is below 45,000 ms after the activity event at
15,000 ms, the passing of time and the expiry of timers change nothing but the clock. -/
theorem mobile_passive_run (userAgent : Option String) (innerWidth : Nat) (cb : Nat)
    (mid : List Action) (n : Nat) (hp : mid.all (fun a => a.isPassive) = true)
    (hnow : (run
      { now := n, store := none, userAgent := userAgent, innerWidth := innerWidth,
        desktopCleanup := none, mobileCleanup := some 2, initialDelayTimer := some 1,
        desktop := [], mobile := [⟨2, cb, 30000, some 4, true⟩],
        timers := [⟨4, 45000, .inactivity 2⟩], nextId := 5, invoked := [] } mid).now < 45000) :
    ∃ m, run
      { now := n, store := none, userAgent := userAgent, innerWidth := innerWidth,
        desktopCleanup := none, mobileCleanup := some 2, initialDelayTimer := some 1,
        desktop := [], mobile := [⟨2, cb, 30000, some 4, true⟩],
        timers := [⟨4, 45000, .inactivity 2⟩], nextId := 5, invoked := [] } mid =
      { now := m, store := none, userAgent := userAgent, innerWidth := innerWidth,
        desktopCleanup := none, mobileCleanup := some 2, initialDelayTimer := some 1,
        desktop := [], mobile := [⟨2, cb, 30000, some 4, true⟩],
        timers := [⟨4, 45000, .inactivity 2⟩], nextId := 5, invoked := [] } := by
  induction mid generalizing n with
  | nil => exact ⟨n, rfl⟩
  | cons a as ih =>
    simp only [List.all_cons, Bool.and_eq_true] at hp
    have hge := run_now_ge as (step
      { now := n, store := none, userAgent := userAgent, innerWidth := innerWidth,
        desktopCleanup := none, mobileCleanup := some 2, initialDelayTimer := some 1,
        desktop := [], mobile := [⟨2, cb, 30000, some 4, true⟩],
        timers := [⟨4, 45000, .inactivity 2⟩], nextId := 5, invoked := [] } a)
    have hlt := Nat.lt_of_le_of_lt hge hnow
    cases a with
    | advance d => exact ih (n + d) hp.2 hnow
    | timer k =>
      have hstep : step
          { now := n, store := none, userAgent := userAgent, innerWidth := innerWidth,
            desktopCleanup := none, mobileCleanup := some 2, initialDelayTimer := some 1,
            desktop := [], mobile := [⟨2, cb, 30000, some 4, true⟩],
            timers := [⟨4, 45000, .inactivity 2⟩], nextId := 5, invoked := [] } (.timer k) =
          { now := n, store := none, userAgent := userAgent, innerWidth := innerWidth,
            desktopCleanup := none, mobileCleanup := some 2, initialDelayTimer := some 1,
            desktop := [], mobile := [⟨2, cb, 30000, some 4, true⟩],
            timers := [⟨4, 45000, .inactivity 2⟩], nextId := 5, invoked := [] } := by
        have hn : n < 45000 := Nat.lt_of_le_of_lt (step_now_ge
          { now := n, store := none, userAgent := userAgent, innerWidth := innerWidth,
            desktopCleanup := none, mobileCleanup := some 2, initialDelayTimer := some 1,
            desktop := [], mobile := [⟨2, cb, 30000, some 4, true⟩],
            timers := [⟨4, 45000, .inactivity 2⟩], nextId := 5, invoked := [] } (.timer k)) hlt
        simp only [step, timerExpires, List.find?_cons, List.find?_nil]
        by_cases hk : (4 == k) = true
        · simp only [hk]
          rw [if_neg (Nat.not_le.mpr hn)]
        · simp only [hk]
      show ∃ m, run (step _ (.timer k)) as = _
      rw [hstep]
      have hnow2 := hnow
      simp only [run] at hnow2
      rw [hstep] at hnow2
      exact ih n hp.2 hnow2
    | initializeExitIntent c => simp [Action.isPassive] at hp
    | cleanupExitIntent => simp [Action.isPassive] at hp
    | reload => simp [Action.isPassive] at hp
    | mouseleave y => simp [Action.isPassive] at hp
    | activity k => simp [Action.isPassive] at hp
    | resize w => simp [Action.isPassive] at hp
    | setAgent ua => simp [Action.isPassive] at hp

/-- C19: the mobile scenario.  On a page classified mobile with an empty store,
`initializeExitIntent(cb)` is called at time 0, activity events arrive at 5,000 ms and at
15,000 ms, and the delay timer expires at 10,000 ms.  Up to and including the event at
15,000 ms `cb` has not been invoked.  From then on, whatever time passes and whichever timers
expire, `cb` has not been invoked while the clock is below 45,000 ms (so not at 35,000 ms).
When the inactivity timer expires at 45,000 ms the record of invocations is exactly one
invocation of `cb`, at 45,000; and it stays so along every later sequence of steps without a
new call of `initializeExitIntent`. -/
theorem c19_mobile_scenario (userAgent : Option String) (innerWidth : Nat) (cb : Nat)
    (k1 k2 : ActivityKind) (mid later : List Action)
    (hm : isMobileDevice userAgent innerWidth = true) :
    (∀ n, (run (State.initial 0 none userAgent innerWidth)
        (List.take n [.initializeExitIntent cb, .advance 5000, .activity k1, .advance 5000,
          .timer 1, .advance 5000, .activity k2])).invoked = []) ∧
    (run (State.initial 0 none userAgent innerWidth)
        [.initializeExitIntent cb, .advance 5000, .activity k1, .advance 5000, .timer 1,
          .advance 5000, .activity k2]).now = 15000 ∧
    (mid.all (fun a => a.isPassive) = true →
      (run (State.initial 0 none userAgent innerWidth)
        ([.initializeExitIntent cb, .advance 5000, .activity k1, .advance 5000, .timer 1,
          .advance 5000, .activity k2] ++ mid)).now < 45000 →
      (run (State.initial 0 none userAgent innerWidth)
        ([.initializeExitIntent cb, .advance 5000, .activity k1, .advance 5000, .timer 1,
          .advance 5000, .activity k2] ++ mid)).invoked = []) ∧
    (run (State.initial 0 none userAgent innerWidth)
        [.initializeExitIntent cb, .advance 5000, .activity k1, .advance 5000, .timer 1,
          .advance 5000, .activity k2, .advance 30000, .timer 4]).now = 45000 ∧
    (run (State.initial 0 none userAgent innerWidth)
        [.initializeExitIntent cb, .advance 5000, .activity k1, .advance 5000, .timer 1,
          .advance 5000, .activity k2, .advance 30000, .timer 4]).invoked = [⟨45000, cb, 2⟩] ∧
    (later.all (fun a => !a.isInit) = true →
      (run (State.initial 0 none userAgent innerWidth)
        ([.initializeExitIntent cb, .advance 5000, .activity k1, .advance 5000, .timer 1,
          .advance 5000, .activity k2, .advance 30000, .timer 4] ++ later)).invoked =
        [⟨45000, cb, 2⟩]) := by
  have harm := mobile_armed_state userAgent innerWidth cb k1 hm
  have hreset := mobile_reset_state userAgent innerWidth cb k1 k2 hm
  have hfire := mobile_fired_state userAgent innerWidth cb k1 k2 hm
  refine ⟨?_, ?_, ?_, ?_, ?_, ?_⟩
  · intro n
    match n with
    | 0 => rfl
    | 1 => rfl
    | 2 => rfl
    | 3 => rfl
    | 4 => rfl
    | 5 =>
      simp only [List.take_succ_cons, List.take_zero]
      rw [harm]
    | 6 =>
      simp only [List.take_succ_cons, List.take_zero]
      rw [show [Action.initializeExitIntent cb, .advance 5000, .activity k1, .advance 5000,
          .timer 1, .advance 5000] =
        [Action.initializeExitIntent cb, .advance 5000, .activity k1, .advance 5000, .timer 1] ++
          [.advance 5000] from rfl, run_concat, harm]
      rfl
    | k + 7 =>
      simp only [List.take_succ_cons, List.take_nil]
      rw [hreset]
  · rw [hreset]
  · intro hp hnow
    rw [run_concat, hreset] at hnow ⊢
    obtain ⟨m, hm2⟩ := mobile_passive_run userAgent innerWidth cb mid 15000 hp hnow
    rw [hm2]
  · rw [hfire]
  · rw [hfire]
  · intro hl
    rw [run_concat, hfire]
    have hd : Dormant
        { now := 45000, store := some (shownRecord 1845000),
          userAgent := userAgent, innerWidth := innerWidth,
          desktopCleanup := none, mobileCleanup := some 2, initialDelayTimer := some 1,
          desktop := [], mobile := [⟨2, cb, 30000, some 4, false⟩],
          timers := [], nextId := 5, invoked := [⟨45000, cb, 2⟩] } := by
      refine ⟨?_, ?_, ?_⟩
      · intro det hdet
        simp at hdet
      · intro det hdet
        simp only [List.mem_singleton] at hdet
        rw [hdet]
      · intro t ht
        simp at ht
    exact (dormant_run later _ hd hl).2

theorem c19_mobile_scenario_witness :
    isMobileDevice (some "iPhone") 1024 = true ∧
    [Action.advance 20000, .timer 4, .timer 3].all (fun a => a.isPassive) = true ∧
    (run (State.initial 0 none (some "iPhone") 1024)
        ([.initializeExitIntent 7, .advance 5000, .activity .scroll, .advance 5000, .timer 1,
          .advance 5000, .activity .click] ++ [.advance 20000, .timer 4, .timer 3])).now
        < 45000 ∧
    (run (State.initial 0 none (some "iPhone") 1024)
        ([.initializeExitIntent 7, .advance 5000, .activity .scroll, .advance 5000, .timer 1,
          .advance 5000, .activity .click] ++ [.advance 20000, .timer 4, .timer 3])).invoked
        = [] ∧
    (run (State.initial 0 none (some "iPhone") 1024)
        [.initializeExitIntent 7, .advance 5000, .activity .scroll, .advance 5000, .timer 1,
          .advance 5000, .activity .click, .advance 30000, .timer 4]).invoked =
        [⟨45000, 7, 2⟩] ∧
    [Action.advance 5000, .activity .scroll, .timer 5].all (fun a => !a.isInit) = true ∧
    (run (State.initial 0 none (some "iPhone") 1024)
        ([.initializeExitIntent 7, .advance 5000, .activity .scroll, .advance 5000, .timer 1,
          .advance 5000, .activity .click, .advance 30000, .timer 4] ++
          [.advance 5000, .activity .scroll, .timer 5])).invoked = [⟨45000, 7, 2⟩] :=
  ⟨by decide, by decide, by decide,
   (c19_mobile_scenario (some "iPhone") 1024 7 .scroll .click
      [.advance 20000, .timer 4, .timer 3] [] (by decide)).2.2.1 (by decide) (by decide),
   (c19_mobile_scenario (some "iPhone") 1024 7 .scroll .click
      [.advance 20000, .timer 4, .timer 3] [] (by decide)).2.2.2.2.1,
   by decide,
   (c19_mobile_scenario (some "iPhone") 1024 7 .scroll .click
      [] [.advance 5000, .activity .scroll, .timer 5] (by decide)).2.2.2.2.2 (by decide)⟩


/-! ## Backend: `createLead` -/

theorem validationErrors_unknown (isEmail : String → Bool) (toLowerCase : String → String)
    (email : String) (firstName ip ua : Option String) :
    validationErrors isEmail (Lead.new toLowerCase email firstName "unknown" ip ua) ≠ [] := by
  unfold validationErrors
  have h : (if (Lead.new toLowerCase email firstName "unknown" ip ua).source = "" then
      ["Lead source is required."]
    else if (Lead.new toLowerCase email firstName "unknown" ip ua).source ∈ sourceValues then []
    else ["Lead source must be one of the predefined values."]) =
      ["Lead source must be one of the predefined values."] := by
    show (if "unknown" = "" then ["Lead source is required."]
      else if "unknown" ∈ sourceValues then []
      else ["Lead source must be one of the predefined values."]) = _
    decide
  rw [h]
  simp

/-- The response of `createLead` to a request whose email is a string and whose source is
falsy is never 201, and nothing is stored. -/
theorem createLead_unknown_source (isEmail : String → Bool) (toLowerCase : String → String)
    (q : Bool) (db : List Lead)
    (email : String) (firstName source ip ua : Option String)
    (hs : sourceOrUnknown source = "unknown") :
    (createLead isEmail toLowerCase q db
      { email := some (.string email), firstName := firstName, source := source, ip := ip,
        userAgent := ua }).1.status ≠ 201 ∧
    (createLead isEmail toLowerCase q db
      { email := some (.string email), firstName := firstName, source := source, ip := ip,
        userAgent := ua }).2 = db := by
  unfold createLead
  simp only
  split
  · exact ⟨by simp [Response.status], rfl⟩
  · cases findOne toLowerCase q db (toLowerCase email) with
    | some l => exact ⟨by simp [Response.status], rfl⟩
    | none =>
      simp only [hs]
      unfold save
      rw [if_pos (validationErrors_unknown isEmail toLowerCase email firstName ip ua)]
      exact ⟨by simp [Response.status], rfl⟩

/-- C20 (the code at the failing input): when the body has an email (any string) and no
source, or an empty source, `createLead` never answers 201 and stores nothing, whatever the
email, the first name and the stored leads: the source becomes `'unknown'`, which is not a
value of the `enum` of the schema, so `save` fails validation and the answer is 400 (or 200
when the lead exists).  For the address `user@example.com` on an empty collection, with an
address check that accepts it, the answer is 400. -/
theorem c20_omitted_source_is_rejected (isEmail : String → Bool)
    (toLowerCase : String → String) (settersOnQuery : Bool)
    (db : List Lead) (email : String) (firstName ip ua : Option String) :
    (createLead isEmail toLowerCase settersOnQuery db
      { email := some (.string email), firstName := firstName, source := none, ip := ip,
        userAgent := ua }).1.status ≠ 201 ∧
    (createLead isEmail toLowerCase settersOnQuery db
      { email := some (.string email), firstName := firstName, source := none, ip := ip,
        userAgent := ua }).2 = db ∧
    (createLead isEmail toLowerCase settersOnQuery db
      { email := some (.string email), firstName := firstName, source := some "", ip := ip,
        userAgent := ua }).1.status ≠ 201 ∧
    (createLead (fun _ => true) latin1ToLowerCase settersOnQuery []
      { email := some (.string "user@example.com"), firstName := none, source := none,
        ip := none, userAgent := none }) =
      (.badRequest ["Lead source must be one of the predefined values."], []) := by
  refine ⟨(createLead_unknown_source isEmail toLowerCase settersOnQuery db email firstName none
      ip ua rfl).1,
    (createLead_unknown_source isEmail toLowerCase settersOnQuery db email firstName none ip ua
      rfl).2,
    (createLead_unknown_source isEmail toLowerCase settersOnQuery db email firstName (some "")
      ip ua rfl).1, ?_⟩
  cases settersOnQuery <;> decide

/-- C21 (the code at the failing input): when `body.email` is a truthy value that is not a
string (a non-zero number, `true`, an array or an object), `email.toLowerCase()` throws a
`TypeError`, which is neither a `ValidationError` nor a duplicate-key error and goes to
`next`: the global error handler answers 500, not 400.  Nothing is stored.  For a missing,
`null`, `false`, zero or empty email the answer is 400 and nothing is stored. -/
theorem c21_non_string_email_is_server_error (isEmail : String → Bool)
    (toLowerCase : String → String)
    (settersOnQuery : Bool) (db : List Lead) (firstName source ip ua : Option String) :
    createLead isEmail toLowerCase settersOnQuery db
      { email := some (.number false), firstName := firstName, source := source, ip := ip,
        userAgent := ua } = (.serverError, db) ∧
    createLead isEmail toLowerCase settersOnQuery db
      { email := some (.bool true), firstName := firstName, source := source, ip := ip,
        userAgent := ua } = (.serverError, db) ∧
    createLead isEmail toLowerCase settersOnQuery db
      { email := some .compound, firstName := firstName, source := source, ip := ip,
        userAgent := ua } = (.serverError, db) ∧
    Response.serverError.status = 500 ∧
    (∀ email ∈ [none, some BodyValue.null, some (.bool false), some (.number true),
        some (.string "")],
      createLead isEmail toLowerCase settersOnQuery db
        { email := email, firstName := firstName, source := source, ip := ip,
          userAgent := ua } = (.badRequest ["Email is required."], db)) := by
  refine ⟨rfl, rfl, rfl, rfl, ?_⟩
  intro email hmem
  simp only [List.mem_cons, List.mem_singleton, List.not_mem_nil, or_false] at hmem
  rcases hmem with h | h | h | h | h <;> subst h <;> rfl

theorem toNat_ofNat_add32 (n : Nat) (h : n ≤ 222) : (Char.ofNat (n + 32)).toNat = n + 32 := by
  interval_cases n <;> rfl

theorem isWhiteSpace_false_of_letter (c : Char)
    (h : (65 ≤ c.toNat ∧ c.toNat ≤ 122) ∨ (192 ≤ c.toNat ∧ c.toNat ≤ 254)) :
    isWhiteSpace c = false := by
  unfold isWhiteSpace
  generalize c.toNat = n at h
  rcases h with ⟨h1, h2⟩ | ⟨h1, h2⟩ <;> interval_cases n <;> rfl

theorem latin1Lower_eq (c : Char)
    (h : (65 ≤ c.toNat ∧ c.toNat ≤ 90) ∨ (192 ≤ c.toNat ∧ c.toNat ≤ 222 ∧ c.toNat ≠ 215)) :
    latin1Lower c = Char.ofNat (c.toNat + 32) := by
  unfold latin1Lower
  rw [if_pos h]

theorem latin1Lower_eq_self (c : Char)
    (h : ¬ ((65 ≤ c.toNat ∧ c.toNat ≤ 90) ∨ (192 ≤ c.toNat ∧ c.toNat ≤ 222 ∧ c.toNat ≠ 215))) :
    latin1Lower c = c := by
  unfold latin1Lower
  rw [if_neg h]

theorem isWhiteSpace_latin1Lower (c : Char) : isWhiteSpace (latin1Lower c) = isWhiteSpace c := by
  by_cases h : (65 ≤ c.toNat ∧ c.toNat ≤ 90) ∨ (192 ≤ c.toNat ∧ c.toNat ≤ 222 ∧ c.toNat ≠ 215)
  · rw [latin1Lower_eq c h, isWhiteSpace_false_of_letter c (by omega),
      isWhiteSpace_false_of_letter _ (by rw [toNat_ofNat_add32 _ (by omega)]; omega)]
  · rw [latin1Lower_eq_self c h]

theorem latin1Lower_latin1Lower (c : Char) : latin1Lower (latin1Lower c) = latin1Lower c := by
  by_cases h : (65 ≤ c.toNat ∧ c.toNat ≤ 90) ∨ (192 ≤ c.toNat ∧ c.toNat ≤ 222 ∧ c.toNat ≠ 215)
  · rw [latin1Lower_eq c h]
    apply latin1Lower_eq_self
    rw [toNat_ofNat_add32 _ (by omega)]
    omega
  · rw [latin1Lower_eq_self c h, latin1Lower_eq_self c h]

/-- The method `toLowerCase` of the Latin-1 range has the laws. -/
theorem latin1_laws : LowerCaseLaws latin1ToLowerCase := by
  refine ⟨rfl, ?_, ?_⟩
  · intro s
    unfold latin1ToLowerCase
    simp only [List.map_map]
    congr 1
    apply List.map_congr_left
    intro c _
    exact latin1Lower_latin1Lower c
  · intro s
    have hp : (isWhiteSpace ∘ latin1Lower) = isWhiteSpace := funext isWhiteSpace_latin1Lower
    unfold trimSetter latin1ToLowerCase
    simp only [List.dropWhile_map, hp, ← List.map_reverse]

theorem dropWhile_append_singleton {α : Type} (p : α → Bool) (l : List α) (a : α)
    (h : p a = false) : (l ++ [a]).dropWhile p = l.dropWhile p ++ [a] := by
  induction l with
  | nil => simp [List.dropWhile, h]
  | cons x l ih =>
    cases hx : p x with
    | true => simp [List.dropWhile, hx, ih]
    | false => simp [List.dropWhile, hx]

theorem dropWhile_dropWhile {α : Type} (p : α → Bool) (l : List α) :
    (l.dropWhile p).dropWhile p = l.dropWhile p := by
  induction l with
  | nil => rfl
  | cons x l ih =>
    cases hx : p x with
    | true => simp [List.dropWhile, hx, ih]
    | false => simp [List.dropWhile, hx]

theorem trim_data_idem {α : Type} (p : α → Bool) (xs : List α) :
    ((((xs.dropWhile p).reverse.dropWhile p).reverse.dropWhile p).reverse.dropWhile p).reverse =
    ((xs.dropWhile p).reverse.dropWhile p).reverse := by
  have hfront : (((xs.dropWhile p).reverse.dropWhile p).reverse.dropWhile p) =
      ((xs.dropWhile p).reverse.dropWhile p).reverse := by
    cases hA : xs.dropWhile p with
    | nil => rfl
    | cons a A =>
      have ha : p a = false := by
        have := List.head_dropWhile_not p xs (by rw [hA]; simp)
        simpa [hA] using this
      rw [List.reverse_cons, dropWhile_append_singleton p _ a ha, List.reverse_append]
      simp [List.dropWhile, ha]
  rw [hfront, List.reverse_reverse, dropWhile_dropWhile]

/-- Trimmed text has nothing left to trim. -/
theorem trimSetter_trimSetter (s : String) : trimSetter (trimSetter s) = trimSetter s := by
  unfold trimSetter
  exact congrArg String.mk (trim_data_idem isWhiteSpace s.data)

/-- Lower-casing an email before the setters run does not change what they give. -/
theorem emailSetters_toLowerCase (toLowerCase : String → String)
    (hlow : LowerCaseLaws toLowerCase) (s : String) :
    emailSetters toLowerCase (toLowerCase s) = emailSetters toLowerCase s := by
  unfold emailSetters
  rw [hlow.trim, hlow.idem]

/-- The setters `trim` and `lowercase` give the same text in either order. -/
theorem emailSetters_order (toLowerCase : String → String) (hlow : LowerCaseLaws toLowerCase)
    (s : String) : trimSetter (toLowerCase s) = emailSetters toLowerCase s :=
  hlow.trim s

/-- The setters leave a text they have produced as it is. -/
theorem emailSetters_emailSetters (toLowerCase : String → String)
    (hlow : LowerCaseLaws toLowerCase) (s : String) :
    emailSetters toLowerCase (emailSetters toLowerCase s) = emailSetters toLowerCase s := by
  unfold emailSetters
  rw [hlow.trim, hlow.idem, trimSetter_trimSetter]

theorem emailSetters_empty (toLowerCase : String → String) (hlow : LowerCaseLaws toLowerCase) :
    emailSetters toLowerCase "" = "" := by
  show toLowerCase (trimSetter "") = ""
  rw [show trimSetter "" = "" from rfl]
  exact hlow.empty

/-- The hook of `save` leaves a new document as the setters made it. -/
theorem preSave_new (toLowerCase : String → String) (hlow : LowerCaseLaws toLowerCase)
    (email : String) (firstName : Option String) (source : String) (ip ua : Option String) :
    preSave toLowerCase (Lead.new toLowerCase email firstName source ip ua) =
      Lead.new toLowerCase email firstName source ip ua := by
  show ({ Lead.new toLowerCase email firstName source ip ua with
    email := emailSetters toLowerCase (toLowerCase (emailSetters toLowerCase email)) } : Lead) = _
  rw [emailSetters_toLowerCase toLowerCase hlow, emailSetters_emailSetters toLowerCase hlow]
  rfl

/-- The filter of the query of `createLead` is the normal form of the email of the request:
always when the library runs the setters on the filter, and otherwise for an email with no
white space around it. -/
theorem query_key (toLowerCase : String → String) (hlow : LowerCaseLaws toLowerCase)
    (settersOnQuery : Bool) (email : String)
    (hq : settersOnQuery = true ∨ trimSetter email = email) :
    (if settersOnQuery then emailSetters toLowerCase (toLowerCase email)
      else toLowerCase email) = emailSetters toLowerCase email := by
  rcases hq with hq | hq
  · rw [hq]
    exact emailSetters_toLowerCase toLowerCase hlow email
  · cases settersOnQuery
    · show toLowerCase email = toLowerCase (trimSetter email)
      rw [hq]
    · exact emailSetters_toLowerCase toLowerCase hlow email

theorem eq_of_email_nodup (db : List Lead) (h : (db.map (fun x => x.email)).Nodup)
    (a b : Lead) (ha : a ∈ db) (hb : b ∈ db) (hab : a.email = b.email) : a = b := by
  induction db with
  | nil => simp at ha
  | cons x xs ih =>
    rw [List.map_cons, List.nodup_cons] at h
    rw [List.mem_cons] at ha hb
    rcases ha with ha | ha <;> rcases hb with hb | hb
    · rw [ha, hb]
    · exfalso
      apply h.1
      rw [List.mem_map]
      exact ⟨b, hb, by rw [← hab, ha]⟩
    · exfalso
      apply h.1
      rw [List.mem_map]
      exact ⟨a, ha, by rw [hab, hb]⟩
    · exact ih h.2 ha hb

/-- C22: when the email of the request is a string whose normal form (trimmed, lower-cased)
is the email of a stored lead, `createLead` answers 200 with a stored lead of that email,
which is that lead when no two stored leads share an email (the index is unique), and the
collection is left as it was.  This holds when the library runs the setters of the schema on
the filter of the query (Mongoose 5 and later), and in any case when the email of the
request has no white space around it.  Trimming is that of the method `trim`; lower-casing
is any function with the laws of the method `toLowerCase` (`LowerCaseLaws`).  Stored emails
are not empty (the path is required). -/
theorem c22_duplicate_returns_existing (isEmail : String → Bool)
    (toLowerCase : String → String) (settersOnQuery : Bool)
    (db : List Lead) (email : String) (firstName source ip ua : Option String) (l : Lead)
    (hlow : LowerCaseLaws toLowerCase)
    (hl : l ∈ db) (heq : l.email = emailSetters toLowerCase email) (hne : l.email ≠ "")
    (hq : settersOnQuery = true ∨ trimSetter email = email) :
    ∃ e ∈ db, e.email = emailSetters toLowerCase email ∧
      ((db.map (fun x => x.email)).Nodup → e = l) ∧
      (Response.ok e).status = 200 ∧
      createLead isEmail toLowerCase settersOnQuery db
        { email := some (.string email), firstName := firstName, source := source, ip := ip,
          userAgent := ua } = (.ok e, db) := by
  have hs : email ≠ "" := by
    intro h
    rw [h, emailSetters_empty toLowerCase hlow] at heq
    exact hne heq
  have hkey := query_key toLowerCase hlow settersOnQuery email hq
  have hfind : ∃ e, findOne toLowerCase settersOnQuery db (toLowerCase email) = some e := by
    unfold findOne
    rw [hkey]
    cases hf : db.find? (fun x => x.email == emailSetters toLowerCase email) with
    | some e => exact ⟨e, rfl⟩
    | none =>
      have := List.find?_eq_none.mp hf l hl
      simp [heq] at this
  obtain ⟨e, he⟩ := hfind
  have hmem : e ∈ db := by
    unfold findOne at he
    exact List.mem_of_find?_eq_some he
  have heml : e.email = emailSetters toLowerCase email := by
    unfold findOne at he
    have := List.find?_some he
    rw [hkey] at this
    simpa using this
  refine ⟨e, hmem, heml, ?_, rfl, ?_⟩
  · intro hnd
    exact eq_of_email_nodup db hnd e l hmem hl (heml.trans heq.symm)
  · unfold createLead
    have ht : truthy (some (.string email)) = true := by
      simp [truthy, hs]
    simp only [ht, Bool.not_true, Bool.false_eq_true, if_false, he]

theorem c22_duplicate_returns_existing_witness :
    createLead (fun _ => true) latin1ToLowerCase true
      [⟨"ann@example.com", none, "manual", none, none⟩]
      { email := some (.string " \x0cAnn@Example.com\x0b\xa0"), firstName := some "Ann",
        source := some "exit_intent", ip := none, userAgent := none } =
      (.ok ⟨"ann@example.com", none, "manual", none, none⟩,
       [⟨"ann@example.com", none, "manual", none, none⟩]) ∧
    createLead (fun _ => true) latin1ToLowerCase false
      [⟨"ann@example.com", none, "manual", none, none⟩,
       ⟨"émile@example.com", some "Émile", "landing_page", none, none⟩]
      { email := some (.string "ÉMILE@example.com"), firstName := none,
        source := none, ip := none, userAgent := none } =
      (.ok ⟨"émile@example.com", some "Émile", "landing_page", none, none⟩,
       [⟨"ann@example.com", none, "manual", none, none⟩,
        ⟨"émile@example.com", some "Émile", "landing_page", none, none⟩]) := by
  obtain ⟨e1, _, _, h1, _, r1⟩ := c22_duplicate_returns_existing (fun _ => true)
    latin1ToLowerCase true
    [⟨"ann@example.com", none, "manual", none, none⟩]
    " \x0cAnn@Example.com\x0b\xa0" (some "Ann") (some "exit_intent") none none
    ⟨"ann@example.com", none, "manual", none, none⟩
    latin1_laws (by decide) (by decide) (by decide) (Or.inl rfl)
  obtain ⟨e2, _, _, h2, _, r2⟩ := c22_duplicate_returns_existing (fun _ => true)
    latin1ToLowerCase false
    [⟨"ann@example.com", none, "manual", none, none⟩,
     ⟨"émile@example.com", some "Émile", "landing_page", none, none⟩]
    "ÉMILE@example.com" none none none none
    ⟨"émile@example.com", some "Émile", "landing_page", none, none⟩
    latin1_laws (by decide) (by decide) (by decide) (Or.inr (by decide))
  rw [r1, r2, h1 (by decide), h2 (by decide)]
  exact ⟨rfl, rfl⟩

/-- A string email whose normal form fails the address check is answered 400 and nothing is
stored, when every stored email passes the check. -/
theorem createLead_invalid_string (isEmail : String → Bool) (toLowerCase : String → String)
    (settersOnQuery : Bool)
    (db : List Lead) (email : String) (firstName source ip ua : Option String)
    (hlow : LowerCaseLaws toLowerCase)
    (hv : isEmail (emailSetters toLowerCase email) = false)
    (hdb : ∀ l ∈ db, isEmail l.email = true)
    (hq : settersOnQuery = true ∨ trimSetter email = email) :
    (createLead isEmail toLowerCase settersOnQuery db
      { email := some (.string email), firstName := firstName, source := source, ip := ip,
        userAgent := ua }).1.status = 400 ∧
    (createLead isEmail toLowerCase settersOnQuery db
      { email := some (.string email), firstName := firstName, source := source, ip := ip,
        userAgent := ua }).2 = db := by
  have hkey := query_key toLowerCase hlow settersOnQuery email hq
  have hfind : findOne toLowerCase settersOnQuery db (toLowerCase email) = none := by
    unfold findOne
    rw [hkey, List.find?_eq_none]
    intro l hl hle
    have h1 : l.email = emailSetters toLowerCase email := by simpa using hle
    have h2 := hdb l hl
    rw [h1, hv] at h2
    exact Bool.noConfusion h2
  have herr : validationErrors isEmail
      (Lead.new toLowerCase email firstName (sourceOrUnknown source) ip ua) ≠ [] := by
    unfold validationErrors
    have h1 : (Lead.new toLowerCase email firstName (sourceOrUnknown source) ip ua).email =
        emailSetters toLowerCase email := rfl
    rw [h1, hv]
    by_cases he : emailSetters toLowerCase email = ""
    · simp [he]
    · simp [he]
  unfold createLead
  simp only
  split
  · exact ⟨rfl, rfl⟩
  · rw [hfind]
    simp only
    unfold save
    rw [if_pos herr]
    exact ⟨rfl, rfl⟩

/-- A request with a new valid email, a first name of at most 50 UTF-16 code units (or none)
and a source among the values of the schema is answered 201 and the lead is stored. -/
theorem createLead_created (isEmail : String → Bool) (toLowerCase : String → String)
    (settersOnQuery : Bool)
    (db : List Lead) (email source : String) (firstName ip ua : Option String)
    (hlow : LowerCaseLaws toLowerCase)
    (hv : isEmail (emailSetters toLowerCase email) = true)
    (hne : emailSetters toLowerCase email ≠ "")
    (hnew : ∀ l ∈ db, l.email ≠ emailSetters toLowerCase email)
    (hq : settersOnQuery = true ∨ trimSetter email = email)
    (hf : ∀ f, firstName = some f → jsLength (trimSetter f) ≤ 50)
    (hsrc : source ∈ sourceValues) :
    createLead isEmail toLowerCase settersOnQuery db
      { email := some (.string email), firstName := firstName, source := some source,
        ip := ip, userAgent := ua } =
      (.created (Lead.new toLowerCase email firstName source ip ua),
       db ++ [Lead.new toLowerCase email firstName source ip ua]) := by
  have hs : email ≠ "" := by
    intro h
    rw [h, emailSetters_empty toLowerCase hlow] at hne
    exact hne rfl
  have hsne : source ≠ "" := by
    intro h
    rw [h] at hsrc
    revert hsrc
    decide
  have hkey := query_key toLowerCase hlow settersOnQuery email hq
  have hfind : findOne toLowerCase settersOnQuery db (toLowerCase email) = none := by
    unfold findOne
    rw [hkey, List.find?_eq_none]
    intro l hl hle
    exact hnew l hl (by simpa using hle)
  have hsu : sourceOrUnknown (some source) = source := by
    simp [sourceOrUnknown, hsne]
  have herr : validationErrors isEmail (Lead.new toLowerCase email firstName source ip ua) =
      [] := by
    unfold validationErrors
    have h1 : (Lead.new toLowerCase email firstName source ip ua).email =
        emailSetters toLowerCase email := rfl
    have h2 : (Lead.new toLowerCase email firstName source ip ua).source = source := rfl
    have h3 : (Lead.new toLowerCase email firstName source ip ua).firstName =
        firstName.map trimSetter := rfl
    rw [h1, h2, h3, if_neg hne, hv, if_neg hsne, if_pos hsrc]
    cases firstName with
    | none => rfl
    | some f =>
      have := hf f rfl
      simp only [Option.map_some', if_true, List.append_nil, List.nil_append]
      rw [if_neg (by omega)]
  have hany : db.any (fun l => l.email ==
      (preSave toLowerCase (Lead.new toLowerCase email firstName source ip ua)).email) =
      false := by
    rw [preSave_new toLowerCase hlow, List.any_eq_false]
    intro l hl hle
    exact hnew l hl (by simpa using hle)
  unfold createLead
  have ht : truthy (some (.string email)) = true := by
    simp [truthy, hs]
  simp only [ht, Bool.not_true, Bool.false_eq_true, if_false, hfind, hsu]
  unfold save
  rw [herr]
  simp only [ne_eq, not_true_eq_false, if_false, hany, Bool.false_eq_true]
  rw [preSave_new toLowerCase hlow]

/-- The `maxlength` of `firstName` counts UTF-16 code units: a first name of 26 characters
beyond U+FFFF has length 52 and is answered 400, nothing being stored. -/
theorem createLead_long_firstName :
    jsLength "😀😀😀😀😀😀😀😀😀😀😀😀😀😀😀😀😀😀😀😀😀😀😀😀😀😀" = 52 ∧
    createLead (fun _ => true) latin1ToLowerCase true []
      { email := some (.string "user@example.com"),
        firstName := some "😀😀😀😀😀😀😀😀😀😀😀😀😀😀😀😀😀😀😀😀😀😀😀😀😀😀",
        source := some "manual", ip := none, userAgent := none } =
      (.badRequest ["First name cannot exceed 50 characters."], []) := by
  decide


/-! ## Frontend: the video context -/

theorem updateVideos_length (videos : List Video) (videoId : String) (p : Percentage) :
    (updateVideos videos videoId p).length = videos.length := by
  unfold updateVideos
  exact List.length_map _ _

theorem video_step_inv (s : VideoState) (a : VideoAction) (n : Nat)
    (h : 0 ≤ s.currentVideoIndex ∧ s.currentVideoIndex < s.videos.length ∧
      s.videos.length = n) :
    0 ≤ (s.step a).currentVideoIndex ∧
    (s.step a).currentVideoIndex < (s.step a).videos.length ∧
    (s.step a).videos.length = n := by
  obtain ⟨h0, h1, h2⟩ := h
  cases a with
  | selectVideo index =>
    simp only [VideoState.step, selectVideo]
    split
    · rename_i hr
      exact ⟨hr.1, hr.2, h2⟩
    · exact ⟨h0, h1, h2⟩
  | nextVideo =>
    simp only [VideoState.step, nextVideo]
    split
    · simp only [selectVideo]
      split
      · rename_i hr
        exact ⟨hr.1, hr.2, h2⟩
      · exact ⟨h0, h1, h2⟩
    · exact ⟨h0, h1, h2⟩
  | updateVideoProgress videoId p =>
    show 0 ≤ s.currentVideoIndex ∧
      s.currentVideoIndex < ((updateVideos s.videos videoId p).length : Int) ∧
      (updateVideos s.videos videoId p).length = n
    rw [updateVideos_length]
    exact ⟨h0, h1, h2⟩

theorem video_run_inv (acts : List VideoAction) (s : VideoState) (n : Nat)
    (h : 0 ≤ s.currentVideoIndex ∧ s.currentVideoIndex < s.videos.length ∧
      s.videos.length = n) :
    0 ≤ (s.run acts).currentVideoIndex ∧
    (s.run acts).currentVideoIndex < (s.run acts).videos.length ∧
    (s.run acts).videos.length = n := by
  induction acts generalizing s with
  | nil => exact h
  | cons a as ih => exact ih (s.step a) (video_step_inv s a n h)

/-- C29: in every state reached from the initial state of `VideoProvider` through calls of
`selectVideo` (any integer index), `nextVideo` and `updateVideoProgress`, the current index
is at least 0 and below the number of videos, and there are still four videos.  In every
state, `selectVideo` with an index out of range keeps the index and sets the error, and
`nextVideo` at the last index (or beyond) returns the state unchanged. -/
theorem c29_playlist_index_in_range (acts : List VideoAction) (s : VideoState) (index : Int) :
    (0 ≤ (VideoState.initial.run acts).currentVideoIndex ∧
      (VideoState.initial.run acts).currentVideoIndex <
        (VideoState.initial.run acts).videos.length ∧
      (VideoState.initial.run acts).videos.length = 4) ∧
    (¬ (0 ≤ index ∧ index < s.videos.length) →
      (selectVideo s index).currentVideoIndex = s.currentVideoIndex ∧
      (selectVideo s index).videos = s.videos ∧
      (selectVideo s index).isPlaying = s.isPlaying ∧
      (selectVideo s index).error = some "Invalid video selected.") ∧
    ((s.videos.length : Int) - 1 ≤ s.currentVideoIndex → nextVideo s = s) := by
  refine ⟨video_run_inv acts VideoState.initial 4 ⟨by decide, by decide, rfl⟩, ?_, ?_⟩
  · intro h
    unfold selectVideo
    rw [if_neg h]
    exact ⟨rfl, rfl, rfl, rfl⟩
  · intro h
    unfold nextVideo
    rw [if_neg (by omega)]

theorem c29_playlist_index_in_range_witness :
    ¬ (0 ≤ (4 : Int) ∧ (4 : Int) < VideoState.initial.videos.length) ∧
    (selectVideo VideoState.initial 4).currentVideoIndex = 0 ∧
    (selectVideo VideoState.initial 4).error = some "Invalid video selected." ∧
    ((VideoState.initial.run [.selectVideo 3]).videos.length : Int) - 1 ≤
      (VideoState.initial.run [.selectVideo 3]).currentVideoIndex ∧
    nextVideo (VideoState.initial.run [.selectVideo 3]) =
      VideoState.initial.run [.selectVideo 3] :=
  ⟨by decide,
   ((c29_playlist_index_in_range [] VideoState.initial 4).2.1 (by decide)).1,
   ((c29_playlist_index_in_range [] VideoState.initial 4).2.1 (by decide)).2.2.2,
   by decide,
   (c29_playlist_index_in_range [] (VideoState.initial.run [.selectVideo 3]) 0).2.2
     (by decide)⟩

/-- C30: `updateVideoProgress(id, p)` maps the list of videos position by position: the
list keeps its length; at every position a video whose id is `id` keeps all its other fields
and gets `progress = p` and `watched = (p >= 95)`, whatever `watched` was before, and a video
with another id is unchanged; when no video has that id the list is unchanged.  The other
state hooks are not touched. -/
theorem c30_update_video_progress (s : VideoState) (videoId : String) (p : Percentage) :
    (updateVideoProgress s videoId p).videos.length = s.videos.length ∧
    (∀ (i : Nat) (h : i < s.videos.length)
        (h2 : i < (updateVideoProgress s videoId p).videos.length),
      (updateVideoProgress s videoId p).videos.get ⟨i, h2⟩ =
        (if (s.videos.get ⟨i, h⟩).id = videoId then
           { id := (s.videos.get ⟨i, h⟩).id, title := (s.videos.get ⟨i, h⟩).title,
             src := (s.videos.get ⟨i, h⟩).src, duration := (s.videos.get ⟨i, h⟩).duration,
             watched := p.atLeast95, progress := p }
         else s.videos.get ⟨i, h⟩)) ∧
    ((∀ v ∈ s.videos, v.id ≠ videoId) → (updateVideoProgress s videoId p).videos = s.videos) ∧
    (updateVideoProgress s videoId p).currentVideoIndex = s.currentVideoIndex ∧
    (updateVideoProgress s videoId p).isPlaying = s.isPlaying ∧
    (updateVideoProgress s videoId p).error = s.error ∧
    Percentage.atLeast95 (.fin 95) = true ∧ Percentage.atLeast95 (.fin (949 / 10)) = false ∧
    Percentage.atLeast95 .nan = false := by
  refine ⟨updateVideos_length s.videos videoId p, ?_, ?_, rfl, rfl, rfl,
    by norm_num [Percentage.atLeast95], by norm_num [Percentage.atLeast95], rfl⟩
  · intro i h h2
    show (updateVideos s.videos videoId p).get ⟨i, h2⟩ = _
    unfold updateVideos
    simp only [List.get_eq_getElem, List.getElem_map]
  · intro h
    show updateVideos s.videos videoId p = s.videos
    unfold updateVideos
    conv_rhs => rw [← List.map_id s.videos]
    apply List.map_congr_left
    intro v hv
    rw [if_neg (h v hv)]
    rfl

theorem c30_update_video_progress_witness :
    (∀ v ∈ VideoState.initial.videos, v.id ≠ "vid9") ∧
    (updateVideoProgress VideoState.initial "vid9" (.fin 50)).videos =
      VideoState.initial.videos ∧
    (updateVideoProgress VideoState.initial "vid2" (.fin 96)).videos.get
        ⟨1, by decide⟩ =
      { id := "vid2", title := "Training Video 2", src := "/assets/videos/video2.mp4",
        duration := 450, watched := true, progress := .fin 96 } :=
  ⟨by decide, (c30_update_video_progress VideoState.initial "vid9" (.fin 50)).2.2.1 (by decide),
   ((c30_update_video_progress VideoState.initial "vid2" (.fin 96)).2.1 1 (by decide)
      _).trans (by
        simp only [VideoState.initial, initialVideoData, List.get_eq_getElem,
          List.getElem_cons_succ, List.getElem_cons_zero]
        norm_num [Percentage.atLeast95])⟩


/-! ## The handles after a detector has fired -/

theorem handles_clearTimeout (s : State) (id : Option Nat) :
    (clearTimeout s id).handles = s.handles := by
  cases id <;> rfl

theorem handles_mobileCleanupFn (s : State) (d : Nat) :
    (mobileCleanupFn s d).handles = s.handles := by
  unfold mobileCleanupFn
  split
  · rfl
  · exact handles_clearTimeout s _

theorem handles_callDesktopCleanup (s : State) : (callDesktopCleanup s).handles = s.handles := by
  unfold callDesktopCleanup
  split <;> rfl

theorem handles_callMobileCleanup (s : State) : (callMobileCleanup s).handles = s.handles := by
  unfold callMobileCleanup
  split
  · rfl
  · exact handles_mobileCleanupFn s _

theorem handles_handleMouseLeave (s : State) (det : DesktopDetector) (y : Int) :
    (handleMouseLeave s det y).handles = s.handles := by
  unfold handleMouseLeave
  simp only
  split
  · rfl
  · split
    · rw [handles_callDesktopCleanup]
      rfl
    · rfl

theorem handles_throttledHandler (s : State) (d : Nat) (y : Int) :
    (throttledHandler s d y).handles = s.handles := by
  unfold throttledHandler
  split
  · rfl
  · split
    · rfl
    · exact handles_handleMouseLeave s _ y

theorem handles_dispatchMouseLeave (s : State) (y : Int) :
    (dispatchMouseLeave s y).handles = s.handles := by
  unfold dispatchMouseLeave
  apply foldl_preserves (fun st => st.handles = s.handles) _ _ _ s rfl
  intro st d hst
  split
  · rw [handles_throttledHandler]
    exact hst
  · exact hst

theorem handles_triggerCallback (s : State) (d : Nat) :
    (triggerCallback s d).handles = s.handles := by
  unfold triggerCallback
  split
  · rfl
  · simp only
    split
    · rfl
    · rw [handles_callMobileCleanup]
      rfl

theorem invoked_throttledHandler (s : State) (d : Nat) (y : Int) :
    ∀ inv ∈ (throttledHandler s d y).invoked, inv ∈ s.invoked ∨ inv.detector = d := by
  unfold throttledHandler
  split
  · exact fun _ h => Or.inl h
  · rename_i det hfind
    obtain ⟨_, hid⟩ := find?_id_some (fun m : DesktopDetector => m.id) s.desktop d det hfind
    split
    · exact fun _ h => Or.inl h
    · intro inv hinv
      have hinv2 : inv ∈ (handleMouseLeave s det y).invoked := hinv
      rcases invoked_handleMouseLeave s det y with h | h
      · rw [h] at hinv2
        exact Or.inl hinv2
      · rw [h, List.mem_append, List.mem_singleton] at hinv2
        rcases hinv2 with h2 | h2
        · exact Or.inl h2
        · right
          rw [h2]
          exact hid

/-- A `mouseleave` event while desktop detector `det` listens is one call of its throttled
handler. -/
theorem mouseleave_step_eq (s : State) (y : Int) (det : DesktopDetector)
    (hi : HandleInv s) (hn : IdsNodup s) (hdet : det ∈ s.desktop)
    (hl : det.listening = true) :
    step s (.mouseleave y) = throttledHandler s det.id y := by
  have hlen : (s.desktop.filter (fun m => m.listening)).length ≤ 1 := by
    apply filter_length_le_one (fun m : DesktopDetector => m.id) _ _ hn.1
    intro x hx z hz hpx hpz
    have h1 := hi.desktop_handle x hx hpx
    have h2 := hi.desktop_handle z hz hpz
    rw [h1] at h2
    exact Option.some.inj h2
  have hfil : s.desktop.filter (fun m => m.listening) = [det] :=
    eq_singleton_of_mem _ det hlen (by simp [List.mem_filter, hdet, hl])
  have hany : s.desktop.any (fun x => x.id == det.id && x.listening) = true := by
    simp only [List.any_eq_true, Bool.and_eq_true, beq_iff_eq]
    exact ⟨det, hdet, rfl, hl⟩
  show dispatchMouseLeave s y = _
  unfold dispatchMouseLeave
  rw [hfil]
  simp only [List.map_cons, List.map_nil, List.foldl_cons, List.foldl_nil, hany, if_true]

theorem eq_of_key_nodup {β : Type} (key : β → Nat) (l : List β) (hn : (l.map key).Nodup)
    (x y : β) (hx : x ∈ l) (hy : y ∈ l) (h : key x = key y) : x = y := by
  induction l with
  | nil => simp at hx
  | cons a as ih =>
    simp only [List.map_cons, List.nodup_cons] at hn
    simp only [List.mem_cons] at hx hy
    rcases hx with hx | hx <;> rcases hy with hy | hy
    · rw [hx, hy]
    · subst hx
      exact absurd (h ▸ List.mem_map_of_mem key hy) hn.1
    · subst hy
      exact absurd (h ▸ List.mem_map_of_mem key hx) hn.1
    · exact ih hn.2 hx hy

/-- The expiry of a pending timer that is due: its function runs on the state without it. -/
theorem timerExpires_of_mem (s : State) (t : Timer) (ht : TimersOk s) (hm : t ∈ s.timers) :
    timerExpires s t.id =
      if t.due ≤ s.now then
        runTimer { s with timers := s.timers.filter (fun x => x.id != t.id) } t.kind
      else s := by
  unfold timerExpires
  cases hf : s.timers.find? (fun x => x.id == t.id) with
  | none => exact absurd rfl (find?_id_none (fun x : Timer => x.id) s.timers t.id hf t hm)
  | some t2 =>
    obtain ⟨hm2, hid⟩ := find?_id_some (fun x : Timer => x.id) s.timers t.id t2 hf
    have : t2 = t := eq_of_key_nodup (fun x : Timer => x.id) s.timers ht.2 t2 t hm2 hm hid
    rw [this]

/-- C24 (as the code has it): when a detector fires, its listeners are removed, but the
module-level handle keeps holding its cleanup function.  In every reachable state a
`mouseleave` event leaves the three module-level variables as they are, and a detector that
invokes the callback in that step is the one held in `desktopCleanup` afterwards and is no
longer listening; the expiry of a pending inactivity timer of detector `d` leaves the three
variables as they are, `mobileCleanup` holds `d` afterwards, and an invocation made in that
step is by `d`, which is no longer listening. -/
theorem c24_handles_kept_after_fire (t0 : Nat) (store : Storage) (userAgent : Option String)
    (innerWidth : Nat) (acts : List Action) (y : Int) (d : Nat) (t : Timer) (s : State)
    (hs : s = run (State.initial t0 store userAgent innerWidth) acts) :
    ((step s (.mouseleave y)).handles = s.handles ∧
      ∀ inv ∈ (step s (.mouseleave y)).invoked, inv ∉ s.invoked →
        (step s (.mouseleave y)).desktopCleanup = some inv.detector ∧
        ∀ det ∈ (step s (.mouseleave y)).desktop,
          det.id = inv.detector → det.listening = false) ∧
    (t ∈ s.timers → t.kind = .inactivity d →
      (step s (.timer t.id)).handles = s.handles ∧
      (step s (.timer t.id)).mobileCleanup = some d ∧
      ∀ inv ∈ (step s (.timer t.id)).invoked, inv ∉ s.invoked →
        inv.detector = d ∧
        ∀ det ∈ (step s (.timer t.id)).mobile, det.id = d → det.listening = false) := by
  obtain ⟨hi, ht, hn⟩ := reachable_invariants t0 store userAgent innerWidth acts
  rw [← hs] at hi ht hn
  constructor
  · have hh : (step s (.mouseleave y)).handles = s.handles := handles_dispatchMouseLeave s y
    refine ⟨hh, ?_⟩
    intro inv hinv hnew
    have hi2 := handleInv_step s (.mouseleave y) hi
    refine ⟨?_, hi2.invoked_desktop inv hinv⟩
    by_cases hex : ∃ det ∈ s.desktop, det.listening = true
    · obtain ⟨det, hdet, hl⟩ := hex
      have hstep := mouseleave_step_eq s y det hi hn hdet hl
      rw [hstep] at hinv
      rcases invoked_throttledHandler s det.id y inv hinv with h | h
      · exact absurd h hnew
      · have h1 : (step s (.mouseleave y)).desktopCleanup = s.desktopCleanup :=
          congrArg (fun c => c.1) hh
        rw [h1, h]
        exact hi.desktop_handle det hdet hl
    · have hnone : ∀ det ∈ s.desktop, det.listening = false := by
        intro det hdet
        cases hl : det.listening with
        | false => rfl
        | true => exact absurd ⟨det, hdet, hl⟩ hex
      have hstep : step s (.mouseleave y) = s := dispatchMouseLeave_of_none s y hnone
      rw [hstep] at hinv
      exact absurd hinv hnew
  · intro hm hk
    have hstep : step s (.timer t.id) =
        if t.due ≤ s.now then
          triggerCallback { s with timers := s.timers.filter (fun x => x.id != t.id) } d
        else s := by
      show timerExpires s t.id = _
      rw [timerExpires_of_mem s t ht hm, hk]
      rfl
    obtain ⟨⟨det, hdet, hid, hl⟩, _⟩ := hi.inactivity_owner t hm d hk
    have hmc : s.mobileCleanup = some d := by
      rw [← hid]
      exact hi.mobile_handle det hdet hl
    have hh : (step s (.timer t.id)).handles = s.handles := by
      rw [hstep]
      split
      · exact handles_triggerCallback _ d
      · rfl
    have hi2 := handleInv_step s (.timer t.id) hi
    refine ⟨hh, ?_, ?_⟩
    · have h1 : (step s (.timer t.id)).mobileCleanup = s.mobileCleanup :=
        congrArg (fun c => c.2.1) hh
      rw [h1, hmc]
    · intro inv hinv hnew
      have hd : inv.detector = d := by
        rw [hstep] at hinv
        split at hinv
        · rcases invoked_triggerCallback _ d inv hinv with h | h
          · exact absurd h hnew
          · exact h.2
        · exact absurd hinv hnew
      refine ⟨hd, ?_⟩
      intro det2 hdet2 hid2
      exact hi2.invoked_mobile inv hinv det2 hdet2 (hid2.trans hd.symm)

theorem c24_handles_kept_after_fire_witness :
    (step (run (State.initial 0 none none 1920)
        [.initializeExitIntent 7, .advance 10000, .timer 1, .advance 1])
      (.mouseleave 2)).handles =
    (run (State.initial 0 none none 1920)
        [.initializeExitIntent 7, .advance 10000, .timer 1, .advance 1]).handles ∧
    (⟨3, 40000, .inactivity 2⟩ : Timer) ∈ (run (State.initial 0 none none 500)
        [.initializeExitIntent 7, .advance 10000, .timer 1, .advance 30000]).timers ∧
    (step (run (State.initial 0 none none 500)
        [.initializeExitIntent 7, .advance 10000, .timer 1, .advance 30000])
      (.timer 3)).mobileCleanup = some 2 :=
  ⟨(c24_handles_kept_after_fire 0 none none 1920
      [.initializeExitIntent 7, .advance 10000, .timer 1, .advance 1] 2 0
      ⟨0, 0, .inactivity 0⟩
      (run (State.initial 0 none none 1920)
        [.initializeExitIntent 7, .advance 10000, .timer 1, .advance 1]) rfl).1.1,
   by decide,
   ((c24_handles_kept_after_fire 0 none none 500
      [.initializeExitIntent 7, .advance 10000, .timer 1, .advance 30000] 0 2
      ⟨3, 40000, .inactivity 2⟩
      (run (State.initial 0 none none 500)
        [.initializeExitIntent 7, .advance 10000, .timer 1, .advance 30000]) rfl).2
      (by decide) rfl).2.1⟩

/-- C24 counterexample: a desktop detector fires at 10,001 ms and `desktopCleanup` still
holds it; a mobile detector fires at 40,000 ms and `mobileCleanup` still holds it. -/
theorem c24_counterexample :
    (run (State.initial 0 none none 1920)
      [.initializeExitIntent 7, .advance 10000, .timer 1, .advance 1,
       .mouseleave 2]).invoked = [⟨10001, 7, 2⟩] ∧
    (run (State.initial 0 none none 1920)
      [.initializeExitIntent 7, .advance 10000, .timer 1, .advance 1,
       .mouseleave 2]).desktopCleanup = some 2 ∧
    (run (State.initial 0 none none 500)
      [.initializeExitIntent 7, .advance 10000, .timer 1, .advance 30000,
       .timer 3]).invoked = [⟨40000, 7, 2⟩] ∧
    (run (State.initial 0 none none 500)
      [.initializeExitIntent 7, .advance 10000, .timer 1, .advance 30000,
       .timer 3]).mobileCleanup = some 2 := by
  decide


/-! ## A call of `initializeExitIntent` on any state -/

/-- The invariants of a reachable state whose store has been rewritten (by another page on
the same storage). -/
theorem rewritten_invariants (t0 : Nat) (store : Storage) (ua : Option String) (w : Nat)
    (acts : List Action) (x : Storage) :
    HandleInv { run (State.initial t0 store ua w) acts with store := x } ∧
    TimersOk { run (State.initial t0 store ua w) acts with store := x } ∧
    IdsNodup { run (State.initial t0 store ua w) acts with store := x } := by
  obtain ⟨hi, ht, hn⟩ := reachable_invariants t0 store ua w acts
  exact ⟨handleInv_store _ x hi, ht, hn⟩

/-- C28: `initializeExitIntent` tears down before it checks the store.  From every reachable
state, the store holding anything, straight after the call: nothing listens, no inactivity
timer is pending, and no delay timer that was pending before the call is pending.  If the
store read as not suppressed, exactly one delay timer is pending, the new one, due 10,000 ms
later and held in `initialDelayTimer`; if it read as suppressed, no delay timer is pending
and none was started.  On an armed state with a suppressing store the call is not a no-op:
the listening detector no longer listens. -/
theorem c28_initialize_tears_down_first (t0 : Nat) (store : Storage)
    (userAgent : Option String) (innerWidth : Nat) (acts : List Action) (x : Storage)
    (cb : Nat) (s : State)
    (hs : s = { run (State.initial t0 store userAgent innerWidth) acts with store := x }) :
    (∀ det ∈ (initializeExitIntent s cb).desktop, det.listening = false) ∧
    (∀ det ∈ (initializeExitIntent s cb).mobile, det.listening = false) ∧
    (∀ t ∈ (initializeExitIntent s cb).timers, ∀ d, t.kind ≠ .inactivity d) ∧
    (∀ t ∈ s.timers, t.isInitDelay = true → t ∉ (initializeExitIntent s cb).timers) ∧
    ((hasSeenExitIntentRecently s.now s.store).1 = false →
      (initializeExitIntent s cb).timers.filter (fun t => t.isInitDelay) =
        [{ id := s.nextId, due := s.now + 10000, kind := .initDelay cb }] ∧
      (initializeExitIntent s cb).initialDelayTimer = some s.nextId) ∧
    ((hasSeenExitIntentRecently s.now s.store).1 = true →
      (initializeExitIntent s cb).timers.filter (fun t => t.isInitDelay) = [] ∧
      (initializeExitIntent s cb).nextId = s.nextId) ∧
    ((run (State.initial 0 none none 1920)
        [.initializeExitIntent 7, .advance 10000, .timer 1]).desktop =
        [⟨2, 7, 200, false, true⟩] ∧
      (initializeExitIntent
        { run (State.initial 0 none none 1920)
            [.initializeExitIntent 7, .advance 10000, .timer 1] with
          store := some (shownRecord 5000000) } 8).desktop = [⟨2, 7, 200, false, false⟩]) := by
  obtain ⟨hi, ht, _⟩ := rewritten_invariants t0 store userAgent innerWidth acts x
  rw [← hs] at hi ht
  have hI : INITIAL_DELAY = 10000 := by decide
  have hcases : (∀ det ∈ (initializeExitIntent s cb).desktop, det.listening = false) ∧
      (∀ det ∈ (initializeExitIntent s cb).mobile, det.listening = false) ∧
      (∀ t ∈ (initializeExitIntent s cb).timers,
        t = ⟨s.nextId, s.now + 10000, .initDelay cb⟩ ∨ ∃ d, t.kind = .throttleReset d) := by
    cases hsup : (hasSeenExitIntentRecently s.now s.store).1 with
    | false =>
      obtain ⟨⟨h1, h2, _, h4⟩, _⟩ := delayPending_after_initialize s cb hi ht hsup
      rw [hI] at h4
      exact ⟨h1, h2, fun t htm => (h4 t htm).imp id (fun h => h.1)⟩
    | true =>
      rw [initialize_of_suppressed s cb hsup]
      obtain ⟨h3, q⟩ := teardown_quiet s hi
      obtain ⟨h1, h2, h4⟩ := dormant_of_quiet _ h3 q
      exact ⟨h1, h2, fun t htm => Or.inr (h4 t htm)⟩
  obtain ⟨c1, c2, c3⟩ := hcases
  refine ⟨c1, c2, ?_, ?_, ?_, ?_, by decide⟩
  · intro t htm d hk
    rcases c3 t htm with h | ⟨d2, h⟩
    · rw [h] at hk
      exact TimerKind.noConfusion hk
    · rw [h] at hk
      exact TimerKind.noConfusion hk
  · intro t htm hk hmem
    rcases c3 t hmem with h | ⟨d2, h⟩
    · have hlt := ht.1 t htm
      rw [h] at hlt
      exact Nat.lt_irrefl _ hlt
    · simp [Timer.isInitDelay, h] at hk
  · intro hsup
    obtain ⟨⟨_, _, h3, _⟩, _⟩ := delayPending_after_initialize s cb hi ht hsup
    rw [hI] at h3
    have ht2 : TimersOk (initializeExitIntent s cb) := timersOk_step s (.initializeExitIntent cb) ht
    constructor
    · apply eq_singleton_of_mem
      · apply filter_length_le_one (fun t : Timer => t.id) _ _ ht2.2
        intro a ha b hb hpa hpb
        have ea : a = ⟨s.nextId, s.now + 10000, .initDelay cb⟩ := by
          rcases c3 a ha with h | ⟨d2, h⟩
          · exact h
          · simp [Timer.isInitDelay, h] at hpa
        have eb : b = ⟨s.nextId, s.now + 10000, .initDelay cb⟩ := by
          rcases c3 b hb with h | ⟨d2, h⟩
          · exact h
          · simp [Timer.isInitDelay, h] at hpb
        rw [ea, eb]
      · rw [List.mem_filter]
        exact ⟨h3, rfl⟩
    · rw [initialize_of_unsuppressed s cb hsup]
  · intro hsup
    constructor
    · rw [List.filter_eq_nil_iff]
      intro t htm hk
      rw [initialize_of_suppressed s cb hsup] at htm
      obtain ⟨h3, q⟩ := teardown_quiet s hi
      obtain ⟨_, _, h4⟩ := dormant_of_quiet _ h3 q
      obtain ⟨d2, h⟩ := h4 t htm
      simp [Timer.isInitDelay, h] at hk
    · rw [initialize_of_suppressed s cb hsup]
      exact nextId_teardown s

theorem c28_initialize_tears_down_first_witness :
    (hasSeenExitIntentRecently
      ({ run (State.initial 0 none none 1920) [.initializeExitIntent 7, .advance 3000] with
         store := none } : State).now
      ({ run (State.initial 0 none none 1920) [.initializeExitIntent 7, .advance 3000] with
         store := none } : State).store).1 = false ∧
    (initializeExitIntent
      { run (State.initial 0 none none 1920) [.initializeExitIntent 7, .advance 3000] with
        store := none } 8).timers.filter (fun t => t.isInitDelay) =
      [{ id := 2, due := 3000 + 10000, kind := .initDelay 8 }] ∧
    (initializeExitIntent
      { run (State.initial 0 none none 1920)
          [.initializeExitIntent 7, .advance 10000, .timer 1] with
        store := some (shownRecord 5000000) } 8).timers.filter (fun t => t.isInitDelay) = [] :=
  ⟨by decide,
   ((c28_initialize_tears_down_first 0 none none 1920 [.initializeExitIntent 7, .advance 3000]
      none 8 _ rfl).2.2.2.2.1 (by decide)).1,
   ((c28_initialize_tears_down_first 0 none none 1920
      [.initializeExitIntent 7, .advance 10000, .timer 1] (some (shownRecord 5000000)) 8 _
      rfl).2.2.2.2.2.1 (by decide)).1⟩


/-! ## An inactivity timer that elapses while the store is suppressed -/

theorem triggerCallback_of_suppressed (s : State) (d : Nat)
    (h : (hasSeenExitIntentRecently s.now s.store).1 = true) : triggerCallback s d = s := by
  unfold triggerCallback
  split
  · rfl
  · simp only [h, if_true]
    rw [hasSeen_true_store s.now s.store h]

/-- C27: the inactivity timer of mobile detector `d` elapses while the store reads as
suppressed (the state is any reachable one, the store holding anything).  Then nothing is
invoked and the store is left as it is; the detector is not torn down: the detectors and the
handles are as before, `d` still listens; no inactivity timer is pending.  The next activity
event starts a full window: afterwards exactly the inactivity timers of `d` due 30,000 ms
later are pending, and there is one.  Such an installation can still fire: in the example
the timer elapses at 40,000 ms under a record valid until 100,000 ms, an activity event
arrives at 110,000 ms, and the detector invokes the callback at 140,000 ms. -/
theorem c27_suppressed_expiry_keeps_detector (t0 : Nat) (store : Storage)
    (userAgent : Option String) (innerWidth : Nat) (acts : List Action) (x : Storage)
    (t : Timer) (d : Nat) (k : ActivityKind) (s : State)
    (hs : s = { run (State.initial t0 store userAgent innerWidth) acts with store := x })
    (hm : t ∈ s.timers) (hk : t.kind = .inactivity d) (hdue : t.due ≤ s.now)
    (hsup : (hasSeenExitIntentRecently s.now s.store).1 = true) :
    (step s (.timer t.id)).invoked = s.invoked ∧
    (step s (.timer t.id)).store = s.store ∧
    (step s (.timer t.id)).desktop = s.desktop ∧
    (step s (.timer t.id)).mobile = s.mobile ∧
    (step s (.timer t.id)).handles = s.handles ∧
    (∃ det ∈ (step s (.timer t.id)).mobile, det.id = d ∧ det.listening = true) ∧
    (∀ t2 ∈ (step s (.timer t.id)).timers, ∀ d2, t2.kind ≠ .inactivity d2) ∧
    (∃ t2 ∈ (step (step s (.timer t.id)) (.activity k)).timers,
      t2.kind = .inactivity d ∧ t2.due = s.now + 30000) ∧
    (∀ t2 ∈ (step (step s (.timer t.id)) (.activity k)).timers,
      ∀ d2, t2.kind = .inactivity d2 → d2 = d ∧ t2.due = s.now + 30000) ∧
    (run { run (State.initial 0 none none 500)
            [.initializeExitIntent 7, .advance 10000, .timer 1, .advance 30000] with
           store := some (shownRecord 100000) }
        [.timer 3, .advance 70000, .activity .scroll, .advance 30000, .timer 4]).invoked =
      [⟨140000, 7, 2⟩] := by
  obtain ⟨hi, ht, hn⟩ := rewritten_invariants t0 store userAgent innerWidth acts x
  have hw : ∀ det ∈ s.mobile, det.inactivityTime = 30000 := by
    have hd := debounce_run acts _ [] (debounce_initial t0 store userAgent innerWidth)
      (handleInv_initial t0 store userAgent innerWidth)
      ⟨by simp [State.initial], by simp [State.initial]⟩
    intro det hdet
    rw [hs] at hdet
    exact hd.window det hdet
  rw [← hs] at hi ht hn
  have hstep : step s (.timer t.id) =
      { s with timers := s.timers.filter (fun z => z.id != t.id) } := by
    show timerExpires s t.id = _
    rw [timerExpires_of_mem s t ht hm, if_pos hdue, hk]
    exact triggerCallback_of_suppressed _ d hsup
  obtain ⟨⟨det, hdet, hid, hl⟩, hown⟩ := hi.inactivity_owner t hm d hk
  subst hid
  have hmc := hi.mobile_handle det hdet hl
  have hnone : ∀ t2 ∈ (step s (.timer t.id)).timers, ∀ d2, t2.kind ≠ .inactivity d2 := by
    intro t2 ht2 d2 hk2
    rw [hstep] at ht2
    have ht2' : t2 ∈ s.timers.filter (fun z => z.id != t.id) := ht2
    rw [List.mem_filter] at ht2'
    obtain ⟨⟨det2, hdet2, hid2, hl2⟩, hown2⟩ := hi.inactivity_owner t2 ht2'.1 d2 hk2
    have hmc2 := hi.mobile_handle det2 hdet2 hl2
    rw [hmc] at hmc2
    have hdd : det.id = det2.id := Option.some.inj hmc2
    have e1 := hown det hdet rfl
    have e3 : det.timer = some t2.id := hown2 det hdet (hdd.trans hid2)
    rw [e1] at e3
    have : t2.id = t.id := (Option.some.inj e3).symm
    simp [this] at ht2'
  have hi2 := handleInv_step s (.timer t.id) hi
  have hn2 := idsNodup_step s (.timer t.id) hi hn
  have hdet2 : det ∈ (step s (.timer t.id)).mobile := by
    rw [hstep]
    exact hdet
  have hact := activity_step_eq (step s (.timer t.id)) k det hi2 hn2 hdet2 hl
  have hnow : (step s (.timer t.id)).now = s.now := by rw [hstep]
  have hfind : ∃ f, (step s (.timer t.id)).mobile.find? (fun m => m.id == det.id) = some f := by
    cases hf : (step s (.timer t.id)).mobile.find? (fun m => m.id == det.id) with
    | some f => exact ⟨f, rfl⟩
    | none =>
      exact absurd rfl
        (find?_id_none (fun m : MobileDetector => m.id) _ det.id hf det hdet2)
  obtain ⟨f, hf⟩ := hfind
  obtain ⟨hfm, _⟩ := find?_id_some (fun m : MobileDetector => m.id) _ det.id f hf
  have hfw : f.inactivityTime = 30000 := by
    rw [hstep] at hfm
    exact hw f hfm
  obtain ⟨et, _⟩ := timers_resetTimer (step s (.timer t.id)) det.id f hf
  rw [hfw, hnow] at et
  refine ⟨by rw [hstep], by rw [hstep], by rw [hstep], by rw [hstep], by rw [hstep]; rfl,
    ⟨det, hdet2, rfl, hl⟩, hnone, ?_, ?_, by decide⟩
  · rw [hact, et]
    exact ⟨_, List.mem_append_right _ (List.mem_singleton_self _), rfl, rfl⟩
  · intro t2 ht2 d2 hk2
    rw [hact, et, List.mem_append, List.mem_singleton] at ht2
    rcases ht2 with h | h
    · have h1 := (mem_timers_clearTimeout (step s (.timer t.id)) f.timer t2).1 h
      exact absurd hk2 (hnone t2 h1.1 d2)
    · rw [h] at hk2
      simp only [TimerKind.inactivity.injEq] at hk2
      rw [h]
      exact ⟨hk2.symm, rfl⟩

theorem c27_suppressed_expiry_keeps_detector_witness :
    (⟨3, 40000, .inactivity 2⟩ : Timer) ∈
      ({ run (State.initial 0 none none 500)
            [.initializeExitIntent 7, .advance 10000, .timer 1, .advance 30000] with
         store := some (shownRecord 100000) } : State).timers ∧
    (step { run (State.initial 0 none none 500)
            [.initializeExitIntent 7, .advance 10000, .timer 1, .advance 30000] with
           store := some (shownRecord 100000) } (.timer 3)).invoked = [] :=
  ⟨by decide,
   (c27_suppressed_expiry_keeps_detector 0 none none 500
      [.initializeExitIntent 7, .advance 10000, .timer 1, .advance 30000]
      (some (shownRecord 100000)) ⟨3, 40000, .inactivity 2⟩ 2 .scroll _ rfl
      (by decide) rfl (by decide) (by decide)).1⟩


/-! ## The order of the steps of a fire -/

theorem hasSeen_marked (now : Nat) (prior : Storage) :
    hasSeenExitIntentRecently now (markExitIntentShown now prior) =
      (true, markExitIntentShown now prior) := by
  unfold markExitIntentShown
  rw [hasSeen_shownRecord, if_neg (by omega)]

/-- C25: when a detector fires, the store is checked first, then the record is written, then
the callback is invoked, then the detector is torn down.  For a desktop detector whose
handler runs with `clientY ≤ 5` on an unsuppressed store, and for a mobile detector whose
`triggerCallback` runs on an unsuppressed store, there is one state `sIn` in which the
callback runs, whatever its code `body`: the result is the teardown applied to `body sIn`.
In `sIn` the store already holds the record written at this moment and reads as suppressed,
the invocation is on record, and detectors, timers and handles are still as before the fire
(the teardown comes after).  So `hasSeenExitIntentRecently` called by the callback returns
true, and `initializeExitIntent` called by the callback takes the suppressed branch: it
starts no timer.  With a callback that does not touch the service these are `handleMouseLeave`
and `triggerCallback`. -/
theorem c25_fire_ordering (s : State) (det : DesktopDetector) (m : MobileDetector)
    (y : Int) (d cb2 : Nat)
    (hns : (hasSeenExitIntentRecently s.now s.store).1 = false) (hy : y ≤ 5)
    (hm : s.mobile.find? (fun x => x.id == d) = some m) :
    (∃ sIn : State,
      (∀ body, handleMouseLeaveRunning body s det y = callDesktopCleanup (body sIn)) ∧
      hasSeenExitIntentRecently sIn.now sIn.store = (true, sIn.store) ∧
      sIn.store = some (shownRecord (s.now + 1800000)) ∧
      sIn.invoked = s.invoked ++ [⟨s.now, det.callback, det.id⟩] ∧
      sIn.desktop = s.desktop ∧ sIn.mobile = s.mobile ∧ sIn.timers = s.timers ∧
      sIn.handles = s.handles ∧ sIn.now = s.now ∧
      initializeExitIntent sIn cb2 =
        clearInitialDelay (callMobileCleanup (callDesktopCleanup sIn)) ∧
      (initializeExitIntent sIn cb2).nextId = sIn.nextId) ∧
    (∃ sIn : State,
      (∀ body, triggerCallbackRunning body s d = callMobileCleanup (body sIn)) ∧
      hasSeenExitIntentRecently sIn.now sIn.store = (true, sIn.store) ∧
      sIn.store = some (shownRecord (s.now + 1800000)) ∧
      sIn.invoked = s.invoked ++ [⟨s.now, m.callback, m.id⟩] ∧
      sIn.desktop = s.desktop ∧ sIn.mobile = s.mobile ∧ sIn.timers = s.timers ∧
      sIn.handles = s.handles ∧ sIn.now = s.now ∧
      initializeExitIntent sIn cb2 =
        clearInitialDelay (callMobileCleanup (callDesktopCleanup sIn)) ∧
      (initializeExitIntent sIn cb2).nextId = sIn.nextId) ∧
    handleMouseLeaveRunning id s det y = handleMouseLeave s det y ∧
    triggerCallbackRunning id s d = triggerCallback s d := by
  have hS : SESSION_DURATION = 1800000 := by decide
  have key : ∀ (cb0 d0 : Nat),
      hasSeenExitIntentRecently s.now
        (markExitIntentShown s.now (hasSeenExitIntentRecently s.now s.store).2) =
        (true, markExitIntentShown s.now (hasSeenExitIntentRecently s.now s.store).2) ∧
      initializeExitIntent
        { s with
          store := markExitIntentShown s.now (hasSeenExitIntentRecently s.now s.store).2,
          invoked := s.invoked ++ [⟨s.now, cb0, d0⟩] } cb2 =
        clearInitialDelay (callMobileCleanup (callDesktopCleanup
          { s with
            store := markExitIntentShown s.now (hasSeenExitIntentRecently s.now s.store).2,
            invoked := s.invoked ++ [⟨s.now, cb0, d0⟩] })) := by
    intro cb0 d0
    have h1 := hasSeen_marked s.now (hasSeenExitIntentRecently s.now s.store).2
    refine ⟨h1, ?_⟩
    apply initialize_of_suppressed
    show (hasSeenExitIntentRecently s.now
      (markExitIntentShown s.now (hasSeenExitIntentRecently s.now s.store).2)).1 = true
    rw [h1]
  refine ⟨?_, ?_, ?_, ?_⟩
  · refine ⟨{ s with
        store := markExitIntentShown s.now (hasSeenExitIntentRecently s.now s.store).2,
        invoked := s.invoked ++ [⟨s.now, det.callback, det.id⟩] }, ?_,
      (key det.callback det.id).1, ?_, rfl, rfl, rfl, rfl, rfl, rfl,
      (key det.callback det.id).2, ?_⟩
    · intro body
      unfold handleMouseLeaveRunning
      simp only [hns, Bool.false_eq_true, if_false, hy, if_true]
    · show some (shownRecord (s.now + SESSION_DURATION)) = _
      rw [hS]
    · rw [(key det.callback det.id).2]
      exact nextId_teardown _
  · refine ⟨{ s with
        store := markExitIntentShown s.now (hasSeenExitIntentRecently s.now s.store).2,
        invoked := s.invoked ++ [⟨s.now, m.callback, m.id⟩] }, ?_,
      (key m.callback m.id).1, ?_, rfl, rfl, rfl, rfl, rfl, rfl,
      (key m.callback m.id).2, ?_⟩
    · intro body
      unfold triggerCallbackRunning
      rw [hm]
      simp only [hns, Bool.false_eq_true, if_false]
    · show some (shownRecord (s.now + SESSION_DURATION)) = _
      rw [hS]
    · rw [(key m.callback m.id).2]
      exact nextId_teardown _
  · rfl
  · rfl

theorem c25_fire_ordering_witness :
    (hasSeenExitIntentRecently
      (run (State.initial 0 none none 500)
        [.initializeExitIntent 7, .advance 10000, .timer 1, .advance 30000]).now
      (run (State.initial 0 none none 500)
        [.initializeExitIntent 7, .advance 10000, .timer 1, .advance 30000]).store).1 = false ∧
    (2 : Int) ≤ 5 ∧
    (run (State.initial 0 none none 500)
        [.initializeExitIntent 7, .advance 10000, .timer 1, .advance 30000]).mobile.find?
      (fun x => x.id == 2) = some ⟨2, 7, 30000, some 3, true⟩ ∧
    ∃ sIn : State,
      hasSeenExitIntentRecently sIn.now sIn.store = (true, sIn.store) ∧
      triggerCallbackRunning (fun st => initializeExitIntent st 8)
        (run (State.initial 0 none none 500)
          [.initializeExitIntent 7, .advance 10000, .timer 1, .advance 30000]) 2 =
        callMobileCleanup (initializeExitIntent sIn 8) ∧
      (initializeExitIntent sIn 8).nextId = sIn.nextId := by
  obtain ⟨_, ⟨sIn, hbody, hseen, _, _, _, _, _, _, _, _, hnext⟩, _, _⟩ := c25_fire_ordering
    (run (State.initial 0 none none 500)
      [.initializeExitIntent 7, .advance 10000, .timer 1, .advance 30000])
    ⟨9, 7, 200, false, true⟩ ⟨2, 7, 30000, some 3, true⟩ 2 2 8
    (by decide) (by decide) (by decide)
  exact ⟨by decide, by decide, by decide, sIn, hseen,
    hbody (fun st => initializeExitIntent st 8), hnext⟩


/-! ## A host that lacks a capability -/

/-- On a host with every capability the functions are those of the step machine. -/
theorem on_full_host (s : State) (cb : Nat) :
    initializeExitIntentOn ⟨true, true, true⟩ s cb = (initializeExitIntent s cb, none) ∧
    delayElapsedOn ⟨true, true, true⟩ s cb = (delayElapsed s cb, none) := by
  have h1 : callDesktopCleanupOn ⟨true, true, true⟩ s = (callDesktopCleanup s, none) := by
    unfold callDesktopCleanupOn callDesktopCleanup
    cases s.desktopCleanup <;> rfl
  have h2 : ∀ s1 : State,
      callMobileCleanupOn ⟨true, true, true⟩ s1 = (callMobileCleanup s1, none) := by
    intro s1
    unfold callMobileCleanupOn callMobileCleanup
    cases s1.mobileCleanup with
    | none => rfl
    | some d =>
      simp only
      cases hf : s1.mobile.find? (fun det => det.id == d) with
      | none =>
        unfold mobileCleanupFn
        rw [hf]
      | some det => rfl
  have h3 : ∀ s2 : State,
      clearInitialDelayOn ⟨true, true, true⟩ s2 = (clearInitialDelay s2, none) := by
    intro s2
    unfold clearInitialDelayOn clearInitialDelay
    cases s2.initialDelayTimer <;> rfl
  constructor
  · unfold initializeExitIntentOn initializeExitIntent
    rw [h1]
    simp only
    rw [h2]
    simp only
    rw [h3]
    simp only [Bool.not_true, Bool.false_eq_true, if_false]
    split <;> rfl
  · unfold delayElapsedOn
    simp only [Bool.not_true, Bool.false_eq_true, if_false, ite_self]

/-- C23 (as the code has it): on a freshly loaded page, `initializeExitIntent` throws to its
caller when `localStorage` cannot be read, and when the store reads as not suppressed and no
timer can be scheduled; in both cases no timer has been started, nothing listens, and the
callback is never invoked afterwards.  Otherwise it returns as on a full host.  When the
listeners are missing, the call itself returns; the function run by the delay timer throws
in the timer task (on any state), leaving the state as it was: no detector is installed, and
from a state where nothing listens the callback is never invoked afterwards. -/
theorem c23_missing_capability (h : Host) (t0 : Nat) (store : Storage)
    (userAgent : Option String) (innerWidth : Nat) (cb : Nat) (s : State)
    (later : List Action) (hl : later.all (fun a => !a.isInit) = true) :
    (h.storage = false →
      initializeExitIntentOn h (State.initial t0 store userAgent innerWidth) cb =
        (State.initial t0 store userAgent innerWidth, some .storage)) ∧
    (h.storage = true → (hasSeenExitIntentRecently t0 store).1 = false → h.timers = false →
      initializeExitIntentOn h (State.initial t0 store userAgent innerWidth) cb =
        ({ State.initial t0 store userAgent innerWidth with
           store := (hasSeenExitIntentRecently t0 store).2 }, some .timers)) ∧
    (h.storage = true → ((hasSeenExitIntentRecently t0 store).1 = true ∨ h.timers = true) →
      initializeExitIntentOn h (State.initial t0 store userAgent innerWidth) cb =
        (initializeExitIntent (State.initial t0 store userAgent innerWidth) cb, none)) ∧
    ((initializeExitIntentOn h (State.initial t0 store userAgent innerWidth) cb).2 ≠ none →
      (initializeExitIntentOn h (State.initial t0 store userAgent innerWidth) cb).1.timers
        = [] ∧
      (run (initializeExitIntentOn h (State.initial t0 store userAgent innerWidth) cb).1
        later).invoked = []) ∧
    (h.listeners = false →
      delayElapsedOn h s cb = (s, some .listeners) ∧
      (Dormant s → (run (delayElapsedOn h s cb).1 later).invoked = s.invoked)) := by
  have hinit : ∀ hh : Host,
      initializeExitIntentOn hh (State.initial t0 store userAgent innerWidth) cb =
        if !hh.storage then (State.initial t0 store userAgent innerWidth, some .storage)
        else if (hasSeenExitIntentRecently t0 store).1 then
          ({ State.initial t0 store userAgent innerWidth with
             store := (hasSeenExitIntentRecently t0 store).2 }, none)
        else if !hh.timers then
          ({ State.initial t0 store userAgent innerWidth with
             store := (hasSeenExitIntentRecently t0 store).2 }, some .timers)
        else (initializeExitIntent (State.initial t0 store userAgent innerWidth) cb, none) := by
    intro hh
    unfold initializeExitIntentOn initializeExitIntent
    simp only [callDesktopCleanupOn, callMobileCleanupOn, clearInitialDelayOn, State.initial,
      callDesktopCleanup, callMobileCleanup, clearInitialDelay, clearTimeout]
    cases hh.storage <;> cases hh.timers <;>
      cases (hasSeenExitIntentRecently t0 store).1 <;> rfl
  have hdorm : ∀ x : Storage,
      Dormant { State.initial t0 store userAgent innerWidth with store := x } := by
    intro x
    refine ⟨?_, ?_, ?_⟩ <;> simp [State.initial]
  refine ⟨?_, ?_, ?_, ?_, ?_⟩
  · intro hst
    rw [hinit, hst]
    rfl
  · intro hst hns hti
    rw [hinit, hst, hns, hti]
    rfl
  · intro hst hor
    rw [hinit, hst]
    simp only [Bool.not_true, Bool.false_eq_true, if_false]
    rcases hor with hsup | hti
    · rw [if_pos hsup]
      rw [initialize_of_suppressed _ cb hsup]
      simp only [callDesktopCleanup, callMobileCleanup, clearInitialDelay, clearTimeout,
        State.initial]
      rw [hasSeen_true_store t0 store hsup]
    · rw [hti]
      simp only [Bool.not_true, Bool.false_eq_true, if_false]
      split
      · rename_i hsup
        rw [initialize_of_suppressed _ cb hsup]
        simp only [callDesktopCleanup, callMobileCleanup, clearInitialDelay, clearTimeout,
          State.initial]
        rw [hasSeen_true_store t0 store hsup]
      · rfl
  · intro herr
    rw [hinit] at herr ⊢
    split at herr
    · rw [if_pos (by assumption)]
      exact ⟨rfl, (dormant_run later _ (hdorm store) hl).2⟩
    · rw [if_neg (by assumption)]
      split at herr
      · exact absurd rfl herr
      · rw [if_neg (by assumption)]
        split at herr
        · rw [if_pos (by assumption)]
          exact ⟨rfl, (dormant_run later _ (hdorm _) hl).2⟩
        · exact absurd rfl herr
  · intro hli
    have he : delayElapsedOn h s cb = (s, some .listeners) := by
      unfold delayElapsedOn
      rw [hli]
      simp only [Bool.not_false, if_true, ite_self]
    refine ⟨he, ?_⟩
    intro hd
    rw [he]
    exact (dormant_run later s hd hl).2

theorem c23_missing_capability_witness :
    [Action.advance 10000, .timer 1, .mouseleave 2].all (fun a => !a.isInit) = true ∧
    initializeExitIntentOn ⟨false, true, true⟩ (State.initial 0 none none 1920) 7 =
      (State.initial 0 none none 1920, some .storage) ∧
    (run (initializeExitIntentOn ⟨true, false, true⟩ (State.initial 0 none none 1920) 7).1
      [.advance 10000, .timer 1, .mouseleave 2]).invoked = [] ∧
    delayElapsedOn ⟨true, true, false⟩ (State.initial 0 none none 1920) 7 =
      (State.initial 0 none none 1920, some .listeners) :=
  ⟨by decide,
   (c23_missing_capability ⟨false, true, true⟩ 0 none none 1920 7
      (State.initial 0 none none 1920) [.advance 10000, .timer 1, .mouseleave 2]
      (by decide)).1 rfl,
   ((c23_missing_capability ⟨true, false, true⟩ 0 none none 1920 7
      (State.initial 0 none none 1920) [.advance 10000, .timer 1, .mouseleave 2]
      (by decide)).2.2.2.1 (by decide)).2,
   ((c23_missing_capability ⟨true, true, false⟩ 0 none none 1920 7
      (State.initial 0 none none 1920) [.advance 10000, .timer 1, .mouseleave 2]
      (by decide)).2.2.2.2 rfl).1⟩

/-- C23 counterexample: on a freshly loaded page whose host cannot read `localStorage`, and
on one whose host has no timers, `initializeExitIntent` throws to its caller. -/
theorem c23_counterexample :
    (initializeExitIntentOn ⟨false, true, true⟩ (State.initial 0 none none 1920) 7).2 =
      some .storage ∧
    (initializeExitIntentOn ⟨true, false, true⟩ (State.initial 0 none none 1920) 7).2 =
      some .timers := by
  decide


/-! ## The throttle gate of the desktop detector -/

theorem gateKept_refl (s : State) : GateKept s s := ⟨rfl, fun _ h => Or.inl h⟩

theorem gateKept_trans {a b c : State} (h1 : GateKept a b) (h2 : GateKept b c) :
    GateKept a c := by
  refine ⟨h2.gates.trans h1.gates, ?_⟩
  intro t ht
  rcases h2.timers_old t ht with h | h
  · exact h1.timers_old t h
  · exact Or.inr h

theorem gateKept_of_eq (s s2 : State) (hd : s2.desktop = s.desktop)
    (ht : ∀ t ∈ s2.timers, t ∈ s.timers ∨ ∀ d, t.kind ≠ .throttleReset d) : GateKept s s2 :=
  ⟨by rw [hd], ht⟩

theorem mem_of_gates {s s2 : State}
    (h : s2.desktop.map (fun x => (x.id, x.inThrottle, x.throttleLimit)) =
      s.desktop.map (fun x => (x.id, x.inThrottle, x.throttleLimit)))
    (x : DesktopDetector) (hx : x ∈ s.desktop) :
    ∃ z ∈ s2.desktop, z.id = x.id ∧ z.inThrottle = x.inThrottle ∧
      z.throttleLimit = x.throttleLimit := by
  have hm : (x.id, x.inThrottle, x.throttleLimit) ∈
      s.desktop.map (fun x => (x.id, x.inThrottle, x.throttleLimit)) :=
    List.mem_map_of_mem _ hx
  rw [← h, List.mem_map] at hm
  obtain ⟨z, hz, he⟩ := hm
  simp only [Prod.mk.injEq] at he
  exact ⟨z, hz, he.1, he.2.1, he.2.2⟩

theorem throttleInv_of_gateKept {s s2 : State} (hk : GateKept s s2) (h : ThrottleInv s) :
    ThrottleInv s2 := by
  constructor
  · intro t ht d hkd
    rcases hk.timers_old t ht with h1 | h1
    · obtain ⟨x, hx, hid, hth⟩ := h.owner t h1 d hkd
      obtain ⟨z, hz, e1, e2, _⟩ := mem_of_gates hk.gates x hx
      exact ⟨z, hz, e1.trans hid, e2.trans hth⟩
    · exact absurd hkd (h1 d)
  · intro t1 ht1 t2 ht2 d hk1 hk2
    rcases hk.timers_old t1 ht1 with h1 | h1
    · rcases hk.timers_old t2 ht2 with h2 | h2
      · exact h.single t1 h1 t2 h2 d hk1 hk2
      · exact absurd hk2 (h2 d)
    · exact absurd hk1 (h1 d)
  · intro x hx
    obtain ⟨z, hz, _, _, e3⟩ := mem_of_gates hk.gates.symm x hx
    rw [← e3]
    exact h.limit z hz

theorem gateKept_clearTimeout (s : State) (id : Option Nat) : GateKept s (clearTimeout s id) :=
  gateKept_of_eq _ _ (clearTimeout_rest s id).1
    (fun t ht => Or.inl ((mem_timers_clearTimeout s id t).1 ht).1)

theorem gateKept_listening (s : State) (d : Nat) : GateKept s (desktopCleanupFn s d) := by
  refine ⟨?_, fun _ h => Or.inl h⟩
  unfold desktopCleanupFn
  simp only [List.map_map]
  apply List.map_congr_left
  intro x _
  simp only [Function.comp]
  split <;> rfl

theorem gateKept_callDesktopCleanup (s : State) : GateKept s (callDesktopCleanup s) := by
  unfold callDesktopCleanup
  split
  · exact gateKept_refl s
  · exact gateKept_listening s _

theorem gateKept_callMobileCleanup (s : State) : GateKept s (callMobileCleanup s) :=
  gateKept_of_eq _ _ (callMobileCleanup_desktop s)
    (fun t ht => Or.inl (timers_callMobileCleanup s t ht))

theorem gateKept_teardown (s : State) :
    GateKept s (clearInitialDelay (callMobileCleanup (callDesktopCleanup s))) :=
  gateKept_trans (gateKept_trans (gateKept_callDesktopCleanup s) (gateKept_callMobileCleanup _))
    (gateKept_clearTimeout _ _)

theorem gateKept_initializeExitIntent (s : State) (cb : Nat) :
    GateKept s (initializeExitIntent s cb) := by
  have h3 := gateKept_teardown s
  unfold initializeExitIntent
  simp only
  generalize clearInitialDelay (callMobileCleanup (callDesktopCleanup s)) = s3 at h3 ⊢
  split
  · exact ⟨h3.gates, h3.timers_old⟩
  · refine ⟨h3.gates, ?_⟩
    intro t ht
    simp only [setTimeout, List.mem_append, List.mem_singleton] at ht
    rcases ht with ht | ht
    · exact h3.timers_old t ht
    · right
      intro d hd
      rw [ht] at hd
      exact TimerKind.noConfusion hd

theorem gateKept_cleanupExitIntent (s : State) : GateKept s (cleanupExitIntent s) := by
  have h3 := gateKept_teardown s
  exact ⟨h3.gates, h3.timers_old⟩

theorem gateKept_handleMouseLeave (s : State) (det : DesktopDetector) (y : Int) :
    GateKept s (handleMouseLeave s det y) := by
  unfold handleMouseLeave
  simp only
  split
  · exact ⟨rfl, fun _ h => Or.inl h⟩
  · split
    · have := gateKept_callDesktopCleanup
        { s with
          store := markExitIntentShown s.now (hasSeenExitIntentRecently s.now s.store).2,
          invoked := s.invoked ++ [⟨s.now, det.callback, det.id⟩] }
      exact ⟨this.gates, this.timers_old⟩
    · exact ⟨rfl, fun _ h => Or.inl h⟩

theorem desktop_triggerCallback (s : State) (d : Nat) :
    (triggerCallback s d).desktop = s.desktop := by
  unfold triggerCallback
  split
  · rfl
  · simp only
    split
    · rfl
    · rw [callMobileCleanup_desktop]

theorem gateKept_triggerCallback (s : State) (d : Nat) : GateKept s (triggerCallback s d) :=
  gateKept_of_eq _ _ (desktop_triggerCallback s d)
    (fun t ht => Or.inl (timers_triggerCallback s d t ht))

theorem gateKept_resetTimer (s : State) (d : Nat) : GateKept s (resetTimer s d) := by
  refine gateKept_of_eq _ _ (resetTimer_listening s d).2 ?_
  intro t ht
  cases hf : s.mobile.find? (fun m => m.id == d) with
  | none =>
    unfold resetTimer at ht
    rw [hf] at ht
    exact Or.inl ht
  | some f =>
    rw [(timers_resetTimer s d f hf).1, List.mem_append, List.mem_singleton] at ht
    rcases ht with h | h
    · exact Or.inl ((mem_timers_clearTimeout s f.timer t).1 h).1
    · right
      intro d2 hd
      rw [h] at hd
      exact TimerKind.noConfusion hd

theorem gateKept_dispatchActivity (s : State) : GateKept s (dispatchActivity s) := by
  unfold dispatchActivity
  apply foldl_preserves (fun st => GateKept s st) _ _ _ s (gateKept_refl s)
  intro st d hst
  split
  · exact gateKept_trans hst (gateKept_resetTimer st d)
  · exact hst

theorem throttleInv_throttledHandler (s : State) (d : Nat) (y : Int) (h : ThrottleInv s)
    (hn : IdsNodup s) : ThrottleInv (throttledHandler s d y) := by
  unfold throttledHandler
  split
  · exact h
  · rename_i det hfind
    obtain ⟨hdet, hid⟩ := find?_id_some (fun m : DesktopDetector => m.id) s.desktop d det hfind
    cases hth : det.inThrottle with
    | true =>
      simp only [if_true]
      exact h
    | false =>
      simp only [Bool.false_eq_true, if_false]
      have hk := gateKept_handleMouseLeave s det y
      have h2 := throttleInv_of_gateKept hk h
      have htm := timers_handleMouseLeave s det y
      generalize handleMouseLeave s det y = s2 at hk h2 htm ⊢
      have hmapped : ∀ x ∈ s2.desktop,
          (if x.id = d then { x with inThrottle := true } else x) ∈
            s2.desktop.map (fun x => if x.id = d then { x with inThrottle := true } else x) :=
        fun x hx => List.mem_map_of_mem _ hx
      constructor
      · intro t ht d2 hkd
        simp only [setTimeout, List.mem_append, List.mem_singleton] at ht
        rcases ht with ht | ht
        · obtain ⟨x, hx, hxid, hxt⟩ := h2.owner t ht d2 hkd
          refine ⟨_, hmapped x hx, ?_, ?_⟩
          · split <;> exact hxid
          · split
            · rfl
            · exact hxt
        · rw [ht] at hkd
          simp only [TimerKind.throttleReset.injEq] at hkd
          obtain ⟨z, hz, e1, _, _⟩ := mem_of_gates hk.gates det hdet
          refine ⟨_, hmapped z hz, ?_, ?_⟩
          · split <;> rw [e1, hid, hkd]
          · rw [if_pos (e1.trans hid)]
      · have hold : ∀ t ∈ s2.timers, t.kind ≠ .throttleReset d := by
          intro t ht hkd
          rw [htm] at ht
          obtain ⟨x, hx, hxid, hxt⟩ := h.owner t ht d hkd
          have : x = det :=
            eq_of_key_nodup (fun m : DesktopDetector => m.id) s.desktop hn.1 x det hx hdet
              (hxid.trans hid.symm)
          rw [this, hth] at hxt
          exact Bool.noConfusion hxt
        intro t1 ht1 t2 ht2 d2 hk1 hk2
        simp only [setTimeout, List.mem_append, List.mem_singleton] at ht1 ht2
        rcases ht1 with ht1 | ht1 <;> rcases ht2 with ht2 | ht2
        · exact h2.single t1 ht1 t2 ht2 d2 hk1 hk2
        · rw [ht2] at hk2
          simp only [TimerKind.throttleReset.injEq] at hk2
          rw [← hk2] at hk1
          exact absurd hk1 (hold t1 ht1)
        · rw [ht1] at hk1
          simp only [TimerKind.throttleReset.injEq] at hk1
          rw [← hk1] at hk2
          exact absurd hk2 (hold t2 ht2)
        · rw [ht1, ht2]
      · intro x hx
        simp only [setTimeout, List.mem_map] at hx
        obtain ⟨z, hz, rfl⟩ := hx
        split
        · exact h2.limit z hz
        · exact h2.limit z hz

theorem throttleInv_dispatchMouseLeave (s : State) (y : Int) (h : ThrottleInv s)
    (hn : IdsNodup s) : ThrottleInv (dispatchMouseLeave s y) := by
  have key : ThrottleInv (dispatchMouseLeave s y) ∧ IdsNodup (dispatchMouseLeave s y) := by
    unfold dispatchMouseLeave
    apply foldl_preserves (fun st => ThrottleInv st ∧ IdsNodup st) _ _ _ s ⟨h, hn⟩
    intro st d hst
    split
    · exact ⟨throttleInv_throttledHandler st d y hst.1 hst.2,
        idsNodup_of_steady (steady_throttledHandler st d y) hst.2⟩
    · exact hst
  exact key.1

theorem throttleInv_delayElapsed (s : State) (cb : Nat) (h : ThrottleInv s) :
    ThrottleInv (delayElapsed s cb) := by
  cases hm : isMobileDevice s.userAgent s.innerWidth with
  | true =>
    rw [delayElapsed_mobile_eq s cb hm]
    apply throttleInv_of_gateKept (gateKept_resetTimer _ _)
    exact ⟨h.owner, h.single, h.limit⟩
  | false =>
    rw [delayElapsed_desktop_eq s cb hm]
    constructor
    · intro t ht d hkd
      obtain ⟨x, hx, hxid, hxt⟩ := h.owner t ht d hkd
      exact ⟨x, List.mem_append_left _ hx, hxid, hxt⟩
    · exact h.single
    · intro x hx
      simp only [List.mem_append, List.mem_singleton] at hx
      rcases hx with hx | hx
      · exact h.limit x hx
      · rw [hx]

theorem throttleInv_timerExpires (s : State) (id : Nat) (h : ThrottleInv s) :
    ThrottleInv (timerExpires s id) := by
  unfold timerExpires
  split
  · exact h
  · rename_i t hfind
    obtain ⟨hmem, hid⟩ := find?_id_some (fun x : Timer => x.id) s.timers id t hfind
    split
    · have h0 : ThrottleInv { s with timers := s.timers.filter (fun x => x.id != id) } :=
        ⟨fun t2 ht2 => h.owner t2 (List.mem_of_mem_filter ht2),
         fun t1 ht1 t2 ht2 => h.single t1 (List.mem_of_mem_filter ht1) t2
           (List.mem_of_mem_filter ht2),
         h.limit⟩
      cases hk : t.kind with
      | initDelay cb => exact throttleInv_delayElapsed _ cb h0
      | inactivity d => exact throttleInv_of_gateKept (gateKept_triggerCallback _ d) h0
      | throttleReset d =>
        simp only [runTimer]
        constructor
        · intro t2 ht2 d2 hkd
          have ht2' : t2 ∈ s.timers.filter (fun x => x.id != id) := ht2
          rw [List.mem_filter] at ht2'
          obtain ⟨x, hx, hxid, hxt⟩ := h.owner t2 ht2'.1 d2 hkd
          have hne : d2 ≠ d := by
            intro he
            rw [he] at hkd
            have := h.single t2 ht2'.1 t hmem d hkd hk
            rw [this, hid] at ht2'
            simp at ht2'
          refine ⟨_, List.mem_map_of_mem _ hx, ?_, ?_⟩
          · split <;> exact hxid
          · rw [if_neg (by rw [hxid]; exact hne)]
            exact hxt
        · exact fun t1 ht1 t2 ht2 => h.single t1 (List.mem_of_mem_filter ht1) t2
            (List.mem_of_mem_filter ht2)
        · intro x hx
          simp only [List.mem_map] at hx
          obtain ⟨z, hz, rfl⟩ := hx
          split
          · exact h.limit z hz
          · exact h.limit z hz
    · exact h

theorem throttleInv_step (s : State) (a : Action) (h : ThrottleInv s) (hn : IdsNodup s) :
    ThrottleInv (step s a) := by
  cases a with
  | initializeExitIntent cb =>
    exact throttleInv_of_gateKept (gateKept_initializeExitIntent s cb) h
  | cleanupExitIntent => exact throttleInv_of_gateKept (gateKept_cleanupExitIntent s) h
  | reload =>
    exact ⟨by simp [step, reload, State.initial], by simp [step, reload, State.initial],
      by simp [step, reload, State.initial]⟩
  | advance d => exact ⟨h.owner, h.single, h.limit⟩
  | mouseleave y => exact throttleInv_dispatchMouseLeave s y h hn
  | activity k => exact throttleInv_of_gateKept (gateKept_dispatchActivity s) h
  | timer id => exact throttleInv_timerExpires s id h
  | resize w => exact ⟨h.owner, h.single, h.limit⟩
  | setAgent ua => exact ⟨h.owner, h.single, h.limit⟩

theorem throttleInv_reachable (t0 : Nat) (store : Storage) (ua : Option String) (w : Nat)
    (acts : List Action) : ThrottleInv (run (State.initial t0 store ua w) acts) := by
  have key : ∀ (acts : List Action) (s : State), HandleInv s → IdsNodup s → ThrottleInv s →
      ThrottleInv (run s acts) := by
    intro acts
    induction acts with
    | nil => exact fun s _ _ h => h
    | cons a as ih =>
      intro s h1 h2 h3
      exact ih _ (handleInv_step s a h1) (idsNodup_step s a h1 h2) (throttleInv_step s a h3 h2)
  exact key acts _ (handleInv_initial t0 store ua w)
    ⟨by simp [State.initial], by simp [State.initial]⟩
    ⟨by simp [State.initial], by simp [State.initial], by simp [State.initial]⟩

theorem gateShut_step (T : Nat) (s : State) (a : Action) (hq : GateShut T s)
    (hp : a.isPassive = true) (hnow : (step s a).now < T) : GateShut T (step s a) := by
  obtain ⟨q1, q2, q3⟩ := hq
  have hlt : s.now < T := Nat.lt_of_le_of_lt (step_now_ge s a) hnow
  cases a with
  | advance d => exact ⟨q1, q2, q3⟩
  | timer id =>
    show GateShut T (timerExpires s id)
    unfold timerExpires
    split
    · exact ⟨q1, q2, q3⟩
    · rename_i t hfind
      obtain ⟨hmem, _⟩ := find?_id_some (fun x : Timer => x.id) s.timers id t hfind
      split
      · rename_i hdue
        have h0 : GateShut T { s with timers := s.timers.filter (fun x => x.id != id) } :=
          ⟨q1, fun t2 ht2 => q2 t2 (List.mem_of_mem_filter ht2),
            fun t2 ht2 => q3 t2 (List.mem_of_mem_filter ht2)⟩
        cases hk : t.kind with
        | initDelay cb => exact absurd hk (q2 t hmem cb)
        | inactivity d =>
          simp only [runTimer]
          obtain ⟨r1, r2, r3⟩ := h0
          have hd := desktop_triggerCallback
            { s with timers := s.timers.filter (fun x => x.id != id) } d
          have ht := timers_triggerCallback
            { s with timers := s.timers.filter (fun x => x.id != id) } d
          generalize triggerCallback
            { s with timers := s.timers.filter (fun x => x.id != id) } d = s2 at hd ht ⊢
          refine ⟨?_, fun t2 ht2 => r2 t2 (ht t2 ht2), ?_⟩
          · rw [hd]
            exact r1
          · intro t2 ht2 d2 hk2 hex
            rw [hd] at hex
            exact r3 t2 (ht t2 ht2) d2 hk2 hex
        | throttleReset d =>
          simp only [runTimer]
          have hnl : ∀ x ∈ s.desktop, x.id = d → x.listening = false := by
            intro x hx hxid
            cases hl : x.listening with
            | false => rfl
            | true =>
              have := q3 t hmem d hk ⟨x, hx, hxid, hl⟩
              omega
          refine ⟨?_, fun t2 ht2 => q2 t2 (List.mem_of_mem_filter ht2), ?_⟩
          · intro x hx hl
            simp only [List.mem_map] at hx
            obtain ⟨z, hz, rfl⟩ := hx
            by_cases hzid : z.id = d
            · rw [if_pos hzid] at hl
              have := hnl z hz hzid
              rw [this] at hl
              exact Bool.noConfusion hl
            · rw [if_neg hzid] at hl ⊢
              exact q1 z hz hl
          · intro t2 ht2 d2 hk2 hex
            apply q3 t2 (List.mem_of_mem_filter ht2) d2 hk2
            obtain ⟨x, hx, hxid, hxl⟩ := hex
            simp only [List.mem_map] at hx
            obtain ⟨z, hz, rfl⟩ := hx
            by_cases hzid : z.id = d
            · rw [if_pos hzid] at hxid hxl
              exact ⟨z, hz, hxid, hxl⟩
            · rw [if_neg hzid] at hxid hxl
              exact ⟨z, hz, hxid, hxl⟩
      · exact ⟨q1, q2, q3⟩
  | initializeExitIntent c => simp [Action.isPassive] at hp
  | cleanupExitIntent => simp [Action.isPassive] at hp
  | reload => simp [Action.isPassive] at hp
  | mouseleave y => simp [Action.isPassive] at hp
  | activity k => simp [Action.isPassive] at hp
  | resize w => simp [Action.isPassive] at hp
  | setAgent ua => simp [Action.isPassive] at hp

theorem gateShut_run (T : Nat) (mid : List Action) (s : State) (hq : GateShut T s)
    (hp : mid.all (fun a => a.isPassive) = true) (hnow : (run s mid).now < T) :
    GateShut T (run s mid) := by
  induction mid generalizing s with
  | nil => exact hq
  | cons a as ih =>
    simp only [List.all_cons, Bool.and_eq_true] at hp
    have h1 : (step s a).now < T := Nat.lt_of_le_of_lt (run_now_ge as (step s a)) hnow
    exact ih _ (gateShut_step T s a hq hp.1 h1) hp.2 hnow

/-- With every gate shut a `mouseleave` event changes nothing. -/
theorem mouseleave_of_gateShut (T : Nat) (s : State) (y : Int) (hq : GateShut T s)
    (hi : HandleInv s) (hn : IdsNodup s) : step s (.mouseleave y) = s := by
  by_cases hex : ∃ det ∈ s.desktop, det.listening = true
  · obtain ⟨det, hdet, hl⟩ := hex
    rw [mouseleave_step_eq s y det hi hn hdet hl]
    unfold throttledHandler
    split
    · rfl
    · rename_i f hfind
      obtain ⟨hf, hfid⟩ := find?_id_some (fun m : DesktopDetector => m.id) s.desktop det.id f
        hfind
      have : f = det :=
        eq_of_key_nodup (fun m : DesktopDetector => m.id) s.desktop hn.1 f det hf hdet hfid
      rw [this, hq.1 det hdet hl]
      rfl
  · have hnone : ∀ det ∈ s.desktop, det.listening = false := by
      intro det hdet
      cases hl : det.listening with
      | false => rfl
      | true => exact absurd ⟨det, hdet, hl⟩ hex
    exact dispatchMouseLeave_of_none s y hnone

/-- The state after a `mouseleave` event that passes the gate of the listening detector
`det`: `handleMouseLeave` has run, the gate is shut and its reset timer is pending. -/
theorem mouseleave_passes (s : State) (y : Int) (det : DesktopDetector)
    (hi : HandleInv s) (hn : IdsNodup s) (hdet : det ∈ s.desktop)
    (hl : det.listening = true) (hg : det.inThrottle = false) :
    step s (.mouseleave y) =
      (setTimeout
        { handleMouseLeave s det y with
          desktop := (handleMouseLeave s det y).desktop.map
            (fun x => if x.id = det.id then { x with inThrottle := true } else x) }
        det.throttleLimit (.throttleReset det.id)).1 := by
  rw [mouseleave_step_eq s y det hi hn hdet hl]
  unfold throttledHandler
  cases hfind : s.desktop.find? (fun x => x.id == det.id) with
  | none =>
    exact absurd rfl
      (find?_id_none (fun m : DesktopDetector => m.id) s.desktop det.id hfind det hdet)
  | some f =>
    obtain ⟨hf, hfid⟩ := find?_id_some (fun m : DesktopDetector => m.id) s.desktop det.id f
      hfind
    have : f = det :=
      eq_of_key_nodup (fun m : DesktopDetector => m.id) s.desktop hn.1 f det hf hdet hfid
    rw [this]
    simp only [hg, Bool.false_eq_true, if_false]

theorem gateShut_after_pass (s : State) (y : Int) (det : DesktopDetector)
    (hi : HandleInv s) (hn : IdsNodup s) (hth : ThrottleInv s) (hdet : det ∈ s.desktop)
    (hl : det.listening = true) (hg : det.inThrottle = false) :
    GateShut (s.now + 200) (step s (.mouseleave y)) := by
  rw [mouseleave_passes s y det hi hn hdet hl hg]
  have hst := steady_handleMouseLeave s det y
  have htm := timers_handleMouseLeave s det y
  generalize handleMouseLeave s det y = s2 at hst htm ⊢
  have hlisten : ∀ x ∈ s2.desktop, x.listening = true → x.id = det.id := by
    intro x hx hxl
    obtain ⟨z, hz, hzid, hzl⟩ := hst.desktop_listen x hx hxl
    have h1 := hi.desktop_handle z hz hzl
    have h2 := hi.desktop_handle det hdet hl
    rw [h1] at h2
    rw [← hzid]
    exact Option.some.inj h2
  have hmapl : ∀ x ∈ s2.desktop.map
      (fun x => if x.id = det.id then { x with inThrottle := true } else x),
      x.listening = true → x.id = det.id ∧ x.inThrottle = true := by
    intro x hx hxl
    simp only [List.mem_map] at hx
    obtain ⟨z, hz, rfl⟩ := hx
    by_cases hzid : z.id = det.id
    · rw [if_pos hzid]
      exact ⟨hzid, rfl⟩
    · rw [if_neg hzid] at hxl
      exact absurd (hlisten z hz hxl) hzid
  refine ⟨fun x hx hxl => (hmapl x hx hxl).2, ?_, ?_⟩
  · intro t ht c hk
    simp only [setTimeout, List.mem_append, List.mem_singleton] at ht
    rcases ht with ht | ht
    · rw [htm] at ht
      have := (hi.delay_pending t ht c hk).2.1 det hdet
      rw [hl] at this
      exact Bool.noConfusion this
    · rw [ht] at hk
      exact TimerKind.noConfusion hk
  · intro t ht d hk hex
    obtain ⟨x, hx, hxid, hxl⟩ := hex
    have hd : d = det.id := by
      rw [← hxid]
      exact (hmapl x hx hxl).1
    simp only [setTimeout, List.mem_append, List.mem_singleton] at ht
    rcases ht with ht | ht
    · rw [htm] at ht
      rw [hd] at hk
      obtain ⟨z, hz, hzid, hzt⟩ := hth.owner t ht det.id hk
      have : z = det :=
        eq_of_key_nodup (fun m : DesktopDetector => m.id) s.desktop hn.1 z det hz hdet hzid
      rw [this, hg] at hzt
      exact Bool.noConfusion hzt
    · rw [ht]
      show s.now + 200 ≤ s2.now + det.throttleLimit
      rw [hst.now_eq, hth.limit det hdet]
      exact Nat.le_refl _

/-- C26: the throttle gate comes before the top-edge test.  In every reachable state where
desktop detector `det` listens with its gate open, a `mouseleave` event with any `clientY`
passes the gate: `handleMouseLeave` runs, the gate is shut and the reset timer is started,
due 200 ms later.  After that, whatever time passes and whichever timers expire, as long as
the clock is less than 200 ms later a second `mouseleave` event with any `clientY` changes
nothing at all: no invocation, no record, no timer. -/
theorem c26_gate_before_top_edge (t0 : Nat) (store : Storage) (userAgent : Option String)
    (innerWidth : Nat) (acts mid : List Action) (y1 y2 : Int) (det : DesktopDetector)
    (s : State) (hs : s = run (State.initial t0 store userAgent innerWidth) acts)
    (hdet : det ∈ s.desktop) (hl : det.listening = true) (hg : det.inThrottle = false)
    (hmid : mid.all (fun a => a.isPassive) = true)
    (hnow : (run (step s (.mouseleave y1)) mid).now < s.now + 200) :
    (step s (.mouseleave y1)).timers =
      s.timers ++ [⟨(handleMouseLeave s det y1).nextId, s.now + 200, .throttleReset det.id⟩] ∧
    (step s (.mouseleave y1)).invoked = (handleMouseLeave s det y1).invoked ∧
    (step s (.mouseleave y1)).store = (handleMouseLeave s det y1).store ∧
    step (run (step s (.mouseleave y1)) mid) (.mouseleave y2) =
      run (step s (.mouseleave y1)) mid := by
  obtain ⟨hi, _, hn⟩ := reachable_invariants t0 store userAgent innerWidth acts
  have hth := throttleInv_reachable t0 store userAgent innerWidth acts
  rw [← hs] at hi hn hth
  have hpass := mouseleave_passes s y1 det hi hn hdet hl hg
  have hq := gateShut_run (s.now + 200) mid _
    (gateShut_after_pass s y1 det hi hn hth hdet hl hg) hmid hnow
  have hi1 := handleInv_step s (.mouseleave y1) hi
  have hn1 := idsNodup_step s (.mouseleave y1) hi hn
  have hi2 := handleInv_run mid _ hi1
  have hn2 : IdsNodup (run (step s (.mouseleave y1)) mid) := by
    have key : ∀ (l : List Action) (st : State), HandleInv st → IdsNodup st →
        IdsNodup (run st l) := by
      intro l
      induction l with
      | nil => exact fun st _ h => h
      | cons a as ih =>
        exact fun st h1 h2 => ih _ (handleInv_step st a h1) (idsNodup_step st a h1 h2)
    exact key mid _ hi1 hn1
  refine ⟨?_, ?_, ?_, mouseleave_of_gateShut _ _ y2 hq hi2 hn2⟩
  · rw [hpass]
    simp only [setTimeout]
    rw [timers_handleMouseLeave, (steady_handleMouseLeave s det y1).now_eq,
      hth.limit det hdet]
    rfl
  · rw [hpass]
    rfl
  · rw [hpass]
    rfl

theorem c26_gate_before_top_edge_witness :
    (⟨2, 7, 200, false, true⟩ : DesktopDetector) ∈
      (run (State.initial 0 none none 1920)
        [.initializeExitIntent 7, .advance 10000, .timer 1]).desktop ∧
    [Action.advance 199, .timer 3].all (fun a => a.isPassive) = true ∧
    (run (step (run (State.initial 0 none none 1920)
        [.initializeExitIntent 7, .advance 10000, .timer 1]) (.mouseleave 100))
      [.advance 199, .timer 3]).now <
      (run (State.initial 0 none none 1920)
        [.initializeExitIntent 7, .advance 10000, .timer 1]).now + 200 ∧
    step (run (step (run (State.initial 0 none none 1920)
        [.initializeExitIntent 7, .advance 10000, .timer 1]) (.mouseleave 100))
      [.advance 199, .timer 3]) (.mouseleave 2) =
      run (step (run (State.initial 0 none none 1920)
        [.initializeExitIntent 7, .advance 10000, .timer 1]) (.mouseleave 100))
      [.advance 199, .timer 3] ∧
    (run (State.initial 0 none none 1920)
      [.initializeExitIntent 7, .advance 10000, .timer 1, .mouseleave 100, .advance 199,
       .timer 3, .mouseleave 2]).invoked = [] ∧
    (run (State.initial 0 none none 1920)
      [.initializeExitIntent 7, .advance 10000, .timer 1, .mouseleave 100, .advance 199,
       .timer 3, .mouseleave 2]).store = none :=
  ⟨by decide, by decide, by decide,
   (c26_gate_before_top_edge 0 none none 1920
      [.initializeExitIntent 7, .advance 10000, .timer 1] [.advance 199, .timer 3] 100 2
      ⟨2, 7, 200, false, true⟩ _ rfl (by decide) rfl rfl (by decide) (by decide)).2.2.2,
   by decide, by decide⟩

/-! ## A callback that throws -/

theorem handleMouseLeaveWith_of_returning (s : State) (det : DesktopDetector) (clientY : Int) :
    handleMouseLeaveWith (fun _ => false) s det clientY =
      (handleMouseLeave s det clientY, false) := by
  unfold handleMouseLeaveWith handleMouseLeave
  simp only [Bool.false_eq_true, if_false]
  split
  · rfl
  · split <;> rfl

theorem throttledHandlerWith_of_returning (s : State) (d : Nat) (clientY : Int) :
    throttledHandlerWith (fun _ => false) s d clientY = throttledHandler s d clientY := by
  unfold throttledHandlerWith throttledHandler
  split
  · rfl
  · simp only [handleMouseLeaveWith_of_returning, Bool.false_eq_true, if_false]

theorem triggerCallbackWith_of_returning (s : State) (d : Nat) :
    triggerCallbackWith (fun _ => false) s d = triggerCallback s d := by
  unfold triggerCallbackWith triggerCallback
  simp only [Bool.false_eq_true, if_false]

theorem stepWith_of_returning (s : State) (a : Action) :
    stepWith (fun _ => false) s a = step s a := by
  cases a with
  | mouseleave y =>
    show dispatchMouseLeaveWith _ s y = dispatchMouseLeave s y
    unfold dispatchMouseLeaveWith dispatchMouseLeave
    simp only [throttledHandlerWith_of_returning]
  | timer id =>
    show timerExpiresWith _ s id = timerExpires s id
    unfold timerExpiresWith timerExpires
    split
    · rfl
    · rename_i t _
      split
      · cases t.kind with
        | initDelay cb => rfl
        | throttleReset d => rfl
        | inactivity d => exact triggerCallbackWith_of_returning _ d
      · rfl
  | initializeExitIntent cb => rfl
  | cleanupExitIntent => rfl
  | reload => rfl
  | advance d => rfl
  | activity k => rfl
  | resize w => rfl
  | setAgent ua => rfl

/-- When no callback throws, the machine with throwing callbacks is the machine `run`. -/
theorem runWith_of_returning (s : State) (acts : List Action) :
    runWith (fun _ => false) s acts = run s acts := by
  induction acts generalizing s with
  | nil => rfl
  | cons a as ih =>
    show runWith _ (stepWith _ s a) as = run (step s a) as
    rw [stepWith_of_returning, ih]

theorem runWith_concat (throws : Nat → Bool) (s : State) (xs ys : List Action) :
    runWith throws s (xs ++ ys) = runWith throws (runWith throws s xs) ys := by
  induction xs generalizing s with
  | nil => rfl
  | cons a as ih => exact ih (stepWith throws s a)

/-- The desktop page with a throwing callback once the delay timer has expired. -/
theorem throwing_armed_state (throws : Nat → Bool) :
    runWith throws (State.initial 0 none none 1920)
        [.initializeExitIntent 7, .advance 10000, .timer 1] =
      { now := 10000, store := none, userAgent := none, innerWidth := 1920,
        desktopCleanup := some 2, mobileCleanup := none, initialDelayTimer := some 1,
        desktop := [⟨2, 7, 200, false, true⟩], mobile := [], timers := [], nextId := 3,
        invoked := [] } := by
  have hd : isMobileDevice none 1920 = false := by decide
  simp [runWith, stepWith, step, State.initial, initializeExitIntent, callDesktopCleanup,
    callMobileCleanup, clearInitialDelay, clearTimeout, hasSeenExitIntentRecently, setTimeout,
    INITIAL_DELAY, timerExpiresWith, runTimerWith, delayElapsed, hd, setupDesktopExitDetection,
    desktopThrottleLimit]

theorem throwing_first_handle :
    handleMouseLeaveWith (fun _ => true)
      { now := 10000, store := none, userAgent := none, innerWidth := 1920,
        desktopCleanup := some 2, mobileCleanup := none, initialDelayTimer := some 1,
        desktop := [⟨2, 7, 200, false, true⟩], mobile := [], timers := [], nextId := 3,
        invoked := [] } ⟨2, 7, 200, false, true⟩ 2 =
      ({ now := 10000, store := some (shownRecord 1810000), userAgent := none,
         innerWidth := 1920,
         desktopCleanup := some 2, mobileCleanup := none, initialDelayTimer := some 1,
         desktop := [⟨2, 7, 200, false, true⟩], mobile := [], timers := [], nextId := 3,
         invoked := [⟨10000, 7, 2⟩] }, true) := by
  simp only [handleMouseLeaveWith, hasSeenExitIntentRecently]
  rw [if_neg (by decide), if_pos (by decide)]
  simp only [markExitIntentShown, List.nil_append, if_true]
  rw [show (10000 : Nat) + SESSION_DURATION = 1810000 from by decide]

theorem throwing_first_event :
    dispatchMouseLeaveWith (fun _ => true)
      { now := 10000, store := none, userAgent := none, innerWidth := 1920,
        desktopCleanup := some 2, mobileCleanup := none, initialDelayTimer := some 1,
        desktop := [⟨2, 7, 200, false, true⟩], mobile := [], timers := [], nextId := 3,
        invoked := [] } 2 =
      { now := 10000, store := some (shownRecord 1810000), userAgent := none,
        innerWidth := 1920,
        desktopCleanup := some 2, mobileCleanup := none, initialDelayTimer := some 1,
        desktop := [⟨2, 7, 200, false, true⟩], mobile := [], timers := [], nextId := 3,
        invoked := [⟨10000, 7, 2⟩] } := by
  simp only [dispatchMouseLeaveWith, List.filter_cons, List.filter_nil, if_true,
    List.map_cons, List.map_nil, List.foldl_cons, List.foldl_nil]
  simp only [List.any_cons, List.any_nil, beq_self_eq_true, Bool.and_self, Bool.or_false, if_true,
    throttledHandlerWith, List.find?_cons]
  rw [throwing_first_handle]
  simp only [Bool.false_eq_true, if_false, if_true]

theorem throwing_second_handle :
    handleMouseLeaveWith (fun _ => true)
      { now := 1810001, store := some (shownRecord 1810000), userAgent := none,
        innerWidth := 1920,
        desktopCleanup := some 2, mobileCleanup := none, initialDelayTimer := some 1,
        desktop := [⟨2, 7, 200, false, true⟩], mobile := [], timers := [], nextId := 3,
        invoked := [⟨10000, 7, 2⟩] } ⟨2, 7, 200, false, true⟩ 2 =
      ({ now := 1810001, store := some (shownRecord 3610001), userAgent := none,
         innerWidth := 1920,
         desktopCleanup := some 2, mobileCleanup := none, initialDelayTimer := some 1,
         desktop := [⟨2, 7, 200, false, true⟩], mobile := [], timers := [], nextId := 3,
         invoked := [⟨10000, 7, 2⟩, ⟨1810001, 7, 2⟩] }, true) := by
  simp only [handleMouseLeaveWith]
  rw [hasSeen_shownRecord, if_pos (show 1810000 < 1810001 from by decide)]
  simp only [Bool.false_eq_true, if_false]
  rw [if_pos (by decide)]
  simp only [markExitIntentShown, List.singleton_append, if_true]
  rw [show (1810001 : Nat) + SESSION_DURATION = 3610001 from by decide]

theorem throwing_second_event :
    dispatchMouseLeaveWith (fun _ => true)
      { now := 1810001, store := some (shownRecord 1810000), userAgent := none,
        innerWidth := 1920,
        desktopCleanup := some 2, mobileCleanup := none, initialDelayTimer := some 1,
        desktop := [⟨2, 7, 200, false, true⟩], mobile := [], timers := [], nextId := 3,
        invoked := [⟨10000, 7, 2⟩] } 2 =
      { now := 1810001, store := some (shownRecord 3610001), userAgent := none,
        innerWidth := 1920,
        desktopCleanup := some 2, mobileCleanup := none, initialDelayTimer := some 1,
        desktop := [⟨2, 7, 200, false, true⟩], mobile := [], timers := [], nextId := 3,
        invoked := [⟨10000, 7, 2⟩, ⟨1810001, 7, 2⟩] } := by
  simp only [dispatchMouseLeaveWith, List.filter_cons, List.filter_nil, if_true,
    List.map_cons, List.map_nil, List.foldl_cons, List.foldl_nil]
  simp only [List.any_cons, List.any_nil, beq_self_eq_true, Bool.and_self, Bool.or_false, if_true,
    throttledHandlerWith, List.find?_cons]
  rw [throwing_second_handle]
  simp only [Bool.false_eq_true, if_false, if_true]

/-- The desktop page with a throwing callback after the pointer has left at the top edge at
10,000 ms: the record is written, the callback has been invoked, and the handler is still
registered with its gate open and no reset timer pending. -/
theorem throwing_desktop_fired :
    runWith (fun _ => true) (State.initial 0 none none 1920)
        [.initializeExitIntent 7, .advance 10000, .timer 1, .mouseleave 2] =
      { now := 10000, store := some (shownRecord 1810000), userAgent := none,
        innerWidth := 1920,
        desktopCleanup := some 2, mobileCleanup := none, initialDelayTimer := some 1,
        desktop := [⟨2, 7, 200, false, true⟩], mobile := [], timers := [], nextId := 3,
        invoked := [⟨10000, 7, 2⟩] } := by
  rw [show [Action.initializeExitIntent 7, .advance 10000, .timer 1, .mouseleave 2] =
    [Action.initializeExitIntent 7, .advance 10000, .timer 1] ++ [.mouseleave 2]
    from rfl, runWith_concat, throwing_armed_state]
  exact throwing_first_event

/-- The same page after a second pointer-leave event at the top edge at 1,810,001 ms, the
record having expired at 1,810,000 ms. -/
theorem throwing_desktop_fired_again :
    runWith (fun _ => true) (State.initial 0 none none 1920)
        [.initializeExitIntent 7, .advance 10000, .timer 1, .mouseleave 2,
          .advance 1800001, .mouseleave 2] =
      { now := 1810001, store := some (shownRecord 3610001), userAgent := none,
        innerWidth := 1920,
        desktopCleanup := some 2, mobileCleanup := none, initialDelayTimer := some 1,
        desktop := [⟨2, 7, 200, false, true⟩], mobile := [], timers := [], nextId := 3,
        invoked := [⟨10000, 7, 2⟩, ⟨1810001, 7, 2⟩] } := by
  rw [show [Action.initializeExitIntent 7, .advance 10000, .timer 1, .mouseleave 2,
      .advance 1800001, .mouseleave 2] =
    [Action.initializeExitIntent 7, .advance 10000, .timer 1, .mouseleave 2] ++
      [.advance 1800001, .mouseleave 2]
    from rfl, runWith_concat, throwing_desktop_fired]
  simp only [runWith, stepWith, step]
  rw [show (10000 : Nat) + 1800001 = 1810001 from rfl]
  exact throwing_second_event

/-- The mobile page with a throwing callback once the delay timer has expired. -/
theorem throwing_mobile_armed (throws : Nat → Bool) :
    runWith throws (State.initial 0 none none 500)
        [.initializeExitIntent 7, .advance 10000, .timer 1] =
      { now := 10000, store := none, userAgent := none, innerWidth := 500,
        desktopCleanup := none, mobileCleanup := some 2, initialDelayTimer := some 1,
        desktop := [], mobile := [⟨2, 7, 30000, some 3, true⟩],
        timers := [⟨3, 40000, .inactivity 2⟩], nextId := 4, invoked := [] } := by
  have hm : isMobileDevice none 500 = true := by decide
  have h0 : runWith throws (State.initial 0 none none 500)
      [.initializeExitIntent 7, .advance 10000] =
      { now := 10000, store := none, userAgent := none, innerWidth := 500,
        desktopCleanup := none, mobileCleanup := none, initialDelayTimer := some 1,
        desktop := [], mobile := [], timers := [⟨1, 10000, .initDelay 7⟩], nextId := 2,
        invoked := [] } := rfl
  rw [show [Action.initializeExitIntent 7, .advance 10000, .timer 1] =
    [Action.initializeExitIntent 7, .advance 10000] ++ [.timer 1]
    from rfl, runWith_concat, h0]
  simp only [runWith, stepWith, timerExpiresWith, List.find?_cons, beq_self_eq_true, Nat.le_refl,
    if_true, runTimerWith, delayElapsed, hm, setupMobileExitDetection, resetTimer,
    List.nil_append, clearTimeout, setTimeout]
  rfl

theorem throwing_first_trigger :
    triggerCallbackWith (fun _ => true)
      { now := 40000, store := none, userAgent := none, innerWidth := 500,
        desktopCleanup := none, mobileCleanup := some 2, initialDelayTimer := some 1,
        desktop := [], mobile := [⟨2, 7, 30000, some 3, true⟩],
        timers := [], nextId := 4, invoked := [] } 2 =
      { now := 40000, store := some (shownRecord 1840000), userAgent := none, innerWidth := 500,
        desktopCleanup := none, mobileCleanup := some 2, initialDelayTimer := some 1,
        desktop := [], mobile := [⟨2, 7, 30000, some 3, true⟩],
        timers := [], nextId := 4, invoked := [⟨40000, 7, 2⟩] } := by
  simp only [triggerCallbackWith, List.find?_cons, beq_self_eq_true, hasSeenExitIntentRecently]
  rw [if_neg (by decide)]
  simp only [markExitIntentShown, if_true, List.nil_append]
  rw [show 40000 + SESSION_DURATION = 1840000 from by decide]

/-- The mobile page with a throwing callback after the inactivity timer has expired at
40,000 ms: the callback has been invoked and the five listeners are still registered. -/
theorem throwing_mobile_fired :
    runWith (fun _ => true) (State.initial 0 none none 500)
        [.initializeExitIntent 7, .advance 10000, .timer 1, .advance 30000, .timer 3] =
      { now := 40000, store := some (shownRecord 1840000), userAgent := none, innerWidth := 500,
        desktopCleanup := none, mobileCleanup := some 2, initialDelayTimer := some 1,
        desktop := [], mobile := [⟨2, 7, 30000, some 3, true⟩],
        timers := [], nextId := 4, invoked := [⟨40000, 7, 2⟩] } := by
  rw [show [Action.initializeExitIntent 7, .advance 10000, .timer 1, .advance 30000, .timer 3] =
    [Action.initializeExitIntent 7, .advance 10000, .timer 1] ++ [.advance 30000, .timer 3]
    from rfl, runWith_concat, throwing_mobile_armed]
  simp only [runWith, stepWith, step]
  rw [show (10000 : Nat) + 30000 = 40000 from rfl]
  simp only [timerExpiresWith, List.find?_cons, beq_self_eq_true,
    Nat.le_refl, if_true, runTimerWith, List.filter_cons, List.filter_nil, bne_self_eq_false,
    Bool.false_eq_true, if_false]
  exact throwing_first_trigger

/-- The same page after an activity event at 1,840,001 ms: the listener still registered
starts a new inactivity timer. -/
theorem throwing_mobile_rearmed (k : ActivityKind) :
    runWith (fun _ => true) (State.initial 0 none none 500)
        [.initializeExitIntent 7, .advance 10000, .timer 1, .advance 30000, .timer 3,
          .advance 1800001, .activity k] =
      { now := 1840001, store := some (shownRecord 1840000), userAgent := none,
        innerWidth := 500,
        desktopCleanup := none, mobileCleanup := some 2, initialDelayTimer := some 1,
        desktop := [], mobile := [⟨2, 7, 30000, some 4, true⟩],
        timers := [⟨4, 1870001, .inactivity 2⟩], nextId := 5, invoked := [⟨40000, 7, 2⟩] } := by
  rw [show [Action.initializeExitIntent 7, .advance 10000, .timer 1, .advance 30000, .timer 3,
      .advance 1800001, .activity k] =
    [Action.initializeExitIntent 7, .advance 10000, .timer 1, .advance 30000, .timer 3] ++
      [.advance 1800001, .activity k]
    from rfl, runWith_concat, throwing_mobile_fired]
  simp only [runWith, stepWith, step]
  rw [show (40000 : Nat) + 1800001 = 1840001 from rfl]
  simp only [dispatchActivity, List.filter_cons, List.filter_nil, if_true,
    List.map_cons, List.map_nil, List.foldl_cons, List.foldl_nil, List.any_cons, List.any_nil,
    beq_self_eq_true, Bool.and_self, Bool.or_false, resetTimer, List.find?_cons,
    clearTimeout, setTimeout]
  rfl

theorem throwing_second_trigger :
    triggerCallbackWith (fun _ => true)
      { now := 1870001, store := some (shownRecord 1840000), userAgent := none,
        innerWidth := 500,
        desktopCleanup := none, mobileCleanup := some 2, initialDelayTimer := some 1,
        desktop := [], mobile := [⟨2, 7, 30000, some 4, true⟩],
        timers := [], nextId := 5, invoked := [⟨40000, 7, 2⟩] } 2 =
      { now := 1870001, store := some (shownRecord 3670001), userAgent := none,
        innerWidth := 500,
        desktopCleanup := none, mobileCleanup := some 2, initialDelayTimer := some 1,
        desktop := [], mobile := [⟨2, 7, 30000, some 4, true⟩],
        timers := [], nextId := 5, invoked := [⟨40000, 7, 2⟩, ⟨1870001, 7, 2⟩] } := by
  simp only [triggerCallbackWith, List.find?_cons, beq_self_eq_true]
  rw [hasSeen_shownRecord, if_pos (show 1840000 < 1870001 from by decide)]
  simp only [Bool.false_eq_true, if_false]
  simp only [markExitIntentShown, if_true, List.singleton_append]
  rw [show 1870001 + SESSION_DURATION = 3670001 from by decide]

/-- The same page after the new inactivity timer has expired at 1,870,001 ms. -/
theorem throwing_mobile_fired_again (k : ActivityKind) :
    runWith (fun _ => true) (State.initial 0 none none 500)
        [.initializeExitIntent 7, .advance 10000, .timer 1, .advance 30000, .timer 3,
          .advance 1800001, .activity k, .advance 30000, .timer 4] =
      { now := 1870001, store := some (shownRecord 3670001), userAgent := none,
        innerWidth := 500,
        desktopCleanup := none, mobileCleanup := some 2, initialDelayTimer := some 1,
        desktop := [], mobile := [⟨2, 7, 30000, some 4, true⟩],
        timers := [], nextId := 5, invoked := [⟨40000, 7, 2⟩, ⟨1870001, 7, 2⟩] } := by
  rw [show [Action.initializeExitIntent 7, .advance 10000, .timer 1, .advance 30000, .timer 3,
      .advance 1800001, .activity k, .advance 30000, .timer 4] =
    [Action.initializeExitIntent 7, .advance 10000, .timer 1, .advance 30000, .timer 3,
      .advance 1800001, .activity k] ++ [.advance 30000, .timer 4]
    from rfl, runWith_concat, throwing_mobile_rearmed]
  simp only [runWith, stepWith, step]
  rw [show (1840001 : Nat) + 30000 = 1870001 from rfl]
  simp only [timerExpiresWith, List.find?_cons, beq_self_eq_true,
    Nat.le_refl, if_true, runTimerWith, List.filter_cons, List.filter_nil, bne_self_eq_false,
    Bool.false_eq_true, if_false]
  exact throwing_second_trigger

/-- C10 (the code at the failing input): `initializeExitIntent(cb)` is called at time 0 on a
page with an empty store, with a callback that throws, and the delay timer runs at
10,000 ms and installs detector 2.  On a desktop page a pointer-leave event with clientY = 2
at 10,000 ms invokes `cb`; the exception skips `desktopCleanup()`, so the handler of
detector 2 stays registered (its gate open, no reset timer started), and a second such event
at 1,810,001 ms, the record having expired, invokes `cb` again: the record of invocations
holds detector 2 twice.  On a mobile page the inactivity timer invokes `cb` at 40,000 ms;
the exception skips `mobileCleanup()`, so the five listeners stay registered, an activity
event at 1,840,001 ms starts a new timer, and that timer invokes `cb` again at 1,870,001 ms.
With a callback that returns, no detector occurs twice in the record on the same steps. -/
theorem c10_throwing_callback_fires_twice :
    (runWith (fun _ => true) (State.initial 0 none none 1920)
        [.initializeExitIntent 7, .advance 10000, .timer 1, .mouseleave 2]).invoked =
      [⟨10000, 7, 2⟩] ∧
    (runWith (fun _ => true) (State.initial 0 none none 1920)
        [.initializeExitIntent 7, .advance 10000, .timer 1, .mouseleave 2]).desktop =
      [⟨2, 7, 200, false, true⟩] ∧
    (runWith (fun _ => true) (State.initial 0 none none 1920)
        [.initializeExitIntent 7, .advance 10000, .timer 1, .mouseleave 2]).timers = [] ∧
    (runWith (fun _ => true) (State.initial 0 none none 1920)
        [.initializeExitIntent 7, .advance 10000, .timer 1, .mouseleave 2,
          .advance 1800001, .mouseleave 2]).invoked =
      [⟨10000, 7, 2⟩, ⟨1810001, 7, 2⟩] ∧
    ¬ ((runWith (fun _ => true) (State.initial 0 none none 1920)
        [.initializeExitIntent 7, .advance 10000, .timer 1, .mouseleave 2,
          .advance 1800001, .mouseleave 2]).invoked.map (fun inv => inv.detector)).Nodup ∧
    (runWith (fun _ => true) (State.initial 0 none none 500)
        [.initializeExitIntent 7, .advance 10000, .timer 1, .advance 30000,
          .timer 3]).invoked = [⟨40000, 7, 2⟩] ∧
    (runWith (fun _ => true) (State.initial 0 none none 500)
        [.initializeExitIntent 7, .advance 10000, .timer 1, .advance 30000,
          .timer 3]).mobile = [⟨2, 7, 30000, some 3, true⟩] ∧
    (runWith (fun _ => true) (State.initial 0 none none 500)
        [.initializeExitIntent 7, .advance 10000, .timer 1, .advance 30000, .timer 3,
          .advance 1800001, .activity .touchstart, .advance 30000, .timer 4]).invoked =
      [⟨40000, 7, 2⟩, ⟨1870001, 7, 2⟩] ∧
    ((runWith (fun _ => false) (State.initial 0 none none 1920)
        [.initializeExitIntent 7, .advance 10000, .timer 1, .mouseleave 2,
          .advance 1800001, .mouseleave 2]).invoked.map (fun inv => inv.detector)).Nodup ∧
    ((runWith (fun _ => false) (State.initial 0 none none 500)
        [.initializeExitIntent 7, .advance 10000, .timer 1, .advance 30000, .timer 3,
          .advance 1800001, .activity .touchstart, .advance 30000, .timer 4]).invoked.map
      (fun inv => inv.detector)).Nodup := by
  refine ⟨?_, ?_, ?_, ?_, ?_, ?_, ?_, ?_, ?_, ?_⟩
  · rw [throwing_desktop_fired]
  · rw [throwing_desktop_fired]
  · rw [throwing_desktop_fired]
  · rw [throwing_desktop_fired_again]
  · rw [throwing_desktop_fired_again]
    decide
  · rw [throwing_mobile_fired]
  · rw [throwing_mobile_fired]
  · rw [throwing_mobile_fired_again]
  · rw [runWith_of_returning]
    exact (one_shot_when_callbacks_return 0 none none 1920 _).1
  · rw [runWith_of_returning]
    exact (one_shot_when_callbacks_return 0 none none 500 _).1


end ExitIntent
